import Mathlib

/-!
# loam_livox: feature extraction, deblur residuals and sliding voxel map

A shallow embedding of the three source files

* `src/ceres_icp.hpp` (the three motion-deblur residual functors),
* `src/zvision_feature_extractor.hpp` (curvature based corner / surface labelling),
* `src/laser_mapping.hpp` (grid recentring, registration hand-over, accept / reject),

over an arbitrary linearly ordered field `K` standing for exact arithmetic.
Routines of `<cmath>` and of the solver / filter libraries are parameters.
-/

set_option autoImplicit false

namespace LoamLivox

/-! ## Scalars: the `<cmath>` routines the code calls -/

/-- The routines of `cmath` and of `NumTraits` used by the sources, taken as parameters:
`sqrt`, `sin`, `cos`, `acos`, `std::isfinite` and `NumTraits<Scalar>::epsilon()`. -/
structure Cmath (K : Type) where
  sqrt : K → K
  sin : K → K
  cos : K → K
  acos : K → K
  isfinite : K → Bool
  epsilon : K

/-! ## Eigen: vectors and quaternions -/

/-- Column vector `Eigen::Matrix<T, 3, 1>`. -/
@[ext]
structure Vector3d (K : Type) where
  x : K
  y : K
  z : K
deriving DecidableEq, Repr

/-- Column vector `Eigen::Matrix<T, 4, 1>`, also used for a raw `T[4]` parameter block. -/
@[ext]
structure Vector4d (K : Type) where
  c0 : K
  c1 : K
  c2 : K
  c3 : K
deriving DecidableEq, Repr

/-- Quaternion `Eigen::Quaternion<T>`; the constructor takes `(w, x, y, z)` as in Eigen. -/
@[ext]
structure Quaterniond (K : Type) where
  w : K
  x : K
  y : K
  z : K
deriving DecidableEq, Repr

namespace Vector3d

variable {K : Type} [Field K]

/-- The zero vector `(0, 0, 0)`. -/
def Zero : Vector3d K := ⟨0, 0, 0⟩

/-- Component-wise sum `a + b`. -/
def add (a b : Vector3d K) : Vector3d K := ⟨a.x + b.x, a.y + b.y, a.z + b.z⟩

/-- Component-wise difference `a - b`. -/
def sub (a b : Vector3d K) : Vector3d K := ⟨a.x - b.x, a.y - b.y, a.z - b.z⟩

/-- Product with a scalar on the right, `a * s`. -/
def scale (a : Vector3d K) (s : K) : Vector3d K := ⟨a.x * s, a.y * s, a.z * s⟩

/-- Quotient by a scalar, `a / s`. -/
def divScalar (a : Vector3d K) (s : K) : Vector3d K := ⟨a.x / s, a.y / s, a.z / s⟩

/-- Inner product `a.dot(b)`. -/
def dot (a b : Vector3d K) : K := a.x * b.x + a.y * b.y + a.z * b.z

/-- Cross product `a.cross(b)`. -/
def cross (a b : Vector3d K) : Vector3d K :=
  ⟨a.y * b.z - a.z * b.y, a.z * b.x - a.x * b.z, a.x * b.y - a.y * b.x⟩

/-- Squared Euclidean length `a.squaredNorm()`. -/
def squaredNorm (a : Vector3d K) : K := a.x * a.x + a.y * a.y + a.z * a.z

/-- Euclidean length `a.norm()`, the square root of `squaredNorm`. -/
def norm (cm : Cmath K) (a : Vector3d K) : K := cm.sqrt (squaredNorm a)

end Vector3d

namespace Quaterniond

variable {K : Type} [LinearOrderedField K]

/-- The identity rotation `Quaternion::Identity()`, that is `(w, x, y, z) = (1, 0, 0, 0)`. -/
def Identity : Quaterniond K := ⟨1, 0, 0, 0⟩

/-- The imaginary part `q.vec()`. -/
def vec (q : Quaterniond K) : Vector3d K := ⟨q.x, q.y, q.z⟩

/-- Four-dimensional inner product `a.dot(b)` of the coefficients. -/
def dot (a b : Quaterniond K) : K := a.w * b.w + a.x * b.x + a.y * b.y + a.z * b.z

/-- Hamilton product `a * b` of two quaternions (no normalisation). -/
def mul (a b : Quaterniond K) : Quaterniond K :=
  ⟨a.w * b.w - a.x * b.x - a.y * b.y - a.z * b.z,
   a.w * b.x + a.x * b.w + a.y * b.z - a.z * b.y,
   a.w * b.y + a.y * b.w + a.z * b.x - a.x * b.z,
   a.w * b.z + a.z * b.w + a.x * b.y - a.y * b.x⟩

/-- Rotation of a vector, `q * v`, as Eigen evaluates it:
`uv = q.vec().cross(v); uv += uv; return v + q.w() * uv + q.vec().cross(uv)`. -/
def transformVector (q : Quaterniond K) (v : Vector3d K) : Vector3d K :=
  let uv := (q.vec).cross v
  let uv2 := uv.add uv
  (v.add (uv2.scale q.w)).add ((q.vec).cross uv2)

/-- Spherical interpolation `self.slerp(t, other)` as Eigen evaluates it: linear weights when the
two quaternions are (numerically) parallel, sine weights otherwise, and a sign flip of the second
weight when the inner product is negative. -/
def slerp (cm : Cmath K) (self : Quaterniond K) (t : K) (other : Quaterniond K) :
    Quaterniond K :=
  let one : K := 1 - cm.epsilon
  let d : K := self.dot other
  let absD : K := |d|
  let scale0 : K :=
    if absD ≥ one then 1 - t else cm.sin ((1 - t) * cm.acos absD) / cm.sin (cm.acos absD)
  let scale1 : K :=
    if absD ≥ one then t else cm.sin (t * cm.acos absD) / cm.sin (cm.acos absD)
  let scale1s : K := if d < 0 then -scale1 else scale1
  ⟨scale0 * self.w + scale1s * other.w, scale0 * self.x + scale1s * other.x,
   scale0 * self.y + scale1s * other.y, scale0 * self.z + scale1s * other.z⟩

end Quaterniond

/-! ## `eigen_math.hpp` -/

namespace Eigen_math

variable {K : Type} [Field K]

/-- Modelled from the spec: `Eigen_math::vector_project_on_unit_vector` lives in
`eigen_math.hpp`, which is not among the sources; the projection of `v` onto the unit vector `u`
is `(v · u) u`. -/
def vector_project_on_unit_vector (v u : Vector3d K) : Vector3d K := u.scale (v.dot u)

end Eigen_math

/-! ## `ceres_icp.hpp`: the residual functors -/

section Residuals

variable {K : Type} [LinearOrderedField K]

/-- The deblurred world point `pt_transfromed` shared by the three functors:
`q_last * (q_interpolate * pt + t_interpolate) + t_last` with
`q_interpolate = Identity.slerp(s, q_incre)`, `t_interpolate = t_incre * s`,
`q_last = (m_q_last(0), m_q_last(1), m_q_last(2), m_q_last(3))` and
`q_incre = (_q[3], _q[0], _q[1], _q[2])`. -/
def pt_transfromed (cm : Cmath K) (m_q_last : Vector4d K) (m_t_last : Vector3d K)
    (m_motion_blur_s : K) (m_current_pt : Vector3d K) (_q : Vector4d K) (_t : Vector3d K) :
    Vector3d K :=
  let q_last : Quaterniond K := ⟨m_q_last.c0, m_q_last.c1, m_q_last.c2, m_q_last.c3⟩
  let t_last : Vector3d K := m_t_last
  let q_incre : Quaterniond K := ⟨_q.c3, _q.c0, _q.c1, _q.c2⟩
  let t_incre : Vector3d K := ⟨_t.x, _t.y, _t.z⟩
  let q_interpolate : Quaterniond K := Quaterniond.slerp cm Quaterniond.Identity m_motion_blur_s q_incre
  let t_interpolate : Vector3d K := t_incre.scale m_motion_blur_s
  let pt : Vector3d K := m_current_pt
  ((q_last.transformVector ((q_interpolate.transformVector pt).add t_interpolate)).add t_last)

/-- Point-to-point functor `ceres_icp_point2point`. -/
structure ceres_icp_point2point (K : Type) where
  m_current_pt : Vector3d K
  m_closest_pt : Vector3d K
  m_motion_blur_s : K
  m_q_last : Vector4d K
  m_t_last : Vector3d K
  m_weigh : K

/-- Point-to-line functor `ceres_icp_point2line`. -/
structure ceres_icp_point2line (K : Type) where
  m_current_pt : Vector3d K
  m_target_line_a : Vector3d K
  m_target_line_b : Vector3d K
  m_unit_vec_ab : Vector3d K
  m_motion_blur_s : K
  m_q_last : Vector4d K
  m_t_last : Vector3d K
  m_weigh : K

/-- Point-to-plane functor `ceres_icp_point2plane`. -/
structure ceres_icp_point2plane (K : Type) where
  m_current_pt : Vector3d K
  m_target_line_a : Vector3d K
  m_target_line_b : Vector3d K
  m_target_line_c : Vector3d K
  m_unit_vec_ab : Vector3d K
  m_unit_vec_ac : Vector3d K
  m_unit_vec_n : Vector3d K
  m_motion_blur_s : K
  m_weigh : K
  m_q_last : Vector4d K
  m_t_last : Vector3d K

namespace ceres_icp_point2point

/-- The constructor: stores its arguments and sets `m_weigh = 1.0`. -/
def construct (current_pt closest_pt : Vector3d K) (motion_blur_s : K) (q_s : Vector4d K)
    (t_s : Vector3d K) : ceres_icp_point2point K :=
  { m_current_pt := current_pt, m_closest_pt := closest_pt, m_motion_blur_s := motion_blur_s,
    m_q_last := q_s, m_t_last := t_s, m_weigh := 1 }

/-- The world point `pt_transfromed` computed inside `operator()`. -/
def world_point (cm : Cmath K) (f : ceres_icp_point2point K) (_q : Vector4d K)
    (_t : Vector3d K) : Vector3d K :=
  pt_transfromed cm f.m_q_last f.m_t_last f.m_motion_blur_s f.m_current_pt _q _t

/-- The body of `operator()`: the three residual components (the call always returns `true`). -/
def operator_call (cm : Cmath K) (f : ceres_icp_point2point K) (_q : Vector4d K)
    (_t : Vector3d K) : Vector3d K :=
  let p := world_point cm f _q _t
  ⟨(p.x - f.m_closest_pt.x) * f.m_weigh, (p.y - f.m_closest_pt.y) * f.m_weigh,
   (p.z - f.m_closest_pt.z) * f.m_weigh⟩

/-- The factory `Create`: it forwards only `current_pt`, `closest_pt` and `motion_blur_s` to the
constructor, so the functor holds the default last pose `(1, 0, 0, 0)`, `(0, 0, 0)`. -/
def Create (current_pt closest_pt : Vector3d K) (motion_blur_s : K) (_q_s : Vector4d K)
    (_t_s : Vector3d K) : ceres_icp_point2point K :=
  construct current_pt closest_pt motion_blur_s ⟨1, 0, 0, 0⟩ ⟨0, 0, 0⟩

end ceres_icp_point2point

namespace ceres_icp_point2line

/-- The constructor: stores its arguments, normalises `b - a` into `m_unit_vec_ab` and sets
`m_weigh = 1.0`. -/
def construct (cm : Cmath K) (current_pt target_line_a target_line_b : Vector3d K)
    (motion_blur_s : K) (q_s : Vector4d K) (t_s : Vector3d K) : ceres_icp_point2line K :=
  let ab := target_line_b.sub target_line_a
  { m_current_pt := current_pt, m_target_line_a := target_line_a,
    m_target_line_b := target_line_b, m_unit_vec_ab := ab.divScalar (ab.norm cm),
    m_motion_blur_s := motion_blur_s, m_q_last := q_s, m_t_last := t_s, m_weigh := 1 }

/-- The world point `pt_transfromed` computed inside `operator()`. -/
def world_point (cm : Cmath K) (f : ceres_icp_point2line K) (_q : Vector4d K)
    (_t : Vector3d K) : Vector3d K :=
  pt_transfromed cm f.m_q_last f.m_t_last f.m_motion_blur_s f.m_current_pt _q _t

/-- The body of `operator()`: `vec_ac` minus its projection on the line direction, times the
weight (the call always returns `true`). -/
def operator_call (cm : Cmath K) (f : ceres_icp_point2line K) (_q : Vector4d K)
    (_t : Vector3d K) : Vector3d K :=
  let tar_line_pt_a := f.m_target_line_a
  let vec_line_ab_unit := f.m_unit_vec_ab
  let vec_ac := (world_point cm f _q _t).sub tar_line_pt_a
  let residual_vec := vec_ac.sub (Eigen_math.vector_project_on_unit_vector vec_ac vec_line_ab_unit)
  ⟨residual_vec.x * f.m_weigh, residual_vec.y * f.m_weigh, residual_vec.z * f.m_weigh⟩

/-- The factory `Create`: forwards every argument to the constructor. -/
def Create (cm : Cmath K) (current_pt target_line_a target_line_b : Vector3d K)
    (motion_blur_s : K) (q_last : Vector4d K) (t_last : Vector3d K) : ceres_icp_point2line K :=
  construct cm current_pt target_line_a target_line_b motion_blur_s q_last t_last

end ceres_icp_point2line

namespace ceres_icp_point2plane

/-- The constructor: stores its arguments, normalises `b - a` and `c - a`, stores their cross
product in `m_unit_vec_n` and sets `m_weigh = 1.0`. -/
def construct (cm : Cmath K) (current_pt target_line_a target_line_b target_line_c : Vector3d K)
    (motion_blur_s : K) (q_s : Vector4d K) (t_s : Vector3d K) : ceres_icp_point2plane K :=
  let ab := target_line_b.sub target_line_a
  let unit_ab := ab.divScalar (ab.norm cm)
  let ac := target_line_c.sub target_line_a
  let unit_ac := ac.divScalar (ac.norm cm)
  { m_current_pt := current_pt, m_target_line_a := target_line_a,
    m_target_line_b := target_line_b, m_target_line_c := target_line_c,
    m_unit_vec_ab := unit_ab, m_unit_vec_ac := unit_ac, m_unit_vec_n := unit_ab.cross unit_ac,
    m_motion_blur_s := motion_blur_s, m_weigh := 1, m_q_last := q_s, m_t_last := t_s }

/-- The world point `pt_transfromed` computed inside `operator()`. -/
def world_point (cm : Cmath K) (f : ceres_icp_point2plane K) (_q : Vector4d K)
    (_t : Vector3d K) : Vector3d K :=
  pt_transfromed cm f.m_q_last f.m_t_last f.m_motion_blur_s f.m_current_pt _q _t

/-- The body of `operator()`: the projection of `vec_ad` on the stored normal, times the weight
(twice), (the call always returns `true`). -/
def operator_call (cm : Cmath K) (f : ceres_icp_point2plane K) (_q : Vector4d K)
    (_t : Vector3d K) : Vector3d K :=
  let tar_line_pt_a := f.m_target_line_a
  let vec_line_plane_norm := f.m_unit_vec_n
  let vec_ad := (world_point cm f _q _t).sub tar_line_pt_a
  let residual_vec :=
    (Eigen_math.vector_project_on_unit_vector vec_ad vec_line_plane_norm).scale f.m_weigh
  ⟨residual_vec.x * f.m_weigh, residual_vec.y * f.m_weigh, residual_vec.z * f.m_weigh⟩

/-- The factory `Create`: forwards every argument to the constructor. -/
def Create (cm : Cmath K) (current_pt target_line_a target_line_b target_line_c : Vector3d K)
    (motion_blur_s : K) (q_last : Vector4d K) (t_last : Vector3d K) : ceres_icp_point2plane K :=
  construct cm current_pt target_line_a target_line_b target_line_c motion_blur_s q_last t_last

end ceres_icp_point2plane

end Residuals

/-! ## C `int` bit masks -/

/-- Reduction of an integer to the range of a 32-bit two's complement `int`. -/
def wrap_int32 (n : Int) : Int := (n + 2147483648) % 4294967296 - 2147483648

/-- Bitwise and `a & b` of two C `int` values (two's complement, 32 bits). -/
def int_and (a b : Int) : Int :=
  wrap_int32 (Int.ofNat (Nat.land (a % 4294967296).toNat (b % 4294967296).toNat))

/-- Bitwise or `a | b` of two C `int` values (two's complement, 32 bits). -/
def int_or (a b : Int) : Int :=
  wrap_int32 (Int.ofNat (Nat.lor (a % 4294967296).toNat (b % 4294967296).toNat))

/-! ## `zvision_feature_extractor.hpp` -/

/-- Point `pcl::PointXYZI` (`PointType`). -/
@[ext]
structure PointType (K : Type) where
  x : K
  y : K
  z : K
  intensity : K
deriving DecidableEq, Repr

/-- Value-initialised `PointType`, read by the model where C++ would read out of range. -/
def PointType.init {K : Type} [Field K] : PointType K := ⟨0, 0, 0, 0⟩

namespace Zvision_laser

/-- Enumerator `E_point_type::e_pt_normal`. -/
def e_pt_normal : Int := 0
/-- Enumerator `E_point_type::e_pt_000`, points `[0,0,0]`. -/
def e_pt_000 : Int := 1
/-- Enumerator `E_point_type::e_pt_too_near`. -/
def e_pt_too_near : Int := 2
/-- Enumerator `E_point_type::e_pt_reflectivity_low`. -/
def e_pt_reflectivity_low : Int := 4
/-- Enumerator `E_point_type::e_pt_reflectivity_high`. -/
def e_pt_reflectivity_high : Int := 8
/-- Enumerator `E_point_type::e_pt_circle_edge`. -/
def e_pt_circle_edge : Int := 16
/-- Enumerator `E_point_type::e_pt_nan`. -/
def e_pt_nan : Int := 32
/-- Enumerator `E_point_type::e_pt_small_view_angle`. -/
def e_pt_small_view_angle : Int := 64

/-- Enumerator `E_feature_type::e_label_invalid`. -/
def e_label_invalid : Int := -1
/-- Enumerator `E_feature_type::e_label_unlabeled`. -/
def e_label_unlabeled : Int := 0
/-- Enumerator `E_feature_type::e_label_corner`. -/
def e_label_corner : Int := 1
/-- Enumerator `E_feature_type::e_label_surface`. -/
def e_label_surface : Int := 2
/-- Enumerator `E_feature_type::e_label_near_nan`. -/
def e_label_near_nan : Int := 4
/-- Enumerator `E_feature_type::e_label_near_zero`. -/
def e_label_near_zero : Int := 8
/-- Enumerator `E_feature_type::e_label_hight_intensity`. -/
def e_label_hight_intensity : Int := 16

/-- Per-point record `Pt_infos` (the uninitialised `pt_2d_img` is left out). -/
structure Pt_infos (K : Type) where
  pt_type : Int
  pt_label : Int
  idx : Int
  raw_intensity : K
  time_stamp : K
  polar_angle : K
  polar_direction : Int
  polar_dis_sq2 : K
  depth_sq2 : K
  curvature : K
  view_angle : K
  sigma : K
deriving DecidableEq, Repr

/-- The default member initialisers of `Pt_infos`. -/
def Pt_infos.init {K : Type} [Field K] : Pt_infos K :=
  { pt_type := e_pt_normal, pt_label := e_label_unlabeled, idx := 0, raw_intensity := 0,
    time_stamp := 0, polar_angle := 0, polar_direction := 0, polar_dis_sq2 := 0, depth_sq2 := 0,
    curvature := 0, view_angle := 0, sigma := 0 }

end Zvision_laser

/-- The members of class `Zvision_laser` that feature extraction reads or writes. -/
structure Zvision_laser (K : Type) where
  thr_corner_curvature : K
  thr_surface_curvature : K
  minimum_view_angle : K
  m_zvision_min_allow_dis : K
  m_zvision_max_allow_dis : K
  m_current_time : K
  m_last_maximum_time_stamp : K
  m_input_points_size : Int
  m_pts_info_vec : List (Zvision_laser.Pt_infos K)
  m_raw_pts_vec : List (PointType K)

/-- What feature extraction takes from outside the three sources: the `<cmath>` routines, the
azimuth table `angle_data` and `Eigen_math::vector_angle` (both declared elsewhere). -/
structure Feature_env (K : Type) where
  cm : Cmath K
  angle_data : Nat → K
  vector_angle : Vector3d K → Vector3d K → Int → K

namespace Zvision_laser

variable {K : Type} [LinearOrderedField K]

/-- The member initialisers of the class: thresholds `0.05`, `0.01`, `10`, allowed range
`[1.0, 15.0]`, empty vectors. -/
def init : Zvision_laser K :=
  { thr_corner_curvature := 5 / 100, thr_surface_curvature := 1 / 100, minimum_view_angle := 10,
    m_zvision_min_allow_dis := 1, m_zvision_max_allow_dis := 15, m_current_time := 0,
    m_last_maximum_time_stamp := 0, m_input_points_size := 0, m_pts_info_vec := [],
    m_raw_pts_vec := [] }

/-- Squared range `depth2_xyz(x, y, z) = x*x + y*y + z*z`. -/
def depth2_xyz (x y z : K) : K := x * x + y * y + z * z

/-- Mask update `add_mask_of_point(pt_infos, pt_type)` with the default `neighbor_count = 0`:
only the point itself gets the bit. -/
def add_mask_of_point (pt_infos : Pt_infos K) (pt_type : Int) : Pt_infos K :=
  { pt_infos with pt_type := int_or pt_infos.pt_type pt_type }

/-- Range test `eval_point_zvision`: the `e_pt_too_near` bit for a squared range below
`min * min` and again for one above `max * max`. -/
def eval_point_zvision (zl : Zvision_laser K) (pt_info : Pt_infos K) : Pt_infos K :=
  let info1 :=
    if pt_info.depth_sq2 < zl.m_zvision_min_allow_dis * zl.m_zvision_min_allow_dis then
      add_mask_of_point pt_info e_pt_too_near
    else pt_info
  if info1.depth_sq2 > zl.m_zvision_max_allow_dis * zl.m_zvision_max_allow_dis then
    add_mask_of_point info1 e_pt_too_near
  else info1

/-- One iteration of the loop of `projection_scan_3d_2d_zvision`: the record written for the
point at position `idx`. -/
def project_point_zvision (env : Feature_env K) (zl : Zvision_laser K) (idx : Nat)
    (pt : PointType K) : Pt_infos K :=
  let info0 : Pt_infos K :=
    { (Pt_infos.init : Pt_infos K) with
      raw_intensity := pt.intensity
      idx := (idx : Int)
      time_stamp := zl.m_current_time + ((idx % 10000 : Nat) : K) * (5 / 1000000)
        + ((idx / 10000 : Nat) : K) * (16 / 10000000) }
  if !env.cm.isfinite pt.x || !env.cm.isfinite pt.y || !env.cm.isfinite pt.z then
    add_mask_of_point info0 e_pt_nan
  else if pt.y = 0 then
    add_mask_of_point info0 e_pt_000
  else
    eval_point_zvision zl { info0 with depth_sq2 := depth2_xyz pt.x pt.y pt.z }

/-- The routine `projection_scan_3d_2d_zvision(laserCloudIn)`: one fresh record per input point, the
raw points copied, the point counter and the last time stamp updated. -/
def projection_scan_3d_2d_zvision (env : Feature_env K) (zl : Zvision_laser K)
    (laserCloudIn : List (PointType K)) : Zvision_laser K :=
  let pts_size := laserCloudIn.length
  let infos := (List.range pts_size).map
    (fun idx => project_point_zvision env zl idx (laserCloudIn.getD idx PointType.init))
  { zl with
    m_pts_info_vec := infos
    m_raw_pts_vec := laserCloudIn
    m_input_points_size := (pts_size : Int)
    m_last_maximum_time_stamp :=
      if pts_size = 0 then zl.m_last_maximum_time_stamp
      else (infos.getD (pts_size - 1) Pt_infos.init).time_stamp }

/-- The window half-width `curvature_ssd_size = 2`. -/
def curvature_ssd_size : Nat := 2

/-- The mask `critical_rm_point = e_pt_000 | e_pt_nan`. -/
def critical_rm_point : Int := int_or e_pt_000 e_pt_nan

/-- The inner loop `for (i = 1; i <= curvature_ssd_size; i++)` over the offsets still to visit:
it stops (`break`) at the first offset with a zero or nan neighbour, marking the label
`near_zero` / `near_nan` at offset 1 and `invalid` at offset 2, and otherwise adds both
neighbours to the accumulator. -/
def accumulate_neighbors (infos : List (Pt_infos K)) (raw : List (PointType K)) (idx : Nat) :
    List Nat → Vector3d K × Int → Vector3d K × Int
  | [], s => s
  | i :: rest, (acc, label) =>
    if int_and (infos.getD (idx + i) Pt_infos.init).pt_type e_pt_000 ≠ 0
        ∨ int_and (infos.getD (idx - i) Pt_infos.init).pt_type e_pt_000 ≠ 0 then
      (acc, if i = 1 then int_or label e_label_near_zero else e_label_invalid)
    else if int_and (infos.getD (idx + i) Pt_infos.init).pt_type e_pt_nan ≠ 0
        ∨ int_and (infos.getD (idx - i) Pt_infos.init).pt_type e_pt_nan ≠ 0 then
      (acc, if i = 1 then int_or label e_label_near_nan else e_label_invalid)
    else
      accumulate_neighbors infos raw idx rest
        (⟨acc.x + ((raw.getD (idx + i) PointType.init).x + (raw.getD (idx - i) PointType.init).x),
          acc.y + ((raw.getD (idx + i) PointType.init).y + (raw.getD (idx - i) PointType.init).y),
          acc.z + ((raw.getD (idx + i) PointType.init).z + (raw.getD (idx - i) PointType.init).z)⟩,
         label)

/-- The label tests at the end of the loop body, from the view-angle test to the corner label:
given the label so far, the curvature, the view angle and the squared ranges of the point
(`d0`) and of its `-2` / `+2` neighbours (`dm`, `dp`), the label written back. -/
def feature_label (zl : Zvision_laser K) (label : Int) (curvature view_angle d0 dm dp : K) :
    Int :=
  if view_angle > zl.minimum_view_angle then
    let label1 : Int :=
      if curvature < zl.thr_surface_curvature then int_or label e_label_surface else label
    let sq2_diff : K := 1 / 10
    if curvature > zl.thr_corner_curvature then
      if d0 ≤ dm ∧ d0 ≤ dp then
        if |d0 - dm| < sq2_diff * d0 ∨ |d0 - dp| < sq2_diff * d0 then
          int_or label1 e_label_corner
        else label1
      else label1
    else label1
  else label

/-- The curvature stored for a point `p` from the accumulated neighbour sum `acc`:
`acc -= curvature_ssd_size * 2 * p` component-wise, then the sum of the three squares. -/
def window_curvature (acc : Vector3d K) (p : PointType K) : K :=
  let ax := acc.x - ((curvature_ssd_size * 2 : Nat) : K) * p.x
  let ay := acc.y - ((curvature_ssd_size * 2 : Nat) : K) * p.y
  let az := acc.z - ((curvature_ssd_size * 2 : Nat) : K) * p.z
  ax * ax + ay * ay + az * az

/-- The view angle stored for point `idx`: `vector_angle(vec_a, vec_b, 1) * 57.3` with `vec_a`
the position of the point and `vec_b` the chord between its `-2` and `+2` neighbours. -/
def view_angle_at (env : Feature_env K) (raw : List (PointType K)) (idx : Nat) : K :=
  let p := raw.getD idx PointType.init
  let pp := raw.getD (idx + curvature_ssd_size) PointType.init
  let pm := raw.getD (idx - curvature_ssd_size) PointType.init
  let vec_a : Vector3d K := ⟨p.x, p.y, p.z⟩
  let vec_b : Vector3d K := ⟨pp.x - pm.x, pp.y - pm.y, pp.z - pm.z⟩
  env.vector_angle vec_a vec_b 1 * (573 / 10)

/-- The part of the loop body shared by `compute_features_zvision` and `compute_features`, from
"Compute curvate" to the corner label: the record of point `idx` after the iteration. A label
left `invalid` by the neighbour loop ends the iteration (`continue`) before curvature and view
angle are stored. -/
def label_point (env : Feature_env K) (zl : Zvision_laser K) (idx : Nat) : Pt_infos K :=
  let infos := zl.m_pts_info_vec
  let raw := zl.m_raw_pts_vec
  let info := infos.getD idx Pt_infos.init
  let res := accumulate_neighbors infos raw idx [1, 2] (⟨0, 0, 0⟩, info.pt_label)
  if res.2 = e_label_invalid then { info with pt_label := res.2 }
  else
    let curvature : K := window_curvature res.1 (raw.getD idx PointType.init)
    let view_angle : K := view_angle_at env raw idx
    let dm := (infos.getD (idx - curvature_ssd_size) Pt_infos.init).depth_sq2
    let dp := (infos.getD (idx + curvature_ssd_size) Pt_infos.init).depth_sq2
    { info with
      pt_label := feature_label zl res.2 curvature view_angle info.depth_sq2 dm dp
      curvature := curvature
      view_angle := view_angle }

/-- The azimuth test of `compute_features_zvision`: the four successive differences of the table
around `group_id` are all above `0.00001` or all below it ("not a boundary point"). -/
def not_boundary_point (env : Feature_env K) (laser_id group_id : Nat) : Prop :=
  let pre2_ath := env.angle_data (7 * (group_id - 2) + laser_id + 1)
  let pre1_ath := env.angle_data (7 * (group_id - 1) + laser_id + 1)
  let curr_ath := env.angle_data (7 * group_id + laser_id + 1)
  let aft1_ath := env.angle_data (7 * (group_id + 1) + laser_id + 1)
  let aft2_ath := env.angle_data (7 * (group_id + 2) + laser_id + 1)
  let delta_0 := pre1_ath - pre2_ath
  let delta_1 := curr_ath - pre1_ath
  let delta_2 := aft1_ath - curr_ath
  let delta_3 := aft2_ath - aft1_ath
  (delta_0 > 1 / 100000 ∧ delta_1 > 1 / 100000 ∧ delta_2 > 1 / 100000 ∧ delta_3 > 1 / 100000)
  ∨ (delta_0 < 1 / 100000 ∧ delta_1 < 1 / 100000 ∧ delta_2 < 1 / 100000 ∧ delta_3 < 1 / 100000)

instance (env : Feature_env K) (laser_id group_id : Nat) :
    Decidable (not_boundary_point env laser_id group_id) := by
  unfold not_boundary_point
  exact inferInstance

/-- The record of point `idx = 10000 * laser + group` after one iteration of the loops of
`compute_features_zvision`: unchanged (`continue`) for a zero / nan point and for a boundary
point of the azimuth table, otherwise labelled by `label_point`. -/
def compute_point_zvision (env : Feature_env K) (laser : Nat) (zl : Zvision_laser K)
    (group : Nat) :
    Pt_infos K :=
  let begin_ := 10000 * laser
  let idx := begin_ + group
  let info := zl.m_pts_info_vec.getD idx Pt_infos.init
  if int_and info.pt_type critical_rm_point ≠ 0 then info
  else if (group ≥ 2 ∨ group ≤ 29997) ∧ ¬ not_boundary_point env laser group then info
  else label_point env zl idx

/-- One iteration of the loops of `compute_features_zvision`, writing the record back. -/
def feature_step_zvision (env : Feature_env K) (laser : Nat) (zl : Zvision_laser K)
    (group : Nat) :
    Zvision_laser K :=
  { zl with
    m_pts_info_vec :=
      zl.m_pts_info_vec.set (10000 * laser + group) (compute_point_zvision env laser zl group) }

/-- The routine `compute_features_zvision()`: for each of the three lasers, the interior samples
`group = 2, ..., 9997` of its block of 10000 points, in order. -/
def compute_features_zvision (env : Feature_env K) (zl : Zvision_laser K) : Zvision_laser K :=
  [0, 1, 2].foldl
    (fun zl1 laser =>
      (List.range' curvature_ssd_size (10000 - curvature_ssd_size - curvature_ssd_size)).foldl
        (feature_step_zvision env laser) zl1)
    zl

/-- The record of point `idx` after one iteration of the loop of `compute_features`: unchanged
for a zero / nan point, otherwise labelled by `label_point`. -/
def compute_point (env : Feature_env K) (zl : Zvision_laser K) (idx : Nat) : Pt_infos K :=
  let info := zl.m_pts_info_vec.getD idx Pt_infos.init
  if int_and info.pt_type critical_rm_point ≠ 0 then info
  else label_point env zl idx

/-- One iteration of the loop of `compute_features`, writing the record back. -/
def feature_step (env : Feature_env K) (zl : Zvision_laser K) (idx : Nat) : Zvision_laser K :=
  { zl with m_pts_info_vec := zl.m_pts_info_vec.set idx (compute_point env zl idx) }

/-- The routine `compute_features()`: `idx` runs from `curvature_ssd_size` while
`idx < pts_size - curvature_ssd_size`, the bound being computed in `size_t` (64 bits, wrapping)
from the 32-bit `pts_size`. -/
def compute_features (env : Feature_env K) (zl : Zvision_laser K) : Zvision_laser K :=
  let pts_size : Nat := zl.m_raw_pts_vec.length % 4294967296
  let bound : Nat := (pts_size + 18446744073709551616 - curvature_ssd_size) % 18446744073709551616
  (List.range' curvature_ssd_size (bound - curvature_ssd_size)).foldl (feature_step env) zl

end Zvision_laser

/-- Two extractor states that differ at most in the labels, curvatures and view angles of their
records: same thresholds, same raw points, same number of records, and the same type mask and
squared range at every position. -/
structure Zvision_laser.SameGeometry {K : Type} [LinearOrderedField K]
    (zl0 zl : Zvision_laser K) : Prop where
  thr_corner : zl.thr_corner_curvature = zl0.thr_corner_curvature
  thr_surface : zl.thr_surface_curvature = zl0.thr_surface_curvature
  min_view : zl.minimum_view_angle = zl0.minimum_view_angle
  raw : zl.m_raw_pts_vec = zl0.m_raw_pts_vec
  length : zl.m_pts_info_vec.length = zl0.m_pts_info_vec.length
  pt_type : ∀ j : Nat, (zl.m_pts_info_vec.getD j Zvision_laser.Pt_infos.init).pt_type
    = (zl0.m_pts_info_vec.getD j Zvision_laser.Pt_infos.init).pt_type
  depth_sq2 : ∀ j : Nat, (zl.m_pts_info_vec.getD j Zvision_laser.Pt_infos.init).depth_sq2
    = (zl0.m_pts_info_vec.getD j Zvision_laser.Pt_infos.init).depth_sq2

/-! ## Vocabulary of the feature claims -/

/-- The position `(x, y, z)` of a point. -/
def PointType.pos {K : Type} (p : PointType K) : Vector3d K := ⟨p.x, p.y, p.z⟩

namespace Zvision_laser

variable {K : Type} [LinearOrderedField K]

/-- A finite, non-degenerate sample: the three coordinates pass `std::isfinite` and the
secondary coordinate `y` is not zero, so the projection sets neither the nan nor the zero bit. -/
def non_degenerate (env : Feature_env K) (p : PointType K) : Prop :=
  env.cm.isfinite p.x = true ∧ env.cm.isfinite p.y = true ∧ env.cm.isfinite p.z = true ∧ p.y ≠ 0

/-- None of the four neighbours of `idx` at offsets `±1`, `±2` carries the zero or the nan
bit in its type mask. -/
def clean_neighbors (infos : List (Pt_infos K)) (idx : Nat) : Prop :=
  ∀ i : Nat, i = 1 ∨ i = 2 →
    int_and (infos.getD (idx + i) Pt_infos.init).pt_type e_pt_000 = 0
    ∧ int_and (infos.getD (idx - i) Pt_infos.init).pt_type e_pt_000 = 0
    ∧ int_and (infos.getD (idx + i) Pt_infos.init).pt_type e_pt_nan = 0
    ∧ int_and (infos.getD (idx - i) Pt_infos.init).pt_type e_pt_nan = 0

/-- Five consecutive samples around `idx` that are colinear and equally spaced with step `d`:
`p[idx + k] = p[idx] + k * d` for `k` in `{-2, -1, 1, 2}`. -/
def equally_spaced (raw : List (PointType K)) (idx : Nat) (d : Vector3d K) : Prop :=
  (raw.getD (idx + 1) PointType.init).pos = ((raw.getD idx PointType.init).pos).add d
  ∧ (raw.getD (idx + 2) PointType.init).pos
      = ((raw.getD idx PointType.init).pos).add (d.scale 2)
  ∧ (raw.getD (idx - 1) PointType.init).pos = ((raw.getD idx PointType.init).pos).sub d
  ∧ (raw.getD (idx - 2) PointType.init).pos
      = ((raw.getD idx PointType.init).pos).sub (d.scale 2)

/-- Five consecutive samples around `idx` forming a bend at the centre sample: the two samples
before it lie at `c + a`, `c + 2a`, the two after it at `c + b`, `c + 2b` (going outwards). -/
def bend_window (raw : List (PointType K)) (idx : Nat) (a b : Vector3d K) : Prop :=
  (raw.getD (idx - 1) PointType.init).pos = ((raw.getD idx PointType.init).pos).add a
  ∧ (raw.getD (idx - 2) PointType.init).pos
      = ((raw.getD idx PointType.init).pos).add (a.scale 2)
  ∧ (raw.getD (idx + 1) PointType.init).pos = ((raw.getD idx PointType.init).pos).add b
  ∧ (raw.getD (idx + 2) PointType.init).pos
      = ((raw.getD idx PointType.init).pos).add (b.scale 2)

/-- The curvature in the words of the specification: the squared norm of the sum of the four
neighbour positions at offsets `±1`, `±2` minus four times the centre position. -/
def discrete_laplacian_sq (raw : List (PointType K)) (idx : Nat) : K :=
  (((((raw.getD (idx + 1) PointType.init).pos).add ((raw.getD (idx - 1) PointType.init).pos)).add
    (((raw.getD (idx + 2) PointType.init).pos).add
      ((raw.getD (idx - 2) PointType.init).pos))).sub
    (((raw.getD idx PointType.init).pos).scale 4)).squaredNorm

/-- The corner test of the loop body after the view-angle test: curvature above the corner
threshold, squared range not above that of both `±2` neighbours, and within 10% of one. -/
def corner_test (zl : Zvision_laser K) (idx : Nat) (curvature : K) : Prop :=
  let d0 := (zl.m_pts_info_vec.getD idx Pt_infos.init).depth_sq2
  let dm := (zl.m_pts_info_vec.getD (idx - 2) Pt_infos.init).depth_sq2
  let dp := (zl.m_pts_info_vec.getD (idx + 2) Pt_infos.init).depth_sq2
  curvature > zl.thr_corner_curvature ∧ (d0 ≤ dm ∧ d0 ≤ dp)
  ∧ (|d0 - dm| < 1 / 10 * d0 ∨ |d0 - dp| < 1 / 10 * d0)

/-- The accumulator of the neighbour loop when none of the four neighbours is degenerate:
starting from zero, the pair at offset `±1` is added, then the pair at offset `±2`. -/
def neighbor_sum (raw : List (PointType K)) (idx : Nat) : Vector3d K :=
  ⟨0 + ((raw.getD (idx + 1) PointType.init).x + (raw.getD (idx - 1) PointType.init).x)
      + ((raw.getD (idx + 2) PointType.init).x + (raw.getD (idx - 2) PointType.init).x),
   0 + ((raw.getD (idx + 1) PointType.init).y + (raw.getD (idx - 1) PointType.init).y)
      + ((raw.getD (idx + 2) PointType.init).y + (raw.getD (idx - 2) PointType.init).y),
   0 + ((raw.getD (idx + 1) PointType.init).z + (raw.getD (idx - 1) PointType.init).z)
      + ((raw.getD (idx + 2) PointType.init).z + (raw.getD (idx - 2) PointType.init).z)⟩

end Zvision_laser

/-! ## Example frames over the rationals -/

namespace Zvision_laser

variable {K : Type} [LinearOrderedField K]

/-- A beam that is a perfect equally spaced line: each of the 10000 samples of beam `laser` is
the previous one plus the step `d`. -/
def beam_line (cloud : List (PointType K)) (laser : Nat) (d : Vector3d K) : Prop :=
  ∀ g : Nat, g + 1 < 10000 →
    (cloud.getD (10000 * laser + g + 1) PointType.init).pos
      = ((cloud.getD (10000 * laser + g) PointType.init).pos).add d

/-- The record of point `idx` after `projection_scan_3d_2d_zvision` followed by
`compute_features_zvision`, as `extract_laser_features_zvision` runs them on a frame. -/
def zvision_record (env : Feature_env K) (zl0 : Zvision_laser K) (cloud : List (PointType K))
    (idx : Nat) : Pt_infos K :=
  (compute_features_zvision env
    (projection_scan_3d_2d_zvision env zl0 cloud)).m_pts_info_vec.getD idx Pt_infos.init

end Zvision_laser

/-- An environment for the example frames: every coordinate passes `std::isfinite`, the azimuth
table grows by one per entry (no sample is a boundary point) and every view angle is one radian
(`57.3` degrees); the other `cmath` routines are not called by feature extraction. -/
def example_env : Feature_env ℚ :=
  { cm := ⟨fun x => x, fun x => x, fun x => x, fun x => x, fun _ => true, 0⟩
    angle_data := fun n => (n : ℚ)
    vector_angle := fun _ _ _ => 1 }

/-- A frame of three beams of 10000 samples, each beam the equally spaced line
`(5 + g / 1000, 5, 0)`, `g = 0, ..., 9999`. -/
def line_frame : List (PointType ℚ) :=
  (List.range 30000).map
    (fun i => (⟨5 + ((i % 10000 : Nat) : ℚ) / 1000, 5, 0, 0⟩ : PointType ℚ))

/-- A frame of three beams of 10000 samples, each beam two straight segments with spacing `d`
meeting at a right angle at sample 5000: `(5 + (5000 - g) d, 5, 0)` up to sample 5000,
`(5, 5 + (g - 5000) d, 0)` after it. -/
def bend_frame (d : ℚ) : List (PointType ℚ) :=
  (List.range 30000).map
    (fun i =>
      if i % 10000 ≤ 5000 then
        (⟨5 + ((5000 - i % 10000 : Nat) : ℚ) * d, 5, 0, 0⟩ : PointType ℚ)
      else ⟨5, 5 + ((i % 10000 - 5000 : Nat) : ℚ) * d, 0, 0⟩)

/-- A frame of three beams of 10000 samples, every point within the allowed range, each beam a
segment of spacing 1 along `x` (samples 0, 1, 2) meeting at sample 2 a segment of spacing
`1 / 2000` along `y`. -/
def short_leg_frame : List (PointType ℚ) :=
  (List.range 30000).map
    (fun i =>
      if i % 10000 ≤ 2 then
        (⟨5 + ((2 - i % 10000 : Nat) : ℚ), 5, 0, 0⟩ : PointType ℚ)
      else ⟨5, 5 + ((i % 10000 - 2 : Nat) : ℚ) / 2000, 0, 0⟩)

/-- The squared range `depth2_xyz` of the point at position `i` of a frame. -/
def range_sq {K : Type} [LinearOrderedField K] (cloud : List (PointType K)) (i : Nat) : K :=
  Zvision_laser.depth2_xyz (cloud.getD i PointType.init).x (cloud.getD i PointType.init).y
    (cloud.getD i PointType.init).z

/-! ## `get_features_zvision` -/

/-- The three output clouds of `get_features_zvision`. Each emitted point is paired with the
position `i` of the record it was copied from; the position is not stored by the C++ clouds and
is kept only to say which points of the frame were emitted. -/
structure Feature_clouds (K : Type) where
  pc_corners : List (Nat × PointType K)
  pc_surface : List (Nat × PointType K)
  pc_full_res : List (Nat × PointType K)

namespace Zvision_laser

variable {K : Type} [LinearOrderedField K]

/-- The intensity written to an emitted point:
`((point_id % 10000) * 3 + (point_id / 10000)) / 29999.0`, with the truncating `int`
operators of C. -/
def feature_intensity (point_id : Int) : K :=
  (((Int.tmod point_id 10000) * 3 + Int.tdiv point_id 10000 : Int) : K) / 29999

/-- The point copied to an output cloud for record `i`: the raw point with its intensity
replaced by `feature_intensity` of the stored index. -/
def feature_point (zl : Zvision_laser K) (i : Nat) : PointType K :=
  { zl.m_raw_pts_vec.getD i PointType.init with
    intensity := feature_intensity (zl.m_pts_info_vec.getD i Pt_infos.init).idx }

/-- One iteration of the loop of `get_features_zvision`: records outside `[begin_idx, end_idx]`
and records with the zero or nan bit are skipped; a record with the corner bit in its label is
skipped altogether unless its type is `e_pt_normal`, and goes to the corners when its squared
range is below `30^2`; a record with the surface bit goes to the surface cloud when its squared
range is below `1000^2`; every record that is not skipped goes to the full cloud. -/
def get_features_step (zl : Zvision_laser K) (begin_idx end_idx : Int) (out : Feature_clouds K)
    (i : Nat) : Feature_clouds K :=
  let info := zl.m_pts_info_vec.getD i Pt_infos.init
  if info.idx > end_idx ∨ info.idx < begin_idx then out
  else if int_and info.pt_type critical_rm_point = 0 then
    if int_and info.pt_label e_label_corner ≠ 0 ∧ info.pt_type ≠ e_pt_normal then out
    else
      { pc_corners :=
          if int_and info.pt_label e_label_corner ≠ 0 ∧ info.depth_sq2 < 30 ^ 2 then
            out.pc_corners ++ [(i, feature_point zl i)]
          else out.pc_corners
        pc_surface :=
          if int_and info.pt_label e_label_surface ≠ 0 ∧ info.depth_sq2 < 1000 ^ 2 then
            out.pc_surface ++ [(i, feature_point zl i)]
          else out.pc_surface
        pc_full_res := out.pc_full_res ++ [(i, feature_point zl i)] }
  else out

/-- The routine `get_features_zvision(pc_corners, pc_surface, pc_full_res, laser)`: the window is
the block of 10000 indices of beam `laser`, or the whole frame `[0, 29999]` for `laser = 255`;
the records are visited in order and the emitted points appended to the three clouds. -/
def get_features_zvision (zl : Zvision_laser K) (laser : Int) : Feature_clouds K :=
  let begin_idx : Int := if laser = 255 then 0 else laser * 10000
  let end_idx : Int := if laser = 255 then 29999 else laser * 10000 + 10000 - 1
  (List.range zl.m_pts_info_vec.length).foldl (get_features_step zl begin_idx end_idx)
    ⟨[], [], []⟩

end Zvision_laser

/-- A frame of three beams of 10000 samples, every point `(5, 5, 0)` except the point at
position 5002, which is `(5, 0, 0)` (a zero secondary coordinate). -/
def hole_frame : List (PointType ℚ) :=
  (List.range 30000).map
    (fun i => if i = 5002 then (⟨5, 0, 0, 0⟩ : PointType ℚ) else ⟨5, 5, 0, 0⟩)

/-- The extractor state after `projection_scan_3d_2d_zvision` and `compute_features_zvision`
on `line_frame`, starting from the member initialisers. -/
def line_state : Zvision_laser ℚ :=
  Zvision_laser.compute_features_zvision example_env
    (Zvision_laser.projection_scan_3d_2d_zvision example_env Zvision_laser.init line_frame)

/-- The extractor state after `projection_scan_3d_2d_zvision` and `compute_features_zvision`
on `hole_frame`, starting from the member initialisers. -/
def hole_state : Zvision_laser ℚ :=
  Zvision_laser.compute_features_zvision example_env
    (Zvision_laser.projection_scan_3d_2d_zvision example_env Zvision_laser.init hole_frame)

/-! ## `laser_mapping.hpp`: the outlier-pruning pass -/

section Pruning

variable {K : Type} [LinearOrderedField K]

/-- The summed absolute residual of block `i`:
`fabs(residuals[3 * i + 0]) + fabs(residuals[3 * i + 1]) + fabs(residuals[3 * i + 2])`. -/
def block_sum_abs (residuals : List K) (i : Nat) : K :=
  |residuals.getD (3 * i + 0) 0| + |residuals.getD (3 * i + 1) 0|
    + |residuals.getD (3 * i + 2) 0|

/-- The removal threshold `std::min(0.1, 10 * avr_cost)` with
`avr_cost = total_cost / residual_block_ids.size()`. -/
def outlier_threshold (total_cost : K) (size : Nat) : K :=
  let avr_cost := total_cost / (size : K)
  min (1 / 10) (10 * avr_cost)

/-- One iteration of the loop over the residual blocks; the state is the list of blocks handed
to `problem.RemoveResidualBlock` so far and `residual_block_ids_bak`. -/
def remove_outliers_step (total_cost : K) (residuals : List K) (residual_block_ids : List Nat)
    (st : List Nat × List Nat) (i : Nat) : List Nat × List Nat :=
  if block_sum_abs residuals i > outlier_threshold total_cost residual_block_ids.length then
    (st.1 ++ [residual_block_ids.getD i 0], st.2)
  else (st.1, st.2 ++ [residual_block_ids.getD i 0])

/-- The "Remove outliers" pass after the first solve, given what
`problem.Evaluate(eval_options, &total_cost, &residuals, nullptr, nullptr)` reported: the blocks
removed from the problem and the new `residual_block_ids` (`residual_block_ids_bak`, cleared
before the pass). -/
def remove_outliers (total_cost : K) (residuals : List K) (residual_block_ids : List Nat) :
    List Nat × List Nat :=
  (List.range residual_block_ids.length).foldl
    (remove_outliers_step total_cost residuals residual_block_ids) ([], [])

/-- The mean summed absolute residual over all `size` blocks, in the words of the
specification. -/
def mean_sum_abs (residuals : List K) (size : Nat) : K :=
  ((List.range size).map (block_sum_abs residuals)).sum / (size : K)

end Pruning

/-- The residuals of 10300 blocks as reported by `problem.Evaluate`: block 0 is `(0.1, 0, 0)`,
block 1 is `(10.2, 0, 0)`, all others are zero. With `HuberLoss(0.1)` these are the values Ceres
reports for the raw residuals `(0.1, 0, 0)`, `(1040.4, 0, 0)` and zero, the total cost being
`0.005 + 104.035 = 104.04`. -/
def heavy_tail_residuals : List ℚ :=
  [1 / 10, 0, 0, 51 / 5, 0, 0] ++ List.replicate 30894 0

/-! ## `laser_mapping.hpp`: the voxel grid and its recentring shifts -/

/-- The voxel grid of `Laser_mapping`: the arrays `m_laser_cloud_corner_array` and
`m_laser_cloud_surface_array` hold one shared pointer per cell; an address is a natural number
and `heap` is the point cloud stored at each address. -/
structure Cube_grid (K : Type) where
  m_laser_cloud_corner_array : Nat → Nat
  m_laser_cloud_surface_array : Nat → Nat
  heap : Nat → List (PointType K)

namespace Cube_grid

variable {K : Type}

/-- The corner points of cell `ind`: `*m_laser_cloud_corner_array[ind]`. -/
def corner_cell (g : Cube_grid K) (ind : Nat) : List (PointType K) :=
  g.heap (g.m_laser_cloud_corner_array ind)

/-- The surface points of cell `ind`: `*m_laser_cloud_surface_array[ind]`. -/
def surface_cell (g : Cube_grid K) (ind : Nat) : List (PointType K) :=
  g.heap (g.m_laser_cloud_surface_array ind)

/-- The linear index `i + m_para_laser_cloud_width * j
+ m_para_laser_cloud_width * m_para_laser_cloud_height * k` of cell `(i, j, k)`. -/
def cube_index (W H i j k : Nat) : Nat := i + W * j + W * H * k

/-- The pointer moves of one line of `n` cells in a `centerCube < 3` loop, for one of the two
arrays: the pointer of the last cell is saved, `arr[t] = arr[t - 1]` for `t = n - 1, ..., 1`,
and the saved pointer is stored in cell 0. `line t` is the linear index of the cell at position
`t` of the line. -/
def rotate_ptrs_up (line : Nat → Nat) (n : Nat) (arr : Nat → Nat) : Nat → Nat :=
  let saved := arr (line (n - 1))
  let arr1 := (List.range (n - 1)).foldl
    (fun a c => Function.update a (line (n - 1 - c)) (a (line (n - 1 - c - 1)))) arr
  Function.update arr1 (line 0) saved

/-- The pointer moves of one line of `n` cells in a `centerCube >= width - 3` loop, for one of
the two arrays: the pointer of cell 0 is saved, `arr[t] = arr[t + 1]` for `t = 0, ..., n - 2`,
and the saved pointer is stored in the last cell. -/
def rotate_ptrs_down (line : Nat → Nat) (n : Nat) (arr : Nat → Nat) : Nat → Nat :=
  let saved := arr (line 0)
  let arr1 := (List.range (n - 1)).foldl
    (fun a t => Function.update a (line t) (a (line (t + 1)))) arr
  Function.update arr1 (line (n - 1)) saved

/-- The body of the two inner loops of a `centerCube < 3` shift for one line of cells: both
arrays are rotated, then the two clouds whose pointers were saved are cleared
(`laserCloudCubeCornerPointer->clear(); laserCloudCubeSurfPointer->clear()`). -/
def shift_line_up (line : Nat → Nat) (n : Nat) (g : Cube_grid K) : Cube_grid K :=
  { m_laser_cloud_corner_array := rotate_ptrs_up line n g.m_laser_cloud_corner_array
    m_laser_cloud_surface_array := rotate_ptrs_up line n g.m_laser_cloud_surface_array
    heap := Function.update
      (Function.update g.heap (g.m_laser_cloud_corner_array (line (n - 1))) [])
      (g.m_laser_cloud_surface_array (line (n - 1))) [] }

/-- The body of the two inner loops of a `centerCube >= width - 3` shift for one line of
cells. -/
def shift_line_down (line : Nat → Nat) (n : Nat) (g : Cube_grid K) : Cube_grid K :=
  { m_laser_cloud_corner_array := rotate_ptrs_down line n g.m_laser_cloud_corner_array
    m_laser_cloud_surface_array := rotate_ptrs_down line n g.m_laser_cloud_surface_array
    heap := Function.update
      (Function.update g.heap (g.m_laser_cloud_corner_array (line 0)) [])
      (g.m_laser_cloud_surface_array (line 0)) [] }

/-- Two nested `for` loops over `a < A` and `b < B`, each pass handling the line `line a b`
with `shift_line`. -/
def shift_lines (shift_line : (Nat → Nat) → Cube_grid K → Cube_grid K)
    (line : Nat → Nat → Nat → Nat) (A B : Nat) (g : Cube_grid K) : Cube_grid K :=
  (List.range A).foldl
    (fun g1 a => (List.range B).foldl (fun g2 b => shift_line (line a b) g2) g1) g

/-- The grid part of the body of `while (centerCubeI < 3)`: for every `j`, `k` the line of cells
`(0 .. W - 1, j, k)` is shifted towards higher `i`. -/
def shift_I_low (W H D : Nat) (g : Cube_grid K) : Cube_grid K :=
  shift_lines (fun line => shift_line_up line W) (fun j k i => cube_index W H i j k) H D g

/-- The grid part of the body of `while (centerCubeI >= m_para_laser_cloud_width - 3)`. -/
def shift_I_high (W H D : Nat) (g : Cube_grid K) : Cube_grid K :=
  shift_lines (fun line => shift_line_down line W) (fun j k i => cube_index W H i j k) H D g

/-- The grid part of the body of `while (centerCubeJ < 3)`: for every `i`, `k` the line of cells
`(i, 0 .. H - 1, k)` is shifted towards higher `j`. -/
def shift_J_low (W H D : Nat) (g : Cube_grid K) : Cube_grid K :=
  shift_lines (fun line => shift_line_up line H) (fun i k j => cube_index W H i j k) W D g

/-- The grid part of the body of `while (centerCubeJ >= m_para_laser_cloud_height - 3)`. -/
def shift_J_high (W H D : Nat) (g : Cube_grid K) : Cube_grid K :=
  shift_lines (fun line => shift_line_down line H) (fun i k j => cube_index W H i j k) W D g

/-- The grid part of the body of `while (centerCubeK < 3)`: for every `i`, `j` the line of cells
`(i, j, 0 .. D - 1)` is shifted towards higher `k`. -/
def shift_K_low (W H D : Nat) (g : Cube_grid K) : Cube_grid K :=
  shift_lines (fun line => shift_line_up line D) (fun i j k => cube_index W H i j k) W H g

/-- The grid part of the body of `while (centerCubeK >= m_para_laser_cloud_depth - 3)`. -/
def shift_K_high (W H D : Nat) (g : Cube_grid K) : Cube_grid K :=
  shift_lines (fun line => shift_line_down line D) (fun i j k => cube_index W H i j k) W H g

/-- No two entries of the two pointer arrays with index below `N` hold the same address: the
constructor gives every cell two clouds of its own, and the shifts only permute pointers. -/
def distinct_ptrs (g : Cube_grid K) (N : Nat) : Prop :=
  (∀ x y, x < N → y < N → g.m_laser_cloud_corner_array x = g.m_laser_cloud_corner_array y →
    x = y)
  ∧ (∀ x y, x < N → y < N →
      g.m_laser_cloud_surface_array x = g.m_laser_cloud_surface_array y → x = y)
  ∧ (∀ x y, x < N → y < N →
      g.m_laser_cloud_corner_array x ≠ g.m_laser_cloud_surface_array y)

/-- The number of corner and surface points held in the cells at the positions `pos 0`, ...,
`pos (n - 2)` of every line `line a b`, `a < A`, `b < B`. -/
def count_points (g : Cube_grid K) (line : Nat → Nat → Nat → Nat) (A B n : Nat)
    (pos : Nat → Nat) : Nat :=
  ((List.range A).map (fun a =>
    ((List.range B).map (fun b =>
      ((List.range (n - 1)).map (fun t =>
        (g.corner_cell (line a b (pos t))).length
          + (g.surface_cell (line a b (pos t))).length)).sum)).sum)).sum

end Cube_grid

namespace Cube_grid

variable {K : Type}

/-- The corner and the surface points of cell `ind`. -/
def cells (g : Cube_grid K) (ind : Nat) : List (PointType K) × List (PointType K) :=
  (g.corner_cell ind, g.surface_cell ind)

/-- What a shift of one line of `n` cells does to the cells, for a grid whose pointers below `N`
are distinct: the pointers stay distinct, cells off the line are untouched, the cell at position
`s` other than `fresh` receives the content of the cell at position `pm s`, and the cell at
position `fresh` is empty. -/
def LineShift (n N fresh : Nat) (pm : Nat → Nat)
    (shift_line : (Nat → Nat) → Cube_grid K → Cube_grid K) : Prop :=
  ∀ (line : Nat → Nat) (g : Cube_grid K), (∀ t, t < n → line t < N) →
    (∀ s t, s < n → t < n → line s = line t → s = t) → distinct_ptrs g N →
    distinct_ptrs (shift_line line g) N
    ∧ (∀ x, x < N → (∀ t, t < n → x ≠ line t) → cells (shift_line line g) x = cells g x)
    ∧ (∀ s, s < n → s ≠ fresh → cells (shift_line line g) (line s) = cells g (line (pm s)))
    ∧ cells (shift_line line g) (line fresh) = ([], [])

end Cube_grid

/-- A grid for examples: cell `x` holds the corner cloud at address `2 x` and the surface cloud
at address `2 x + 1`; the corner cloud of cell 0 holds one point, every other cloud is empty. -/
def example_grid : Cube_grid ℚ :=
  { m_laser_cloud_corner_array := fun x => 2 * x
    m_laser_cloud_surface_array := fun x => 2 * x + 1
    heap := fun p => if p = 0 then [⟨1, 2, 3, 4⟩] else [] }

/-! ## `laser_mapping.hpp`: the class `Laser_mapping` -/

/-- Matrix `Eigen::Matrix<double, 3, 3>`, given by its three rows. -/
@[ext]
structure Matrix3d (K : Type) where
  r0 : Vector3d K
  r1 : Vector3d K
  r2 : Vector3d K

namespace Matrix3d

variable {K : Type} [Field K]

/-- The zero matrix (`setZero()`). -/
def Zero : Matrix3d K := ⟨⟨0, 0, 0⟩, ⟨0, 0, 0⟩, ⟨0, 0, 0⟩⟩

/-- The identity matrix `Eigen::Matrix3d::Identity()`. -/
def Identity : Matrix3d K := ⟨⟨1, 0, 0⟩, ⟨0, 1, 0⟩, ⟨0, 0, 1⟩⟩

/-- Entry-wise sum of two matrices. -/
def add (a b : Matrix3d K) : Matrix3d K := ⟨a.r0.add b.r0, a.r1.add b.r1, a.r2.add b.r2⟩

/-- Product `s * m` of a scalar and a matrix. -/
def smul (s : K) (m : Matrix3d K) : Matrix3d K := ⟨m.r0.scale s, m.r1.scale s, m.r2.scale s⟩

/-- Product `m * v` of a matrix and a column vector. -/
def mulVec (m : Matrix3d K) (v : Vector3d K) : Vector3d K := ⟨m.r0.dot v, m.r1.dot v, m.r2.dot v⟩

/-- Product `a * b` of two matrices. -/
def mul (a b : Matrix3d K) : Matrix3d K :=
  ⟨⟨a.r0.dot ⟨b.r0.x, b.r1.x, b.r2.x⟩, a.r0.dot ⟨b.r0.y, b.r1.y, b.r2.y⟩,
      a.r0.dot ⟨b.r0.z, b.r1.z, b.r2.z⟩⟩,
    ⟨a.r1.dot ⟨b.r0.x, b.r1.x, b.r2.x⟩, a.r1.dot ⟨b.r0.y, b.r1.y, b.r2.y⟩,
      a.r1.dot ⟨b.r0.z, b.r1.z, b.r2.z⟩⟩,
    ⟨a.r2.dot ⟨b.r0.x, b.r1.x, b.r2.x⟩, a.r2.dot ⟨b.r0.y, b.r1.y, b.r2.y⟩,
      a.r2.dot ⟨b.r0.z, b.r1.z, b.r2.z⟩⟩⟩

end Matrix3d

/-- The constant `CORNER_MIN_MAP_NUM`. -/
def CORNER_MIN_MAP_NUM : Int := 0

/-- The constant `SURFACE_MIN_MAP_NUM`. -/
def SURFACE_MIN_MAP_NUM : Int := 50

/-- The members of class `Laser_mapping` (and the global `MOTION_DEBLUR`) that `process` reads
or writes. The pose buffers `m_para_buffer_RT`, `m_para_buffer_RT_last` and
`m_para_buffer_incremental` are given by the quaternion and the translation mapped onto them;
`heap_next` is the address the next `new pcl::PointCloud` gets. -/
structure Laser_mapping (K : Type) where
  frameCount : Int
  MOTION_DEBLUR : Int
  m_para_icp_max_iterations : Int
  m_para_max_angular_rate : K
  m_max_final_cost : K
  m_mapping_init_accumulate_frames : Int
  m_para_laser_cloud_center_width : Int
  m_para_laser_cloud_center_height : Int
  m_para_laser_cloud_center_depth : Int
  m_para_laser_cloud_width : Nat
  m_para_laser_cloud_height : Nat
  m_para_laser_cloud_depth : Nat
  m_last_time_stamp : K
  m_minimum_pt_time_stamp : K
  m_maximum_pt_time_stamp : K
  m_interpolatation_theta : K
  m_interpolatation_omega_hat : Matrix3d K
  m_interpolatation_omega_hat_sq2 : Matrix3d K
  m_q_w_curr : Quaterniond K
  m_t_w_curr : Vector3d K
  m_q_w_last : Quaterniond K
  m_t_w_last : Vector3d K
  m_q_w_incre : Quaterniond K
  m_t_w_incre : Vector3d K
  grid : Cube_grid K
  heap_next : Nat

/-- One entry of `m_queue_avail_data`: the three clouds of a frame after `pcl::fromROSMsg`. -/
structure Data_pair (K : Type) where
  m_pc_corner : List (PointType K)
  m_pc_plane : List (PointType K)
  m_pc_full : List (PointType K)

/-- What `process` takes from libraries and from headers that are not among the sources:
`cmath`, `find_min_max_intensity` (its maximum), the two `pcl::VoxelGrid` filters, Eigen's
`angularDistance` and `AngleAxisd` (axis, angle), the `final_cost` of a fresh
`ceres::Solver::Summary`, and `icp_solve`: one pass of the body of the registration loop up to
the second `ceres::Solve` (correspondence search in the local corner and surface maps for the
two down-sampled feature clouds, the first solve, the outlier-pruning pass, the second solve),
giving the new content of `m_para_buffer_incremental` and `summary.final_cost`. -/
structure Mapping_env (K : Type) where
  cm : Cmath K
  find_max_intensity : List (PointType K) → K
  down_sample_filter_corner : List (PointType K) → List (PointType K)
  down_sample_filter_surface : List (PointType K) → List (PointType K)
  icp_solve : Laser_mapping K → List (PointType K) → List (PointType K) → List (PointType K) →
    List (PointType K) → Quaterniond K × Vector3d K × K
  angularDistance : Quaterniond K → Quaterniond K → K
  AngleAxis : Quaterniond K → Vector3d K × K
  summary_initial_final_cost : K

/-- What one pass of the `while (1)` loop of `process` leaves: the state, whether the
registration branch was entered, whether the frame was rejected, and the values of
`angular_diff` and `minimize_cost` at the accept / reject test. -/
structure Frame_result (K : Type) where
  state : Laser_mapping K
  registration_ran : Bool
  rejected : Bool
  angular_diff : K
  minimize_cost : K

namespace Laser_mapping

variable {K : Type} [LinearOrderedField K]

/-- The routine `pointAssociateToMap(pi, po, interpolate_s, if_undistore)`: the point `po`
written. Without deblur (`MOTION_DEBLUR == 0`, `if_undistore == 0` or `interpolate_s == 1.0`)
the current pose is applied; otherwise the Rodrigues matrix of the interpolated rotation and the
scaled translation (`BLUR_SCALE = 1.0`), then the last pose. -/
def pointAssociateToMap (cm : Cmath K) (lm : Laser_mapping K) (pi : PointType K)
    (interpolate_s : K) (if_undistore : Int) : PointType K :=
  let point_curr : Vector3d K := ⟨pi.x, pi.y, pi.z⟩
  let point_w : Vector3d K :=
    if lm.MOTION_DEBLUR = 0 ∨ if_undistore = 0 ∨ interpolate_s = 1 then
      (lm.m_q_w_curr.transformVector point_curr).add lm.m_t_w_curr
    else
      let interpolate_T := lm.m_t_w_incre.scale (interpolate_s * 1)
      let interpolate_R_theta := lm.m_interpolatation_theta * interpolate_s
      let interpolate_R_mat :=
        (Matrix3d.Identity.add
          (Matrix3d.smul (cm.sin interpolate_R_theta) lm.m_interpolatation_omega_hat)).add
          (Matrix3d.smul (1 - cm.cos interpolate_R_theta) lm.m_interpolatation_omega_hat_sq2)
      (lm.m_q_w_last.transformVector
        ((interpolate_R_mat.mulVec point_curr).add interpolate_T)).add lm.m_t_w_last
  ⟨point_w.x, point_w.y, point_w.z, pi.intensity⟩

/-- The routine `reset_incremtal_parameter()`. -/
def reset_incremtal_parameter (lm : Laser_mapping K) : Laser_mapping K :=
  { lm with
    m_q_w_incre := ⟨1, 0, 0, 0⟩
    m_t_w_incre := ⟨0, 0, 0⟩
    m_interpolatation_theta := 0
    m_interpolatation_omega_hat := Matrix3d.Zero
    m_interpolatation_omega_hat_sq2 := Matrix3d.Zero }

/-- The hand-over at the start of a frame: the last pose takes the current pose, the time stamps
move on and the incremental pose is reset. -/
def hand_over (lm : Laser_mapping K) (max_t : K) : Laser_mapping K :=
  reset_incremtal_parameter
    { lm with
      m_q_w_last := lm.m_q_w_curr
      m_t_w_last := lm.m_t_w_curr
      m_minimum_pt_time_stamp := lm.m_last_time_stamp
      m_maximum_pt_time_stamp := max_t
      m_last_time_stamp := max_t }

end Laser_mapping

namespace Cube_grid

variable {K : Type}

/-- The call `m_laser_cloud_corner_array[ind]->push_back(p)`. -/
def push_corner (g : Cube_grid K) (ind : Nat) (p : PointType K) : Cube_grid K :=
  { g with
    heap := Function.update g.heap (g.m_laser_cloud_corner_array ind)
      (g.heap (g.m_laser_cloud_corner_array ind) ++ [p]) }

/-- The call `m_laser_cloud_surface_array[ind]->push_back(p)`. -/
def push_surface (g : Cube_grid K) (ind : Nat) (p : PointType K) : Cube_grid K :=
  { g with
    heap := Function.update g.heap (g.m_laser_cloud_surface_array ind)
      (g.heap (g.m_laser_cloud_surface_array ind) ++ [p]) }

/-- The loop `while (centerCube < 3) { shift; centerCube++; center++; }` on the triple
(`centerCube`, the origin offset `m_para_laser_cloud_center_*`, the grid), with fuel. -/
def recentre_low (shift : Cube_grid K → Cube_grid K) :
    Nat → Int × Int × Cube_grid K → Int × Int × Cube_grid K
  | 0, s => s
  | fuel + 1, s =>
    if s.1 < 3 then recentre_low shift fuel (s.1 + 1, s.2.1 + 1, shift s.2.2) else s

/-- The loop `while (centerCube >= width - 3) { shift; centerCube--; center--; }` on the triple
(`centerCube`, the origin offset, the grid), with fuel. -/
def recentre_high (shift : Cube_grid K → Cube_grid K) (width : Nat) :
    Nat → Int × Int × Cube_grid K → Int × Int × Cube_grid K
  | 0, s => s
  | fuel + 1, s =>
    if s.1 ≥ (width : Int) - 3 then recentre_high shift width fuel (s.1 - 1, s.2.1 - 1, shift s.2.2)
    else s

/-- The linear indices stored in `m_laser_cloud_valid_Idx`: the cells `(i, j, k)` with
`|i - centerCubeI| <= 2`, `|j - centerCubeJ| <= 2`, `|k - centerCubeK| <= 1` that lie inside the
grid, in loop order. -/
def valid_indices (W H D : Nat) (centerCubeI centerCubeJ centerCubeK : Int) : List Nat :=
  [centerCubeI - 2, centerCubeI - 1, centerCubeI, centerCubeI + 1, centerCubeI + 2].foldl
    (fun acc i =>
      [centerCubeJ - 2, centerCubeJ - 1, centerCubeJ, centerCubeJ + 1, centerCubeJ + 2].foldl
        (fun acc1 j =>
          [centerCubeK - 1, centerCubeK, centerCubeK + 1].foldl
            (fun acc2 k =>
              if i ≥ 0 ∧ i < (W : Int) ∧ j ≥ 0 ∧ j < (H : Int) ∧ k ≥ 0 ∧ k < (D : Int) then
                acc2 ++ [(i + (W : Int) * j + (W : Int) * (H : Int) * k).toNat]
              else acc2)
            acc1)
        acc)
    []

/-- The local corner map `m_laser_cloud_corner_from_map`: the corner clouds of the valid cells,
concatenated. -/
def corner_from_map (g : Cube_grid K) (valid : List Nat) : List (PointType K) :=
  valid.foldl (fun acc ind => acc ++ g.corner_cell ind) []

/-- The local surface map `m_laser_cloud_surf_from_map`. -/
def surf_from_map (g : Cube_grid K) (valid : List Nat) : List (PointType K) :=
  valid.foldl (fun acc ind => acc ++ g.surface_cell ind) []

end Cube_grid

namespace Laser_mapping

variable {K : Type} [LinearOrderedField K] [FloorRing K]

/-- The conversion `int(x)` of a `double`: truncation towards zero. -/
def c_int (x : K) : Int := if 0 ≤ x then Int.floor x else Int.ceil x

/-- The cell coordinate of a world coordinate `x` for the origin offset `center`:
`int((x + CUBE / 2) / CUBE) + center`, decremented when `x + CUBE / 2 < 0` (`CUBE = 50.0`). -/
def cube_coord (x : K) (center : Int) : Int :=
  let c := c_int ((x + 50 / 2) / 50) + center
  if x + 50 / 2 < 0 then c - 1 else c

/-- The six recentring loops of `process`, starting from the cell of the current translation;
the result is the state and the final `centerCubeI`, `centerCubeJ`, `centerCubeK`. Each loop
gets the number of passes it needs as fuel. -/
def recentre (lm : Laser_mapping K) (centerCubeI centerCubeJ centerCubeK : Int) :
    Laser_mapping K × Int × Int × Int :=
  let W := lm.m_para_laser_cloud_width
  let H := lm.m_para_laser_cloud_height
  let D := lm.m_para_laser_cloud_depth
  let s1 := Cube_grid.recentre_low (Cube_grid.shift_I_low W H D) (3 - centerCubeI).toNat
    (centerCubeI, lm.m_para_laser_cloud_center_width, lm.grid)
  let s2 := Cube_grid.recentre_high (Cube_grid.shift_I_high W H D) W
    (s1.1 - ((W : Int) - 3) + 1).toNat s1
  let s3 := Cube_grid.recentre_low (Cube_grid.shift_J_low W H D) (3 - centerCubeJ).toNat
    (centerCubeJ, lm.m_para_laser_cloud_center_height, s2.2.2)
  let s4 := Cube_grid.recentre_high (Cube_grid.shift_J_high W H D) H
    (s3.1 - ((H : Int) - 3) + 1).toNat s3
  let s5 := Cube_grid.recentre_low (Cube_grid.shift_K_low W H D) (3 - centerCubeK).toNat
    (centerCubeK, lm.m_para_laser_cloud_center_depth, s4.2.2)
  let s6 := Cube_grid.recentre_high (Cube_grid.shift_K_high W H D) D
    (s5.1 - ((D : Int) - 3) + 1).toNat s5
  ({ lm with
      m_para_laser_cloud_center_width := s2.2.1
      m_para_laser_cloud_center_height := s4.2.1
      m_para_laser_cloud_center_depth := s6.2.1
      grid := s6.2.2 },
    s2.1, s4.1, s6.1)

/-- The registration gate: `laserCloudCornerFromMapNum > CORNER_MIN_MAP_NUM &&
laserCloudSurfFromMapNum > SURFACE_MIN_MAP_NUM && frameCount > m_mapping_init_accumulate_frames`. -/
def registration_gate (laserCloudCornerFromMapNum laserCloudSurfFromMapNum frameCount
    m_mapping_init_accumulate_frames : Int) : Prop :=
  laserCloudCornerFromMapNum > CORNER_MIN_MAP_NUM
  ∧ laserCloudSurfFromMapNum > SURFACE_MIN_MAP_NUM
  ∧ frameCount > m_mapping_init_accumulate_frames

instance (a b c d : Int) : Decidable (registration_gate a b c d) := by
  unfold registration_gate
  exact inferInstance

/-- One pass of the body of the registration loop: the solver's result is stored in the
incremental pose, then `m_t_w_curr = m_q_w_last * m_t_w_incre + m_t_w_last`,
`m_q_w_curr = m_q_w_last * m_q_w_incre`, `angular_diff = angularDistance(curr, last) * 57.3` and
`minimize_cost = summary.final_cost`. -/
def icp_iteration (env : Mapping_env K) (corner_map surf_map corner_stack surf_stack :
    List (PointType K)) (s : Laser_mapping K × K × K) : Laser_mapping K × K × K :=
  let sol := env.icp_solve s.1 corner_map surf_map corner_stack surf_stack
  let lm1 : Laser_mapping K := { s.1 with m_q_w_incre := sol.1, m_t_w_incre := sol.2.1 }
  let lm2 : Laser_mapping K :=
    { lm1 with
      m_t_w_curr := (lm1.m_q_w_last.transformVector lm1.m_t_w_incre).add lm1.m_t_w_last
      m_q_w_curr := lm1.m_q_w_last.mul lm1.m_q_w_incre }
  (lm2, env.angularDistance lm2.m_q_w_curr lm2.m_q_w_last * (573 / 10), sol.2.2)

/-- The registration loop `for (iterCount = 0; iterCount < m_para_icp_max_iterations; ...)`,
from `angular_diff = 0` and `minimize_cost = summary.final_cost` of a fresh summary. -/
def icp_loop (env : Mapping_env K) (corner_map surf_map corner_stack surf_stack :
    List (PointType K)) (lm : Laser_mapping K) : Laser_mapping K × K × K :=
  (List.range lm.m_para_icp_max_iterations.toNat).foldl
    (fun s _ => icp_iteration env corner_map surf_map corner_stack surf_stack s)
    (lm, 0, env.summary_initial_final_cost)

/-- The reject branch: `m_para_buffer_RT` is overwritten by `m_para_buffer_RT_last`, the last
time stamp is restored, and the current pose is set to the last pose. -/
def reject_update (lm : Laser_mapping K) : Laser_mapping K :=
  { lm with
    m_q_w_curr := lm.m_q_w_last
    m_t_w_curr := lm.m_t_w_last
    m_last_time_stamp := lm.m_minimum_pt_time_stamp }

/-- The cell of a world point: `none` when one of `cubeI`, `cubeJ`, `cubeK` is outside the
grid, otherwise the linear index `cubeInd`. -/
def cube_of_point (lm : Laser_mapping K) (pointSel : PointType K) : Option Nat :=
  let cubeI := cube_coord pointSel.x lm.m_para_laser_cloud_center_width
  let cubeJ := cube_coord pointSel.y lm.m_para_laser_cloud_center_height
  let cubeK := cube_coord pointSel.z lm.m_para_laser_cloud_center_depth
  if cubeI ≥ 0 ∧ cubeI < (lm.m_para_laser_cloud_width : Int)
      ∧ cubeJ ≥ 0 ∧ cubeJ < (lm.m_para_laser_cloud_height : Int)
      ∧ cubeK ≥ 0 ∧ cubeK < (lm.m_para_laser_cloud_depth : Int) then
    some (cubeI + (lm.m_para_laser_cloud_width : Int) * cubeJ
      + (lm.m_para_laser_cloud_width : Int) * (lm.m_para_laser_cloud_height : Int) * cubeK).toNat
  else none

/-- One pass of the loop that inserts the down-sampled corner points: the point is mapped with
`pointAssociateToMap(p, &pointSel, p.intensity, 0)` and pushed to the corner cloud of its cell
when the cell is inside the grid. -/
def map_insert_corner (cm : Cmath K) (lm : Laser_mapping K) (p : PointType K) :
    Laser_mapping K :=
  let pointSel := pointAssociateToMap cm lm p p.intensity 0
  match cube_of_point lm pointSel with
  | some cubeInd => { lm with grid := lm.grid.push_corner cubeInd pointSel }
  | none => lm

/-- One pass of the loop that inserts the down-sampled surface points. -/
def map_insert_surface (cm : Cmath K) (lm : Laser_mapping K) (p : PointType K) :
    Laser_mapping K :=
  let pointSel := pointAssociateToMap cm lm p p.intensity 0
  match cube_of_point lm pointSel with
  | some cubeInd => { lm with grid := lm.grid.push_surface cubeInd pointSel }
  | none => lm

/-- One pass of the loop that down-samples the valid cells: a new cloud receives the filtered
corner cloud of the cell and its pointer replaces the cell's, then the same for the surface
cloud. -/
def downsample_cell (env : Mapping_env K) (lm : Laser_mapping K) (ind : Nat) :
    Laser_mapping K :=
  let g := lm.grid
  let tmpCorner := lm.heap_next
  let tmpSurf := lm.heap_next + 1
  let heap1 := Function.update g.heap tmpCorner (env.down_sample_filter_corner (g.corner_cell ind))
  let heap2 := Function.update heap1 tmpSurf
    (env.down_sample_filter_surface (heap1 (g.m_laser_cloud_surface_array ind)))
  { lm with
    grid :=
      { m_laser_cloud_corner_array := Function.update g.m_laser_cloud_corner_array ind tmpCorner
        m_laser_cloud_surface_array := Function.update g.m_laser_cloud_surface_array ind tmpSurf
        heap := heap2 }
    heap_next := lm.heap_next + 2 }

/-- The routine `compute_interpolatation_rodrigue(q_in, angle_axis, angle_theta, hat)` followed
by `m_interpolatation_omega_hat_sq2 = hat * hat`. -/
def compute_interpolatation_rodrigue (env : Mapping_env K) (lm : Laser_mapping K) :
    Laser_mapping K :=
  let aa := env.AngleAxis lm.m_q_w_incre
  let angle_axis := aa.1.divScalar (aa.1.norm env.cm)
  let hat : Matrix3d K :=
    ⟨⟨0, -angle_axis.z, angle_axis.y⟩, ⟨angle_axis.z, 0, -angle_axis.x⟩,
      ⟨-angle_axis.y, angle_axis.x, 0⟩⟩
  { lm with
    m_interpolatation_theta := aa.2
    m_interpolatation_omega_hat := hat
    m_interpolatation_omega_hat_sq2 := hat.mul hat }

/-- The rest of a frame that is not rejected: the down-sampled corner and surface points are
inserted into the map, the valid cells are down-sampled, the Rodrigues parameters of the
incremental rotation are stored and `frameCount` is incremented (publishing and file output
leave the state alone). -/
def finish_frame (env : Mapping_env K) (lm : Laser_mapping K) (valid : List Nat)
    (laserCloudCornerStack laserCloudSurfStack : List (PointType K)) : Laser_mapping K :=
  let lm1 := laserCloudCornerStack.foldl (map_insert_corner env.cm) lm
  let lm2 := laserCloudSurfStack.foldl (map_insert_surface env.cm) lm1
  let lm3 := valid.foldl (downsample_cell env) lm2
  let lm4 := compute_interpolatation_rodrigue env lm3
  { lm4 with frameCount := lm4.frameCount + 1 }

/-- The state after the hand-over and the six recentring loops of a frame, with the final
`centerCubeI`, `centerCubeJ`, `centerCubeK`. -/
def recentred (env : Mapping_env K) (lm : Laser_mapping K) (pair : Data_pair K) :
    Laser_mapping K × Int × Int × Int :=
  let lm1 := hand_over lm (env.find_max_intensity pair.m_pc_full)
  recentre lm1
    (cube_coord lm1.m_t_w_curr.x lm1.m_para_laser_cloud_center_width)
    (cube_coord lm1.m_t_w_curr.y lm1.m_para_laser_cloud_center_height)
    (cube_coord lm1.m_t_w_curr.z lm1.m_para_laser_cloud_center_depth)

/-- The indices stored in `m_laser_cloud_valid_Idx` for a frame. -/
def frame_valid (env : Mapping_env K) (lm : Laser_mapping K) (pair : Data_pair K) : List Nat :=
  Cube_grid.valid_indices (recentred env lm pair).1.m_para_laser_cloud_width
    (recentred env lm pair).1.m_para_laser_cloud_height
    (recentred env lm pair).1.m_para_laser_cloud_depth
    (recentred env lm pair).2.1 (recentred env lm pair).2.2.1 (recentred env lm pair).2.2.2

/-- The local corner map `m_laser_cloud_corner_from_map` of a frame. -/
def frame_corner_map (env : Mapping_env K) (lm : Laser_mapping K) (pair : Data_pair K) :
    List (PointType K) :=
  (recentred env lm pair).1.grid.corner_from_map (frame_valid env lm pair)

/-- The local surface map `m_laser_cloud_surf_from_map` of a frame. -/
def frame_surf_map (env : Mapping_env K) (lm : Laser_mapping K) (pair : Data_pair K) :
    List (PointType K) :=
  (recentred env lm pair).1.grid.surf_from_map (frame_valid env lm pair)

/-- The registration gate of a frame, on `laserCloudCornerFromMapNum`,
`laserCloudSurfFromMapNum` and `frameCount`. -/
def frame_gate (env : Mapping_env K) (lm : Laser_mapping K) (pair : Data_pair K) : Prop :=
  registration_gate ((frame_corner_map env lm pair).length : Int)
    ((frame_surf_map env lm pair).length : Int) (recentred env lm pair).1.frameCount
    (recentred env lm pair).1.m_mapping_init_accumulate_frames

instance (env : Mapping_env K) (lm : Laser_mapping K) (pair : Data_pair K) :
    Decidable (frame_gate env lm pair) := by
  unfold frame_gate
  exact inferInstance

/-- The registration loop of a frame on the down-sampled feature clouds
`laserCloudCornerStack` and `laserCloudSurfStack`: the state, `angular_diff` and
`minimize_cost` after it. -/
def frame_registration (env : Mapping_env K) (lm : Laser_mapping K) (pair : Data_pair K) :
    Laser_mapping K × K × K :=
  icp_loop env (frame_corner_map env lm pair) (frame_surf_map env lm pair)
    (env.down_sample_filter_corner pair.m_pc_corner)
    (env.down_sample_filter_surface pair.m_pc_plane) (recentred env lm pair).1

/-- One pass of the `while (1)` loop of `process` for the frame `pair` taken from the queue. -/
def process_frame (env : Mapping_env K) (lm : Laser_mapping K) (pair : Data_pair K) :
    Frame_result K :=
  if frame_gate env lm pair then
    if (frame_registration env lm pair).2.1
          > (frame_registration env lm pair).1.m_para_max_angular_rate
        ∨ (frame_registration env lm pair).2.2
          > (frame_registration env lm pair).1.m_max_final_cost then
      { state := reject_update (frame_registration env lm pair).1, registration_ran := true,
        rejected := true, angular_diff := (frame_registration env lm pair).2.1,
        minimize_cost := (frame_registration env lm pair).2.2 }
    else
      { state := finish_frame env (frame_registration env lm pair).1 (frame_valid env lm pair)
          (env.down_sample_filter_corner pair.m_pc_corner)
          (env.down_sample_filter_surface pair.m_pc_plane),
        registration_ran := true, rejected := false,
        angular_diff := (frame_registration env lm pair).2.1,
        minimize_cost := (frame_registration env lm pair).2.2 }
  else
    { state := finish_frame env (recentred env lm pair).1 (frame_valid env lm pair)
        (env.down_sample_filter_corner pair.m_pc_corner)
        (env.down_sample_filter_surface pair.m_pc_plane),
      registration_ran := false, rejected := false, angular_diff := 0,
      minimize_cost := env.summary_initial_final_cost }

end Laser_mapping

/-- Two states that differ at most in the map (grid, next address), the Rodrigues parameters
and `frameCount`: the three poses, the time stamps, the origin offsets, the grid size and the
configuration are the same. -/
structure Laser_mapping.SameExceptMap {K : Type} (lm lm1 : Laser_mapping K) : Prop where
  q_curr : lm1.m_q_w_curr = lm.m_q_w_curr
  t_curr : lm1.m_t_w_curr = lm.m_t_w_curr
  q_last : lm1.m_q_w_last = lm.m_q_w_last
  t_last : lm1.m_t_w_last = lm.m_t_w_last
  q_incre : lm1.m_q_w_incre = lm.m_q_w_incre
  t_incre : lm1.m_t_w_incre = lm.m_t_w_incre
  last_time_stamp : lm1.m_last_time_stamp = lm.m_last_time_stamp
  center_width : lm1.m_para_laser_cloud_center_width = lm.m_para_laser_cloud_center_width
  center_height : lm1.m_para_laser_cloud_center_height = lm.m_para_laser_cloud_center_height
  center_depth : lm1.m_para_laser_cloud_center_depth = lm.m_para_laser_cloud_center_depth
  width : lm1.m_para_laser_cloud_width = lm.m_para_laser_cloud_width
  height : lm1.m_para_laser_cloud_height = lm.m_para_laser_cloud_height
  depth : lm1.m_para_laser_cloud_depth = lm.m_para_laser_cloud_depth
  deblur : lm1.MOTION_DEBLUR = lm.MOTION_DEBLUR

/-- Two states that differ at most in the current and the incremental pose. -/
structure Laser_mapping.SameExceptPose {K : Type} (lm lm1 : Laser_mapping K) : Prop where
  q_last : lm1.m_q_w_last = lm.m_q_w_last
  t_last : lm1.m_t_w_last = lm.m_t_w_last
  grid : lm1.grid = lm.grid
  frameCount : lm1.frameCount = lm.frameCount
  last_time_stamp : lm1.m_last_time_stamp = lm.m_last_time_stamp
  minimum_pt_time_stamp : lm1.m_minimum_pt_time_stamp = lm.m_minimum_pt_time_stamp
  center_width : lm1.m_para_laser_cloud_center_width = lm.m_para_laser_cloud_center_width
  center_height : lm1.m_para_laser_cloud_center_height = lm.m_para_laser_cloud_center_height
  center_depth : lm1.m_para_laser_cloud_center_depth = lm.m_para_laser_cloud_center_depth
  max_angular_rate : lm1.m_para_max_angular_rate = lm.m_para_max_angular_rate
  max_final_cost : lm1.m_max_final_cost = lm.m_max_final_cost
  width : lm1.m_para_laser_cloud_width = lm.m_para_laser_cloud_width
  height : lm1.m_para_laser_cloud_height = lm.m_para_laser_cloud_height
  depth : lm1.m_para_laser_cloud_depth = lm.m_para_laser_cloud_depth
  deblur : lm1.MOTION_DEBLUR = lm.MOTION_DEBLUR

/-! ## Example frames for the frame loop -/

/-- A grid for the frame examples: cell `x` holds the corner cloud at address `2 x` and the
surface cloud at address `2 x + 1`; the centre cell `50 + 101 * 50 + 101 * 101 * 50 = 515150`
holds one corner point and 51 surface points, every other cloud is empty. -/
def dense_grid : Cube_grid ℚ :=
  { m_laser_cloud_corner_array := fun x => 2 * x
    m_laser_cloud_surface_array := fun x => 2 * x + 1
    heap := fun p =>
      if p = 1030300 then [⟨0, 0, 0, 0⟩]
      else if p = 1030301 then List.replicate 51 ⟨0, 0, 0, 0⟩ else [] }

/-- A state with the constructor's configuration (grid 101 x 101 x 101, origin offsets 50,
20 passes of the registration loop, `m_para_max_angular_rate = 200.0 / 50.0`,
`m_max_final_cost = 100.0`, 100 warm-up frames, motion deblur on) on `dense_grid`, with the
given `frameCount`: the current pose is the identity at the origin, the last pose is the
identity at `(1, 0, 0)`. -/
def dense_state (frameCount : Int) : Laser_mapping ℚ :=
  { frameCount := frameCount
    MOTION_DEBLUR := 1
    m_para_icp_max_iterations := 20
    m_para_max_angular_rate := 200 / 50
    m_max_final_cost := 100
    m_mapping_init_accumulate_frames := 100
    m_para_laser_cloud_center_width := 50
    m_para_laser_cloud_center_height := 50
    m_para_laser_cloud_center_depth := 50
    m_para_laser_cloud_width := 101
    m_para_laser_cloud_height := 101
    m_para_laser_cloud_depth := 101
    m_last_time_stamp := 0
    m_minimum_pt_time_stamp := 0
    m_maximum_pt_time_stamp := 0
    m_interpolatation_theta := 0
    m_interpolatation_omega_hat := Matrix3d.Zero
    m_interpolatation_omega_hat_sq2 := Matrix3d.Zero
    m_q_w_curr := ⟨1, 0, 0, 0⟩
    m_t_w_curr := ⟨0, 0, 0⟩
    m_q_w_last := ⟨1, 0, 0, 0⟩
    m_t_w_last := ⟨1, 0, 0⟩
    m_q_w_incre := ⟨1, 0, 0, 0⟩
    m_t_w_incre := ⟨0, 0, 0⟩
    grid := dense_grid
    heap_next := 2060602 }

/-- Library routines for the frame examples: a solver that returns the identity rotation, the
translation `t` and the final cost `cost` whatever the problem, filters that keep every point,
and an angular distance that is 0. -/
def example_mapping_env (t : Vector3d ℚ) (cost : ℚ) : Mapping_env ℚ :=
  { cm := ⟨fun x => x, fun _ => 0, fun _ => 1, fun _ => 0, fun _ => true, 0⟩
    find_max_intensity := fun _ => 1
    down_sample_filter_corner := fun l => l
    down_sample_filter_surface := fun l => l
    icp_solve := fun _ _ _ _ _ => (⟨1, 0, 0, 0⟩, t, cost)
    angularDistance := fun _ _ => 0
    AngleAxis := fun _ => (⟨1, 0, 0⟩, 0)
    summary_initial_final_cost := -1 }

/-- A frame for the frame examples: one corner point, one surface point, and both in the full
cloud; the intensities hold the temporal fraction `1 / 2`. -/
def example_pair : Data_pair ℚ :=
  { m_pc_corner := [⟨1, 1, 1, 1 / 2⟩]
    m_pc_plane := [⟨1, 2, 1, 1 / 2⟩]
    m_pc_full := [⟨1, 1, 1, 1 / 2⟩, ⟨1, 2, 1, 1 / 2⟩] }

/-! ## `laser_mapping.hpp`: the input queue, the map snapshot and the solver bounds -/

namespace Laser_mapping

/-- The loop `while (m_queue_avail_data.size() >= (unsigned int) m_max_buffer_size)
m_queue_avail_data.pop();` on the queue given oldest frame first, `bound` being the value of
`(unsigned int) m_max_buffer_size`; `none` stands for `pop()` on an empty queue. -/
def drop_old_frames {α : Type} (bound : Nat) : List α → Option (List α)
  | [] => if 0 ≥ bound then none else some []
  | x :: q => if (x :: q).length ≥ bound then drop_old_frames bound q else some (x :: q)

/-- The queue handling of one pass of `process` once the queue is not empty: the drop loop,
then `current_data_pair = m_queue_avail_data.front(); m_queue_avail_data.pop();`. The result
is the frame taken and the queue left; `none` stands for `front()` or `pop()` on an empty
queue. -/
def take_frame {α : Type} (m_max_buffer_size : Int) (m_queue_avail_data : List α) :
    Option (α × List α) :=
  match drop_old_frames (m_max_buffer_size % 4294967296).toNat m_queue_avail_data with
  | none => none
  | some [] => none
  | some (current_data_pair :: q) => some (current_data_pair, q)

/-- The cloud `laserCloudMap` of the map publication: the corner and the surface cloud of the
cells `i = 0, ..., 4850`, in this order. -/
def laserCloudMap {K : Type} (g : Cube_grid K) : List (PointType K) :=
  (List.range 4851).foldl (fun acc i => acc ++ g.corner_cell i ++ g.surface_cell i) []

/-- The map publication `if (frameCount % 20 == 0) { ... m_pub_laser_cloud_map.publish(...) }`:
the cloud published, if any. -/
def publish_laser_cloud_map {K : Type} (lm : Laser_mapping K) : Option (List (PointType K)) :=
  if Int.tmod lm.frameCount 20 = 0 then some (laserCloudMap lm.grid) else none

/-- The number of cells `m_laser_cloud_num = m_para_laser_cloud_width
* m_para_laser_cloud_height * m_para_laser_cloud_depth`. -/
def m_laser_cloud_num {K : Type} (lm : Laser_mapping K) : Nat :=
  lm.m_para_laser_cloud_width * lm.m_para_laser_cloud_height * lm.m_para_laser_cloud_depth

end Laser_mapping

namespace Zvision_laser

/-- The values of `idx` in the passes of the loop of `compute_features`, in order; each pass
starts by reading `m_pts_info_vec[idx]`. -/
def compute_features_indices {K : Type} (zl : Zvision_laser K) : List Nat :=
  let pts_size : Nat := zl.m_raw_pts_vec.length % 4294967296
  let bound : Nat := (pts_size + 18446744073709551616 - curvature_ssd_size) % 18446744073709551616
  List.range' curvature_ssd_size (bound - curvature_ssd_size)

/-- The values of `idx = 10000 * laser + group` in the passes of the loops of
`compute_features_zvision`, in order; each pass starts by reading `m_pts_info_vec[idx]`. -/
def compute_features_zvision_indices : List Nat :=
  [0, 1, 2].foldl
    (fun acc laser =>
      acc ++ (List.range' curvature_ssd_size
        (10000 - curvature_ssd_size - curvature_ssd_size)).map (fun group => 10000 * laser + group))
    []

end Zvision_laser

/-- What `process` sets on the `ceres::Problem` of a registration pass: the residual blocks and
the bounds of the parameter blocks. A parameter block is named by its offset in
`m_para_buffer_incremental` (0 for the rotation, 4 for the translation); `none` is an unset
bound. -/
structure Ceres_problem (K : Type) where
  residual_blocks : List Nat
  lower_bound : Nat → Nat → Option K
  upper_bound : Nat → Nat → Option K

namespace Ceres_problem

variable {K : Type}

/-- The call `problem.SetParameterLowerBound(values, index, lower_bound)`. -/
def SetParameterLowerBound (problem : Ceres_problem K) (values index : Nat) (lower_bound : K) :
    Ceres_problem K :=
  { problem with
    lower_bound := fun v i =>
      if v = values ∧ i = index then some lower_bound else problem.lower_bound v i }

/-- The call `problem.SetParameterUpperBound(values, index, upper_bound)`. -/
def SetParameterUpperBound (problem : Ceres_problem K) (values index : Nat) (upper_bound : K) :
    Ceres_problem K :=
  { problem with
    upper_bound := fun v i =>
      if v = values ∧ i = index then some upper_bound else problem.upper_bound v i }

/-- The call `problem.RemoveResidualBlock(id)`. -/
def RemoveResidualBlock (problem : Ceres_problem K) (id : Nat) : Ceres_problem K :=
  { problem with residual_blocks := problem.residual_blocks.erase id }

end Ceres_problem

/-- The two Ceres calls of a registration pass: `ceres::Solve(options, &problem, &summary)`,
from the incremental pose in `m_para_buffer_incremental` to the pose it leaves there and
`summary.final_cost`, and `problem.Evaluate(eval_options, &total_cost, &residuals, ...)`. -/
structure Ceres_env (K : Type) where
  Solve : Ceres_problem K → Quaterniond K × Vector3d K → (Quaterniond K × Vector3d K) × K
  Evaluate : Ceres_problem K → Quaterniond K × Vector3d K → K × List K

/-- The problems handed to the two solves of a registration pass and what each solve left. -/
structure Solve_trace (K : Type) where
  problem_first : Ceres_problem K
  first : (Quaterniond K × Vector3d K) × K
  problem_second : Ceres_problem K
  second : (Quaterniond K × Vector3d K) × K

/-- The coefficient `v(i)` of a vector, `i = 0, 1, 2`. -/
def Vector3d.coeff {K : Type} (v : Vector3d K) (i : Nat) : K :=
  if i = 0 then v.x else if i = 1 then v.y else v.z

namespace Laser_mapping

variable {K : Type} [LinearOrderedField K]

/-- The routine `set_ceres_solver_bound(problem)`: for `i = 0, 1, 2` the lower bound
`-m_para_max_speed` and the upper bound `+m_para_max_speed` on component `i` of the block
`m_para_buffer_incremental + 4`. -/
def set_ceres_solver_bound (m_para_max_speed : K) (problem : Ceres_problem K) :
    Ceres_problem K :=
  [0, 1, 2].foldl
    (fun p i =>
      (p.SetParameterLowerBound 4 i (-m_para_max_speed)).SetParameterUpperBound 4 i
        m_para_max_speed)
    problem

/-- The two solves of one pass of the registration loop, on the problem built from the
correspondences: bounds, first solve, the outlier-pruning pass on what `Evaluate` reports,
bounds again, second solve. -/
def registration_solves (ce : Ceres_env K) (m_para_max_speed : K) (problem : Ceres_problem K)
    (residual_block_ids : List Nat) (incre : Quaterniond K × Vector3d K) : Solve_trace K :=
  let p1 := set_ceres_solver_bound m_para_max_speed problem
  let r1 := ce.Solve p1 incre
  let ev := ce.Evaluate p1 r1.1
  let removed := (remove_outliers ev.1 ev.2 residual_block_ids).1
  let p2 := removed.foldl Ceres_problem.RemoveResidualBlock p1
  let p3 := set_ceres_solver_bound m_para_max_speed p2
  let r2 := ce.Solve p3 r1.1
  { problem_first := p1, first := r1, problem_second := p3, second := r2 }

end Laser_mapping

/-- A solver that respects its bounds on the translation block: when a component has a lower
and an upper bound that do not exclude each other, the solved component lies between them. -/
def Ceres_env.RespectsBounds {K : Type} [LinearOrderedField K] (ce : Ceres_env K) : Prop :=
  ∀ (problem : Ceres_problem K) (x : Quaterniond K × Vector3d K) (i : Nat) (l u : K),
    i < 3 → problem.lower_bound 4 i = some l → problem.upper_bound 4 i = some u → l ≤ u →
    l ≤ (ce.Solve problem x).1.2.coeff i ∧ (ce.Solve problem x).1.2.coeff i ≤ u

/-- The component `v` moved into the bounds of component `i` of the translation block. -/
def clamp_component (problem : Ceres_problem ℚ) (i : Nat) (v : ℚ) : ℚ :=
  let v1 := match problem.lower_bound 4 i with
    | some l => max l v
    | none => v
  match problem.upper_bound 4 i with
  | some u => min u v1
  | none => v1

/-- Library routines for the solver examples: a solve that keeps the rotation, moves each
translation component into its bounds and reports cost 0, and an `Evaluate` that reports no
residuals. -/
def clamp_env : Ceres_env ℚ :=
  { Solve := fun problem x =>
      ((x.1, ⟨clamp_component problem 0 x.2.x, clamp_component problem 1 x.2.y,
        clamp_component problem 2 x.2.z⟩), 0)
    Evaluate := fun _ _ => (0, []) }

/-- A problem for the solver examples: two residual blocks, no bounds. -/
def example_problem : Ceres_problem ℚ :=
  { residual_blocks := [0, 1], lower_bound := fun _ _ => none, upper_bound := fun _ _ => none }

/-- The residuals of three blocks as reported by `problem.Evaluate`, each `(0.01, 0.01, 0.01)`;
with `HuberLoss(0.1)` the total cost Ceres reports for them is `3 * 0.0003 / 2 = 0.00045`. -/
def even_residuals : List ℚ :=
  [1 / 100, 1 / 100, 1 / 100, 1 / 100, 1 / 100, 1 / 100, 1 / 100, 1 / 100, 1 / 100]

namespace Zvision_laser

/-- The temporal-order index of `get_features_zvision`, the numerator of the intensity written to
an emitted point: `(point_id % 10000) * 3 + (point_id / 10000)` with the truncating `int`
operators of C. -/
def temporal_order (point_id : Int) : Int :=
  (Int.tmod point_id 10000) * 3 + Int.tdiv point_id 10000

end Zvision_laser
/-! ## `laser_mapping.hpp`: the three cloud handlers -/

/-- The topic a cloud message arrives on: the corner cloud (`laserCloudCornerLastHandler`), the
surface cloud (`laserCloudSurfLastHandler`) or the full cloud (`laserCloudFullResHandler`). -/
inductive Cloud_kind where
  | corner : Cloud_kind
  | plane : Cloud_kind
  | full : Cloud_kind
  deriving DecidableEq

/-- The struct `Data_pair` as the handlers fill it: the three message pointers (null until set)
and the three flags, all `false` in a fresh object. -/
structure Data_pair_ros (M : Type) where
  m_pc_corner : Option M
  m_pc_full : Option M
  m_pc_plane : Option M
  m_has_pc_corner : Bool
  m_has_pc_full : Bool
  m_has_pc_plane : Bool

namespace Data_pair_ros

variable {M : Type}

/-- A fresh object `new Data_pair()`. -/
def init : Data_pair_ros M := ⟨none, none, none, false, false, false⟩

/-- The method `add_pc_corner(ros_pc)`. -/
def add_pc_corner (p : Data_pair_ros M) (ros_pc : M) : Data_pair_ros M :=
  { p with m_pc_corner := some ros_pc, m_has_pc_corner := true }

/-- The method `add_pc_plane(ros_pc)`. -/
def add_pc_plane (p : Data_pair_ros M) (ros_pc : M) : Data_pair_ros M :=
  { p with m_pc_plane := some ros_pc, m_has_pc_plane := true }

/-- The method `add_pc_full(ros_pc)`. -/
def add_pc_full (p : Data_pair_ros M) (ros_pc : M) : Data_pair_ros M :=
  { p with m_pc_full := some ros_pc, m_has_pc_full := true }

/-- The method `is_completed()`: `m_has_pc_corner & m_has_pc_full & m_has_pc_plane`. -/
def is_completed (p : Data_pair_ros M) : Bool :=
  (p.m_has_pc_corner && p.m_has_pc_full) && p.m_has_pc_plane

end Data_pair_ros

/-- The members the three handlers share: `m_map_data_pair` (time stamp to object) and
`m_queue_avail_data`. An object is created for one time stamp and never moves, so a pointer
in the queue is given by the time stamp of its object. -/
structure Handler_state (T M : Type) where
  m_map_data_pair : T → Option (Data_pair_ros M)
  m_queue_avail_data : List T

/-- A cloud message: its topic, its `header.stamp.toSec()` and the message itself. -/
structure Cloud_msg (T M : Type) where
  kind : Cloud_kind
  stamp : T
  cloud : M

namespace Handler_state

variable {T M : Type} [DecidableEq T]

/-- The state before any message: an empty map and an empty queue. -/
def initial : Handler_state T M := ⟨fun _ => none, []⟩

/-- The routine `get_data_pair(time_stamp)`: the object stored for the time stamp, a fresh one
being inserted when there is none. -/
def get_data_pair (st : Handler_state T M) (time_stamp : T) :
    Handler_state T M × Data_pair_ros M :=
  match st.m_map_data_pair time_stamp with
  | none =>
    ({ st with
        m_map_data_pair := Function.update st.m_map_data_pair time_stamp (some Data_pair_ros.init) },
      Data_pair_ros.init)
  | some date_pair => (st, date_pair)

/-- The common shape of the three handlers: look the object up, apply the `add_pc_*` method to
it, and push it on the queue if `is_completed()`. -/
def handler (add_pc : Data_pair_ros M → M → Data_pair_ros M) (st : Handler_state T M)
    (stamp : T) (msg : M) : Handler_state T M :=
  let found := get_data_pair st stamp
  let data_pair := add_pc found.2 msg
  let st1 : Handler_state T M :=
    { found.1 with
      m_map_data_pair := Function.update found.1.m_map_data_pair stamp (some data_pair) }
  if data_pair.is_completed then
    { st1 with m_queue_avail_data := st1.m_queue_avail_data ++ [stamp] }
  else st1

/-- The callback `laserCloudCornerLastHandler`. -/
def laserCloudCornerLastHandler (st : Handler_state T M) (stamp : T) (msg : M) :
    Handler_state T M :=
  handler Data_pair_ros.add_pc_corner st stamp msg

/-- The callback `laserCloudSurfLastHandler`. -/
def laserCloudSurfLastHandler (st : Handler_state T M) (stamp : T) (msg : M) :
    Handler_state T M :=
  handler Data_pair_ros.add_pc_plane st stamp msg

/-- The callback `laserCloudFullResHandler`. -/
def laserCloudFullResHandler (st : Handler_state T M) (stamp : T) (msg : M) :
    Handler_state T M :=
  handler Data_pair_ros.add_pc_full st stamp msg

/-- One message delivered to the callback of its topic. -/
def handle (st : Handler_state T M) (m : Cloud_msg T M) : Handler_state T M :=
  match m.kind with
  | Cloud_kind.corner => laserCloudCornerLastHandler st m.stamp m.cloud
  | Cloud_kind.plane => laserCloudSurfLastHandler st m.stamp m.cloud
  | Cloud_kind.full => laserCloudFullResHandler st m.stamp m.cloud

/-- A sequence of messages delivered in order, from the state before any message. -/
def handle_all (msgs : List (Cloud_msg T M)) : Handler_state T M :=
  msgs.foldl handle initial

/-- Whether the object of a time stamp exists and `is_completed()`. -/
def pair_completed (st : Handler_state T M) (t : T) : Bool :=
  match st.m_map_data_pair t with
  | some p => p.is_completed
  | none => false

end Handler_state

namespace Handler_state

variable {T M : Type} [DecidableEq T]

/-- The object of a time stamp as `get_data_pair` returns it: the stored one, or a fresh one. -/
def object (st : Handler_state T M) (t : T) : Data_pair_ros M :=
  (st.m_map_data_pair t).getD Data_pair_ros.init

/-- The `add_pc_*` method called by the handler of a topic. -/
def add_pc (k : Cloud_kind) : Data_pair_ros M → M → Data_pair_ros M :=
  match k with
  | Cloud_kind.corner => Data_pair_ros.add_pc_corner
  | Cloud_kind.plane => Data_pair_ros.add_pc_plane
  | Cloud_kind.full => Data_pair_ros.add_pc_full

/-- The messages of a sequence that carry the time stamp `t`, by topic. -/
def kinds_at (msgs : List (Cloud_msg T M)) (t : T) : List Cloud_kind :=
  (msgs.filter (fun m => decide (m.stamp = t))).map Cloud_msg.kind

end Handler_state

namespace Quaterniond

variable {K : Type} [LinearOrderedField K]

/-- The squared norm `q.squaredNorm()` of the four coefficients. -/
def squaredNorm (q : Quaterniond K) : K := q.w * q.w + q.x * q.x + q.y * q.y + q.z * q.z

/-- The conjugate `q.conjugate()`. -/
def conjugate (q : Quaterniond K) : Quaterniond K := ⟨q.w, -q.x, -q.y, -q.z⟩

/-- The inverse `q.inverse()` as Eigen evaluates it: the conjugate divided by the squared norm
when that is positive, the zero quaternion otherwise. -/
def inverse (q : Quaterniond K) : Quaterniond K :=
  let n2 := q.squaredNorm
  if n2 > 0 then
    ⟨q.conjugate.w / n2, q.conjugate.x / n2, q.conjugate.y / n2, q.conjugate.z / n2⟩
  else ⟨0, 0, 0, 0⟩

end Quaterniond

namespace Laser_mapping

variable {K : Type} [LinearOrderedField K]

/-- The routine `pointAssociateTobeMapped(pi, po)`: the point `po` written,
`m_q_w_curr.inverse() * (point_w - m_t_w_curr)` with the intensity of `pi`. -/
def pointAssociateTobeMapped (lm : Laser_mapping K) (pi : PointType K) : PointType K :=
  let point_w : Vector3d K := ⟨pi.x, pi.y, pi.z⟩
  let point_curr : Vector3d K := lm.m_q_w_curr.inverse.transformVector (point_w.sub lm.m_t_w_curr)
  ⟨point_curr.x, point_curr.y, point_curr.z, pi.intensity⟩

end Laser_mapping

/-! ## `laser_mapping.hpp`: the corner correspondences of the registration loop -/

/-- Outer product `a * b.transpose()` of two column vectors. -/
def Vector3d.outer {K : Type} [Field K] (a b : Vector3d K) : Matrix3d K :=
  ⟨b.scale a.x, b.scale a.y, b.scale a.z⟩

/-- What the corner correspondence search takes from libraries: `cmath`, the query
`nearestKSearch(point, k, indices, sq_distances)` of the kd-tree built on a cloud, and the
eigenvalues of `Eigen::SelfAdjointEigenSolver` (sorted in increasing order). -/
structure Search_env (K : Type) where
  cm : Cmath K
  nearestKSearch : List (PointType K) → PointType K → Nat → List Nat × List K
  eigenvalues : Matrix3d K → Vector3d K

namespace Laser_mapping

variable {K : Type} [LinearOrderedField K]

/-- The global `line_search_num = 5`. -/
def line_search_num : Nat := 5

/-- The routine `pcl_pt_to_eigend(pt)`. -/
def pcl_pt_to_eigend (pt : PointType K) : Vector3d K := ⟨pt.x, pt.y, pt.z⟩

/-- The vector `nearCorners`: the points of the local corner map at the `line_search_num`
indices returned by the search. -/
def nearCorners (m_laser_cloud_corner_from_map : List (PointType K))
    (m_point_search_Idx : List Nat) : List (Vector3d K) :=
  (List.range line_search_num).map
    (fun j => pcl_pt_to_eigend
      (m_laser_cloud_corner_from_map.getD (m_point_search_Idx.getD j 0) PointType.init))

/-- The matrix `covMat`: the sum over the neighbours of `(p - center) * (p - center)^T`, with
`center` their sum divided by `line_search_num`. -/
def corner_covMat (m_laser_cloud_corner_from_map : List (PointType K))
    (m_point_search_Idx : List Nat) : Matrix3d K :=
  let near := nearCorners m_laser_cloud_corner_from_map m_point_search_Idx
  let center := (near.foldl Vector3d.add ⟨0, 0, 0⟩).divScalar (line_search_num : K)
  near.foldl (fun covMat p => covMat.add ((p.sub center).outer (p.sub center))) Matrix3d.Zero

/-- The flag `line_is_avail`: the largest eigenvalue of `covMat` exceeds three times the
second largest. -/
def line_is_avail (env : Search_env K) (m_laser_cloud_corner_from_map : List (PointType K))
    (m_point_search_Idx : List Nat) : Prop :=
  (env.eigenvalues (corner_covMat m_laser_cloud_corner_from_map m_point_search_Idx)).z
    > 3 * (env.eigenvalues (corner_covMat m_laser_cloud_corner_from_map m_point_search_Idx)).y

instance (env : Search_env K) (cloud : List (PointType K)) (idx : List Nat) :
    Decidable (line_is_avail env cloud idx) := by
  unfold line_is_avail
  exact inferInstance

/-- One iteration of the corner loop of the registration (`ICP_LINE = 1`): the point is mapped
with the current pose (no deskew), its `line_search_num` nearest points of the local corner map
are searched, and if the last squared distance is below `2.0` and the neighbours pass the line
test, the factor `ceres_icp_point2line::Create(curr_point, map[Idx[0]], map[Idx[1]], 1.0,
q_last, t_last)` is added; the result is the factor added, if any. -/
def corner_factor (env : Search_env K) (lm : Laser_mapping K)
    (m_laser_cloud_corner_from_map : List (PointType K)) (pointOri : PointType K) :
    Option (ceres_icp_point2line K) :=
  let pointSel := pointAssociateToMap env.cm lm pointOri pointOri.intensity 0
  let found := env.nearestKSearch m_laser_cloud_corner_from_map pointSel line_search_num
  let m_point_search_Idx := found.1
  let m_point_search_sq_dis := found.2
  if m_point_search_sq_dis.getD (line_search_num - 1) 0 < 2 then
    let curr_point : Vector3d K := ⟨pointOri.x, pointOri.y, pointOri.z⟩
    if line_is_avail env m_laser_cloud_corner_from_map m_point_search_Idx then
      some (ceres_icp_point2line.Create env.cm curr_point
        (pcl_pt_to_eigend
          (m_laser_cloud_corner_from_map.getD (m_point_search_Idx.getD 0 0) PointType.init))
        (pcl_pt_to_eigend
          (m_laser_cloud_corner_from_map.getD (m_point_search_Idx.getD 1 0) PointType.init))
        1 ⟨lm.m_q_w_last.w, lm.m_q_w_last.x, lm.m_q_w_last.y, lm.m_q_w_last.z⟩ lm.m_t_w_last)
    else none
  else none

end Laser_mapping

/-- A local corner map of five points on the `x` axis, `0.1` apart. -/
def axis_corner_map : List (PointType ℚ) :=
  [⟨0, 0, 0, 0⟩, ⟨1 / 10, 0, 0, 0⟩, ⟨2 / 10, 0, 0, 0⟩, ⟨3 / 10, 0, 0, 0⟩, ⟨4 / 10, 0, 0, 0⟩]

/-- Library routines for the query of the point `(0, 1/2, 0)` in `axis_corner_map`: the search
returns the five points in order of increasing distance with their squared distances, and the
eigenvalues of a matrix `diag(c, 0, 0)` with `c >= 0` are `0, 0, c`. -/
def axis_search_env : Search_env ℚ :=
  { cm := ⟨fun x => x, fun x => x, fun x => x, fun x => x, fun _ => true, 0⟩
    nearestKSearch := fun _ _ _ =>
      ([0, 1, 2, 3, 4], [25 / 100, 26 / 100, 29 / 100, 34 / 100, 41 / 100])
    eigenvalues := fun m => ⟨0, 0, m.r0.x⟩ }

namespace Zvision_laser

variable {K : Type} [LinearOrderedField K]

/-- The record of point `idx` after `compute_features_zvision()` has run on a state. -/
def after_zvision (env : Feature_env K) (zl : Zvision_laser K) (idx : Nat) : Pt_infos K :=
  (compute_features_zvision env zl).m_pts_info_vec.getD idx Pt_infos.init

/-- The record of point `idx` after `compute_features()` has run on a state. -/
def after_features (env : Feature_env K) (zl : Zvision_laser K) (idx : Nat) : Pt_infos K :=
  (compute_features env zl).m_pts_info_vec.getD idx Pt_infos.init

/-- Neither neighbour of `idx` at offset `±1` carries the zero or the nan bit in its type. -/
def clean_adjacent (infos : List (Pt_infos K)) (idx : Nat) : Prop :=
  int_and (infos.getD (idx + 1) Pt_infos.init).pt_type e_pt_000 = 0
  ∧ int_and (infos.getD (idx - 1) Pt_infos.init).pt_type e_pt_000 = 0
  ∧ int_and (infos.getD (idx + 1) Pt_infos.init).pt_type e_pt_nan = 0
  ∧ int_and (infos.getD (idx - 1) Pt_infos.init).pt_type e_pt_nan = 0

end Zvision_laser

/-- The environment `example_env` with every view angle `10 / 57.3` radian, which the code
turns into exactly `10` degrees, the default `minimum_view_angle`. -/
def grazing_env : Feature_env ℚ :=
  { cm := example_env.cm
    angle_data := example_env.angle_data
    vector_angle := fun _ _ _ => 100 / 573 }

namespace Laser_mapping

variable {K : Type} [LinearOrderedField K]

/-- The Rodrigues branch (`if (1)`) of `pointAssociateToMap`: the world point
`m_q_w_last * (R * point_curr + m_t_w_incre * s) + m_t_w_last` with
`R = I + sin(theta * s) * omega_hat + (1 - cos(theta * s)) * omega_hat_sq2`
(`BLUR_SCALE = 1.0`). -/
def rodrigues_point (cm : Cmath K) (lm : Laser_mapping K) (point_curr : Vector3d K)
    (interpolate_s : K) : Vector3d K :=
  let interpolate_T := lm.m_t_w_incre.scale (interpolate_s * 1)
  let interpolate_R_theta := lm.m_interpolatation_theta * interpolate_s
  let interpolate_R_mat :=
    (Matrix3d.Identity.add
      (Matrix3d.smul (cm.sin interpolate_R_theta) lm.m_interpolatation_omega_hat)).add
      (Matrix3d.smul (1 - cm.cos interpolate_R_theta) lm.m_interpolatation_omega_hat_sq2)
  (lm.m_q_w_last.transformVector
    ((interpolate_R_mat.mulVec point_curr).add interpolate_T)).add lm.m_t_w_last

/-- The slerp branch of `pointAssociateToMap` (the `else` of `if (1)`, which is never run): the
world point `m_q_w_last * (m_q_I.slerp(s, m_q_w_incre) * point_curr + m_t_w_incre * s)
+ m_t_w_last`. -/
def slerp_point (cm : Cmath K) (lm : Laser_mapping K) (point_curr : Vector3d K)
    (interpolate_s : K) : Vector3d K :=
  let interpolate_q :=
    Quaterniond.slerp cm (⟨1, 0, 0, 0⟩ : Quaterniond K) (interpolate_s * 1) lm.m_q_w_incre
  let interpolate_T := lm.m_t_w_incre.scale (interpolate_s * 1)
  (lm.m_q_w_last.transformVector
    ((interpolate_q.transformVector point_curr).add interpolate_T)).add lm.m_t_w_last

/-- The axis that `compute_interpolatation_rodrigue` normalises and turns into the hat
matrix: `AngleAxisd(m_q_w_incre).axis()` divided by its norm. -/
def interpolatation_omega (env : Mapping_env K) (lm : Laser_mapping K) : Vector3d K :=
  (env.AngleAxis lm.m_q_w_incre).1.divScalar ((env.AngleAxis lm.m_q_w_incre).1.norm env.cm)

end Laser_mapping

/-- A state at rest for the deskew examples: identity current and last pose at the origin, the
given incremental pose, deblurring switched on, the configured grid size and an empty grid. -/
def rest_state {K : Type} [LinearOrderedField K] (q_incre : Quaterniond K)
    (t_incre : Vector3d K) : Laser_mapping K :=
  { frameCount := 0
    MOTION_DEBLUR := 1
    m_para_icp_max_iterations := 20
    m_para_max_angular_rate := 200 / 50
    m_max_final_cost := 100
    m_mapping_init_accumulate_frames := 100
    m_para_laser_cloud_center_width := 50
    m_para_laser_cloud_center_height := 50
    m_para_laser_cloud_center_depth := 50
    m_para_laser_cloud_width := 101
    m_para_laser_cloud_height := 101
    m_para_laser_cloud_depth := 101
    m_last_time_stamp := 0
    m_minimum_pt_time_stamp := 0
    m_maximum_pt_time_stamp := 0
    m_interpolatation_theta := 0
    m_interpolatation_omega_hat := Matrix3d.Zero
    m_interpolatation_omega_hat_sq2 := Matrix3d.Zero
    m_q_w_curr := ⟨1, 0, 0, 0⟩
    m_t_w_curr := ⟨0, 0, 0⟩
    m_q_w_last := ⟨1, 0, 0, 0⟩
    m_t_w_last := ⟨0, 0, 0⟩
    m_q_w_incre := q_incre
    m_t_w_incre := t_incre
    grid := ⟨fun i => i, fun i => i, fun _ => []⟩
    heap_next := 0 }

/-- Library routines for the deskew examples, over given `cmath` routines: `AngleAxisd(q)` is
Eigen's conversion of a unit quaternion (axis `q.vec() / n` with `n = |q.vec()|` negated when
`q.w() < 0`, angle `2 * atan2(n, |q.w()|)`, which is `2 * acos |q.w()|` for a unit quaternion;
axis `(1, 0, 0)` and angle `0` when `n == 0`); the other routines are those of
`example_mapping_env` and are not called by the deskew. -/
def axis_angle_env {K : Type} [LinearOrderedField K] (cm : Cmath K) : Mapping_env K :=
  { cm := cm
    find_max_intensity := fun _ => 1
    down_sample_filter_corner := fun l => l
    down_sample_filter_surface := fun l => l
    icp_solve := fun _ _ _ _ _ => (⟨1, 0, 0, 0⟩, ⟨0, 0, 0⟩, 0)
    angularDistance := fun _ _ => 0
    AngleAxis := fun q =>
      if q.vec.norm cm ≠ 0 then
        (q.vec.divScalar (if q.w < 0 then -(q.vec.norm cm) else q.vec.norm cm),
          2 * cm.acos |q.w|)
      else (⟨1, 0, 0⟩, 0)
    summary_initial_final_cost := -1 }

/-! ## Laws assumed of the `<cmath>` parameters -/

/-- What the deblur theorems need of `sin` and `acos`: `sin 0 = 0`, and the sine of the angle
between two quaternions that are not (numerically) parallel does not vanish. -/
structure Cmath.TrigLaws {K : Type} [LinearOrderedField K] (cm : Cmath K) : Prop where
  sin_zero : cm.sin 0 = 0
  sin_acos_ne_zero : ∀ x : K, 0 ≤ x → x < 1 - cm.epsilon → cm.sin (cm.acos x) ≠ 0

/-- What the residual theorems need of `sqrt`: it squares back on non-negative arguments. -/
structure Cmath.SqrtLaws {K : Type} [LinearOrderedField K] (cm : Cmath K) : Prop where
  mul_self_sqrt : ∀ x : K, 0 ≤ x → cm.sqrt x * cm.sqrt x = x

/-- What the comparison of the Rodrigues matrix with slerp needs of `sin`, `cos`, `acos` and
`sqrt`: the subtraction formula of the sine, the two double-angle formulas, `cos (acos x) = x`
and `sin (acos x) = sqrt (1 - x * x)` on `[0, 1]`, and `sqrt 1 = 1`. -/
structure Cmath.RotationLaws {K : Type} [LinearOrderedField K] (cm : Cmath K) : Prop where
  sin_sub : ∀ a b : K, cm.sin (a - b) = cm.sin a * cm.cos b - cm.cos a * cm.sin b
  sin_two_mul : ∀ a : K, cm.sin (2 * a) = 2 * cm.sin a * cm.cos a
  cos_two_mul : ∀ a : K, cm.cos (2 * a) = 1 - 2 * (cm.sin a * cm.sin a)
  cos_acos : ∀ x : K, 0 ≤ x → x ≤ 1 → cm.cos (cm.acos x) = x
  sin_acos : ∀ x : K, 0 ≤ x → x ≤ 1 → cm.sin (cm.acos x) = cm.sqrt (1 - x * x)
  sqrt_one : cm.sqrt 1 = 1

/-! # Theorems -/

section ResidualTheorems

variable {K : Type} [LinearOrderedField K]

theorem Quaterniond.slerp_Identity_zero (cm : Cmath K) (h : cm.TrigLaws) (q : Quaterniond K) :
    Quaterniond.slerp cm Quaterniond.Identity 0 q = Quaterniond.Identity := by
  have key : (if |Quaterniond.Identity.dot q| ≥ 1 - cm.epsilon then (1 : K) - 0
      else cm.sin ((1 - 0) * cm.acos |Quaterniond.Identity.dot q|)
        / cm.sin (cm.acos |Quaterniond.Identity.dot q|)) = 1 := by
    split_ifs with hc
    · ring
    · have hne := h.sin_acos_ne_zero _ (abs_nonneg (Quaterniond.Identity.dot q)) (not_le.mp hc)
      rw [sub_zero, one_mul]
      exact div_self hne
  have key1 : (if |Quaterniond.Identity.dot q| ≥ 1 - cm.epsilon then (0 : K)
      else cm.sin (0 * cm.acos |Quaterniond.Identity.dot q|)
        / cm.sin (cm.acos |Quaterniond.Identity.dot q|)) = 0 := by
    split_ifs with hc
    · rfl
    · rw [zero_mul, h.sin_zero, zero_div]
  unfold Quaterniond.slerp
  simp only [key, key1]
  ext <;> simp [Quaterniond.Identity]

theorem Quaterniond.transformVector_Identity (v : Vector3d K) :
    (Quaterniond.Identity : Quaterniond K).transformVector v = v := by
  ext <;> simp [Quaterniond.transformVector, Quaterniond.Identity, Quaterniond.vec,
    Vector3d.cross, Vector3d.add, Vector3d.scale]

theorem Quaterniond.transformVector_slerp_Identity_one (cm : Cmath K) (h : cm.TrigLaws)
    (q : Quaterniond K) (v : Vector3d K) :
    (Quaterniond.slerp cm Quaterniond.Identity 1 q).transformVector v = q.transformVector v := by
  have key : (if |Quaterniond.Identity.dot q| ≥ 1 - cm.epsilon then (1 : K) - 1
      else cm.sin ((1 - 1) * cm.acos |Quaterniond.Identity.dot q|)
        / cm.sin (cm.acos |Quaterniond.Identity.dot q|)) = 0 := by
    split_ifs with hc
    · ring
    · rw [sub_self, zero_mul, h.sin_zero, zero_div]
  have key1 : (if |Quaterniond.Identity.dot q| ≥ 1 - cm.epsilon then (1 : K)
      else cm.sin (1 * cm.acos |Quaterniond.Identity.dot q|)
        / cm.sin (cm.acos |Quaterniond.Identity.dot q|)) = 1 := by
    split_ifs with hc
    · rfl
    · have hne := h.sin_acos_ne_zero _ (abs_nonneg (Quaterniond.Identity.dot q)) (not_le.mp hc)
      rw [one_mul]
      exact div_self hne
  unfold Quaterniond.slerp
  simp only [key, key1]
  by_cases hd : Quaterniond.Identity.dot q < 0
  · simp only [hd, if_true]
    ext <;> simp [Quaterniond.transformVector, Quaterniond.vec, Vector3d.cross, Vector3d.add,
      Vector3d.scale] <;> ring
  · simp only [hd, if_false]
    ext <;> simp [Quaterniond.transformVector, Quaterniond.vec, Vector3d.cross, Vector3d.add,
      Vector3d.scale]

theorem pt_transfromed_zero (cm : Cmath K) (h : cm.TrigLaws) (q4 : Vector4d K)
    (t_last p : Vector3d K) (_q : Vector4d K) (_t : Vector3d K) :
    pt_transfromed cm q4 t_last 0 p _q _t
      = ((Quaterniond.mk q4.c0 q4.c1 q4.c2 q4.c3).transformVector p).add t_last := by
  unfold pt_transfromed
  simp only [Quaterniond.slerp_Identity_zero cm h, Quaterniond.transformVector_Identity]
  congr 2
  ext <;> simp [Vector3d.add, Vector3d.scale]

theorem pt_transfromed_one (cm : Cmath K) (h : cm.TrigLaws) (q4 : Vector4d K)
    (t_last p : Vector3d K) (_q : Vector4d K) (_t : Vector3d K) :
    pt_transfromed cm q4 t_last 1 p _q _t
      = ((Quaterniond.mk q4.c0 q4.c1 q4.c2 q4.c3).transformVector
          (((Quaterniond.mk _q.c3 _q.c0 _q.c1 _q.c2).transformVector p).add _t)).add t_last := by
  unfold pt_transfromed
  simp only [Quaterniond.transformVector_slerp_Identity_one cm h]
  congr 3
  ext <;> simp [Vector3d.scale]

/-- C5: for each of the three functors (point2point, point2line, point2plane), every scan point
`p`, every last pose `(q_last, t_last)` and every incremental pose `(_q, _t)`, the world point used
in the residual is `q_last * p + t_last` at temporal fraction `s = 0` and
`q_last * (q * p + t) + t_last` at `s = 1` (no unit-norm assumption on `q` is needed). -/
theorem C5_deblur_endpoints (cm : Cmath K) (h : cm.TrigLaws) (p c a b d : Vector3d K)
    (q_last : Vector4d K) (t_last : Vector3d K) (_q : Vector4d K) (_t : Vector3d K) :
    ((ceres_icp_point2point.construct p c 0 q_last t_last).world_point cm _q _t
        = ((Quaterniond.mk q_last.c0 q_last.c1 q_last.c2 q_last.c3).transformVector p).add t_last
      ∧ (ceres_icp_point2point.construct p c 1 q_last t_last).world_point cm _q _t
        = ((Quaterniond.mk q_last.c0 q_last.c1 q_last.c2 q_last.c3).transformVector
            (((Quaterniond.mk _q.c3 _q.c0 _q.c1 _q.c2).transformVector p).add _t)).add t_last)
    ∧ ((ceres_icp_point2line.construct cm p a b 0 q_last t_last).world_point cm _q _t
        = ((Quaterniond.mk q_last.c0 q_last.c1 q_last.c2 q_last.c3).transformVector p).add t_last
      ∧ (ceres_icp_point2line.construct cm p a b 1 q_last t_last).world_point cm _q _t
        = ((Quaterniond.mk q_last.c0 q_last.c1 q_last.c2 q_last.c3).transformVector
            (((Quaterniond.mk _q.c3 _q.c0 _q.c1 _q.c2).transformVector p).add _t)).add t_last)
    ∧ ((ceres_icp_point2plane.construct cm p a b d 0 q_last t_last).world_point cm _q _t
        = ((Quaterniond.mk q_last.c0 q_last.c1 q_last.c2 q_last.c3).transformVector p).add t_last
      ∧ (ceres_icp_point2plane.construct cm p a b d 1 q_last t_last).world_point cm _q _t
        = ((Quaterniond.mk q_last.c0 q_last.c1 q_last.c2 q_last.c3).transformVector
            (((Quaterniond.mk _q.c3 _q.c0 _q.c1 _q.c2).transformVector p).add _t)).add t_last) := by
  refine ⟨⟨?_, ?_⟩, ⟨?_, ?_⟩, ⟨?_, ?_⟩⟩
  · exact pt_transfromed_zero cm h q_last t_last p _q _t
  · exact pt_transfromed_one cm h q_last t_last p _q _t
  · exact pt_transfromed_zero cm h q_last t_last p _q _t
  · exact pt_transfromed_one cm h q_last t_last p _q _t
  · exact pt_transfromed_zero cm h q_last t_last p _q _t
  · exact pt_transfromed_one cm h q_last t_last p _q _t

theorem Vector3d.squaredNorm_sub_pos {a b : Vector3d K} (hab : a ≠ b) :
    0 < (b.sub a).squaredNorm := by
  have hne : b.x - a.x ≠ 0 ∨ b.y - a.y ≠ 0 ∨ b.z - a.z ≠ 0 := by
    by_contra hcon
    push_neg at hcon
    obtain ⟨h1, h2, h3⟩ := hcon
    apply hab
    ext
    · exact (sub_eq_zero.mp h1).symm
    · exact (sub_eq_zero.mp h2).symm
    · exact (sub_eq_zero.mp h3).symm
  simp only [Vector3d.squaredNorm, Vector3d.sub]
  rcases hne with h1 | h1 | h1
  · have := mul_self_pos.mpr h1
    nlinarith [mul_self_nonneg (b.y - a.y), mul_self_nonneg (b.z - a.z)]
  · have := mul_self_pos.mpr h1
    nlinarith [mul_self_nonneg (b.x - a.x), mul_self_nonneg (b.z - a.z)]
  · have := mul_self_pos.mpr h1
    nlinarith [mul_self_nonneg (b.x - a.x), mul_self_nonneg (b.y - a.y)]

/-- C6: for distinct anchors `a`, `b` and every scan point, pose and fraction such that the
transformed world point lies on the line through `a` and `b`, `ceres_icp_point2line::operator()`
writes the zero vector as residual (with `vector_project_on_unit_vector(v, u) = (v · u) u`). -/
theorem C6_point2line_zero_on_line (cm : Cmath K) (hs : cm.SqrtLaws) (p a b : Vector3d K)
    (s : K) (q_last : Vector4d K) (t_last : Vector3d K) (_q : Vector4d K) (_t : Vector3d K)
    (hab : a ≠ b)
    (hon : ∃ lam : K, (ceres_icp_point2line.construct cm p a b s q_last t_last).world_point cm _q _t
      = a.add ((b.sub a).scale lam)) :
    (ceres_icp_point2line.construct cm p a b s q_last t_last).operator_call cm _q _t
      = ⟨0, 0, 0⟩ := by
  obtain ⟨lam, hw⟩ := hon
  have hpos := Vector3d.squaredNorm_sub_pos hab
  have hn := hs.mul_self_sqrt _ (le_of_lt hpos)
  have hn0 : cm.sqrt ((b.sub a).squaredNorm) ≠ 0 := by
    intro h0
    rw [h0, mul_zero] at hn
    exact (ne_of_gt hpos) hn.symm
  unfold ceres_icp_point2line.operator_call
  simp only [hw]
  simp only [Vector3d.squaredNorm, Vector3d.sub] at hn hn0
  generalize hN : cm.sqrt ((b.x - a.x) * (b.x - a.x) + (b.y - a.y) * (b.y - a.y)
    + (b.z - a.z) * (b.z - a.z)) = n at hn hn0
  ext
  · simp only [ceres_icp_point2line.construct, Eigen_math.vector_project_on_unit_vector,
      Vector3d.norm, Vector3d.squaredNorm, Vector3d.sub, Vector3d.add, Vector3d.scale,
      Vector3d.divScalar, Vector3d.dot, hN]
    field_simp
    linear_combination (lam * (b.x - a.x)) * hn
  · simp only [ceres_icp_point2line.construct, Eigen_math.vector_project_on_unit_vector,
      Vector3d.norm, Vector3d.squaredNorm, Vector3d.sub, Vector3d.add, Vector3d.scale,
      Vector3d.divScalar, Vector3d.dot, hN]
    field_simp
    linear_combination (lam * (b.y - a.y)) * hn
  · simp only [ceres_icp_point2line.construct, Eigen_math.vector_project_on_unit_vector,
      Vector3d.norm, Vector3d.squaredNorm, Vector3d.sub, Vector3d.add, Vector3d.scale,
      Vector3d.divScalar, Vector3d.dot, hN]
    field_simp
    linear_combination (lam * (b.z - a.z)) * hn

/-- C7: for three anchors `a`, `b`, `c` (in particular non-colinear ones) and every scan point,
pose and fraction such that the transformed world point lies in the plane through `a`, `b` and
`c`, `ceres_icp_point2plane::operator()` writes the zero vector as residual. -/
theorem C7_point2plane_zero_on_plane (cm : Cmath K) (p a b c : Vector3d K)
    (s : K) (q_last : Vector4d K) (t_last : Vector3d K) (_q : Vector4d K) (_t : Vector3d K)
    (hon : ∃ lam mu : K,
      (ceres_icp_point2plane.construct cm p a b c s q_last t_last).world_point cm _q _t
        = (a.add ((b.sub a).scale lam)).add ((c.sub a).scale mu)) :
    (ceres_icp_point2plane.construct cm p a b c s q_last t_last).operator_call cm _q _t
      = ⟨0, 0, 0⟩ := by
  obtain ⟨lam, mu, hw⟩ := hon
  unfold ceres_icp_point2plane.operator_call
  simp only [hw]
  ext
  · simp only [ceres_icp_point2plane.construct, Eigen_math.vector_project_on_unit_vector,
      Vector3d.norm, Vector3d.sub, Vector3d.add, Vector3d.scale,
      Vector3d.divScalar, Vector3d.dot, Vector3d.cross, div_eq_mul_inv]
    ring
  · simp only [ceres_icp_point2plane.construct, Eigen_math.vector_project_on_unit_vector,
      Vector3d.norm, Vector3d.sub, Vector3d.add, Vector3d.scale,
      Vector3d.divScalar, Vector3d.dot, Vector3d.cross, div_eq_mul_inv]
    ring
  · simp only [ceres_icp_point2plane.construct, Eigen_math.vector_project_on_unit_vector,
      Vector3d.norm, Vector3d.sub, Vector3d.add, Vector3d.scale,
      Vector3d.divScalar, Vector3d.dot, Vector3d.cross, div_eq_mul_inv]
    ring

theorem real_TrigLaws :
    Cmath.TrigLaws (⟨Real.sqrt, Real.sin, Real.cos, Real.arccos, fun _ => true, 0⟩ : Cmath ℝ) := by
  constructor
  · exact Real.sin_zero
  · intro x hx0 hx1
    have hx1 : x < 1 := by simpa using hx1
    show Real.sin (Real.arccos x) ≠ 0
    rw [Real.sin_arccos]
    have hpos : 0 < 1 - x ^ 2 := by nlinarith
    exact (Real.sqrt_pos.mpr hpos).ne.symm

theorem real_SqrtLaws :
    Cmath.SqrtLaws (⟨Real.sqrt, Real.sin, Real.cos, Real.arccos, fun _ => true, 0⟩ : Cmath ℝ) :=
  ⟨fun _ hx => Real.mul_self_sqrt hx⟩

theorem C5_deblur_endpoints_witness :
    Cmath.TrigLaws (⟨Real.sqrt, Real.sin, Real.cos, Real.arccos, fun _ => true, 0⟩ : Cmath ℝ)
    ∧ (ceres_icp_point2line.construct
          (⟨Real.sqrt, Real.sin, Real.cos, Real.arccos, fun _ => true, 0⟩ : Cmath ℝ)
          ⟨1, 2, 3⟩ ⟨0, 0, 0⟩ ⟨1, 0, 0⟩ 1 ⟨0, 1, 0, 0⟩ ⟨5, 6, 7⟩).world_point
        (⟨Real.sqrt, Real.sin, Real.cos, Real.arccos, fun _ => true, 0⟩ : Cmath ℝ)
        ⟨0, 0, 1, 0⟩ ⟨1, 1, 1⟩
      = ((Quaterniond.mk (0 : ℝ) 1 0 0).transformVector
          (((Quaterniond.mk (0 : ℝ) 0 0 1).transformVector ⟨1, 2, 3⟩).add ⟨1, 1, 1⟩)).add
          ⟨5, 6, 7⟩ :=
  ⟨real_TrigLaws,
    (C5_deblur_endpoints _ real_TrigLaws ⟨1, 2, 3⟩ ⟨0, 0, 0⟩ ⟨0, 0, 0⟩ ⟨1, 0, 0⟩ ⟨0, 0, 0⟩
      ⟨0, 1, 0, 0⟩ ⟨5, 6, 7⟩ ⟨0, 0, 1, 0⟩ ⟨1, 1, 1⟩).2.1.2⟩

theorem pt_transfromed_identity_pose (cm : Cmath K) (h : cm.TrigLaws) (p : Vector3d K) :
    pt_transfromed cm ⟨1, 0, 0, 0⟩ ⟨0, 0, 0⟩ 1 p ⟨0, 0, 0, 1⟩ ⟨0, 0, 0⟩ = p := by
  rw [pt_transfromed_one cm h]
  ext <;> simp [Quaterniond.transformVector, Quaterniond.vec, Vector3d.cross, Vector3d.add,
    Vector3d.scale]

theorem C6_point2line_zero_on_line_witness :
    (⟨0, 0, 0⟩ : Vector3d ℝ) ≠ ⟨3, 4, 0⟩
    ∧ (ceres_icp_point2line.construct
          (⟨Real.sqrt, Real.sin, Real.cos, Real.arccos, fun _ => true, 0⟩ : Cmath ℝ)
          ⟨6, 8, 0⟩ ⟨0, 0, 0⟩ ⟨3, 4, 0⟩ 1 ⟨1, 0, 0, 0⟩ ⟨0, 0, 0⟩).operator_call
        (⟨Real.sqrt, Real.sin, Real.cos, Real.arccos, fun _ => true, 0⟩ : Cmath ℝ)
        ⟨0, 0, 0, 1⟩ ⟨0, 0, 0⟩
      = ⟨0, 0, 0⟩ := by
  have hab : (⟨0, 0, 0⟩ : Vector3d ℝ) ≠ ⟨3, 4, 0⟩ := by
    intro h
    have h3 := congrArg Vector3d.x h
    norm_num at h3
  refine ⟨hab, C6_point2line_zero_on_line _ real_SqrtLaws ⟨6, 8, 0⟩ ⟨0, 0, 0⟩ ⟨3, 4, 0⟩ 1
    ⟨1, 0, 0, 0⟩ ⟨0, 0, 0⟩ ⟨0, 0, 0, 1⟩ ⟨0, 0, 0⟩ hab ⟨2, ?_⟩⟩
  show pt_transfromed _ ⟨1, 0, 0, 0⟩ ⟨0, 0, 0⟩ 1 ⟨6, 8, 0⟩ ⟨0, 0, 0, 1⟩ ⟨0, 0, 0⟩ = _
  rw [pt_transfromed_identity_pose _ real_TrigLaws]
  ext <;> norm_num [Vector3d.add, Vector3d.sub, Vector3d.scale]

theorem C7_point2plane_zero_on_plane_witness :
    (ceres_icp_point2plane.construct
          (⟨Real.sqrt, Real.sin, Real.cos, Real.arccos, fun _ => true, 0⟩ : Cmath ℝ)
          ⟨2, 3, 0⟩ ⟨0, 0, 0⟩ ⟨1, 0, 0⟩ ⟨0, 1, 0⟩ 1 ⟨1, 0, 0, 0⟩ ⟨0, 0, 0⟩).operator_call
        (⟨Real.sqrt, Real.sin, Real.cos, Real.arccos, fun _ => true, 0⟩ : Cmath ℝ)
        ⟨0, 0, 0, 1⟩ ⟨0, 0, 0⟩
      = ⟨0, 0, 0⟩ := by
  refine C7_point2plane_zero_on_plane _ ⟨2, 3, 0⟩ ⟨0, 0, 0⟩ ⟨1, 0, 0⟩ ⟨0, 1, 0⟩ 1
    ⟨1, 0, 0, 0⟩ ⟨0, 0, 0⟩ ⟨0, 0, 0, 1⟩ ⟨0, 0, 0⟩ ⟨2, 3, ?_⟩
  show pt_transfromed _ ⟨1, 0, 0, 0⟩ ⟨0, 0, 0⟩ 1 ⟨2, 3, 0⟩ ⟨0, 0, 0, 1⟩ ⟨0, 0, 0⟩ = _
  rw [pt_transfromed_identity_pose _ real_TrigLaws]
  ext <;> norm_num [Vector3d.add, Vector3d.sub, Vector3d.scale]

theorem ceres_icp_point2line.operator_call_eq (cm : Cmath K) (hs : cm.SqrtLaws)
    (p a b : Vector3d K) (s : K) (q_last : Vector4d K) (t_last : Vector3d K) (_q : Vector4d K)
    (_t : Vector3d K) (hab : a ≠ b) :
    (ceres_icp_point2line.construct cm p a b s q_last t_last).operator_call cm _q _t
      = (((ceres_icp_point2line.construct cm p a b s q_last t_last).world_point cm _q _t).sub
          a).sub
          ((b.sub a).scale
            (((((ceres_icp_point2line.construct cm p a b s q_last t_last).world_point cm _q
                _t).sub a).dot (b.sub a)) / (b.sub a).squaredNorm)) := by
  have hpos := Vector3d.squaredNorm_sub_pos hab
  have hn := hs.mul_self_sqrt _ (le_of_lt hpos)
  have hn0 : cm.sqrt ((b.sub a).squaredNorm) ≠ 0 := by
    intro h0
    rw [h0, mul_zero] at hn
    exact (ne_of_gt hpos) hn.symm
  unfold ceres_icp_point2line.operator_call
  generalize (ceres_icp_point2line.construct cm p a b s q_last t_last).world_point cm _q _t = w
  simp only [Vector3d.squaredNorm, Vector3d.sub] at hn hn0
  generalize hN : cm.sqrt ((b.x - a.x) * (b.x - a.x) + (b.y - a.y) * (b.y - a.y)
    + (b.z - a.z) * (b.z - a.z)) = n at hn hn0
  have hn1 : (b.x - a.x) * (b.x - a.x) + (b.y - a.y) * (b.y - a.y)
    + (b.z - a.z) * (b.z - a.z) = n * n := hn.symm
  ext
  · simp only [ceres_icp_point2line.construct, Eigen_math.vector_project_on_unit_vector,
      Vector3d.norm, Vector3d.squaredNorm, Vector3d.sub, Vector3d.add, Vector3d.scale,
      Vector3d.divScalar, Vector3d.dot, hN]
    rw [hn1]
    field_simp
  · simp only [ceres_icp_point2line.construct, Eigen_math.vector_project_on_unit_vector,
      Vector3d.norm, Vector3d.squaredNorm, Vector3d.sub, Vector3d.add, Vector3d.scale,
      Vector3d.divScalar, Vector3d.dot, hN]
    rw [hn1]
    field_simp
  · simp only [ceres_icp_point2line.construct, Eigen_math.vector_project_on_unit_vector,
      Vector3d.norm, Vector3d.squaredNorm, Vector3d.sub, Vector3d.add, Vector3d.scale,
      Vector3d.divScalar, Vector3d.dot, hN]
    rw [hn1]
    field_simp

/-- C18: for distinct anchors `a`, `b` and the world point `w` of the functor, the residual `r`
written by `ceres_icp_point2line::operator()` is orthogonal to the unit direction
`u = (b - a) / |b - a|`, equals `(w - a) - ((w - a) · u) u`, is the difference between `w` and a
point of the line through `a` and `b`, and no point of that line is closer to `w`: its squared
length is the squared distance from `w` to the line. -/
theorem C18_point2line_orthogonal (cm : Cmath K) (hs : cm.SqrtLaws) (p a b : Vector3d K)
    (s : K) (q_last : Vector4d K) (t_last : Vector3d K) (_q : Vector4d K) (_t : Vector3d K)
    (hab : a ≠ b) :
    ((ceres_icp_point2line.construct cm p a b s q_last t_last).operator_call cm _q _t).dot
        ((b.sub a).divScalar ((b.sub a).norm cm)) = 0
    ∧ (ceres_icp_point2line.construct cm p a b s q_last t_last).operator_call cm _q _t
        = (((ceres_icp_point2line.construct cm p a b s q_last t_last).world_point cm _q _t).sub
            a).sub
          (((b.sub a).divScalar ((b.sub a).norm cm)).scale
            ((((ceres_icp_point2line.construct cm p a b s q_last t_last).world_point cm _q
              _t).sub a).dot ((b.sub a).divScalar ((b.sub a).norm cm))))
    ∧ (∃ lam : K, (ceres_icp_point2line.construct cm p a b s q_last t_last).operator_call cm _q _t
        = ((ceres_icp_point2line.construct cm p a b s q_last t_last).world_point cm _q _t).sub
            (a.add ((b.sub a).scale lam)))
    ∧ (∀ lam : K,
        ((ceres_icp_point2line.construct cm p a b s q_last t_last).operator_call cm _q
            _t).squaredNorm
          ≤ (((ceres_icp_point2line.construct cm p a b s q_last t_last).world_point cm _q
              _t).sub (a.add ((b.sub a).scale lam))).squaredNorm) := by
  have hpos := Vector3d.squaredNorm_sub_pos hab
  have hn := hs.mul_self_sqrt _ (le_of_lt hpos)
  have hn0 : cm.sqrt ((b.sub a).squaredNorm) ≠ 0 := by
    intro h0
    rw [h0, mul_zero] at hn
    exact (ne_of_gt hpos) hn.symm
  rw [ceres_icp_point2line.operator_call_eq cm hs p a b s q_last t_last _q _t hab]
  generalize (ceres_icp_point2line.construct cm p a b s q_last t_last).world_point cm _q _t = w
  simp only [Vector3d.norm]
  simp only [Vector3d.squaredNorm, Vector3d.sub] at hn hn0 hpos
  simp only [Vector3d.squaredNorm, Vector3d.sub, Vector3d.add, Vector3d.scale,
    Vector3d.divScalar, Vector3d.dot]
  generalize hN : cm.sqrt ((b.x - a.x) * (b.x - a.x) + (b.y - a.y) * (b.y - a.y)
    + (b.z - a.z) * (b.z - a.z)) = n at hn hn0
  have hn1 : (b.x - a.x) * (b.x - a.x) + (b.y - a.y) * (b.y - a.y)
    + (b.z - a.z) * (b.z - a.z) = n * n := hn.symm
  rw [hn1] at hpos ⊢
  have hnn : n * n ≠ 0 := ne_of_gt hpos
  generalize ht : ((w.x - a.x) * (b.x - a.x) + (w.y - a.y) * (b.y - a.y)
    + (w.z - a.z) * (b.z - a.z)) / (n * n) = t
  have hT : t * (n * n) = (w.x - a.x) * (b.x - a.x) + (w.y - a.y) * (b.y - a.y)
      + (w.z - a.z) * (b.z - a.z) := by
    rw [← ht]
    field_simp
  refine ⟨?_, ?_, ?_, ?_⟩
  · field_simp
    linear_combination (-1) * hT + (-t) * hn1
  · ext
    · show w.x - a.x - (b.x - a.x) * t = w.x - a.x - (b.x - a.x) / n
        * ((w.x - a.x) * ((b.x - a.x) / n) + (w.y - a.y) * ((b.y - a.y) / n)
          + (w.z - a.z) * ((b.z - a.z) / n))
      field_simp
      linear_combination (a.x - b.x) * hT
    · show w.y - a.y - (b.y - a.y) * t = w.y - a.y - (b.y - a.y) / n
        * ((w.x - a.x) * ((b.x - a.x) / n) + (w.y - a.y) * ((b.y - a.y) / n)
          + (w.z - a.z) * ((b.z - a.z) / n))
      field_simp
      linear_combination (a.y - b.y) * hT
    · show w.z - a.z - (b.z - a.z) * t = w.z - a.z - (b.z - a.z) / n
        * ((w.x - a.x) * ((b.x - a.x) / n) + (w.y - a.y) * ((b.y - a.y) / n)
          + (w.z - a.z) * ((b.z - a.z) / n))
      field_simp
      linear_combination (a.z - b.z) * hT
  · exact ⟨t, by ext <;> ring⟩
  · intro lam
    have hsq := mul_nonneg (sq_nonneg (t - lam)) (le_of_lt hpos)
    have key : (w.x - (a.x + (b.x - a.x) * lam)) * (w.x - (a.x + (b.x - a.x) * lam))
        + (w.y - (a.y + (b.y - a.y) * lam)) * (w.y - (a.y + (b.y - a.y) * lam))
        + (w.z - (a.z + (b.z - a.z) * lam)) * (w.z - (a.z + (b.z - a.z) * lam))
        - ((w.x - a.x - (b.x - a.x) * t) * (w.x - a.x - (b.x - a.x) * t)
          + (w.y - a.y - (b.y - a.y) * t) * (w.y - a.y - (b.y - a.y) * t)
          + (w.z - a.z - (b.z - a.z) * t) * (w.z - a.z - (b.z - a.z) * t))
        = (t - lam) ^ 2 * (n * n) := by
      linear_combination (-(2 * t - 2 * lam)) * hT + (lam ^ 2 - t ^ 2) * hn1
    linarith

theorem C18_point2line_orthogonal_witness :
    (⟨0, 0, 0⟩ : Vector3d ℝ) ≠ ⟨3, 4, 0⟩
    ∧ ((ceres_icp_point2line.construct
          (⟨Real.sqrt, Real.sin, Real.cos, Real.arccos, fun _ => true, 0⟩ : Cmath ℝ)
          ⟨1, 2, 3⟩ ⟨0, 0, 0⟩ ⟨3, 4, 0⟩ 1 ⟨1, 0, 0, 0⟩ ⟨0, 0, 0⟩).operator_call
        (⟨Real.sqrt, Real.sin, Real.cos, Real.arccos, fun _ => true, 0⟩ : Cmath ℝ)
        ⟨0, 0, 0, 1⟩ ⟨0, 0, 0⟩).dot
        (((⟨3, 4, 0⟩ : Vector3d ℝ).sub ⟨0, 0, 0⟩).divScalar
          (((⟨3, 4, 0⟩ : Vector3d ℝ).sub ⟨0, 0, 0⟩).norm
            (⟨Real.sqrt, Real.sin, Real.cos, Real.arccos, fun _ => true, 0⟩ : Cmath ℝ))) = 0 := by
  have hab : (⟨0, 0, 0⟩ : Vector3d ℝ) ≠ ⟨3, 4, 0⟩ := by
    intro h
    have h3 := congrArg Vector3d.x h
    norm_num at h3
  exact ⟨hab, (C18_point2line_orthogonal _ real_SqrtLaws ⟨1, 2, 3⟩ ⟨0, 0, 0⟩ ⟨3, 4, 0⟩ 1
    ⟨1, 0, 0, 0⟩ ⟨0, 0, 0⟩ ⟨0, 0, 0, 1⟩ ⟨0, 0, 0⟩ hab).1⟩

/-- C17 (code evaluated on the failing input): for the non-colinear anchors `a = (0, 0, 0)`,
`b = (1, 0, 0)`, `c = (3, 4, 0)` the constructor of `ceres_icp_point2plane` stores the normal
`(0, 0, 4/5)`, of squared length `16/25`, not 1; for the world point `(0, 0, 1)`, at distance 1
from the plane, `operator()` writes the residual `(0, 0, 16/25)`. -/
theorem C17_normal_not_unit :
    (ceres_icp_point2plane.construct
        (⟨Real.sqrt, Real.sin, Real.cos, Real.arccos, fun _ => true, 0⟩ : Cmath ℝ)
        ⟨0, 0, 1⟩ ⟨0, 0, 0⟩ ⟨1, 0, 0⟩ ⟨3, 4, 0⟩ 1 ⟨1, 0, 0, 0⟩ ⟨0, 0, 0⟩).m_unit_vec_n
      = ⟨0, 0, 4 / 5⟩
    ∧ ((ceres_icp_point2plane.construct
        (⟨Real.sqrt, Real.sin, Real.cos, Real.arccos, fun _ => true, 0⟩ : Cmath ℝ)
        ⟨0, 0, 1⟩ ⟨0, 0, 0⟩ ⟨1, 0, 0⟩ ⟨3, 4, 0⟩ 1 ⟨1, 0, 0, 0⟩
        ⟨0, 0, 0⟩).m_unit_vec_n).squaredNorm = 16 / 25
    ∧ (ceres_icp_point2plane.construct
        (⟨Real.sqrt, Real.sin, Real.cos, Real.arccos, fun _ => true, 0⟩ : Cmath ℝ)
        ⟨0, 0, 1⟩ ⟨0, 0, 0⟩ ⟨1, 0, 0⟩ ⟨3, 4, 0⟩ 1 ⟨1, 0, 0, 0⟩ ⟨0, 0, 0⟩).world_point
        (⟨Real.sqrt, Real.sin, Real.cos, Real.arccos, fun _ => true, 0⟩ : Cmath ℝ)
        ⟨0, 0, 0, 1⟩ ⟨0, 0, 0⟩ = ⟨0, 0, 1⟩
    ∧ (ceres_icp_point2plane.construct
        (⟨Real.sqrt, Real.sin, Real.cos, Real.arccos, fun _ => true, 0⟩ : Cmath ℝ)
        ⟨0, 0, 1⟩ ⟨0, 0, 0⟩ ⟨1, 0, 0⟩ ⟨3, 4, 0⟩ 1 ⟨1, 0, 0, 0⟩ ⟨0, 0, 0⟩).operator_call
        (⟨Real.sqrt, Real.sin, Real.cos, Real.arccos, fun _ => true, 0⟩ : Cmath ℝ)
        ⟨0, 0, 0, 1⟩ ⟨0, 0, 0⟩ = ⟨0, 0, 16 / 25⟩ := by
  have h5 : Real.sqrt 25 = 5 := by
    rw [show (25 : ℝ) = 5 * 5 by norm_num]
    exact Real.sqrt_mul_self (by norm_num)
  have hw : pt_transfromed
      (⟨Real.sqrt, Real.sin, Real.cos, Real.arccos, fun _ => true, 0⟩ : Cmath ℝ)
      ⟨1, 0, 0, 0⟩ ⟨0, 0, 0⟩ 1 ⟨0, 0, 1⟩ ⟨0, 0, 0, 1⟩ ⟨0, 0, 0⟩ = ⟨0, 0, 1⟩ :=
    pt_transfromed_identity_pose _ real_TrigLaws _
  have hn : (ceres_icp_point2plane.construct
        (⟨Real.sqrt, Real.sin, Real.cos, Real.arccos, fun _ => true, 0⟩ : Cmath ℝ)
        ⟨0, 0, 1⟩ ⟨0, 0, 0⟩ ⟨1, 0, 0⟩ ⟨3, 4, 0⟩ 1 ⟨1, 0, 0, 0⟩ ⟨0, 0, 0⟩).m_unit_vec_n
      = ⟨0, 0, 4 / 5⟩ := by
    ext <;>
      norm_num [ceres_icp_point2plane.construct, Vector3d.sub, Vector3d.norm,
        Vector3d.squaredNorm, Vector3d.divScalar, Vector3d.cross, h5]
  refine ⟨hn, ?_, hw, ?_⟩
  · rw [hn]
    norm_num [Vector3d.squaredNorm]
  · unfold ceres_icp_point2plane.operator_call ceres_icp_point2plane.world_point
    rw [hn]
    show _ = _
    simp only [ceres_icp_point2plane.construct]
    rw [hw]
    ext <;>
      norm_num [Eigen_math.vector_project_on_unit_vector, Vector3d.sub, Vector3d.scale,
        Vector3d.dot]

/-- C19 (code evaluated on the failing input): for `p = (1, 0, 0)`, target `(0, 0, 0)`, `s = 1`,
the last pose `q_last = (w, x, y, z) = (0, 0, 0, 1)`, `t_last = (5, 6, 7)` and the identity
incremental pose, the functor returned by `ceres_icp_point2point::Create` evaluates to
`(1, 0, 0)`: the supplied last pose is dropped. The constructor called with the same arguments,
as the other two `Create` functions call theirs, gives `(4, 6, 7) = q_last * p + t_last - c`. -/
theorem C19_create_drops_last_pose :
    (ceres_icp_point2point.Create ⟨1, 0, 0⟩ ⟨0, 0, 0⟩ 1 ⟨0, 0, 0, 1⟩ ⟨5, 6, 7⟩).operator_call
        (⟨Real.sqrt, Real.sin, Real.cos, Real.arccos, fun _ => true, 0⟩ : Cmath ℝ)
        ⟨0, 0, 0, 1⟩ ⟨0, 0, 0⟩ = ⟨1, 0, 0⟩
    ∧ (ceres_icp_point2point.construct ⟨1, 0, 0⟩ ⟨0, 0, 0⟩ 1 ⟨0, 0, 0, 1⟩ ⟨5, 6, 7⟩).operator_call
        (⟨Real.sqrt, Real.sin, Real.cos, Real.arccos, fun _ => true, 0⟩ : Cmath ℝ)
        ⟨0, 0, 0, 1⟩ ⟨0, 0, 0⟩ = ⟨4, 6, 7⟩
    ∧ (ceres_icp_point2point.Create ⟨1, 0, 0⟩ ⟨0, 0, 0⟩ (1 : ℝ) ⟨0, 0, 0, 1⟩ ⟨5, 6, 7⟩).m_q_last
        = ⟨1, 0, 0, 0⟩
    ∧ (ceres_icp_point2point.Create ⟨1, 0, 0⟩ ⟨0, 0, 0⟩ (1 : ℝ) ⟨0, 0, 0, 1⟩ ⟨5, 6, 7⟩).m_t_last
        = ⟨0, 0, 0⟩ := by
  refine ⟨?_, ?_, rfl, rfl⟩
  · unfold ceres_icp_point2point.operator_call ceres_icp_point2point.world_point
    simp only [ceres_icp_point2point.Create, ceres_icp_point2point.construct]
    rw [pt_transfromed_identity_pose _ real_TrigLaws]
    ext <;> norm_num
  · unfold ceres_icp_point2point.operator_call ceres_icp_point2point.world_point
    simp only [ceres_icp_point2point.construct]
    rw [pt_transfromed_one _ real_TrigLaws]
    ext <;>
      norm_num [Quaterniond.transformVector, Quaterniond.vec, Vector3d.cross, Vector3d.add,
        Vector3d.scale]

end ResidualTheorems

/-! ## Feature extraction -/

section FeatureTheorems

variable {K : Type} [LinearOrderedField K]

open Zvision_laser

theorem List.getD_set_of_ne {α : Type} (l : List α) (i j : Nat) (a d : α) (h : i ≠ j) :
    (l.set i a).getD j d = l.getD j d := by
  simp [List.getD_eq_getElem?_getD, List.getElem?_set_ne h]

theorem List.getD_set_self {α : Type} (l : List α) (i : Nat) (a d : α) (h : i < l.length) :
    (l.set i a).getD i d = a := by
  simp [List.getD_eq_getElem?_getD, h]

theorem List.getD_map_range {α : Type} (n i : Nat) (f : Nat → α) (d : α) (h : i < n) :
    ((List.range n).map f).getD i d = f i := by
  simp [List.getD_eq_getElem?_getD, h]

theorem Zvision_laser.SameGeometry.refl (zl : Zvision_laser K) : zl.SameGeometry zl :=
  ⟨rfl, rfl, rfl, rfl, rfl, fun _ => rfl, fun _ => rfl⟩

theorem Zvision_laser.accumulate_neighbors_congr (infos infos1 : List (Pt_infos K))
    (raw : List (PointType K)) (idx : Nat)
    (hT : ∀ j : Nat, (infos1.getD j Pt_infos.init).pt_type = (infos.getD j Pt_infos.init).pt_type)
    (l : List Nat) (s : Vector3d K × Int) :
    accumulate_neighbors infos1 raw idx l s = accumulate_neighbors infos raw idx l s := by
  induction l generalizing s with
  | nil => rfl
  | cons i rest ih =>
    obtain ⟨acc, label⟩ := s
    simp only [accumulate_neighbors, hT, ih]

theorem Zvision_laser.label_point_congr (env : Feature_env K) (zl0 zl : Zvision_laser K)
    (h : zl0.SameGeometry zl) (idx : Nat)
    (he : zl.m_pts_info_vec.getD idx Pt_infos.init = zl0.m_pts_info_vec.getD idx Pt_infos.init) :
    label_point env zl idx = label_point env zl0 idx := by
  have hacc := accumulate_neighbors_congr zl0.m_pts_info_vec zl.m_pts_info_vec
    zl0.m_raw_pts_vec idx h.pt_type
  have hfl : ∀ (l : Int) (c v d0 dm dp : K),
      feature_label zl l c v d0 dm dp = feature_label zl0 l c v d0 dm dp := by
    intro l c v d0 dm dp
    simp only [feature_label, h.thr_corner, h.thr_surface, h.min_view]
  unfold label_point
  simp only [he, h.raw, h.depth_sq2, hacc, hfl]

theorem Zvision_laser.label_point_pt_type (env : Feature_env K) (zl : Zvision_laser K)
    (idx : Nat) :
    (label_point env zl idx).pt_type = (zl.m_pts_info_vec.getD idx Pt_infos.init).pt_type
    ∧ (label_point env zl idx).depth_sq2
      = (zl.m_pts_info_vec.getD idx Pt_infos.init).depth_sq2 := by
  have key : ∀ res : Vector3d K × Int,
      accumulate_neighbors zl.m_pts_info_vec zl.m_raw_pts_vec idx [1, 2]
        (⟨0, 0, 0⟩, (zl.m_pts_info_vec.getD idx Pt_infos.init).pt_label) = res →
      (label_point env zl idx).pt_type = (zl.m_pts_info_vec.getD idx Pt_infos.init).pt_type
      ∧ (label_point env zl idx).depth_sq2
        = (zl.m_pts_info_vec.getD idx Pt_infos.init).depth_sq2 := by
    intro res hres
    simp only [label_point, hres]
    split_ifs <;> exact ⟨rfl, rfl⟩
  exact key _ rfl

theorem Zvision_laser.sweep_spec (zl0 : Zvision_laser K) (B : Nat)
    (F : Zvision_laser K → Nat → Pt_infos K)
    (step : Zvision_laser K → Nat → Zvision_laser K)
    (hstep : ∀ z g, step z g
      = { z with m_pts_info_vec := z.m_pts_info_vec.set (B + g) (F z g) })
    (hcongr : ∀ z g, zl0.SameGeometry z →
      z.m_pts_info_vec.getD (B + g) Pt_infos.init = zl0.m_pts_info_vec.getD (B + g) Pt_infos.init →
      F z g = F zl0 g)
    (hpres : ∀ z g, (F z g).pt_type = (z.m_pts_info_vec.getD (B + g) Pt_infos.init).pt_type
      ∧ (F z g).depth_sq2 = (z.m_pts_info_vec.getD (B + g) Pt_infos.init).depth_sq2) :
    ∀ (n s : Nat) (zl : Zvision_laser K), zl0.SameGeometry zl →
      (∀ g, s ≤ g → g < s + n → zl.m_pts_info_vec.getD (B + g) Pt_infos.init
        = zl0.m_pts_info_vec.getD (B + g) Pt_infos.init) →
      B + s + n ≤ zl0.m_pts_info_vec.length →
      zl0.SameGeometry ((List.range' s n).foldl step zl)
      ∧ (∀ j, (∀ g, s ≤ g → g < s + n → j ≠ B + g) →
          ((List.range' s n).foldl step zl).m_pts_info_vec.getD j Pt_infos.init
            = zl.m_pts_info_vec.getD j Pt_infos.init)
      ∧ (∀ g, s ≤ g → g < s + n →
          ((List.range' s n).foldl step zl).m_pts_info_vec.getD (B + g) Pt_infos.init
            = F zl0 g) := by
  intro n
  induction n with
  | zero =>
    intro s zl h _ _
    refine ⟨h, fun _ _ => rfl, ?_⟩
    intro g h1 h2
    omega
  | succ n ih =>
    intro s zl h hun hlen
    have hin : B + s < zl.m_pts_info_vec.length := by rw [h.length]; omega
    have hentry : ∀ j, (step zl s).m_pts_info_vec.getD j Pt_infos.init
        = if j = B + s then F zl s else zl.m_pts_info_vec.getD j Pt_infos.init := by
      intro j
      rw [hstep]
      by_cases hj : j = B + s
      · subst hj
        simp only [if_true]
        exact List.getD_set_self _ _ _ _ hin
      · simp only [hj, if_false]
        exact List.getD_set_of_ne _ _ _ _ _ (fun hh => hj hh.symm)
    have h1 : zl0.SameGeometry (step zl s) := by
      refine ⟨?_, ?_, ?_, ?_, ?_, ?_, ?_⟩
      · rw [hstep]; exact h.thr_corner
      · rw [hstep]; exact h.thr_surface
      · rw [hstep]; exact h.min_view
      · rw [hstep]; exact h.raw
      · rw [hstep]; simp only [List.length_set]; exact h.length
      · intro j
        rw [hentry]
        by_cases hj : j = B + s
        · subst hj
          simp only [if_true]
          rw [(hpres zl s).1]; exact h.pt_type _
        · simp only [hj, if_false]; exact h.pt_type _
      · intro j
        rw [hentry]
        by_cases hj : j = B + s
        · subst hj
          simp only [if_true]
          rw [(hpres zl s).2]; exact h.depth_sq2 _
        · simp only [hj, if_false]; exact h.depth_sq2 _
    have hun1 : ∀ g, s + 1 ≤ g → g < s + 1 + n →
        (step zl s).m_pts_info_vec.getD (B + g) Pt_infos.init
          = zl0.m_pts_info_vec.getD (B + g) Pt_infos.init := by
      intro g hg1 hg2
      rw [hentry]
      have hne : B + g ≠ B + s := by omega
      simp only [hne, if_false]
      exact hun g (by omega) (by omega)
    obtain ⟨r1, r2, r3⟩ := ih (s + 1) (step zl s) h1 hun1 (by omega)
    rw [List.range'_succ, List.foldl_cons]
    refine ⟨r1, ?_, ?_⟩
    · intro j hj
      rw [r2 j (fun g hg1 hg2 => hj g (by omega) (by omega)), hentry]
      have hne : j ≠ B + s := hj s (le_refl _) (by omega)
      simp only [hne, if_false]
    · intro g hg1 hg2
      by_cases hgs : g = s
      · subst hgs
        rw [r2 (B + g) (fun g1 hg3 _ => by omega), hentry]
        simp only [if_true]
        exact hcongr zl g h (hun g (le_refl _) (by omega))
      · exact r3 g (by omega) (by omega)

theorem Zvision_laser.compute_point_zvision_congr (env : Feature_env K)
    (zl0 zl : Zvision_laser K) (laser g : Nat) (h : zl0.SameGeometry zl)
    (he : zl.m_pts_info_vec.getD (10000 * laser + g) Pt_infos.init
      = zl0.m_pts_info_vec.getD (10000 * laser + g) Pt_infos.init) :
    compute_point_zvision env laser zl g = compute_point_zvision env laser zl0 g := by
  unfold compute_point_zvision
  simp only [he, label_point_congr env zl0 zl h _ he]

theorem Zvision_laser.compute_point_zvision_pres (env : Feature_env K)
    (zl : Zvision_laser K) (laser g : Nat) :
    (compute_point_zvision env laser zl g).pt_type
      = (zl.m_pts_info_vec.getD (10000 * laser + g) Pt_infos.init).pt_type
    ∧ (compute_point_zvision env laser zl g).depth_sq2
      = (zl.m_pts_info_vec.getD (10000 * laser + g) Pt_infos.init).depth_sq2 := by
  have key : ∀ lp : Pt_infos K, label_point env zl (10000 * laser + g) = lp →
      (lp.pt_type = (zl.m_pts_info_vec.getD (10000 * laser + g) Pt_infos.init).pt_type
        ∧ lp.depth_sq2
          = (zl.m_pts_info_vec.getD (10000 * laser + g) Pt_infos.init).depth_sq2) →
      (compute_point_zvision env laser zl g).pt_type
        = (zl.m_pts_info_vec.getD (10000 * laser + g) Pt_infos.init).pt_type
      ∧ (compute_point_zvision env laser zl g).depth_sq2
        = (zl.m_pts_info_vec.getD (10000 * laser + g) Pt_infos.init).depth_sq2 := by
    intro lp hlp hh
    simp only [compute_point_zvision, hlp]
    split_ifs
    · exact ⟨rfl, rfl⟩
    · exact ⟨rfl, rfl⟩
    · exact hh
  exact key _ rfl (label_point_pt_type env zl _)

theorem Zvision_laser.compute_point_congr (env : Feature_env K)
    (zl0 zl : Zvision_laser K) (g : Nat) (h : zl0.SameGeometry zl)
    (he : zl.m_pts_info_vec.getD (0 + g) Pt_infos.init
      = zl0.m_pts_info_vec.getD (0 + g) Pt_infos.init) :
    compute_point env zl g = compute_point env zl0 g := by
  rw [Nat.zero_add] at he
  unfold compute_point
  simp only [he, label_point_congr env zl0 zl h _ he]

theorem Zvision_laser.compute_point_pres (env : Feature_env K)
    (zl : Zvision_laser K) (g : Nat) :
    (compute_point env zl g).pt_type
      = (zl.m_pts_info_vec.getD (0 + g) Pt_infos.init).pt_type
    ∧ (compute_point env zl g).depth_sq2
      = (zl.m_pts_info_vec.getD (0 + g) Pt_infos.init).depth_sq2 := by
  rw [Nat.zero_add]
  have key : ∀ lp : Pt_infos K, label_point env zl g = lp →
      (lp.pt_type = (zl.m_pts_info_vec.getD g Pt_infos.init).pt_type
        ∧ lp.depth_sq2 = (zl.m_pts_info_vec.getD g Pt_infos.init).depth_sq2) →
      (compute_point env zl g).pt_type = (zl.m_pts_info_vec.getD g Pt_infos.init).pt_type
      ∧ (compute_point env zl g).depth_sq2
        = (zl.m_pts_info_vec.getD g Pt_infos.init).depth_sq2 := by
    intro lp hlp hh
    simp only [compute_point, hlp]
    split_ifs
    · exact ⟨rfl, rfl⟩
    · exact hh
  exact key _ rfl (label_point_pt_type env zl _)

theorem Zvision_laser.compute_features_zvision_spec (env : Feature_env K)
    (zl : Zvision_laser K) (hlen : 30000 ≤ zl.m_pts_info_vec.length) :
    zl.SameGeometry (compute_features_zvision env zl)
    ∧ (∀ laser g, laser < 3 → 2 ≤ g → g ≤ 9997 →
        (compute_features_zvision env zl).m_pts_info_vec.getD (10000 * laser + g) Pt_infos.init
          = compute_point_zvision env laser zl g)
    ∧ (∀ j, (∀ laser g, laser < 3 → 2 ≤ g → g ≤ 9997 → j ≠ 10000 * laser + g) →
        (compute_features_zvision env zl).m_pts_info_vec.getD j Pt_infos.init
          = zl.m_pts_info_vec.getD j Pt_infos.init) := by
  have hsweep : ∀ laser : Nat, laser < 3 → ∀ z : Zvision_laser K, zl.SameGeometry z →
      (∀ g, 2 ≤ g → g < 2 + 9996 → z.m_pts_info_vec.getD (10000 * laser + g) Pt_infos.init
        = zl.m_pts_info_vec.getD (10000 * laser + g) Pt_infos.init) →
      zl.SameGeometry ((List.range' 2 9996).foldl
          (feature_step_zvision env laser) z)
      ∧ (∀ j, (∀ g, 2 ≤ g → g < 2 + 9996 → j ≠ 10000 * laser + g) →
          ((List.range' 2 9996).foldl
            (feature_step_zvision env laser) z).m_pts_info_vec.getD j
              Pt_infos.init
            = z.m_pts_info_vec.getD j Pt_infos.init)
      ∧ (∀ g, 2 ≤ g → g < 2 + 9996 →
          ((List.range' 2 9996).foldl
            (feature_step_zvision env laser) z).m_pts_info_vec.getD
              (10000 * laser + g) Pt_infos.init
            = compute_point_zvision env laser zl g) := by
    intro laser hl z hz hun
    exact sweep_spec zl (10000 * laser) (compute_point_zvision env laser)
      (feature_step_zvision env laser)
      (fun z g => by simp only [feature_step_zvision])
      (fun z g hz he => compute_point_zvision_congr env zl z laser g hz he)
      (fun z g => compute_point_zvision_pres env z laser g) 9996 2 z hz hun (by omega)
  have hsize : curvature_ssd_size = 2 := rfl
  have hcount : 10000 - 2 - 2 = 9996 := by decide
  have hcf : compute_features_zvision env zl
      = (List.range' 2 9996).foldl (feature_step_zvision env 2)
          ((List.range' 2 9996).foldl (feature_step_zvision env 1)
            ((List.range' 2 9996).foldl (feature_step_zvision env 0)
              zl)) := by
    unfold compute_features_zvision
    rw [hsize, hcount]
    simp only [List.foldl_cons, List.foldl_nil]
  obtain ⟨g1, u1, e1⟩ := hsweep 0 (by omega) zl (SameGeometry.refl zl) (fun _ _ _ => rfl)
  obtain ⟨g2, u2, e2⟩ := hsweep 1 (by omega) _ g1
    (fun g hg1 hg2 => u1 _ (fun g1 _ _ => by omega))
  obtain ⟨g3, u3, e3⟩ := hsweep 2 (by omega) _ g2
    (fun g hg1 hg2 => by
      rw [u2 _ (fun g1 _ _ => by omega), u1 _ (fun g1 _ _ => by omega)])
  rw [hcf]
  refine ⟨g3, ?_, ?_⟩
  · intro laser g hl hg1 hg2
    have hcases : laser = 0 ∨ laser = 1 ∨ laser = 2 := by omega
    rcases hcases with h0 | h0 | h0
    · subst h0
      rw [u3 _ (fun g1 _ _ => by omega), u2 _ (fun g1 _ _ => by omega)]
      exact e1 g hg1 (by omega)
    · subst h0
      rw [u3 _ (fun g1 _ _ => by omega)]
      exact e2 g hg1 (by omega)
    · subst h0
      exact e3 g hg1 (by omega)
  · intro j hj
    rw [u3 j (fun g hg1 hg2 => hj 2 g (by omega) hg1 (by omega)),
      u2 j (fun g hg1 hg2 => hj 1 g (by omega) hg1 (by omega)),
      u1 j (fun g hg1 hg2 => hj 0 g (by omega) hg1 (by omega))]

theorem Zvision_laser.compute_features_spec (env : Feature_env K)
    (zl : Zvision_laser K) (h2 : 2 ≤ zl.m_raw_pts_vec.length)
    (h32 : zl.m_raw_pts_vec.length < 4294967296)
    (hl : zl.m_pts_info_vec.length = zl.m_raw_pts_vec.length) :
    zl.SameGeometry (compute_features env zl)
    ∧ (∀ idx, 2 ≤ idx → idx + 2 < zl.m_raw_pts_vec.length →
        (compute_features env zl).m_pts_info_vec.getD idx Pt_infos.init
          = compute_point env zl idx)
    ∧ (∀ j, (∀ idx, 2 ≤ idx → idx + 2 < zl.m_raw_pts_vec.length → j ≠ idx) →
        (compute_features env zl).m_pts_info_vec.getD j Pt_infos.init
          = zl.m_pts_info_vec.getD j Pt_infos.init) := by
  have hb : (zl.m_raw_pts_vec.length % 4294967296 + 18446744073709551616 - curvature_ssd_size)
      % 18446744073709551616 = zl.m_raw_pts_vec.length - 2 := by
    rw [Nat.mod_eq_of_lt h32]
    simp only [curvature_ssd_size]
    omega
  have hcf : compute_features env zl
      = (List.range' 2 (zl.m_raw_pts_vec.length - 2 - 2)).foldl (feature_step env) zl := by
    have hsize : curvature_ssd_size = 2 := rfl
    unfold compute_features
    simp only [hb]
    rw [hsize]
  obtain ⟨g1, u1, e1⟩ := sweep_spec zl 0 (compute_point env) (feature_step env)
    (fun z g => by simp only [feature_step, Nat.zero_add])
    (fun z g hz he => compute_point_congr env zl z g hz he)
    (fun z g => compute_point_pres env z g) (zl.m_raw_pts_vec.length - 2 - 2) 2 zl
    (SameGeometry.refl zl) (fun _ _ _ => rfl) (by omega)
  rw [hcf]
  refine ⟨g1, ?_, ?_⟩
  · intro idx hi1 hi2
    have := e1 idx hi1 (by omega)
    rw [Nat.zero_add] at this
    exact this
  · intro j hj
    exact u1 j (fun g hg1 hg2 => by
      rw [Nat.zero_add]
      exact hj g hg1 (by omega))

theorem Zvision_laser.accumulate_neighbors_clean (infos : List (Pt_infos K))
    (raw : List (PointType K)) (idx : Nat) (l : Int) (hc : clean_neighbors infos idx) :
    accumulate_neighbors infos raw idx [1, 2] (⟨0, 0, 0⟩, l) = (neighbor_sum raw idx, l) := by
  obtain ⟨a1, a2, a3, a4⟩ := hc 1 (Or.inl rfl)
  obtain ⟨b1, b2, b3, b4⟩ := hc 2 (Or.inr rfl)
  simp only [accumulate_neighbors, neighbor_sum, a1, a2, a3, a4, b1, b2, b3, b4, ne_eq,
    not_true_eq_false, or_self, if_false]

theorem Zvision_laser.window_curvature_neighbor_sum (raw : List (PointType K)) (idx : Nat) :
    window_curvature (neighbor_sum raw idx) (raw.getD idx PointType.init)
      = discrete_laplacian_sq raw idx := by
  simp only [window_curvature, neighbor_sum, discrete_laplacian_sq, PointType.pos,
    Vector3d.squaredNorm, Vector3d.sub, Vector3d.add, Vector3d.scale, curvature_ssd_size]
  push_cast
  ring

theorem Zvision_laser.label_point_clean (env : Feature_env K) (zl : Zvision_laser K)
    (idx : Nat) (hc : clean_neighbors zl.m_pts_info_vec idx)
    (hl : (zl.m_pts_info_vec.getD idx Pt_infos.init).pt_label = e_label_unlabeled) :
    label_point env zl idx
      = { (zl.m_pts_info_vec.getD idx Pt_infos.init) with
          pt_label := feature_label zl e_label_unlabeled
            (discrete_laplacian_sq zl.m_raw_pts_vec idx) (view_angle_at env zl.m_raw_pts_vec idx)
            (zl.m_pts_info_vec.getD idx Pt_infos.init).depth_sq2
            (zl.m_pts_info_vec.getD (idx - 2) Pt_infos.init).depth_sq2
            (zl.m_pts_info_vec.getD (idx + 2) Pt_infos.init).depth_sq2
          curvature := discrete_laplacian_sq zl.m_raw_pts_vec idx
          view_angle := view_angle_at env zl.m_raw_pts_vec idx } := by
  have hne : ¬ (e_label_unlabeled = e_label_invalid) := by decide
  simp only [label_point, accumulate_neighbors_clean _ _ _ _ hc, hl, hne, if_false,
    window_curvature_neighbor_sum, curvature_ssd_size]

theorem Zvision_laser.feature_label_corner_iff (zl : Zvision_laser K)
    (c v d0 dm dp : K) :
    int_and (feature_label zl e_label_unlabeled c v d0 dm dp) e_label_corner ≠ 0
      ↔ (v > zl.minimum_view_angle ∧ c > zl.thr_corner_curvature ∧ (d0 ≤ dm ∧ d0 ≤ dp)
          ∧ (|d0 - dm| < 1 / 10 * d0 ∨ |d0 - dp| < 1 / 10 * d0)) := by
  have h1 : int_and (int_or e_label_unlabeled e_label_corner) e_label_corner ≠ 0 := by decide
  have h2 : int_and (int_or (int_or e_label_unlabeled e_label_surface) e_label_corner)
      e_label_corner ≠ 0 := by decide
  have h3 : ¬ (int_and e_label_unlabeled e_label_corner ≠ 0) := by decide
  have h4 : ¬ (int_and (int_or e_label_unlabeled e_label_surface) e_label_corner ≠ 0) := by
    decide
  have hL : ∀ L : Int, (if c < zl.thr_surface_curvature then
        int_or e_label_unlabeled e_label_surface else e_label_unlabeled) = L →
      ¬ (int_and L e_label_corner ≠ 0) ∧ int_and (int_or L e_label_corner) e_label_corner ≠ 0 := by
    intro L hL
    rw [← hL]
    split_ifs
    · exact ⟨h4, h2⟩
    · exact ⟨h3, h1⟩
  have key : ∀ L : Int, (if c < zl.thr_surface_curvature then
        int_or e_label_unlabeled e_label_surface else e_label_unlabeled) = L →
      (int_and (feature_label zl e_label_unlabeled c v d0 dm dp) e_label_corner ≠ 0
        ↔ (v > zl.minimum_view_angle ∧ c > zl.thr_corner_curvature ∧ (d0 ≤ dm ∧ d0 ≤ dp)
            ∧ (|d0 - dm| < 1 / 10 * d0 ∨ |d0 - dp| < 1 / 10 * d0))) := by
    intro L hLeq
    obtain ⟨l0, l1⟩ := hL L hLeq
    by_cases hv : v > zl.minimum_view_angle
    · by_cases hc : c > zl.thr_corner_curvature
      · by_cases hd : d0 ≤ dm ∧ d0 ≤ dp
        · by_cases he : |d0 - dm| < 1 / 10 * d0 ∨ |d0 - dp| < 1 / 10 * d0
          · simp only [feature_label, hLeq, if_pos hv, if_pos hc, if_pos hd, if_pos he]
            exact iff_of_true l1 ⟨hv, hc, hd, he⟩
          · simp only [feature_label, hLeq, if_pos hv, if_pos hc, if_pos hd, if_neg he]
            exact iff_of_false l0 (fun h => he h.2.2.2)
        · simp only [feature_label, hLeq, if_pos hv, if_pos hc, if_neg hd]
          exact iff_of_false l0 (fun h => hd h.2.2.1)
      · simp only [feature_label, hLeq, if_pos hv, if_neg hc]
        exact iff_of_false l0 (fun h => hc h.2.1)
    · simp only [feature_label, if_neg hv]
      exact iff_of_false h3 (fun h => hv h.1)
  exact key _ rfl

theorem Zvision_laser.projection_entry (env : Feature_env K) (zl0 : Zvision_laser K)
    (cloud : List (PointType K)) (idx : Nat) (h : idx < cloud.length) :
    (projection_scan_3d_2d_zvision env zl0 cloud).m_pts_info_vec.getD idx Pt_infos.init
      = project_point_zvision env zl0 idx (cloud.getD idx PointType.init) := by
  simp only [projection_scan_3d_2d_zvision]
  exact List.getD_map_range _ _ _ _ h

theorem Zvision_laser.project_point_label (env : Feature_env K) (zl0 : Zvision_laser K)
    (idx : Nat) (pt : PointType K) :
    (project_point_zvision env zl0 idx pt).pt_label = e_label_unlabeled
    ∧ (project_point_zvision env zl0 idx pt).curvature = 0 := by
  unfold project_point_zvision eval_point_zvision add_mask_of_point
  simp only [Pt_infos.init]
  split_ifs <;> exact ⟨rfl, rfl⟩

theorem Zvision_laser.project_point_non_degenerate (env : Feature_env K)
    (zl0 : Zvision_laser K) (idx : Nat) (pt : PointType K) (h : non_degenerate env pt) :
    int_and (project_point_zvision env zl0 idx pt).pt_type e_pt_000 = 0
    ∧ int_and (project_point_zvision env zl0 idx pt).pt_type e_pt_nan = 0
    ∧ int_and (project_point_zvision env zl0 idx pt).pt_type critical_rm_point = 0
    ∧ (project_point_zvision env zl0 idx pt).depth_sq2 = depth2_xyz pt.x pt.y pt.z := by
  obtain ⟨hx, hy, hz, hy0⟩ := h
  unfold project_point_zvision eval_point_zvision add_mask_of_point
  simp only [Pt_infos.init, hx, hy, hz, hy0, Bool.not_true, Bool.or_self, if_false,
    Bool.false_eq_true]
  split_ifs <;> dsimp only <;> exact ⟨by decide, by decide, by decide, rfl⟩

theorem Zvision_laser.projection_raw (env : Feature_env K) (zl0 : Zvision_laser K)
    (cloud : List (PointType K)) :
    (projection_scan_3d_2d_zvision env zl0 cloud).m_raw_pts_vec = cloud := by
  simp only [projection_scan_3d_2d_zvision]

theorem Zvision_laser.projection_length (env : Feature_env K) (zl0 : Zvision_laser K)
    (cloud : List (PointType K)) :
    (projection_scan_3d_2d_zvision env zl0 cloud).m_pts_info_vec.length = cloud.length := by
  simp only [projection_scan_3d_2d_zvision, List.length_map, List.length_range]

theorem Zvision_laser.feature_label_projection (env : Feature_env K) (zl0 : Zvision_laser K)
    (cloud : List (PointType K)) (l : Int) (c v d0 dm dp : K) :
    feature_label (projection_scan_3d_2d_zvision env zl0 cloud) l c v d0 dm dp
      = feature_label zl0 l c v d0 dm dp := by
  simp only [feature_label, projection_scan_3d_2d_zvision]

theorem Zvision_laser.compute_point_zvision_pass (env : Feature_env K) (laser g : Nat)
    (zl : Zvision_laser K) (hg : 2 ≤ g)
    (hcrit : int_and (zl.m_pts_info_vec.getD (10000 * laser + g) Pt_infos.init).pt_type
      critical_rm_point = 0) :
    compute_point_zvision env laser zl g
      = if not_boundary_point env laser g then label_point env zl (10000 * laser + g)
        else zl.m_pts_info_vec.getD (10000 * laser + g) Pt_infos.init := by
  have hgg : g ≥ 2 ∨ g ≤ 29997 := Or.inl hg
  by_cases hb : not_boundary_point env laser g
  · simp only [compute_point_zvision, hcrit, ne_eq, not_true_eq_false, if_false, hgg, true_and,
      hb, if_true]
  · simp only [compute_point_zvision, hcrit, ne_eq, not_true_eq_false, if_false, hgg, true_and,
      hb, not_false_eq_true, if_true]

theorem Zvision_laser.projection_clean (env : Feature_env K) (zl0 : Zvision_laser K)
    (cloud : List (PointType K)) (idx : Nat) (h2 : 2 ≤ idx) (hlen : idx + 2 < cloud.length)
    (hnd : ∀ j, idx - 2 ≤ j → j ≤ idx + 2 → non_degenerate env (cloud.getD j PointType.init)) :
    clean_neighbors (projection_scan_3d_2d_zvision env zl0 cloud).m_pts_info_vec idx
    ∧ ((projection_scan_3d_2d_zvision env zl0 cloud).m_pts_info_vec.getD idx
        Pt_infos.init).pt_label = e_label_unlabeled
    ∧ int_and ((projection_scan_3d_2d_zvision env zl0 cloud).m_pts_info_vec.getD idx
        Pt_infos.init).pt_type critical_rm_point = 0 := by
  have hent : ∀ j, idx - 2 ≤ j → j ≤ idx + 2 →
      int_and ((projection_scan_3d_2d_zvision env zl0 cloud).m_pts_info_vec.getD j
          Pt_infos.init).pt_type e_pt_000 = 0
      ∧ int_and ((projection_scan_3d_2d_zvision env zl0 cloud).m_pts_info_vec.getD j
          Pt_infos.init).pt_type e_pt_nan = 0
      ∧ int_and ((projection_scan_3d_2d_zvision env zl0 cloud).m_pts_info_vec.getD j
          Pt_infos.init).pt_type critical_rm_point = 0 := by
    intro j hj1 hj2
    rw [projection_entry env zl0 cloud j (by omega)]
    obtain ⟨a, b, c, _⟩ := project_point_non_degenerate env zl0 j _ (hnd j hj1 hj2)
    exact ⟨a, b, c⟩
  refine ⟨?_, ?_, ?_⟩
  · intro i hi
    rcases hi with hi | hi <;> subst hi
    · exact ⟨(hent _ (by omega) (by omega)).1, (hent _ (by omega) (by omega)).1,
        (hent _ (by omega) (by omega)).2.1, (hent _ (by omega) (by omega)).2.1⟩
    · exact ⟨(hent _ (by omega) (by omega)).1, (hent _ (by omega) (by omega)).1,
        (hent _ (by omega) (by omega)).2.1, (hent _ (by omega) (by omega)).2.1⟩
  · rw [projection_entry env zl0 cloud _ (by omega)]
    exact (project_point_label env zl0 _ _).1
  · exact (hent idx (by omega) (by omega)).2.2

theorem Zvision_laser.label_point_projection (env : Feature_env K) (zl0 : Zvision_laser K)
    (cloud : List (PointType K)) (idx : Nat) (h2 : 2 ≤ idx) (hlen : idx + 2 < cloud.length)
    (hnd : ∀ j, idx - 2 ≤ j → j ≤ idx + 2 → non_degenerate env (cloud.getD j PointType.init)) :
    label_point env (projection_scan_3d_2d_zvision env zl0 cloud) idx
      = { project_point_zvision env zl0 idx (cloud.getD idx PointType.init) with
          pt_label := feature_label zl0 e_label_unlabeled
            (discrete_laplacian_sq cloud idx) (view_angle_at env cloud idx)
            (depth2_xyz (cloud.getD idx PointType.init).x (cloud.getD idx PointType.init).y
              (cloud.getD idx PointType.init).z)
            (depth2_xyz (cloud.getD (idx - 2) PointType.init).x
              (cloud.getD (idx - 2) PointType.init).y (cloud.getD (idx - 2) PointType.init).z)
            (depth2_xyz (cloud.getD (idx + 2) PointType.init).x
              (cloud.getD (idx + 2) PointType.init).y (cloud.getD (idx + 2) PointType.init).z)
          curvature := discrete_laplacian_sq cloud idx
          view_angle := view_angle_at env cloud idx } := by
  obtain ⟨hclean, hlabel, _⟩ := projection_clean env zl0 cloud idx h2 hlen hnd
  have e0 := projection_entry env zl0 cloud idx (by omega)
  have em := projection_entry env zl0 cloud (idx - 2) (by omega)
  have ep := projection_entry env zl0 cloud (idx + 2) (by omega)
  have d0 := (project_point_non_degenerate env zl0 idx _
    (hnd idx (by omega) (by omega))).2.2.2
  have dm := (project_point_non_degenerate env zl0 (idx - 2) _
    (hnd (idx - 2) (by omega) (by omega))).2.2.2
  have dp := (project_point_non_degenerate env zl0 (idx + 2) _
    (hnd (idx + 2) (by omega) (by omega))).2.2.2
  rw [label_point_clean env _ idx hclean hlabel]
  simp only [e0, em, ep, d0, dm, dp, projection_raw, feature_label_projection]

theorem Zvision_laser.zvision_entry (env : Feature_env K) (zl0 : Zvision_laser K)
    (cloud : List (PointType K)) (laser g : Nat) (hlen : cloud.length = 30000)
    (hlaser : laser < 3) (hg1 : 2 ≤ g) (hg2 : g ≤ 9997)
    (hnd : ∀ j, 10000 * laser + g - 2 ≤ j → j ≤ 10000 * laser + g + 2 →
      non_degenerate env (cloud.getD j PointType.init)) :
    (compute_features_zvision env
        (projection_scan_3d_2d_zvision env zl0 cloud)).m_pts_info_vec.getD (10000 * laser + g)
        Pt_infos.init
      = if not_boundary_point env laser g then
          label_point env (projection_scan_3d_2d_zvision env zl0 cloud) (10000 * laser + g)
        else project_point_zvision env zl0 (10000 * laser + g)
          (cloud.getD (10000 * laser + g) PointType.init) := by
  have hplen := projection_length env zl0 cloud
  obtain ⟨_, _, hcrit⟩ := projection_clean env zl0 cloud (10000 * laser + g) (by omega)
    (by omega) hnd
  rw [(compute_features_zvision_spec env _ (by omega)).2.1 laser g hlaser hg1 hg2,
    compute_point_zvision_pass env laser g _ hg1 hcrit,
    projection_entry env zl0 cloud _ (by omega)]

theorem Zvision_laser.zvision_curvature (env : Feature_env K) (zl0 : Zvision_laser K)
    (cloud : List (PointType K)) (laser g : Nat) (hlen : cloud.length = 30000)
    (hlaser : laser < 3) (hg1 : 2 ≤ g) (hg2 : g ≤ 9997)
    (hnd : ∀ j, 10000 * laser + g - 2 ≤ j → j ≤ 10000 * laser + g + 2 →
      non_degenerate env (cloud.getD j PointType.init)) :
    ((compute_features_zvision env
        (projection_scan_3d_2d_zvision env zl0 cloud)).m_pts_info_vec.getD (10000 * laser + g)
        Pt_infos.init).curvature
      = if not_boundary_point env laser g then discrete_laplacian_sq cloud (10000 * laser + g)
        else 0 := by
  rw [zvision_entry env zl0 cloud laser g hlen hlaser hg1 hg2 hnd]
  by_cases hb : not_boundary_point env laser g
  · simp only [hb, if_true]
    rw [label_point_projection env zl0 cloud _ (by omega) (by omega) hnd]
  · simp only [hb, if_false]
    exact (project_point_label env zl0 _ _).2

theorem Zvision_laser.zvision_corner_iff (env : Feature_env K) (zl0 : Zvision_laser K)
    (cloud : List (PointType K)) (laser g : Nat) (hlen : cloud.length = 30000)
    (hlaser : laser < 3) (hg1 : 2 ≤ g) (hg2 : g ≤ 9997)
    (hnd : ∀ j, 10000 * laser + g - 2 ≤ j → j ≤ 10000 * laser + g + 2 →
      non_degenerate env (cloud.getD j PointType.init)) :
    int_and ((compute_features_zvision env
        (projection_scan_3d_2d_zvision env zl0 cloud)).m_pts_info_vec.getD (10000 * laser + g)
        Pt_infos.init).pt_label e_label_corner ≠ 0
      ↔ (not_boundary_point env laser g
          ∧ view_angle_at env cloud (10000 * laser + g) > zl0.minimum_view_angle
          ∧ discrete_laplacian_sq cloud (10000 * laser + g) > zl0.thr_corner_curvature
          ∧ (depth2_xyz (cloud.getD (10000 * laser + g) PointType.init).x
                (cloud.getD (10000 * laser + g) PointType.init).y
                (cloud.getD (10000 * laser + g) PointType.init).z
              ≤ depth2_xyz (cloud.getD (10000 * laser + g - 2) PointType.init).x
                (cloud.getD (10000 * laser + g - 2) PointType.init).y
                (cloud.getD (10000 * laser + g - 2) PointType.init).z
            ∧ depth2_xyz (cloud.getD (10000 * laser + g) PointType.init).x
                (cloud.getD (10000 * laser + g) PointType.init).y
                (cloud.getD (10000 * laser + g) PointType.init).z
              ≤ depth2_xyz (cloud.getD (10000 * laser + g + 2) PointType.init).x
                (cloud.getD (10000 * laser + g + 2) PointType.init).y
                (cloud.getD (10000 * laser + g + 2) PointType.init).z)
          ∧ (|depth2_xyz (cloud.getD (10000 * laser + g) PointType.init).x
                (cloud.getD (10000 * laser + g) PointType.init).y
                (cloud.getD (10000 * laser + g) PointType.init).z
              - depth2_xyz (cloud.getD (10000 * laser + g - 2) PointType.init).x
                (cloud.getD (10000 * laser + g - 2) PointType.init).y
                (cloud.getD (10000 * laser + g - 2) PointType.init).z|
              < 1 / 10 * depth2_xyz (cloud.getD (10000 * laser + g) PointType.init).x
                (cloud.getD (10000 * laser + g) PointType.init).y
                (cloud.getD (10000 * laser + g) PointType.init).z
            ∨ |depth2_xyz (cloud.getD (10000 * laser + g) PointType.init).x
                (cloud.getD (10000 * laser + g) PointType.init).y
                (cloud.getD (10000 * laser + g) PointType.init).z
              - depth2_xyz (cloud.getD (10000 * laser + g + 2) PointType.init).x
                (cloud.getD (10000 * laser + g + 2) PointType.init).y
                (cloud.getD (10000 * laser + g + 2) PointType.init).z|
              < 1 / 10 * depth2_xyz (cloud.getD (10000 * laser + g) PointType.init).x
                (cloud.getD (10000 * laser + g) PointType.init).y
                (cloud.getD (10000 * laser + g) PointType.init).z)) := by
  have h3 : ¬ (int_and e_label_unlabeled e_label_corner ≠ 0) := by decide
  rw [zvision_entry env zl0 cloud laser g hlen hlaser hg1 hg2 hnd]
  by_cases hb : not_boundary_point env laser g
  · simp only [hb, if_true, true_and]
    rw [label_point_projection env zl0 cloud _ (by omega) (by omega) hnd]
    exact feature_label_corner_iff zl0 _ _ _ _ _
  · simp only [hb, if_false, false_and, iff_false]
    rw [(project_point_label env zl0 _ _).1]
    exact h3

theorem Zvision_laser.equally_spaced_laplacian (raw : List (PointType K)) (idx : Nat)
    (d : Vector3d K) (h : equally_spaced raw idx d) : discrete_laplacian_sq raw idx = 0 := by
  obtain ⟨h1, h2, h3, h4⟩ := h
  unfold discrete_laplacian_sq
  rw [h1, h2, h3, h4]
  simp only [Vector3d.squaredNorm, Vector3d.sub, Vector3d.add, Vector3d.scale]
  ring

theorem Zvision_laser.bend_window_laplacian (raw : List (PointType K)) (idx : Nat)
    (a b : Vector3d K) (h : bend_window raw idx a b) :
    discrete_laplacian_sq raw idx = 9 * (a.add b).squaredNorm := by
  obtain ⟨h1, h2, h3, h4⟩ := h
  unfold discrete_laplacian_sq
  rw [h1, h2, h3, h4]
  simp only [Vector3d.squaredNorm, Vector3d.sub, Vector3d.add, Vector3d.scale]
  ring

theorem Zvision_laser.beam_line_equally_spaced (cloud : List (PointType K)) (laser g : Nat)
    (d : Vector3d K) (h : beam_line cloud laser d) (hg1 : 2 ≤ g) (hg2 : g ≤ 9997) :
    equally_spaced cloud (10000 * laser + g) d := by
  have e1 := h g (by omega)
  have e2 := h (g + 1) (by omega)
  have e3 := h (g - 1) (by omega)
  have e4 := h (g - 2) (by omega)
  have i1 : 10000 * laser + (g + 1) + 1 = 10000 * laser + g + 2 := by omega
  have i2 : 10000 * laser + (g + 1) = 10000 * laser + g + 1 := by omega
  have i3 : 10000 * laser + (g - 1) + 1 = 10000 * laser + g := by omega
  have i4 : 10000 * laser + (g - 1) = 10000 * laser + g - 1 := by omega
  have i5 : 10000 * laser + (g - 2) + 1 = 10000 * laser + g - 1 := by omega
  have i6 : 10000 * laser + (g - 2) = 10000 * laser + g - 2 := by omega
  rw [i1, i2] at e2
  rw [i3, i4] at e3
  rw [i5, i6] at e4
  refine ⟨e1, ?_, ?_, ?_⟩
  · rw [e2, e1]
    ext <;> simp only [Vector3d.add, Vector3d.scale] <;> ring
  · rw [e3]
    ext <;> simp only [Vector3d.add, Vector3d.sub] <;> ring
  · rw [e3, e4]
    ext <;> simp only [Vector3d.add, Vector3d.sub, Vector3d.scale] <;> ring

theorem Zvision_laser.zvision_record_outside (env : Feature_env K) (zl0 : Zvision_laser K)
    (cloud : List (PointType K)) (laser g : Nat) (hlen : cloud.length = 30000)
    (hlaser : laser < 3) (hg : g < 2 ∨ 9997 < g) (hg2 : g < 10000) :
    (zvision_record env zl0 cloud (10000 * laser + g)).pt_label = e_label_unlabeled := by
  have hplen := projection_length env zl0 cloud
  unfold zvision_record
  rw [(compute_features_zvision_spec env _ (by omega)).2.2 (10000 * laser + g)
      (fun l1 g1 _ _ _ => by omega),
    projection_entry env zl0 cloud _ (by omega)]
  exact (project_point_label env zl0 _ _).1

theorem Zvision_laser.zvision_record_line (env : Feature_env K) (zl0 : Zvision_laser K)
    (cloud : List (PointType K)) (laser g : Nat) (d : Vector3d K)
    (hlen : cloud.length = 30000) (hlaser : laser < 3)
    (hc : 0 ≤ zl0.thr_corner_curvature) (hg1 : 2 ≤ g) (hg2 : g ≤ 9997)
    (hnd : ∀ j, 10000 * laser + g - 2 ≤ j → j ≤ 10000 * laser + g + 2 →
      non_degenerate env (cloud.getD j PointType.init))
    (hline : equally_spaced cloud (10000 * laser + g) d) :
    (zvision_record env zl0 cloud (10000 * laser + g)).curvature = 0
    ∧ int_and (zvision_record env zl0 cloud (10000 * laser + g)).pt_label e_label_corner = 0 := by
  have h0 := equally_spaced_laplacian cloud _ d hline
  unfold zvision_record
  constructor
  · rw [zvision_curvature env zl0 cloud laser g hlen hlaser hg1 hg2 hnd, h0]
    exact ite_self 0
  · by_contra hcon
    have := (zvision_corner_iff env zl0 cloud laser g hlen hlaser hg1 hg2 hnd).mp hcon
    rw [h0] at this
    exact absurd this.2.2.1 (not_lt.mpr hc)

theorem Zvision_laser.compute_features_line (env : Feature_env K) (zl : Zvision_laser K)
    (idx : Nat) (d : Vector3d K) (h2 : 2 ≤ zl.m_raw_pts_vec.length)
    (h32 : zl.m_raw_pts_vec.length < 4294967296)
    (hl : zl.m_pts_info_vec.length = zl.m_raw_pts_vec.length)
    (hi1 : 2 ≤ idx) (hi2 : idx + 2 < zl.m_raw_pts_vec.length)
    (hc : 0 ≤ zl.thr_corner_curvature)
    (hclean : clean_neighbors zl.m_pts_info_vec idx)
    (hlab : (zl.m_pts_info_vec.getD idx Pt_infos.init).pt_label = e_label_unlabeled)
    (hcrit : int_and (zl.m_pts_info_vec.getD idx Pt_infos.init).pt_type critical_rm_point = 0)
    (hline : equally_spaced zl.m_raw_pts_vec idx d) :
    ((compute_features env zl).m_pts_info_vec.getD idx Pt_infos.init).curvature = 0
    ∧ int_and ((compute_features env zl).m_pts_info_vec.getD idx Pt_infos.init).pt_label
        e_label_corner = 0 := by
  have e : compute_point env zl idx = label_point env zl idx := by
    simp only [compute_point, hcrit, ne_eq, not_true_eq_false, if_false]
  rw [(compute_features_spec env zl h2 h32 hl).2.1 idx hi1 hi2, e,
    label_point_clean env zl idx hclean hlab, equally_spaced_laplacian _ _ d hline]
  refine ⟨rfl, ?_⟩
  by_contra hcon
  have := (feature_label_corner_iff zl _ _ _ _ _).mp hcon
  exact absurd this.2.1 (not_lt.mpr hc)

/-- C8: five consecutive finite, non-degenerate samples that are colinear and equally spaced
(`p[i + k] = p[i] + k * d`) give the centre sample curvature exactly 0, below the surface
threshold, and no corner label, in `compute_features_zvision` (on a projected frame of 3 beams
of 10000 samples) and in `compute_features` (on any state whose window is clean and whose centre
is unlabelled); a beam that is a perfect equally spaced line gets no corner label on any of its
10000 samples. -/
theorem C8_line_curvature_zero (env : Feature_env K) (zl0 : Zvision_laser K)
    (cloud : List (PointType K)) (laser : Nat) (d : Vector3d K)
    (hlen : cloud.length = 30000) (hlaser : laser < 3)
    (hc : 0 ≤ zl0.thr_corner_curvature) (hs : 0 < zl0.thr_surface_curvature) :
    (∀ g, 2 ≤ g → g ≤ 9997 →
      (∀ j, 10000 * laser + g - 2 ≤ j → j ≤ 10000 * laser + g + 2 →
        non_degenerate env (cloud.getD j PointType.init)) →
      equally_spaced cloud (10000 * laser + g) d →
      (zvision_record env zl0 cloud (10000 * laser + g)).curvature = 0
      ∧ (zvision_record env zl0 cloud (10000 * laser + g)).curvature
          < zl0.thr_surface_curvature
      ∧ int_and (zvision_record env zl0 cloud (10000 * laser + g)).pt_label e_label_corner = 0)
    ∧ ((∀ g, g < 10000 → non_degenerate env (cloud.getD (10000 * laser + g) PointType.init)) →
        beam_line cloud laser d →
        ∀ g, g < 10000 →
          int_and (zvision_record env zl0 cloud (10000 * laser + g)).pt_label e_label_corner
            = 0)
    ∧ (∀ (zl : Zvision_laser K) (idx : Nat), 2 ≤ zl.m_raw_pts_vec.length →
        zl.m_raw_pts_vec.length < 4294967296 →
        zl.m_pts_info_vec.length = zl.m_raw_pts_vec.length →
        2 ≤ idx → idx + 2 < zl.m_raw_pts_vec.length →
        0 ≤ zl.thr_corner_curvature → 0 < zl.thr_surface_curvature →
        clean_neighbors zl.m_pts_info_vec idx →
        (zl.m_pts_info_vec.getD idx Pt_infos.init).pt_label = e_label_unlabeled →
        int_and (zl.m_pts_info_vec.getD idx Pt_infos.init).pt_type critical_rm_point = 0 →
        equally_spaced zl.m_raw_pts_vec idx d →
        ((compute_features env zl).m_pts_info_vec.getD idx Pt_infos.init).curvature = 0
        ∧ ((compute_features env zl).m_pts_info_vec.getD idx Pt_infos.init).curvature
            < zl.thr_surface_curvature
        ∧ int_and ((compute_features env zl).m_pts_info_vec.getD idx Pt_infos.init).pt_label
            e_label_corner = 0) := by
  refine ⟨?_, ?_, ?_⟩
  · intro g hg1 hg2 hnd hline
    obtain ⟨a, b⟩ := zvision_record_line env zl0 cloud laser g d hlen hlaser hc hg1 hg2 hnd hline
    refine ⟨a, ?_, b⟩
    rw [a]
    exact hs
  · intro hnd hbeam g hg
    by_cases hin : 2 ≤ g ∧ g ≤ 9997
    · refine (zvision_record_line env zl0 cloud laser g d hlen hlaser hc hin.1 hin.2 ?_
        (beam_line_equally_spaced cloud laser g d hbeam hin.1 hin.2)).2
      intro j hj1 hj2
      have hj : j = 10000 * laser + (j - 10000 * laser) := by omega
      rw [hj]
      exact hnd _ (by omega)
    · rw [zvision_record_outside env zl0 cloud laser g hlen hlaser (by omega) hg]
      decide
  · intro zl idx h2 h32 hl hi1 hi2 hc1 hs1 hclean hlab hcrit hline
    obtain ⟨a, b⟩ := compute_features_line env zl idx d h2 h32 hl hi1 hi2 hc1 hclean hlab hcrit
      hline
    refine ⟨a, ?_, b⟩
    rw [a]
    exact hs1

theorem line_frame_getD (i : Nat) (h : i < 30000) :
    line_frame.getD i PointType.init = ⟨5 + ((i % 10000 : Nat) : ℚ) / 1000, 5, 0, 0⟩ := by
  unfold line_frame
  rw [List.getD_map_range _ _ _ _ h]

theorem C8_line_curvature_zero_witness :
    (zvision_record example_env Zvision_laser.init line_frame (10000 * 0 + 5000)).curvature = 0
    ∧ int_and (zvision_record example_env Zvision_laser.init line_frame
        (10000 * 0 + 5000)).pt_label e_label_corner = 0 := by
  have hlen : line_frame.length = 30000 := by simp [line_frame]
  have hc : (0 : ℚ) ≤ (Zvision_laser.init : Zvision_laser ℚ).thr_corner_curvature := by
    norm_num [Zvision_laser.init]
  have hs : (0 : ℚ) < (Zvision_laser.init : Zvision_laser ℚ).thr_surface_curvature := by
    norm_num [Zvision_laser.init]
  have hnd : ∀ j, 10000 * 0 + 5000 - 2 ≤ j → j ≤ 10000 * 0 + 5000 + 2 →
      non_degenerate example_env (line_frame.getD j PointType.init) := by
    intro j _ hj
    rw [line_frame_getD j (by omega)]
    refine ⟨rfl, rfl, rfl, ?_⟩
    show (5 : ℚ) ≠ 0
    norm_num
  have hline : equally_spaced line_frame (10000 * 0 + 5000) ⟨1 / 1000, 0, 0⟩ := by
    refine ⟨?_, ?_, ?_, ?_⟩ <;>
      rw [line_frame_getD _ (by decide), line_frame_getD _ (by decide)] <;>
      ext <;> norm_num [PointType.pos, Vector3d.add, Vector3d.sub, Vector3d.scale]
  have h := (C8_line_curvature_zero example_env Zvision_laser.init line_frame 0
    ⟨1 / 1000, 0, 0⟩ hlen (by decide) hc hs).1 5000 (by decide) (by decide) hnd hline
  exact ⟨h.1, h.2.2⟩

theorem example_env_not_boundary (laser g : Nat) (hg : 2 ≤ g) :
    not_boundary_point example_env laser g := by
  obtain ⟨k, rfl⟩ := Nat.exists_eq_add_of_le hg
  unfold not_boundary_point
  left
  simp only [example_env]
  have e1 : 2 + k - 2 = k := by omega
  have e2 : 2 + k - 1 = k + 1 := by omega
  rw [e1, e2]
  push_cast
  refine ⟨?_, ?_, ?_, ?_⟩ <;> linarith

theorem bend_frame_getD (d : ℚ) (i : Nat) (h : i < 30000) :
    (bend_frame d).getD i PointType.init
      = if i % 10000 ≤ 5000 then
          (⟨5 + ((5000 - i % 10000 : Nat) : ℚ) * d, 5, 0, 0⟩ : PointType ℚ)
        else ⟨5, 5 + ((i % 10000 - 5000 : Nat) : ℚ) * d, 0, 0⟩ := by
  unfold bend_frame
  rw [List.getD_map_range _ _ _ _ h]

theorem bend_frame_non_degenerate (d : ℚ) (hd : 0 ≤ d) (i : Nat) (h : i < 30000) :
    non_degenerate example_env ((bend_frame d).getD i PointType.init) := by
  rw [bend_frame_getD d i h]
  split_ifs
  · refine ⟨rfl, rfl, rfl, ?_⟩
    show (5 : ℚ) ≠ 0
    norm_num
  · refine ⟨rfl, rfl, rfl, ?_⟩
    show (5 : ℚ) + ((i % 10000 - 5000 : Nat) : ℚ) * d ≠ 0
    have h0 : (0 : ℚ) ≤ ((i % 10000 - 5000 : Nat) : ℚ) * d := mul_nonneg (Nat.cast_nonneg _) hd
    have h1 : (0 : ℚ) < 5 + ((i % 10000 - 5000 : Nat) : ℚ) * d := by linarith
    exact ne_of_gt h1

theorem bend_frame_window (d : ℚ) :
    bend_window (bend_frame d) (10000 * 0 + 5000)
      ((⟨1, 0, 0⟩ : Vector3d ℚ).scale d) ((⟨0, 1, 0⟩ : Vector3d ℚ).scale d) := by
  refine ⟨?_, ?_, ?_, ?_⟩ <;>
    rw [bend_frame_getD _ _ (by decide), bend_frame_getD _ _ (by decide)] <;>
    ext <;> norm_num [PointType.pos, Vector3d.add, Vector3d.sub, Vector3d.scale] <;> ring

theorem Zvision_laser.zvision_record_bend (env : Feature_env K) (zl0 : Zvision_laser K)
    (cloud : List (PointType K)) (laser g : Nat) (a b : Vector3d K)
    (hlen : cloud.length = 30000) (hlaser : laser < 3) (hg1 : 2 ≤ g) (hg2 : g ≤ 9997)
    (hnd : ∀ j, 10000 * laser + g - 2 ≤ j → j ≤ 10000 * laser + g + 2 →
      non_degenerate env (cloud.getD j PointType.init))
    (hnb : not_boundary_point env laser g)
    (hbend : bend_window cloud (10000 * laser + g) a b) :
    (zvision_record env zl0 cloud (10000 * laser + g)).curvature
      = 9 * (a.add b).squaredNorm := by
  unfold zvision_record
  rw [zvision_curvature env zl0 cloud laser g hlen hlaser hg1 hg2 hnd, if_pos hnb,
    bend_window_laplacian cloud _ a b hbend]

/-- C9 (amended): for five consecutive non-degenerate samples forming a right-angle bend at the
centre sample (legs `d * u` and `d * v` with `u`, `v` perpendicular unit vectors) that pass the
azimuth test, the curvature computed by `compute_features_zvision` for the centre sample is
`18 * d * d`; with the corner threshold `0.05` it is above the threshold exactly when
`d * d > 1 / 360`. -/
theorem C9_bend_curvature (env : Feature_env K) (zl0 : Zvision_laser K)
    (cloud : List (PointType K)) (laser g : Nat) (u v : Vector3d K) (d : K)
    (hlen : cloud.length = 30000) (hlaser : laser < 3) (hg1 : 2 ≤ g) (hg2 : g ≤ 9997)
    (hnd : ∀ j, 10000 * laser + g - 2 ≤ j → j ≤ 10000 * laser + g + 2 →
      non_degenerate env (cloud.getD j PointType.init))
    (hnb : not_boundary_point env laser g)
    (hthr : zl0.thr_corner_curvature = 5 / 100)
    (hu : u.squaredNorm = 1) (hv : v.squaredNorm = 1) (huv : u.dot v = 0)
    (hbend : bend_window cloud (10000 * laser + g) (u.scale d) (v.scale d)) :
    (zvision_record env zl0 cloud (10000 * laser + g)).curvature = 18 * (d * d)
    ∧ ((zvision_record env zl0 cloud (10000 * laser + g)).curvature > zl0.thr_corner_curvature
        ↔ d * d > 1 / 360) := by
  have hcurv : (zvision_record env zl0 cloud (10000 * laser + g)).curvature = 18 * (d * d) := by
    rw [zvision_record_bend env zl0 cloud laser g _ _ hlen hlaser hg1 hg2 hnd hnb hbend]
    simp only [Vector3d.squaredNorm, Vector3d.dot, Vector3d.add, Vector3d.scale] at hu hv huv ⊢
    linear_combination (9 * d * d) * hu + (9 * d * d) * hv + (18 * d * d) * huv
  refine ⟨hcurv, ?_⟩
  rw [hcurv, hthr]
  constructor <;> intro h <;> linarith

theorem C9_bend_curvature_witness :
    (zvision_record example_env Zvision_laser.init (bend_frame (1 / 10))
        (10000 * 0 + 5000)).curvature = 18 * (1 / 10 * (1 / 10))
    ∧ ((zvision_record example_env Zvision_laser.init (bend_frame (1 / 10))
          (10000 * 0 + 5000)).curvature
        > (Zvision_laser.init : Zvision_laser ℚ).thr_corner_curvature
        ↔ (1 / 10 : ℚ) * (1 / 10) > 1 / 360) :=
  C9_bend_curvature example_env Zvision_laser.init (bend_frame (1 / 10)) 0 5000
    ⟨1, 0, 0⟩ ⟨0, 1, 0⟩ (1 / 10) (by simp [bend_frame]) (by decide) (by decide) (by decide)
    (fun j _ hj => bend_frame_non_degenerate _ (by norm_num) j (by omega))
    (example_env_not_boundary 0 5000 (by decide)) rfl
    (by norm_num [Vector3d.squaredNorm]) (by norm_num [Vector3d.squaredNorm])
    (by norm_num [Vector3d.dot]) (bend_frame_window (1 / 10))

/-- C9 (counterexample): in the frame `bend_frame (1 / 1000)` the five samples around sample
5000 of beam 0 are non-degenerate and form a right-angle bend with legs of spacing `1 / 1000`
along the perpendicular unit vectors `(1, 0, 0)` and `(0, 1, 0)`, yet the curvature computed for
the centre sample is `18 / 1000000`, which is not above the corner threshold `0.05`. -/
theorem C9_counterexample :
    bend_window (bend_frame (1 / 1000)) (10000 * 0 + 5000)
      ((⟨1, 0, 0⟩ : Vector3d ℚ).scale (1 / 1000)) ((⟨0, 1, 0⟩ : Vector3d ℚ).scale (1 / 1000))
    ∧ (⟨1, 0, 0⟩ : Vector3d ℚ).dot ⟨0, 1, 0⟩ = 0
    ∧ (⟨1, 0, 0⟩ : Vector3d ℚ).squaredNorm = 1 ∧ (⟨0, 1, 0⟩ : Vector3d ℚ).squaredNorm = 1
    ∧ (∀ j, j < 30000 →
        non_degenerate example_env ((bend_frame (1 / 1000)).getD j PointType.init))
    ∧ (zvision_record example_env Zvision_laser.init (bend_frame (1 / 1000))
        (10000 * 0 + 5000)).curvature = 18 / 1000000
    ∧ ¬ ((zvision_record example_env Zvision_laser.init (bend_frame (1 / 1000))
          (10000 * 0 + 5000)).curvature
        > (Zvision_laser.init : Zvision_laser ℚ).thr_corner_curvature) := by
  have hnd : ∀ j, j < 30000 →
      non_degenerate example_env ((bend_frame (1 / 1000)).getD j PointType.init) :=
    fun j hj => bend_frame_non_degenerate _ (by norm_num) j hj
  have hcurv : (zvision_record example_env Zvision_laser.init (bend_frame (1 / 1000))
      (10000 * 0 + 5000)).curvature = 18 / 1000000 := by
    rw [zvision_record_bend example_env Zvision_laser.init (bend_frame (1 / 1000)) 0 5000 _ _
      (by simp [bend_frame]) (by decide) (by decide) (by decide)
      (fun j _ hj => hnd j (by omega)) (example_env_not_boundary 0 5000 (by decide))
      (bend_frame_window (1 / 1000))]
    norm_num [Vector3d.squaredNorm, Vector3d.add, Vector3d.scale]
  refine ⟨bend_frame_window (1 / 1000), by norm_num [Vector3d.dot],
    by norm_num [Vector3d.squaredNorm], by norm_num [Vector3d.squaredNorm], hnd, hcurv, ?_⟩
  rw [hcurv]
  norm_num [Zvision_laser.init]

theorem bend_frame_laplacian_small (g : Nat) (h1 : 4998 ≤ g) (h2 : g ≤ 5002) :
    discrete_laplacian_sq (bend_frame (1 / 1000)) (10000 * 0 + g) ≤ 5 / 100 := by
  interval_cases g <;>
    (unfold discrete_laplacian_sq
     rw [bend_frame_getD _ _ (by decide), bend_frame_getD _ _ (by decide),
       bend_frame_getD _ _ (by decide), bend_frame_getD _ _ (by decide),
       bend_frame_getD _ _ (by decide)]
     norm_num [PointType.pos, Vector3d.squaredNorm, Vector3d.add, Vector3d.sub,
       Vector3d.scale])

theorem bend_frame_no_corner (g : Nat) (h1 : 4998 ≤ g) (h2 : g ≤ 5002) :
    int_and (zvision_record example_env Zvision_laser.init (bend_frame (1 / 1000))
      (10000 * 0 + g)).pt_label e_label_corner = 0 := by
  by_contra hcon
  have h := (zvision_corner_iff example_env Zvision_laser.init (bend_frame (1 / 1000)) 0 g
    (by simp [bend_frame]) (by decide) (by omega) (by omega)
    (fun j _ hj => bend_frame_non_degenerate _ (by norm_num) j (by omega))).mp hcon
  have hsmall := bend_frame_laplacian_small g h1 h2
  have hthr : (Zvision_laser.init : Zvision_laser ℚ).thr_corner_curvature = 5 / 100 := rfl
  have hbig := h.2.2.1
  rw [hthr] at hbig
  exact absurd hbig (not_lt.mpr hsmall)

theorem bend_frame_in_range (i : Nat) (h : i < 30000) :
    1 * 1 ≤ range_sq (bend_frame (1 / 1000)) i
    ∧ range_sq (bend_frame (1 / 1000)) i ≤ 15 * 15 := by
  unfold range_sq
  rw [bend_frame_getD _ i h]
  split_ifs with hi
  · have hk : ((5000 - i % 10000 : Nat) : ℚ) ≤ 5000 := by
      exact_mod_cast Nat.sub_le 5000 (i % 10000)
    have hk0 : (0 : ℚ) ≤ ((5000 - i % 10000 : Nat) : ℚ) := Nat.cast_nonneg _
    simp only [depth2_xyz]
    constructor <;> nlinarith
  · have hlt : i % 10000 < 10000 := Nat.mod_lt _ (by decide)
    have hk : ((i % 10000 - 5000 : Nat) : ℚ) ≤ 5000 := by
      have : i % 10000 - 5000 ≤ 5000 := by omega
      exact_mod_cast this
    have hk0 : (0 : ℚ) ≤ ((i % 10000 - 5000 : Nat) : ℚ) := Nat.cast_nonneg _
    simp only [depth2_xyz]
    constructor <;> nlinarith

/-- C10 (counterexample): `bend_frame (1 / 1000)` is a frame of 3 beams of 10000 finite,
in-range points (squared range between `1` and `15 * 15`) in which every beam consists of two
straight segments of spacing `1 / 1000` meeting at a right angle at sample 5000, and
`compute_features_zvision` labels none of the samples 4998, ..., 5002 of beam 0 as corner. -/
theorem C10_counterexample :
    (bend_frame (1 / 1000)).length = 30000
    ∧ (∀ i, i < 30000 →
        non_degenerate example_env ((bend_frame (1 / 1000)).getD i PointType.init)
        ∧ 1 * 1 ≤ range_sq (bend_frame (1 / 1000)) i
        ∧ range_sq (bend_frame (1 / 1000)) i ≤ 15 * 15)
    ∧ bend_window (bend_frame (1 / 1000)) (10000 * 0 + 5000)
        ((⟨1, 0, 0⟩ : Vector3d ℚ).scale (1 / 1000)) ((⟨0, 1, 0⟩ : Vector3d ℚ).scale (1 / 1000))
    ∧ int_and (zvision_record example_env Zvision_laser.init (bend_frame (1 / 1000))
        (10000 * 0 + 4998)).pt_label e_label_corner = 0
    ∧ int_and (zvision_record example_env Zvision_laser.init (bend_frame (1 / 1000))
        (10000 * 0 + 4999)).pt_label e_label_corner = 0
    ∧ int_and (zvision_record example_env Zvision_laser.init (bend_frame (1 / 1000))
        (10000 * 0 + 5000)).pt_label e_label_corner = 0
    ∧ int_and (zvision_record example_env Zvision_laser.init (bend_frame (1 / 1000))
        (10000 * 0 + 5001)).pt_label e_label_corner = 0
    ∧ int_and (zvision_record example_env Zvision_laser.init (bend_frame (1 / 1000))
        (10000 * 0 + 5002)).pt_label e_label_corner = 0 :=
  ⟨by simp [bend_frame],
    fun i hi => ⟨bend_frame_non_degenerate _ (by norm_num) i hi, bend_frame_in_range i hi⟩,
    bend_frame_window (1 / 1000),
    bend_frame_no_corner 4998 (by decide) (by decide),
    bend_frame_no_corner 4999 (by decide) (by decide),
    bend_frame_no_corner 5000 (by decide) (by decide),
    bend_frame_no_corner 5001 (by decide) (by decide),
    bend_frame_no_corner 5002 (by decide) (by decide)⟩

/-- C10 (amended): in a frame of 3 beams of 10000 samples, if the five samples around sample `m`
(`2 <= m <= 9997`) of a beam are finite and non-degenerate and form a bend with legs `a`, `b`,
sample `m` passes the azimuth test, its view angle exceeds the minimum, the curvature
`9 |a + b|^2` exceeds the corner threshold, and the squared range of `m` is not above those of
samples `m - 2` and `m + 2` and within 10% of one of them, then `compute_features_zvision` labels
sample `m` as corner. -/
theorem C10_corner_at_bend (env : Feature_env K) (zl0 : Zvision_laser K)
    (cloud : List (PointType K)) (laser m : Nat) (a b : Vector3d K)
    (hlen : cloud.length = 30000) (hlaser : laser < 3) (hm1 : 2 ≤ m) (hm2 : m ≤ 9997)
    (hnd : ∀ j, 10000 * laser + m - 2 ≤ j → j ≤ 10000 * laser + m + 2 →
      non_degenerate env (cloud.getD j PointType.init))
    (hbend : bend_window cloud (10000 * laser + m) a b)
    (hnb : not_boundary_point env laser m)
    (hview : view_angle_at env cloud (10000 * laser + m) > zl0.minimum_view_angle)
    (hcurv : 9 * (a.add b).squaredNorm > zl0.thr_corner_curvature)
    (hmin : range_sq cloud (10000 * laser + m) ≤ range_sq cloud (10000 * laser + m - 2)
      ∧ range_sq cloud (10000 * laser + m) ≤ range_sq cloud (10000 * laser + m + 2))
    (hnear : |range_sq cloud (10000 * laser + m) - range_sq cloud (10000 * laser + m - 2)|
        < 1 / 10 * range_sq cloud (10000 * laser + m)
      ∨ |range_sq cloud (10000 * laser + m) - range_sq cloud (10000 * laser + m + 2)|
        < 1 / 10 * range_sq cloud (10000 * laser + m)) :
    int_and (zvision_record env zl0 cloud (10000 * laser + m)).pt_label e_label_corner ≠ 0 := by
  rw [← bend_window_laplacian cloud _ a b hbend] at hcurv
  exact (zvision_corner_iff env zl0 cloud laser m hlen hlaser hm1 hm2 hnd).mpr
    ⟨hnb, hview, hcurv, hmin, hnear⟩

theorem short_leg_frame_getD (i : Nat) (h : i < 30000) :
    short_leg_frame.getD i PointType.init
      = if i % 10000 ≤ 2 then
          (⟨5 + ((2 - i % 10000 : Nat) : ℚ), 5, 0, 0⟩ : PointType ℚ)
        else ⟨5, 5 + ((i % 10000 - 2 : Nat) : ℚ) / 2000, 0, 0⟩ := by
  unfold short_leg_frame
  rw [List.getD_map_range _ _ _ _ h]

theorem short_leg_frame_non_degenerate (i : Nat) (h : i < 30000) :
    non_degenerate example_env (short_leg_frame.getD i PointType.init) := by
  rw [short_leg_frame_getD i h]
  split_ifs
  · refine ⟨rfl, rfl, rfl, ?_⟩
    show (5 : ℚ) ≠ 0
    norm_num
  · refine ⟨rfl, rfl, rfl, ?_⟩
    show (5 : ℚ) + ((i % 10000 - 2 : Nat) : ℚ) / 2000 ≠ 0
    have h0 : (0 : ℚ) ≤ ((i % 10000 - 2 : Nat) : ℚ) / 2000 :=
      div_nonneg (Nat.cast_nonneg _) (by norm_num)
    have h1 : (0 : ℚ) < 5 + ((i % 10000 - 2 : Nat) : ℚ) / 2000 := by linarith
    exact ne_of_gt h1

theorem C10_corner_at_bend_witness :
    int_and (zvision_record example_env Zvision_laser.init short_leg_frame
      (10000 * 0 + 2)).pt_label e_label_corner ≠ 0 := by
  refine C10_corner_at_bend example_env Zvision_laser.init short_leg_frame 0 2
    ⟨1, 0, 0⟩ ⟨0, 1 / 2000, 0⟩ (by simp [short_leg_frame]) (by decide) (by decide) (by decide)
    (fun j _ hj => short_leg_frame_non_degenerate j (by omega)) ?_
    (example_env_not_boundary 0 2 (by decide)) ?_ ?_ ?_ ?_
  · refine ⟨?_, ?_, ?_, ?_⟩ <;>
      rw [short_leg_frame_getD _ (by decide), short_leg_frame_getD _ (by decide)] <;>
      ext <;> norm_num [PointType.pos, Vector3d.add, Vector3d.sub, Vector3d.scale]
  · show (1 : ℚ) * (573 / 10) > 10
    norm_num
  · show 9 * ((⟨1, 0, 0⟩ : Vector3d ℚ).add ⟨0, 1 / 2000, 0⟩).squaredNorm > 5 / 100
    norm_num [Vector3d.squaredNorm, Vector3d.add]
  · unfold range_sq
    rw [short_leg_frame_getD _ (by decide), short_leg_frame_getD _ (by decide),
      short_leg_frame_getD _ (by decide)]
    norm_num [depth2_xyz]
  · right
    unfold range_sq
    rw [short_leg_frame_getD _ (by decide), short_leg_frame_getD _ (by decide)]
    norm_num [depth2_xyz, abs_lt]

theorem Zvision_laser.get_features_step_corners (zl : Zvision_laser K) (b e : Int)
    (out : Feature_clouds K) (i : Nat) (x : Nat × PointType K) :
    x ∈ (get_features_step zl b e out i).pc_corners
      ↔ x ∈ out.pc_corners
        ∨ (x = (i, feature_point zl i)
          ∧ b ≤ (zl.m_pts_info_vec.getD i Pt_infos.init).idx
          ∧ (zl.m_pts_info_vec.getD i Pt_infos.init).idx ≤ e
          ∧ int_and (zl.m_pts_info_vec.getD i Pt_infos.init).pt_type critical_rm_point = 0
          ∧ int_and (zl.m_pts_info_vec.getD i Pt_infos.init).pt_label e_label_corner ≠ 0
          ∧ (zl.m_pts_info_vec.getD i Pt_infos.init).pt_type = e_pt_normal
          ∧ (zl.m_pts_info_vec.getD i Pt_infos.init).depth_sq2 < 30 ^ 2) := by
  simp only [get_features_step]
  generalize zl.m_pts_info_vec.getD i Pt_infos.init = info
  by_cases hw : info.idx > e ∨ info.idx < b
  · simp only [if_pos hw]
    constructor
    · exact Or.inl
    · rintro (h | h)
      · exact h
      · rcases hw with hw | hw
        · exact absurd h.2.2.1 (not_le.mpr hw)
        · exact absurd h.2.1 (not_le.mpr hw)
  · have hb : b ≤ info.idx := by
      by_contra hcon
      exact hw (Or.inr (not_le.mp hcon))
    have he : info.idx ≤ e := by
      by_contra hcon
      exact hw (Or.inl (not_le.mp hcon))
    by_cases hc : int_and info.pt_type critical_rm_point = 0
    · by_cases hk : int_and info.pt_label e_label_corner ≠ 0 ∧ info.pt_type ≠ e_pt_normal
      · simp only [if_neg hw, if_pos hc, if_pos hk]
        constructor
        · exact Or.inl
        · rintro (h | h)
          · exact h
          · exact absurd h.2.2.2.2.2.1 hk.2
      · by_cases hd : int_and info.pt_label e_label_corner ≠ 0 ∧ info.depth_sq2 < 30 ^ 2
        · simp only [if_neg hw, if_pos hc, if_neg hk, if_pos hd,
            List.mem_append, List.mem_singleton]
          constructor
          · rintro (h | h)
            · exact Or.inl h
            · refine Or.inr ⟨h, hb, he, hc, hd.1, ?_, hd.2⟩
              by_contra hn
              exact hk ⟨hd.1, hn⟩
          · rintro (h | h)
            · exact Or.inl h
            · exact Or.inr h.1
        · simp only [if_neg hw, if_pos hc, if_neg hk, if_neg hd]
          constructor
          · exact Or.inl
          · rintro (h | h)
            · exact h
            · exact absurd ⟨h.2.2.2.2.1, h.2.2.2.2.2.2⟩ hd
    · simp only [if_neg hw, if_neg hc]
      constructor
      · exact Or.inl
      · rintro (h | h)
        · exact h
        · exact absurd h.2.2.2.1 hc

theorem Zvision_laser.get_features_step_surface (zl : Zvision_laser K) (b e : Int)
    (out : Feature_clouds K) (i : Nat) (x : Nat × PointType K) :
    x ∈ (get_features_step zl b e out i).pc_surface
      ↔ x ∈ out.pc_surface
        ∨ (x = (i, feature_point zl i)
          ∧ b ≤ (zl.m_pts_info_vec.getD i Pt_infos.init).idx
          ∧ (zl.m_pts_info_vec.getD i Pt_infos.init).idx ≤ e
          ∧ int_and (zl.m_pts_info_vec.getD i Pt_infos.init).pt_type critical_rm_point = 0
          ∧ ¬ (int_and (zl.m_pts_info_vec.getD i Pt_infos.init).pt_label e_label_corner ≠ 0
              ∧ (zl.m_pts_info_vec.getD i Pt_infos.init).pt_type ≠ e_pt_normal)
          ∧ int_and (zl.m_pts_info_vec.getD i Pt_infos.init).pt_label e_label_surface ≠ 0
          ∧ (zl.m_pts_info_vec.getD i Pt_infos.init).depth_sq2 < 1000 ^ 2) := by
  simp only [get_features_step]
  generalize zl.m_pts_info_vec.getD i Pt_infos.init = info
  by_cases hw : info.idx > e ∨ info.idx < b
  · simp only [if_pos hw]
    constructor
    · exact Or.inl
    · rintro (h | h)
      · exact h
      · rcases hw with hw | hw
        · exact absurd h.2.2.1 (not_le.mpr hw)
        · exact absurd h.2.1 (not_le.mpr hw)
  · have hb : b ≤ info.idx := by
      by_contra hcon
      exact hw (Or.inr (not_le.mp hcon))
    have he : info.idx ≤ e := by
      by_contra hcon
      exact hw (Or.inl (not_le.mp hcon))
    by_cases hc : int_and info.pt_type critical_rm_point = 0
    · by_cases hk : int_and info.pt_label e_label_corner ≠ 0 ∧ info.pt_type ≠ e_pt_normal
      · simp only [if_neg hw, if_pos hc, if_pos hk]
        constructor
        · exact Or.inl
        · rintro (h | h)
          · exact h
          · exact absurd hk h.2.2.2.2.1
      · by_cases hd : int_and info.pt_label e_label_surface ≠ 0 ∧ info.depth_sq2 < 1000 ^ 2
        · simp only [if_neg hw, if_pos hc, if_neg hk, if_pos hd,
            List.mem_append, List.mem_singleton]
          constructor
          · rintro (h | h)
            · exact Or.inl h
            · exact Or.inr ⟨h, hb, he, hc, hk, hd.1, hd.2⟩
          · rintro (h | h)
            · exact Or.inl h
            · exact Or.inr h.1
        · simp only [if_neg hw, if_pos hc, if_neg hk, if_neg hd]
          constructor
          · exact Or.inl
          · rintro (h | h)
            · exact h
            · exact absurd ⟨h.2.2.2.2.2.1, h.2.2.2.2.2.2⟩ hd
    · simp only [if_neg hw, if_neg hc]
      constructor
      · exact Or.inl
      · rintro (h | h)
        · exact h
        · exact absurd h.2.2.2.1 hc

theorem Zvision_laser.get_features_step_full (zl : Zvision_laser K) (b e : Int)
    (out : Feature_clouds K) (i : Nat) (x : Nat × PointType K) :
    x ∈ (get_features_step zl b e out i).pc_full_res
      ↔ x ∈ out.pc_full_res
        ∨ (x = (i, feature_point zl i)
          ∧ b ≤ (zl.m_pts_info_vec.getD i Pt_infos.init).idx
          ∧ (zl.m_pts_info_vec.getD i Pt_infos.init).idx ≤ e
          ∧ int_and (zl.m_pts_info_vec.getD i Pt_infos.init).pt_type critical_rm_point = 0
          ∧ ¬ (int_and (zl.m_pts_info_vec.getD i Pt_infos.init).pt_label e_label_corner ≠ 0
              ∧ (zl.m_pts_info_vec.getD i Pt_infos.init).pt_type ≠ e_pt_normal)) := by
  simp only [get_features_step]
  generalize zl.m_pts_info_vec.getD i Pt_infos.init = info
  by_cases hw : info.idx > e ∨ info.idx < b
  · simp only [if_pos hw]
    constructor
    · exact Or.inl
    · rintro (h | h)
      · exact h
      · rcases hw with hw | hw
        · exact absurd h.2.2.1 (not_le.mpr hw)
        · exact absurd h.2.1 (not_le.mpr hw)
  · have hb : b ≤ info.idx := by
      by_contra hcon
      exact hw (Or.inr (not_le.mp hcon))
    have he : info.idx ≤ e := by
      by_contra hcon
      exact hw (Or.inl (not_le.mp hcon))
    by_cases hc : int_and info.pt_type critical_rm_point = 0
    · by_cases hk : int_and info.pt_label e_label_corner ≠ 0 ∧ info.pt_type ≠ e_pt_normal
      · simp only [if_neg hw, if_pos hc, if_pos hk]
        constructor
        · exact Or.inl
        · rintro (h | h)
          · exact h
          · exact absurd hk h.2.2.2.2
      · simp only [if_neg hw, if_pos hc, if_neg hk, List.mem_append, List.mem_singleton]
        constructor
        · rintro (h | h)
          · exact Or.inl h
          · exact Or.inr ⟨h, hb, he, hc, hk⟩
        · rintro (h | h)
          · exact Or.inl h
          · exact Or.inr h.1
    · simp only [if_neg hw, if_neg hc]
      constructor
      · exact Or.inl
      · rintro (h | h)
        · exact h
        · exact absurd h.2.2.2.1 hc

theorem List.mem_foldl_emit {S α : Type} (step : S → Nat → S) (proj : S → List α)
    (f : Nat → α) (P : Nat → Prop)
    (hstep : ∀ out i x, x ∈ proj (step out i) ↔ x ∈ proj out ∨ (x = f i ∧ P i)) :
    ∀ (l : List Nat) (out : S) (x : α),
      x ∈ proj (l.foldl step out) ↔ x ∈ proj out ∨ ∃ i, i ∈ l ∧ x = f i ∧ P i := by
  intro l
  induction l with
  | nil =>
    intro out x
    simp only [List.foldl_nil, List.not_mem_nil, false_and, exists_false, or_false]
  | cons a t ih =>
    intro out x
    rw [List.foldl_cons, ih (step out a) x, hstep out a x]
    constructor
    · rintro ((h | h) | ⟨i, hi, h⟩)
      · exact Or.inl h
      · exact Or.inr ⟨a, List.mem_cons_self a t, h⟩
      · exact Or.inr ⟨i, List.mem_cons_of_mem a hi, h⟩
    · rintro (h | ⟨i, hi, h⟩)
      · exact Or.inl (Or.inl h)
      · rcases List.mem_cons.mp hi with hia | hit
        · subst hia
          exact Or.inl (Or.inr h)
        · exact Or.inr ⟨i, hit, h⟩

theorem Zvision_laser.get_features_zvision_corners (zl : Zvision_laser K) (laser : Int)
    (x : Nat × PointType K) :
    x ∈ (get_features_zvision zl laser).pc_corners
      ↔ ∃ i, i ∈ List.range zl.m_pts_info_vec.length ∧ x = (i, feature_point zl i)
          ∧ (if laser = 255 then 0 else laser * 10000)
              ≤ (zl.m_pts_info_vec.getD i Pt_infos.init).idx
          ∧ (zl.m_pts_info_vec.getD i Pt_infos.init).idx
              ≤ (if laser = 255 then 29999 else laser * 10000 + 10000 - 1)
          ∧ int_and (zl.m_pts_info_vec.getD i Pt_infos.init).pt_type critical_rm_point = 0
          ∧ int_and (zl.m_pts_info_vec.getD i Pt_infos.init).pt_label e_label_corner ≠ 0
          ∧ (zl.m_pts_info_vec.getD i Pt_infos.init).pt_type = e_pt_normal
          ∧ (zl.m_pts_info_vec.getD i Pt_infos.init).depth_sq2 < 30 ^ 2 := by
  simp only [get_features_zvision]
  rw [List.mem_foldl_emit _ Feature_clouds.pc_corners (fun i => (i, feature_point zl i)) _
    (fun out i x => get_features_step_corners zl _ _ out i x)]
  simp only [List.not_mem_nil, false_or]

theorem Zvision_laser.get_features_zvision_surface (zl : Zvision_laser K) (laser : Int)
    (x : Nat × PointType K) :
    x ∈ (get_features_zvision zl laser).pc_surface
      ↔ ∃ i, i ∈ List.range zl.m_pts_info_vec.length ∧ x = (i, feature_point zl i)
          ∧ (if laser = 255 then 0 else laser * 10000)
              ≤ (zl.m_pts_info_vec.getD i Pt_infos.init).idx
          ∧ (zl.m_pts_info_vec.getD i Pt_infos.init).idx
              ≤ (if laser = 255 then 29999 else laser * 10000 + 10000 - 1)
          ∧ int_and (zl.m_pts_info_vec.getD i Pt_infos.init).pt_type critical_rm_point = 0
          ∧ ¬ (int_and (zl.m_pts_info_vec.getD i Pt_infos.init).pt_label e_label_corner ≠ 0
              ∧ (zl.m_pts_info_vec.getD i Pt_infos.init).pt_type ≠ e_pt_normal)
          ∧ int_and (zl.m_pts_info_vec.getD i Pt_infos.init).pt_label e_label_surface ≠ 0
          ∧ (zl.m_pts_info_vec.getD i Pt_infos.init).depth_sq2 < 1000 ^ 2 := by
  simp only [get_features_zvision]
  rw [List.mem_foldl_emit _ Feature_clouds.pc_surface (fun i => (i, feature_point zl i)) _
    (fun out i x => get_features_step_surface zl _ _ out i x)]
  simp only [List.not_mem_nil, false_or]

theorem Zvision_laser.get_features_zvision_full (zl : Zvision_laser K) (laser : Int)
    (x : Nat × PointType K) :
    x ∈ (get_features_zvision zl laser).pc_full_res
      ↔ ∃ i, i ∈ List.range zl.m_pts_info_vec.length ∧ x = (i, feature_point zl i)
          ∧ (if laser = 255 then 0 else laser * 10000)
              ≤ (zl.m_pts_info_vec.getD i Pt_infos.init).idx
          ∧ (zl.m_pts_info_vec.getD i Pt_infos.init).idx
              ≤ (if laser = 255 then 29999 else laser * 10000 + 10000 - 1)
          ∧ int_and (zl.m_pts_info_vec.getD i Pt_infos.init).pt_type critical_rm_point = 0
          ∧ ¬ (int_and (zl.m_pts_info_vec.getD i Pt_infos.init).pt_label e_label_corner ≠ 0
              ∧ (zl.m_pts_info_vec.getD i Pt_infos.init).pt_type ≠ e_pt_normal) := by
  simp only [get_features_zvision]
  rw [List.mem_foldl_emit _ Feature_clouds.pc_full_res (fun i => (i, feature_point zl i)) _
    (fun out i x => get_features_step_full zl _ _ out i x)]
  simp only [List.not_mem_nil, false_or]

theorem Zvision_laser.feature_intensity_range (id : Int) (h0 : 0 ≤ id) (h1 : id ≤ 29999) :
    (feature_intensity id : K) = (((id % 10000) * 3 + id / 10000 : Int) : K) / 29999
    ∧ (0 : K) ≤ feature_intensity id ∧ (feature_intensity id : K) ≤ 1 := by
  have e1 : Int.tmod id 10000 = id % 10000 := Int.tmod_eq_emod h0 (by decide)
  have e2 : Int.tdiv id 10000 = id / 10000 := Int.tdiv_eq_ediv h0 (by decide)
  have hb0 : (0 : Int) ≤ (id % 10000) * 3 + id / 10000 := by omega
  have hb1 : (id % 10000) * 3 + id / 10000 ≤ (29999 : Int) := by omega
  have c0 : (0 : K) ≤ (((id % 10000) * 3 + id / 10000 : Int) : K) := by exact_mod_cast hb0
  have c1 : (((id % 10000) * 3 + id / 10000 : Int) : K) ≤ 29999 := by exact_mod_cast hb1
  unfold feature_intensity
  rw [e1, e2]
  refine ⟨rfl, div_nonneg c0 (by norm_num), ?_⟩
  rw [div_le_one (by norm_num)]
  exact c1

theorem Zvision_laser.window_bounds (laser id : Int)
    (hl : laser = 0 ∨ laser = 1 ∨ laser = 2 ∨ laser = 255)
    (hb : (if laser = 255 then 0 else laser * 10000) ≤ id)
    (he : id ≤ (if laser = 255 then 29999 else laser * 10000 + 10000 - 1)) :
    0 ≤ id ∧ id ≤ 29999 := by
  rcases hl with h | h | h | h <;> subst h <;> norm_num at hb he <;> exact ⟨by omega, by omega⟩

theorem Zvision_laser.project_point_idx (env : Feature_env K) (zl0 : Zvision_laser K)
    (idx : Nat) (pt : PointType K) : (project_point_zvision env zl0 idx pt).idx = (idx : Int) := by
  unfold project_point_zvision eval_point_zvision add_mask_of_point
  simp only [Pt_infos.init]
  split_ifs <;> rfl

theorem Zvision_laser.label_point_idx (env : Feature_env K) (zl : Zvision_laser K)
    (idx : Nat) :
    (label_point env zl idx).idx = (zl.m_pts_info_vec.getD idx Pt_infos.init).idx := by
  have key : ∀ res : Vector3d K × Int,
      accumulate_neighbors zl.m_pts_info_vec zl.m_raw_pts_vec idx [1, 2]
        (⟨0, 0, 0⟩, (zl.m_pts_info_vec.getD idx Pt_infos.init).pt_label) = res →
      (label_point env zl idx).idx = (zl.m_pts_info_vec.getD idx Pt_infos.init).idx := by
    intro res hres
    simp only [label_point, hres]
    split_ifs <;> rfl
  exact key _ rfl

theorem Zvision_laser.compute_point_zvision_idx (env : Feature_env K)
    (zl : Zvision_laser K) (laser g : Nat) :
    (compute_point_zvision env laser zl g).idx
      = (zl.m_pts_info_vec.getD (10000 * laser + g) Pt_infos.init).idx := by
  have key : ∀ lp : Pt_infos K, label_point env zl (10000 * laser + g) = lp →
      lp.idx = (zl.m_pts_info_vec.getD (10000 * laser + g) Pt_infos.init).idx →
      (compute_point_zvision env laser zl g).idx
        = (zl.m_pts_info_vec.getD (10000 * laser + g) Pt_infos.init).idx := by
    intro lp hlp hh
    simp only [compute_point_zvision, hlp]
    split_ifs
    · rfl
    · rfl
    · exact hh
  exact key _ rfl (label_point_idx env zl _)

theorem Zvision_laser.zvision_idx (env : Feature_env K) (zl0 : Zvision_laser K)
    (cloud : List (PointType K)) (hlen : cloud.length = 30000) (i : Nat) (hi : i < 30000) :
    ((compute_features_zvision env
        (projection_scan_3d_2d_zvision env zl0 cloud)).m_pts_info_vec.getD i Pt_infos.init).idx
      = (i : Int) := by
  have hplen := projection_length env zl0 cloud
  obtain ⟨_, hin, hout⟩ := compute_features_zvision_spec env
    (projection_scan_3d_2d_zvision env zl0 cloud) (by omega)
  by_cases hj : ∀ laser g, laser < 3 → 2 ≤ g → g ≤ 9997 → i ≠ 10000 * laser + g
  · rw [hout i hj, projection_entry env zl0 cloud i (by omega)]
    exact project_point_idx env zl0 i _
  · push_neg at hj
    obtain ⟨laser, g, h1, h2, h3, h4⟩ := hj
    subst h4
    rw [hin laser g h1 h2 h3, compute_point_zvision_idx,
      projection_entry env zl0 cloud _ (by omega)]
    exact project_point_idx env zl0 _ _

theorem Zvision_laser.zvision_length (env : Feature_env K) (zl0 : Zvision_laser K)
    (cloud : List (PointType K)) (hlen : cloud.length = 30000) :
    (compute_features_zvision env
      (projection_scan_3d_2d_zvision env zl0 cloud)).m_pts_info_vec.length = 30000 := by
  have hplen := projection_length env zl0 cloud
  rw [(compute_features_zvision_spec env
    (projection_scan_3d_2d_zvision env zl0 cloud) (by omega)).1.length, hplen, hlen]

theorem Zvision_laser.emitted_intensity (zl : Zvision_laser K) (laser : Int)
    (hl : laser = 0 ∨ laser = 1 ∨ laser = 2 ∨ laser = 255) (i : Nat) (p : PointType K)
    (hmem : (i, p) ∈ (get_features_zvision zl laser).pc_corners
      ∨ (i, p) ∈ (get_features_zvision zl laser).pc_surface
      ∨ (i, p) ∈ (get_features_zvision zl laser).pc_full_res) :
    i < zl.m_pts_info_vec.length
    ∧ p.intensity = feature_intensity (zl.m_pts_info_vec.getD i Pt_infos.init).idx
    ∧ 0 ≤ (zl.m_pts_info_vec.getD i Pt_infos.init).idx
    ∧ (zl.m_pts_info_vec.getD i Pt_infos.init).idx ≤ 29999 := by
  have main : ∃ j, j ∈ List.range zl.m_pts_info_vec.length ∧ (i, p) = (j, feature_point zl j)
      ∧ (if laser = 255 then 0 else laser * 10000)
          ≤ (zl.m_pts_info_vec.getD j Pt_infos.init).idx
      ∧ (zl.m_pts_info_vec.getD j Pt_infos.init).idx
          ≤ (if laser = 255 then 29999 else laser * 10000 + 10000 - 1) := by
    rcases hmem with h | h | h
    · obtain ⟨j, a, b, c, d, _⟩ := (get_features_zvision_corners zl laser _).mp h
      exact ⟨j, a, b, c, d⟩
    · obtain ⟨j, a, b, c, d, _⟩ := (get_features_zvision_surface zl laser _).mp h
      exact ⟨j, a, b, c, d⟩
    · obtain ⟨j, a, b, c, d, _⟩ := (get_features_zvision_full zl laser _).mp h
      exact ⟨j, a, b, c, d⟩
  obtain ⟨j, hj, heq, hb, he⟩ := main
  have hij : i = j := congrArg Prod.fst heq
  have hp : p = feature_point zl j := congrArg Prod.snd heq
  subst hij
  obtain ⟨w0, w1⟩ := window_bounds laser _ hl hb he
  refine ⟨List.mem_range.mp hj, ?_, w0, w1⟩
  rw [hp]
  rfl

/-- C16: for `laser` in `{0, 1, 2, 255}` every point emitted by `get_features_zvision` into the
corner, surface or full subset carries the intensity `((id mod 10000) * 3 + floor(id / 10000))
/ 29999` for the index `id` stored in its record, and this value lies in `[0, 1]`; on a frame of
30000 points processed by `projection_scan_3d_2d_zvision` and `compute_features_zvision` the
stored index is the position of the point in the frame. -/
theorem C16_intensity_range (env : Feature_env K) (zl0 zl : Zvision_laser K)
    (cloud : List (PointType K)) (laser : Int)
    (hl : laser = 0 ∨ laser = 1 ∨ laser = 2 ∨ laser = 255) :
    (∀ (i : Nat) (p : PointType K),
      ((i, p) ∈ (get_features_zvision zl laser).pc_corners
        ∨ (i, p) ∈ (get_features_zvision zl laser).pc_surface
        ∨ (i, p) ∈ (get_features_zvision zl laser).pc_full_res) →
      p.intensity
          = ((((zl.m_pts_info_vec.getD i Pt_infos.init).idx % 10000) * 3
              + (zl.m_pts_info_vec.getD i Pt_infos.init).idx / 10000 : Int) : K) / 29999
        ∧ 0 ≤ p.intensity ∧ p.intensity ≤ 1)
    ∧ (cloud.length = 30000 →
        ∀ (i : Nat) (p : PointType K),
          ((i, p) ∈ (get_features_zvision (compute_features_zvision env
                (projection_scan_3d_2d_zvision env zl0 cloud)) laser).pc_corners
            ∨ (i, p) ∈ (get_features_zvision (compute_features_zvision env
                (projection_scan_3d_2d_zvision env zl0 cloud)) laser).pc_surface
            ∨ (i, p) ∈ (get_features_zvision (compute_features_zvision env
                (projection_scan_3d_2d_zvision env zl0 cloud)) laser).pc_full_res) →
          p.intensity = ((((i : Int) % 10000) * 3 + (i : Int) / 10000 : Int) : K) / 29999
            ∧ 0 ≤ p.intensity ∧ p.intensity ≤ 1) := by
  constructor
  · intro i p hmem
    obtain ⟨_, hp, h0, h1⟩ := emitted_intensity zl laser hl i p hmem
    rw [hp]
    exact feature_intensity_range _ h0 h1
  · intro hlen i p hmem
    obtain ⟨hi, hp, h0, h1⟩ := emitted_intensity _ laser hl i p hmem
    rw [zvision_length env zl0 cloud hlen] at hi
    rw [zvision_idx env zl0 cloud hlen i hi] at hp h0 h1
    rw [hp]
    exact feature_intensity_range _ h0 h1

theorem line_state_full_5000 :
    (5000, feature_point line_state 5000) ∈ (get_features_zvision line_state 0).pc_full_res := by
  have hlen : line_frame.length = 30000 := by simp [line_frame]
  have hnd : ∀ j, 10000 * 0 + 5000 - 2 ≤ j → j ≤ 10000 * 0 + 5000 + 2 →
      non_degenerate example_env (line_frame.getD j PointType.init) := by
    intro j _ hj
    rw [line_frame_getD j (by omega)]
    refine ⟨rfl, rfl, rfl, ?_⟩
    show (5 : ℚ) ≠ 0
    norm_num
  have hline : equally_spaced line_frame (10000 * 0 + 5000) ⟨1 / 1000, 0, 0⟩ := by
    refine ⟨?_, ?_, ?_, ?_⟩ <;>
      rw [line_frame_getD _ (by decide), line_frame_getD _ (by decide)] <;>
      ext <;> norm_num [PointType.pos, Vector3d.add, Vector3d.sub, Vector3d.scale]
  have hcorner := (zvision_record_line example_env Zvision_laser.init line_frame 0 5000
    ⟨1 / 1000, 0, 0⟩ hlen (by decide) (by norm_num [Zvision_laser.init]) (by decide)
    (by decide) hnd hline).2
  have hgeo := (compute_features_zvision_spec example_env
    (projection_scan_3d_2d_zvision example_env Zvision_laser.init line_frame)
    (by rw [projection_length, hlen])).1
  have hcrit := (projection_clean example_env Zvision_laser.init line_frame (10000 * 0 + 5000)
    (by decide) (by rw [hlen]; decide) hnd).2.2
  rw [← hgeo.pt_type] at hcrit
  have hidx := zvision_idx example_env Zvision_laser.init line_frame hlen 5000 (by decide)
  have hl := zvision_length example_env Zvision_laser.init line_frame hlen
  unfold zvision_record at hcorner
  rw [get_features_zvision_full]
  unfold line_state
  refine ⟨5000, ?_, rfl, ?_, ?_, hcrit, fun h => h.1 hcorner⟩
  · rw [List.mem_range, hl]
    decide
  · rw [hidx]
    decide
  · rw [hidx]
    decide

theorem C16_intensity_range_witness :
    (feature_point line_state 5000).intensity
        = ((((5000 : Nat) : Int) % 10000 * 3 + ((5000 : Nat) : Int) / 10000 : Int) : ℚ) / 29999
    ∧ 0 ≤ (feature_point line_state 5000).intensity
    ∧ (feature_point line_state 5000).intensity ≤ 1 :=
  (C16_intensity_range example_env Zvision_laser.init line_state line_frame 0 (Or.inl rfl)).2
    (by simp [line_frame]) 5000 (feature_point line_state 5000)
    (Or.inr (Or.inr line_state_full_5000))

theorem Zvision_laser.project_point_normal (env : Feature_env K) (zl0 : Zvision_laser K)
    (idx : Nat) (pt : PointType K) (h : non_degenerate env pt)
    (hmin : ¬ depth2_xyz pt.x pt.y pt.z < zl0.m_zvision_min_allow_dis * zl0.m_zvision_min_allow_dis)
    (hmax : ¬ depth2_xyz pt.x pt.y pt.z > zl0.m_zvision_max_allow_dis * zl0.m_zvision_max_allow_dis) :
    (project_point_zvision env zl0 idx pt).pt_type = e_pt_normal := by
  obtain ⟨hx, hy, hz, hy0⟩ := h
  unfold project_point_zvision eval_point_zvision add_mask_of_point
  simp only [Pt_infos.init, hx, hy, hz, hy0, Bool.not_true, Bool.or_self, if_false,
    Bool.false_eq_true, if_neg hmin, if_neg hmax]

theorem Zvision_laser.project_point_zero (env : Feature_env K) (zl0 : Zvision_laser K)
    (idx : Nat) (pt : PointType K) (hx : env.cm.isfinite pt.x = true)
    (hy : env.cm.isfinite pt.y = true) (hz : env.cm.isfinite pt.z = true) (hy0 : pt.y = 0) :
    (project_point_zvision env zl0 idx pt).pt_type = int_or e_pt_normal e_pt_000 := by
  rw [hy0] at hy
  unfold project_point_zvision eval_point_zvision add_mask_of_point
  simp only [Pt_infos.init, hx, hy, hz, hy0, Bool.not_true, Bool.or_self, if_false,
    Bool.false_eq_true, if_true]

theorem Zvision_laser.label_point_invalid (env : Feature_env K) (zl : Zvision_laser K)
    (idx : Nat)
    (a1 : int_and (zl.m_pts_info_vec.getD (idx + 1) Pt_infos.init).pt_type e_pt_000 = 0)
    (a2 : int_and (zl.m_pts_info_vec.getD (idx - 1) Pt_infos.init).pt_type e_pt_000 = 0)
    (a3 : int_and (zl.m_pts_info_vec.getD (idx + 1) Pt_infos.init).pt_type e_pt_nan = 0)
    (a4 : int_and (zl.m_pts_info_vec.getD (idx - 1) Pt_infos.init).pt_type e_pt_nan = 0)
    (hz : int_and (zl.m_pts_info_vec.getD (idx + 2) Pt_infos.init).pt_type e_pt_000 ≠ 0) :
    label_point env zl idx
      = { zl.m_pts_info_vec.getD idx Pt_infos.init with pt_label := e_label_invalid } := by
  have hres : (accumulate_neighbors zl.m_pts_info_vec zl.m_raw_pts_vec idx [1, 2]
      (⟨0, 0, 0⟩, (zl.m_pts_info_vec.getD idx Pt_infos.init).pt_label)).2
        = e_label_invalid := by
    have h21 : ((2 : Nat) = 1) = False := by decide
    have hz1 : (int_and (zl.m_pts_info_vec.getD (idx + 2) Pt_infos.init).pt_type e_pt_000 = 0)
        = False := eq_false hz
    simp only [accumulate_neighbors, a1, a2, a3, a4, ne_eq, not_true_eq_false, or_self, if_false,
      hz1, not_false_eq_true, true_or, if_true, h21]
  simp only [label_point, hres, if_true]

theorem hole_frame_getD (i : Nat) (h : i < 30000) :
    hole_frame.getD i PointType.init
      = if i = 5002 then (⟨5, 0, 0, 0⟩ : PointType ℚ) else ⟨5, 5, 0, 0⟩ := by
  unfold hole_frame
  rw [List.getD_map_range _ _ _ _ h]

theorem hole_frame_entry_normal (i : Nat) (h : i < 30000) (hne : i ≠ 5002) :
    ((projection_scan_3d_2d_zvision example_env Zvision_laser.init
        hole_frame).m_pts_info_vec.getD i Pt_infos.init).pt_type = e_pt_normal
    ∧ ((projection_scan_3d_2d_zvision example_env Zvision_laser.init
        hole_frame).m_pts_info_vec.getD i Pt_infos.init).depth_sq2 = 50 := by
  have hlen : hole_frame.length = 30000 := by simp [hole_frame]
  have hnd : non_degenerate example_env (⟨5, 5, 0, 0⟩ : PointType ℚ) := by
    refine ⟨rfl, rfl, rfl, ?_⟩
    show (5 : ℚ) ≠ 0
    norm_num
  rw [projection_entry _ _ _ i (by omega), hole_frame_getD i h, if_neg hne]
  refine ⟨project_point_normal _ _ _ _ hnd ?_ ?_, ?_⟩
  · norm_num [depth2_xyz, Zvision_laser.init]
  · norm_num [depth2_xyz, Zvision_laser.init]
  · rw [(project_point_non_degenerate _ _ _ _ hnd).2.2.2]
    norm_num [depth2_xyz]

theorem hole_frame_entry_zero :
    ((projection_scan_3d_2d_zvision example_env Zvision_laser.init
        hole_frame).m_pts_info_vec.getD 5002 Pt_infos.init).pt_type
      = int_or e_pt_normal e_pt_000 := by
  have hlen : hole_frame.length = 30000 := by simp [hole_frame]
  rw [projection_entry _ _ _ 5002 (by omega), hole_frame_getD 5002 (by decide), if_pos rfl]
  exact project_point_zero _ _ _ _ rfl rfl rfl rfl

theorem hole_state_record :
    hole_state.m_pts_info_vec.getD 5000 Pt_infos.init
      = { (projection_scan_3d_2d_zvision example_env Zvision_laser.init
            hole_frame).m_pts_info_vec.getD 5000 Pt_infos.init with
          pt_label := e_label_invalid } := by
  have hlen : hole_frame.length = 30000 := by simp [hole_frame]
  have e0 : (5000 : Nat) = 10000 * 0 + 5000 := rfl
  have n0 := (hole_frame_entry_normal 5000 (by decide) (by decide)).1
  have n1 := (hole_frame_entry_normal 5001 (by decide) (by decide)).1
  have n2 := (hole_frame_entry_normal 4999 (by decide) (by decide)).1
  have z := hole_frame_entry_zero
  unfold hole_state
  rw [e0, (compute_features_zvision_spec example_env _
      (by rw [projection_length, hlen])).2.1 0 5000 (by decide) (by decide) (by decide),
    compute_point_zvision_pass example_env 0 5000 _ (by decide)
      (by rw [← e0, n0]; decide),
    if_pos (example_env_not_boundary 0 5000 (by decide)), ← e0]
  exact label_point_invalid example_env _ 5000 (by rw [n1]; decide) (by rw [n2]; decide)
    (by rw [n1]; decide) (by rw [n2]; decide) (by rw [z]; decide)

theorem Zvision_laser.Pt_infos.with_label_fields {F : Type} (r s : Pt_infos F) (l : Int)
    (h : s = { r with pt_label := l }) :
    s.pt_label = l ∧ s.pt_type = r.pt_type ∧ s.depth_sq2 = r.depth_sq2 := by
  subst h
  exact ⟨rfl, rfl, rfl⟩

theorem hole_state_fields :
    (hole_state.m_pts_info_vec.getD 5000 Pt_infos.init).pt_label = e_label_invalid
    ∧ (hole_state.m_pts_info_vec.getD 5000 Pt_infos.init).pt_type = e_pt_normal
    ∧ (hole_state.m_pts_info_vec.getD 5000 Pt_infos.init).depth_sq2 = 50
    ∧ (hole_state.m_pts_info_vec.getD 5000 Pt_infos.init).idx = 5000
    ∧ hole_state.m_pts_info_vec.length = 30000 := by
  have hlen : hole_frame.length = 30000 := by simp [hole_frame]
  obtain ⟨n0, d0⟩ := hole_frame_entry_normal 5000 (by decide) (by decide)
  obtain ⟨f1, f2, f3⟩ := Pt_infos.with_label_fields _ _ _ hole_state_record
  exact ⟨f1, f2.trans n0, f3.trans d0,
    zvision_idx example_env Zvision_laser.init hole_frame hlen 5000 (by decide),
    zvision_length example_env Zvision_laser.init hole_frame hlen⟩

/-- C15 (code evaluated on the failing input): in `hole_frame` every point is finite and in
range, and only the point at position 5002 has a zero secondary coordinate. Point 5000, whose
neighbour at offset `+2` is that degenerate point, gets the label `e_label_invalid` from
`compute_features_zvision`, and `get_features_zvision` for beam 0 emits it into both the
corner subset and the surface subset. -/
theorem C15_invalid_label_emitted :
    (hole_frame.getD 5002 PointType.init).y = 0
    ∧ (hole_state.m_pts_info_vec.getD 5000 Pt_infos.init).pt_label = e_label_invalid
    ∧ (5000, feature_point hole_state 5000) ∈ (get_features_zvision hole_state 0).pc_corners
    ∧ (5000, feature_point hole_state 5000) ∈ (get_features_zvision hole_state 0).pc_surface := by
  obtain ⟨hlab, htyp, hdep, hidx, hlen⟩ := hole_state_fields
  have hrange : 5000 ∈ List.range hole_state.m_pts_info_vec.length := by
    rw [List.mem_range, hlen]
    decide
  have hb : (if (0 : Int) = 255 then 0 else 0 * 10000)
      ≤ (hole_state.m_pts_info_vec.getD 5000 Pt_infos.init).idx := by
    rw [hidx]
    decide
  have he : (hole_state.m_pts_info_vec.getD 5000 Pt_infos.init).idx
      ≤ (if (0 : Int) = 255 then 29999 else 0 * 10000 + 10000 - 1) := by
    rw [hidx]
    decide
  have hcrit : int_and (hole_state.m_pts_info_vec.getD 5000 Pt_infos.init).pt_type
      critical_rm_point = 0 := by
    rw [htyp]
    decide
  have hcorner : int_and (hole_state.m_pts_info_vec.getD 5000 Pt_infos.init).pt_label
      e_label_corner ≠ 0 := by
    rw [hlab]
    decide
  have hsurface : int_and (hole_state.m_pts_info_vec.getD 5000 Pt_infos.init).pt_label
      e_label_surface ≠ 0 := by
    rw [hlab]
    decide
  refine ⟨?_, hlab, ?_, ?_⟩
  · rw [hole_frame_getD 5002 (by decide), if_pos rfl]
  · rw [get_features_zvision_corners]
    refine ⟨5000, hrange, rfl, hb, he, hcrit, hcorner, htyp, ?_⟩
    rw [hdep]
    norm_num
  · rw [get_features_zvision_surface]
    refine ⟨5000, hrange, rfl, hb, he, hcrit, fun h => h.2 htyp, hsurface, ?_⟩
    rw [hdep]
    norm_num

end FeatureTheorems


/-! ## The outlier-pruning pass -/

section PruningTheorems

variable {K : Type} [LinearOrderedField K]

theorem remove_outliers_fold (total_cost : K) (residuals : List K) (ids : List Nat) :
    ∀ (l : List Nat) (st : List Nat × List Nat) (x : Nat),
      (x ∈ (l.foldl (remove_outliers_step total_cost residuals ids) st).1
        ↔ x ∈ st.1 ∨ ∃ i, i ∈ l ∧ x = ids.getD i 0
            ∧ block_sum_abs residuals i > outlier_threshold total_cost ids.length)
      ∧ (x ∈ (l.foldl (remove_outliers_step total_cost residuals ids) st).2
        ↔ x ∈ st.2 ∨ ∃ i, i ∈ l ∧ x = ids.getD i 0
            ∧ ¬ block_sum_abs residuals i > outlier_threshold total_cost ids.length) := by
  intro l
  induction l with
  | nil =>
    intro st x
    simp only [List.foldl_nil, List.not_mem_nil, false_and, exists_false, or_false, and_self]
  | cons a t ih =>
    intro st x
    rw [List.foldl_cons]
    obtain ⟨h1, h2⟩ := ih (remove_outliers_step total_cost residuals ids st a) x
    rw [h1, h2]
    by_cases hc : block_sum_abs residuals a > outlier_threshold total_cost ids.length
    · simp only [remove_outliers_step, if_pos hc, List.mem_append, List.mem_singleton,
        List.mem_cons, List.not_mem_nil, or_false]
      constructor
      · constructor
        · rintro ((h | h) | ⟨i, hi, h⟩)
          · exact Or.inl h
          · exact Or.inr ⟨a, Or.inl rfl, h, hc⟩
          · exact Or.inr ⟨i, Or.inr hi, h⟩
        · rintro (h | ⟨i, hi | hi, h⟩)
          · exact Or.inl (Or.inl h)
          · subst hi
            exact Or.inl (Or.inr h.1)
          · exact Or.inr ⟨i, hi, h⟩
      · constructor
        · rintro (h | ⟨i, hi, h⟩)
          · exact Or.inl h
          · exact Or.inr ⟨i, Or.inr hi, h⟩
        · rintro (h | ⟨i, hi | hi, h⟩)
          · exact Or.inl h
          · subst hi
            exact absurd hc h.2
          · exact Or.inr ⟨i, hi, h⟩
    · simp only [remove_outliers_step, if_neg hc, List.mem_append, List.mem_singleton,
        List.mem_cons, List.not_mem_nil, or_false]
      constructor
      · constructor
        · rintro (h | ⟨i, hi, h⟩)
          · exact Or.inl h
          · exact Or.inr ⟨i, Or.inr hi, h⟩
        · rintro (h | ⟨i, hi | hi, h⟩)
          · exact Or.inl h
          · subst hi
            exact absurd h.2 hc
          · exact Or.inr ⟨i, hi, h⟩
      · constructor
        · rintro ((h | h) | ⟨i, hi, h⟩)
          · exact Or.inl h
          · exact Or.inr ⟨a, Or.inl rfl, h, hc⟩
          · exact Or.inr ⟨i, Or.inr hi, h⟩
        · rintro (h | ⟨i, hi | hi, h⟩)
          · exact Or.inl (Or.inl h)
          · subst hi
            exact Or.inl (Or.inr h.1)
          · exact Or.inr ⟨i, hi, h⟩

theorem List.getD_inj_of_nodup (ids : List Nat) (hnd : ids.Nodup) (i j : Nat)
    (hi : i < ids.length) (hj : j < ids.length) (h : ids.getD i 0 = ids.getD j 0) : i = j := by
  rw [List.getD_eq_getElem ids 0 hi, List.getD_eq_getElem ids 0 hj] at h
  exact (List.Nodup.getElem_inj_iff hnd).mp h

theorem remove_outliers_spec (total_cost : K) (residuals : List K) (ids : List Nat)
    (hnd : ids.Nodup) (i : Nat) (hi : i < ids.length) :
    (ids.getD i 0 ∈ (remove_outliers total_cost residuals ids).1
      ↔ block_sum_abs residuals i > outlier_threshold total_cost ids.length)
    ∧ (ids.getD i 0 ∈ (remove_outliers total_cost residuals ids).2
      ↔ ¬ block_sum_abs residuals i > outlier_threshold total_cost ids.length) := by
  obtain ⟨h1, h2⟩ := remove_outliers_fold total_cost residuals ids (List.range ids.length)
    ([], []) (ids.getD i 0)
  unfold remove_outliers
  rw [h1, h2]
  simp only [List.not_mem_nil, false_or, List.mem_range]
  constructor
  · constructor
    · rintro ⟨j, hj, he, hc⟩
      rw [List.getD_inj_of_nodup ids hnd i j hi hj he]
      exact hc
    · intro hc
      exact ⟨i, hi, rfl, hc⟩
  · constructor
    · rintro ⟨j, hj, he, hc⟩
      rw [List.getD_inj_of_nodup ids hnd i j hi hj he]
      exact hc
    · intro hc
      exact ⟨i, hi, rfl, hc⟩

/-- C11 (amended): in the outlier-pruning pass a factor is retained (pushed to the new
`residual_block_ids` and not removed from the problem) exactly when its summed absolute residual
is at most `min(0.1, 10 * avr_cost)`, where `avr_cost = total_cost / size` is the average of the
cost reported by `problem.Evaluate`, not of the residuals. -/
theorem C11_retained_iff (total_cost : K) (residuals : List K) (ids : List Nat)
    (hnd : ids.Nodup) (i : Nat) (hi : i < ids.length) :
    (ids.getD i 0 ∈ (remove_outliers total_cost residuals ids).2
      ∧ ids.getD i 0 ∉ (remove_outliers total_cost residuals ids).1)
    ↔ block_sum_abs residuals i ≤ min (1 / 10) (10 * (total_cost / (ids.length : K))) := by
  obtain ⟨h1, h2⟩ := remove_outliers_spec total_cost residuals ids hnd i hi
  rw [h1, h2]
  simp only [outlier_threshold, not_lt, and_self]

/-- C12 (amended): in the outlier-pruning pass a factor is removed from the problem and left out
of the new `residual_block_ids` exactly when its summed absolute residual exceeds
`min(0.1, 10 * avr_cost)` with `avr_cost = total_cost / size`; a factor whose summed absolute
residual is 100 times the (positive) mean summed absolute residual is therefore removed whenever
that value exceeds `0.1` or the average reported cost is below 10 times the mean. -/
theorem C12_removed_iff (total_cost : K) (residuals : List K) (ids : List Nat)
    (hnd : ids.Nodup) (i : Nat) (hi : i < ids.length) :
    ((ids.getD i 0 ∈ (remove_outliers total_cost residuals ids).1
        ∧ ids.getD i 0 ∉ (remove_outliers total_cost residuals ids).2)
      ↔ block_sum_abs residuals i > min (1 / 10) (10 * (total_cost / (ids.length : K))))
    ∧ (block_sum_abs residuals i = 100 * mean_sum_abs residuals ids.length →
        0 < mean_sum_abs residuals ids.length →
        (1 / 10 < 100 * mean_sum_abs residuals ids.length
          ∨ total_cost / (ids.length : K) < 10 * mean_sum_abs residuals ids.length) →
        ids.getD i 0 ∈ (remove_outliers total_cost residuals ids).1
          ∧ ids.getD i 0 ∉ (remove_outliers total_cost residuals ids).2) := by
  obtain ⟨h1, h2⟩ := remove_outliers_spec total_cost residuals ids hnd i hi
  rw [h1, h2]
  simp only [outlier_threshold, not_not, and_self, true_and]
  intro h100 hpos hcond
  rw [h100]
  rcases hcond with hc | hc
  · exact lt_of_le_of_lt (min_le_left _ _) hc
  · refine lt_of_le_of_lt (min_le_right _ _) ?_
    linarith

theorem block_sum_abs_two (a b : ℚ) (ha : 0 ≤ a) (hb : 0 ≤ b) :
    block_sum_abs [a, 0, 0, b, 0, 0] 0 = a ∧ block_sum_abs [a, 0, 0, b, 0, 0] 1 = b := by
  constructor
  · show |a| + |(0 : ℚ)| + |(0 : ℚ)| = a
    rw [abs_of_nonneg ha, abs_zero, add_zero, add_zero]
  · show |b| + |(0 : ℚ)| + |(0 : ℚ)| = b
    rw [abs_of_nonneg hb, abs_zero, add_zero, add_zero]

theorem C11_retained_iff_witness :
    ([0, 1] : List Nat).getD 0 0
        ∈ (remove_outliers (101 / 20000 : ℚ) [1 / 100, 0, 0, 1 / 10, 0, 0] [0, 1]).2
    ∧ ([0, 1] : List Nat).getD 0 0
        ∉ (remove_outliers (101 / 20000 : ℚ) [1 / 100, 0, 0, 1 / 10, 0, 0] [0, 1]).1 :=
  (C11_retained_iff (101 / 20000 : ℚ) [1 / 100, 0, 0, 1 / 10, 0, 0] [0, 1] (by decide) 0
    (by decide)).mpr (by
      rw [(block_sum_abs_two (1 / 100) (1 / 10) (by norm_num) (by norm_num)).1]
      norm_num)

theorem C12_removed_iff_witness :
    ([0, 1] : List Nat).getD 1 0
        ∈ (remove_outliers (101 / 20000 : ℚ) [1 / 100, 0, 0, 1 / 10, 0, 0] [0, 1]).1
    ∧ ([0, 1] : List Nat).getD 1 0
        ∉ (remove_outliers (101 / 20000 : ℚ) [1 / 100, 0, 0, 1 / 10, 0, 0] [0, 1]).2 :=
  (C12_removed_iff (101 / 20000 : ℚ) [1 / 100, 0, 0, 1 / 10, 0, 0] [0, 1] (by decide) 1
    (by decide)).1.mpr (by
      rw [(block_sum_abs_two (1 / 100) (1 / 10) (by norm_num) (by norm_num)).2]
      norm_num)

/-- C11 (counterexample): two factors with the same residual `(0.01, 0, 0)` and the total cost
`0.0001 = (0.01^2 + 0.01^2) / 2` that Ceres reports for them: each summed absolute residual
equals the mean, hence is at most twice the mean, yet the threshold is
`min(0.1, 10 * 0.00005) = 0.0005` and both factors are removed. -/
theorem C11_counterexample :
    block_sum_abs ([1 / 100, 0, 0, 1 / 100, 0, 0] : List ℚ) 0
        ≤ 2 * mean_sum_abs ([1 / 100, 0, 0, 1 / 100, 0, 0] : List ℚ) 2
    ∧ ([0, 1] : List Nat).getD 0 0
        ∈ (remove_outliers (1 / 10000 : ℚ) [1 / 100, 0, 0, 1 / 100, 0, 0] [0, 1]).1
    ∧ ([0, 1] : List Nat).getD 0 0
        ∉ (remove_outliers (1 / 10000 : ℚ) [1 / 100, 0, 0, 1 / 100, 0, 0] [0, 1]).2 := by
  obtain ⟨b0, b1⟩ := block_sum_abs_two (1 / 100) (1 / 100) (by norm_num) (by norm_num)
  obtain ⟨h1, h2⟩ := remove_outliers_spec (1 / 10000 : ℚ) [1 / 100, 0, 0, 1 / 100, 0, 0]
    [0, 1] (by decide) 0 (by decide)
  have hthr : block_sum_abs ([1 / 100, 0, 0, 1 / 100, 0, 0] : List ℚ) 0
      > outlier_threshold (1 / 10000 : ℚ) ([0, 1] : List Nat).length := by
    rw [b0]
    norm_num [outlier_threshold]
  refine ⟨?_, h1.mpr hthr, fun h => h2.mp h hthr⟩
  have hm : mean_sum_abs ([1 / 100, 0, 0, 1 / 100, 0, 0] : List ℚ) 2 = 1 / 100 := by
    have hr : List.range 2 = [0, 1] := by decide
    unfold mean_sum_abs
    rw [hr]
    simp only [List.map_cons, List.map_nil, List.sum_cons, List.sum_nil, b0, b1]
    norm_num
  rw [hm, b0]
  norm_num

theorem List.getD_replicate_zero (n j : Nat) : (List.replicate n (0 : ℚ)).getD j 0 = 0 := by
  rw [List.getD_eq_getElem?_getD, List.getElem?_replicate]
  split_ifs <;> rfl

theorem heavy_tail_block (i : Nat) :
    block_sum_abs heavy_tail_residuals i
      = if i = 0 then 1 / 10 else if i = 1 then 51 / 5 else 0 := by
  unfold block_sum_abs heavy_tail_residuals
  by_cases h0 : i = 0
  · subst h0
    rw [if_pos rfl, List.getD_append _ _ _ _ (by decide), List.getD_append _ _ _ _ (by decide),
      List.getD_append _ _ _ _ (by decide)]
    show |(1 / 10 : ℚ)| + |(0 : ℚ)| + |(0 : ℚ)| = 1 / 10
    rw [abs_of_nonneg (by norm_num), abs_zero, add_zero, add_zero]
  · by_cases h1 : i = 1
    · subst h1
      rw [if_neg h0, if_pos rfl, List.getD_append _ _ _ _ (by decide),
        List.getD_append _ _ _ _ (by decide), List.getD_append _ _ _ _ (by decide)]
      show |(51 / 5 : ℚ)| + |(0 : ℚ)| + |(0 : ℚ)| = 51 / 5
      rw [abs_of_nonneg (by norm_num), abs_zero, add_zero, add_zero]
    · have h6 : ([1 / 10, 0, 0, 51 / 5, 0, 0] : List ℚ).length = 6 := rfl
      rw [if_neg h0, if_neg h1, List.getD_append_right _ _ _ _ (by rw [h6]; omega),
        List.getD_append_right _ _ _ _ (by rw [h6]; omega),
        List.getD_append_right _ _ _ _ (by rw [h6]; omega),
        List.getD_replicate_zero, List.getD_replicate_zero, List.getD_replicate_zero]
      norm_num

theorem heavy_tail_mean : mean_sum_abs heavy_tail_residuals 10300 = 1 / 1000 := by
  have hr : List.range 10300 = 0 :: 1 :: List.range' 2 10298 := by
    rw [List.range_eq_range', show (10300 : Nat) = 10298 + 1 + 1 from rfl, List.range'_succ,
      List.range'_succ]
  have hz : ((List.range' 2 10298).map (block_sum_abs heavy_tail_residuals)).sum = 0 := by
    apply List.sum_eq_zero
    intro x hx
    obtain ⟨i, hi, rfl⟩ := List.mem_map.mp hx
    have hi2 := (List.mem_range'_1.mp hi).1
    rw [heavy_tail_block, if_neg (by omega), if_neg (by omega)]
  unfold mean_sum_abs
  rw [hr, List.map_cons, List.map_cons, List.sum_cons, List.sum_cons, hz, heavy_tail_block,
    heavy_tail_block]
  norm_num

/-- C12 (counterexample): 10300 factors whose reported residuals are `(0.1, 0, 0)`,
`(10.2, 0, 0)` and zero for the rest, with the total cost `104.04` that Ceres reports for them
under `HuberLoss(0.1)`. The mean summed absolute residual is `0.001 > 0` and factor 0 has exactly
100 times that, yet the threshold is `min(0.1, 10 * 104.04 / 10300) = 0.1` and factor 0 is kept
and not removed. -/
theorem C12_counterexample :
    0 < mean_sum_abs heavy_tail_residuals 10300
    ∧ block_sum_abs heavy_tail_residuals 0 = 100 * mean_sum_abs heavy_tail_residuals 10300
    ∧ (List.range 10300).getD 0 0
        ∈ (remove_outliers (2601 / 25 : ℚ) heavy_tail_residuals (List.range 10300)).2
    ∧ (List.range 10300).getD 0 0
        ∉ (remove_outliers (2601 / 25 : ℚ) heavy_tail_residuals (List.range 10300)).1 := by
  obtain ⟨h1, h2⟩ := remove_outliers_spec (2601 / 25 : ℚ) heavy_tail_residuals
    (List.range 10300) (List.nodup_range 10300) 0 (by rw [List.length_range]; decide)
  have hthr : ¬ block_sum_abs heavy_tail_residuals 0
      > outlier_threshold (2601 / 25 : ℚ) (List.range 10300).length := by
    rw [heavy_tail_block, if_pos rfl, List.length_range]
    norm_num [outlier_threshold]
  refine ⟨?_, ?_, h2.mpr hthr, fun h => hthr (h1.mp h)⟩
  · rw [heavy_tail_mean]
    norm_num
  · rw [heavy_tail_mean, heavy_tail_block, if_pos rfl]
    norm_num

end PruningTheorems


/-! ## The voxel grid -/

section GridTheorems

variable {K : Type}

open Cube_grid

theorem List.foldl_range_induction {S : Type} (f : S → Nat → S) (P : Nat → S → Prop) (m : Nat)
    (s0 : S) (h0 : P 0 s0) (hstep : ∀ i, i < m → ∀ s, P i s → P (i + 1) (f s i)) :
    P m ((List.range m).foldl f s0) := by
  induction m with
  | zero => simpa using h0
  | succ m ih =>
    rw [List.range_succ, List.foldl_append]
    simp only [List.foldl_cons, List.foldl_nil]
    exact hstep m (Nat.lt_succ_self m) _ (ih (fun i hi => hstep i (Nat.lt_succ_of_lt hi)))

theorem Cube_grid.rotate_ptrs_up_spec (line : Nat → Nat) (n : Nat) (arr : Nat → Nat)
    (hn : 1 ≤ n) (hinj : ∀ s t, s < n → t < n → line s = line t → s = t) :
    rotate_ptrs_up line n arr (line 0) = arr (line (n - 1))
    ∧ (∀ t, t + 1 < n → rotate_ptrs_up line n arr (line (t + 1)) = arr (line t))
    ∧ (∀ x, (∀ t, t < n → x ≠ line t) → rotate_ptrs_up line n arr x = arr x) := by
  have loop := List.foldl_range_induction
    (fun a c => Function.update a (line (n - 1 - c)) (a (line (n - 1 - c - 1))))
    (fun c a' => (∀ s, n - 1 - c < s → s ≤ n - 1 → a' (line s) = arr (line (s - 1)))
      ∧ (∀ s, s ≤ n - 1 - c → a' (line s) = arr (line s))
      ∧ (∀ x, (∀ t, t < n → x ≠ line t) → a' x = arr x))
    (n - 1) arr
    ⟨fun s h1 h2 => by omega, fun s _ => rfl, fun x _ => rfl⟩
    (by
      intro c hc a' ⟨h1, h2, h3⟩
      refine ⟨?_, ?_, ?_⟩
      · intro s hs1 hs2
        by_cases he : s = n - 1 - c
        · subst he
          simp only [Function.update_same]
          exact h2 _ (by omega)
        · have hne : line s ≠ line (n - 1 - c) := fun h =>
            he (hinj _ _ (by omega) (by omega) h)
          simp only [Function.update_noteq hne]
          exact h1 s (by omega) hs2
      · intro s hs
        have hne : line s ≠ line (n - 1 - c) := fun h => by
          have := hinj _ _ (by omega) (by omega) h
          omega
        simp only [Function.update_noteq hne]
        exact h2 s (by omega)
      · intro x hx
        have hne : x ≠ line (n - 1 - c) := hx _ (by omega)
        simp only [Function.update_noteq hne]
        exact h3 x hx)
  obtain ⟨l1, l2, l3⟩ := loop
  refine ⟨?_, ?_, ?_⟩
  · simp only [rotate_ptrs_up, Function.update_same]
  · intro t ht
    have hne : line (t + 1) ≠ line 0 := fun h => by
      have := hinj _ _ (by omega) (by omega) h
      omega
    simp only [rotate_ptrs_up, Function.update_noteq hne]
    have := l1 (t + 1) (by omega) (by omega)
    simpa using this
  · intro x hx
    have hne : x ≠ line 0 := hx 0 (by omega)
    simp only [rotate_ptrs_up, Function.update_noteq hne]
    exact l3 x hx

theorem Cube_grid.rotate_ptrs_down_spec (line : Nat → Nat) (n : Nat) (arr : Nat → Nat)
    (hn : 1 ≤ n) (hinj : ∀ s t, s < n → t < n → line s = line t → s = t) :
    rotate_ptrs_down line n arr (line (n - 1)) = arr (line 0)
    ∧ (∀ t, t + 1 < n → rotate_ptrs_down line n arr (line t) = arr (line (t + 1)))
    ∧ (∀ x, (∀ t, t < n → x ≠ line t) → rotate_ptrs_down line n arr x = arr x) := by
  have loop := List.foldl_range_induction
    (fun a t => Function.update a (line t) (a (line (t + 1))))
    (fun c a' => (∀ s, s < c → a' (line s) = arr (line (s + 1)))
      ∧ (∀ s, c ≤ s → s < n → a' (line s) = arr (line s))
      ∧ (∀ x, (∀ t, t < n → x ≠ line t) → a' x = arr x))
    (n - 1) arr
    ⟨fun s h1 => by omega, fun s _ _ => rfl, fun x _ => rfl⟩
    (by
      intro c hc a' ⟨h1, h2, h3⟩
      refine ⟨?_, ?_, ?_⟩
      · intro s hs
        by_cases he : s = c
        · subst he
          simp only [Function.update_same]
          exact h2 _ (by omega) (by omega)
        · have hne : line s ≠ line c := fun h => he (hinj _ _ (by omega) (by omega) h)
          simp only [Function.update_noteq hne]
          exact h1 s (by omega)
      · intro s hs1 hs2
        have hne : line s ≠ line c := fun h => by
          have := hinj _ _ (by omega) (by omega) h
          omega
        simp only [Function.update_noteq hne]
        exact h2 s (by omega) hs2
      · intro x hx
        have hne : x ≠ line c := hx _ (by omega)
        simp only [Function.update_noteq hne]
        exact h3 x hx)
  obtain ⟨l1, l2, l3⟩ := loop
  refine ⟨?_, ?_, ?_⟩
  · simp only [rotate_ptrs_down, Function.update_same]
  · intro t ht
    have hne : line t ≠ line (n - 1) := fun h => by
      have := hinj _ _ (by omega) (by omega) h
      omega
    simp only [rotate_ptrs_down, Function.update_noteq hne]
    exact l1 t (by omega)
  · intro x hx
    have hne : x ≠ line (n - 1) := hx (n - 1) (by omega)
    simp only [rotate_ptrs_down, Function.update_noteq hne]
    exact l3 x hx

theorem Cube_grid.line_shift_core (line : Nat → Nat) (n N fresh recycled : Nat)
    (pm : Nat → Nat) (g g1 : Cube_grid K)
    (hrange : ∀ t, t < n → line t < N)
    (hinj : ∀ s t, s < n → t < n → line s = line t → s = t)
    (hd : distinct_ptrs g N)
    (hpm : ∀ s, s < n → pm s < n) (hpm_inj : ∀ s t, s < n → t < n → pm s = pm t → s = t)
    (hf : fresh < n) (hfr : pm fresh = recycled)
    (hc : ∀ s, s < n →
      g1.m_laser_cloud_corner_array (line s) = g.m_laser_cloud_corner_array (line (pm s)))
    (hs : ∀ s, s < n →
      g1.m_laser_cloud_surface_array (line s) = g.m_laser_cloud_surface_array (line (pm s)))
    (hoc : ∀ x, (∀ t, t < n → x ≠ line t) →
      g1.m_laser_cloud_corner_array x = g.m_laser_cloud_corner_array x)
    (hos : ∀ x, (∀ t, t < n → x ≠ line t) →
      g1.m_laser_cloud_surface_array x = g.m_laser_cloud_surface_array x)
    (hheap : g1.heap = Function.update
      (Function.update g.heap (g.m_laser_cloud_corner_array (line recycled)) [])
      (g.m_laser_cloud_surface_array (line recycled)) []) :
    distinct_ptrs g1 N
    ∧ (∀ x, x < N → (∀ t, t < n → x ≠ line t) → cells g1 x = cells g x)
    ∧ (∀ s, s < n → s ≠ fresh → cells g1 (line s) = cells g (line (pm s)))
    ∧ cells g1 (line fresh) = ([], []) := by
  obtain ⟨dc, ds, dcs⟩ := hd
  have hrec : recycled < n := hfr ▸ hpm fresh hf
  -- every entry of the new arrays is an entry of the old ones, at an injectively chosen index
  have src : ∀ x, x < N → ∃ y, y < N
      ∧ g1.m_laser_cloud_corner_array x = g.m_laser_cloud_corner_array y
      ∧ g1.m_laser_cloud_surface_array x = g.m_laser_cloud_surface_array y
      ∧ ((∃ s, s < n ∧ x = line s ∧ y = line (pm s)) ∨ ((∀ t, t < n → x ≠ line t) ∧ y = x)) := by
    intro x hx
    by_cases hon : ∃ s, s < n ∧ x = line s
    · obtain ⟨s, hs1, rfl⟩ := hon
      exact ⟨line (pm s), hrange _ (hpm s hs1), hc s hs1, hs s hs1, Or.inl ⟨s, hs1, rfl, rfl⟩⟩
    · have hoff : ∀ t, t < n → x ≠ line t := fun t ht h => hon ⟨t, ht, h⟩
      exact ⟨x, hx, hoc x hoff, hos x hoff, Or.inr ⟨hoff, rfl⟩⟩
  have src_inj : ∀ x x1 y y1, x < N → x1 < N →
      ((∃ s, s < n ∧ x = line s ∧ y = line (pm s)) ∨ ((∀ t, t < n → x ≠ line t) ∧ y = x)) →
      ((∃ s, s < n ∧ x1 = line s ∧ y1 = line (pm s))
        ∨ ((∀ t, t < n → x1 ≠ line t) ∧ y1 = x1)) →
      y = y1 → x = x1 := by
    intro x x1 y y1 _ _ h h1 e
    rcases h with ⟨s, hs1, rfl, rfl⟩ | ⟨hoff, rfl⟩
    · rcases h1 with ⟨s1, hs2, rfl, rfl⟩ | ⟨hoff1, rfl⟩
      · have := hpm_inj s s1 hs1 hs2 (hinj _ _ (hpm s hs1) (hpm s1 hs2) e)
        rw [this]
      · exact absurd e.symm (hoff1 _ (hpm s hs1))
    · rcases h1 with ⟨s1, hs2, rfl, rfl⟩ | ⟨hoff1, rfl⟩
      · exact absurd e (hoff _ (hpm s1 hs2))
      · exact e
  have heap_keep : ∀ y, y < N → y ≠ line recycled →
      g1.heap (g.m_laser_cloud_corner_array y) = g.heap (g.m_laser_cloud_corner_array y)
      ∧ g1.heap (g.m_laser_cloud_surface_array y) = g.heap (g.m_laser_cloud_surface_array y) := by
    intro y hy hne
    have hrN := hrange recycled hrec
    have c1 : g.m_laser_cloud_corner_array y ≠ g.m_laser_cloud_corner_array (line recycled) :=
      fun h => hne (dc _ _ hy hrN h)
    have c2 : g.m_laser_cloud_corner_array y ≠ g.m_laser_cloud_surface_array (line recycled) :=
      dcs _ _ hy hrN
    have s1 : g.m_laser_cloud_surface_array y ≠ g.m_laser_cloud_surface_array (line recycled) :=
      fun h => hne (ds _ _ hy hrN h)
    have s2 : g.m_laser_cloud_surface_array y ≠ g.m_laser_cloud_corner_array (line recycled) :=
      fun h => dcs _ _ hrN hy h.symm
    rw [hheap]
    exact ⟨by rw [Function.update_noteq c2, Function.update_noteq c1],
      by rw [Function.update_noteq s1, Function.update_noteq s2]⟩
  refine ⟨⟨?_, ?_, ?_⟩, ?_, ?_, ?_⟩
  · intro x x1 hx hx1 e
    obtain ⟨y, hy, ey, _, hk⟩ := src x hx
    obtain ⟨y1, hy1, ey1, _, hk1⟩ := src x1 hx1
    rw [ey, ey1] at e
    exact src_inj x x1 y y1 hx hx1 hk hk1 (dc _ _ hy hy1 e)
  · intro x x1 hx hx1 e
    obtain ⟨y, hy, _, ey, hk⟩ := src x hx
    obtain ⟨y1, hy1, _, ey1, hk1⟩ := src x1 hx1
    rw [ey, ey1] at e
    exact src_inj x x1 y y1 hx hx1 hk hk1 (ds _ _ hy hy1 e)
  · intro x x1 hx hx1 e
    obtain ⟨y, hy, ey, _, _⟩ := src x hx
    obtain ⟨y1, hy1, _, ey1, _⟩ := src x1 hx1
    rw [ey, ey1] at e
    exact dcs _ _ hy hy1 e
  · intro x hx hoff
    have hne : x ≠ line recycled := hoff _ hrec
    obtain ⟨k1, k2⟩ := heap_keep x hx hne
    simp only [cells, corner_cell, surface_cell, hoc x hoff, hos x hoff, k1, k2]
  · intro s hs1 hsf
    have hne : line (pm s) ≠ line recycled := fun h => by
      have h1 := hinj _ _ (hpm s hs1) hrec h
      rw [← hfr] at h1
      exact hsf (hpm_inj s fresh hs1 hf h1)
    obtain ⟨k1, k2⟩ := heap_keep _ (hrange _ (hpm s hs1)) hne
    simp only [cells, corner_cell, surface_cell, hc s hs1, hs s hs1, k1, k2]
  · have hcs : g.m_laser_cloud_corner_array (line recycled)
        ≠ g.m_laser_cloud_surface_array (line recycled) :=
      dcs _ _ (hrange _ hrec) (hrange _ hrec)
    simp only [cells, corner_cell, surface_cell, hc fresh hf, hs fresh hf, hfr, hheap,
      Function.update_same, Function.update_noteq hcs]

theorem Cube_grid.shift_line_up_spec (n N : Nat) (hn : 1 ≤ n) :
    LineShift n N 0 (fun s => if s = 0 then n - 1 else s - 1)
      (fun line (g : Cube_grid K) => shift_line_up line n g) := by
  intro line g hrange hinj hd
  obtain ⟨c0, c1, c2⟩ := rotate_ptrs_up_spec line n g.m_laser_cloud_corner_array hn hinj
  obtain ⟨s0, s1, s2⟩ := rotate_ptrs_up_spec line n g.m_laser_cloud_surface_array hn hinj
  refine line_shift_core line n N 0 (n - 1) _ g _ hrange hinj hd ?_ ?_ (by omega) ?_ ?_ ?_
    c2 s2 rfl
  · intro s hs
    split_ifs <;> omega
  · intro s t hs ht h
    split_ifs at h <;> omega
  · simp only [if_true]
  · intro s hs
    by_cases h0 : s = 0
    · subst h0
      simp only [if_true]
      exact c0
    · obtain ⟨t, rfl⟩ := Nat.exists_eq_succ_of_ne_zero h0
      simp only [Nat.succ_ne_zero, if_false, Nat.succ_sub_one]
      exact c1 t hs
  · intro s hs
    by_cases h0 : s = 0
    · subst h0
      simp only [if_true]
      exact s0
    · obtain ⟨t, rfl⟩ := Nat.exists_eq_succ_of_ne_zero h0
      simp only [Nat.succ_ne_zero, if_false, Nat.succ_sub_one]
      exact s1 t hs

theorem Cube_grid.shift_line_down_spec (n N : Nat) (hn : 1 ≤ n) :
    LineShift n N (n - 1) (fun s => if s = n - 1 then 0 else s + 1)
      (fun line (g : Cube_grid K) => shift_line_down line n g) := by
  intro line g hrange hinj hd
  obtain ⟨c0, c1, c2⟩ := rotate_ptrs_down_spec line n g.m_laser_cloud_corner_array hn hinj
  obtain ⟨s0, s1, s2⟩ := rotate_ptrs_down_spec line n g.m_laser_cloud_surface_array hn hinj
  refine line_shift_core line n N (n - 1) 0 _ g _ hrange hinj hd ?_ ?_ (by omega) ?_ ?_ ?_
    c2 s2 rfl
  · intro s hs
    split_ifs <;> omega
  · intro s t hs ht h
    split_ifs at h <;> omega
  · simp only [if_true]
  · intro s hs
    by_cases h0 : s = n - 1
    · subst h0
      simp only [if_true]
      exact c0
    · simp only [h0, if_false]
      exact c1 s (by omega)
  · intro s hs
    by_cases h0 : s = n - 1
    · subst h0
      simp only [if_true]
      exact s0
    · simp only [h0, if_false]
      exact s1 s (by omega)

theorem Cube_grid.shift_lines_spec (sl : (Nat → Nat) → Cube_grid K → Cube_grid K)
    (line : Nat → Nat → Nat → Nat) (A B n N fresh : Nat) (pm : Nat → Nat) (g : Cube_grid K)
    (hsl : LineShift n N fresh pm sl) (hpm : ∀ s, s < n → pm s < n) (hf : fresh < n)
    (hrange : ∀ a b t, a < A → b < B → t < n → line a b t < N)
    (hinj : ∀ a b t a1 b1 t1, a < A → b < B → t < n → a1 < A → b1 < B → t1 < n →
      line a b t = line a1 b1 t1 → a = a1 ∧ b = b1 ∧ t = t1)
    (hd : distinct_ptrs g N) :
    distinct_ptrs (shift_lines sl line A B g) N
    ∧ (∀ a b s, a < A → b < B → s < n → s ≠ fresh →
        cells (shift_lines sl line A B g) (line a b s) = cells g (line a b (pm s)))
    ∧ (∀ a b, a < A → b < B → cells (shift_lines sl line A B g) (line a b fresh) = ([], []))
    ∧ (∀ x, x < N → (∀ a b t, a < A → b < B → t < n → x ≠ line a b t) →
        cells (shift_lines sl line A B g) x = cells g x) := by
  have inner : ∀ a0, a0 < A → ∀ g0 : Cube_grid K,
      (distinct_ptrs g0 N
        ∧ (∀ a b, a < A → b < B → a < a0 →
            (∀ s, s < n → s ≠ fresh → cells g0 (line a b s) = cells g (line a b (pm s)))
            ∧ cells g0 (line a b fresh) = ([], []))
        ∧ (∀ a b, a < A → b < B → ¬ a < a0 →
            ∀ t, t < n → cells g0 (line a b t) = cells g (line a b t))
        ∧ (∀ x, x < N → (∀ a b t, a < A → b < B → t < n → x ≠ line a b t) →
            cells g0 x = cells g x)) →
      (distinct_ptrs ((List.range B).foldl (fun g2 b => sl (line a0 b) g2) g0) N
        ∧ (∀ a b, a < A → b < B → a < a0 + 1 →
            (∀ s, s < n → s ≠ fresh →
              cells ((List.range B).foldl (fun g2 b => sl (line a0 b) g2) g0) (line a b s)
                = cells g (line a b (pm s)))
            ∧ cells ((List.range B).foldl (fun g2 b => sl (line a0 b) g2) g0) (line a b fresh)
                = ([], []))
        ∧ (∀ a b, a < A → b < B → ¬ a < a0 + 1 →
            ∀ t, t < n →
              cells ((List.range B).foldl (fun g2 b => sl (line a0 b) g2) g0) (line a b t)
                = cells g (line a b t))
        ∧ (∀ x, x < N → (∀ a b t, a < A → b < B → t < n → x ≠ line a b t) →
            cells ((List.range B).foldl (fun g2 b => sl (line a0 b) g2) g0) x
              = cells g x)) := by
    intro a0 ha0 g0 ⟨d0, p0, u0, o0⟩
    have loop := List.foldl_range_induction (fun g2 b => sl (line a0 b) g2)
      (fun b0 g1 => distinct_ptrs g1 N
        ∧ (∀ a b, a < A → b < B → (a < a0 ∨ (a = a0 ∧ b < b0)) →
            (∀ s, s < n → s ≠ fresh → cells g1 (line a b s) = cells g (line a b (pm s)))
            ∧ cells g1 (line a b fresh) = ([], []))
        ∧ (∀ a b, a < A → b < B → ¬ (a < a0 ∨ (a = a0 ∧ b < b0)) →
            ∀ t, t < n → cells g1 (line a b t) = cells g (line a b t))
        ∧ (∀ x, x < N → (∀ a b t, a < A → b < B → t < n → x ≠ line a b t) →
            cells g1 x = cells g x))
      B g0
      ⟨d0, fun a b ha hb h => p0 a b ha hb (by omega),
        fun a b ha hb h => u0 a b ha hb (by omega), o0⟩
      (by
        intro b0 hb0 g1 ⟨d1, p1, u1, o1⟩
        obtain ⟨d2, off2, ret2, fr2⟩ := hsl (line a0 b0) g1
          (fun t ht => hrange a0 b0 t ha0 hb0 ht)
          (fun s t hs ht h => (hinj a0 b0 s a0 b0 t ha0 hb0 hs ha0 hb0 ht h).2.2) d1
        have other : ∀ a b t, a < A → b < B → t < n → ¬ (a = a0 ∧ b = b0) →
            cells (sl (line a0 b0) g1) (line a b t) = cells g1 (line a b t) := by
          intro a b t ha hb ht hne
          refine off2 _ (hrange a b t ha hb ht) (fun t1 ht1 h => hne ?_)
          obtain ⟨e1, e2, _⟩ := hinj a b t a0 b0 t1 ha hb ht ha0 hb0 ht1 h
          exact ⟨e1, e2⟩
        refine ⟨d2, ?_, ?_, ?_⟩
        · intro a b ha hb hdone
          by_cases hcur : a = a0 ∧ b = b0
          · obtain ⟨rfl, rfl⟩ := hcur
            have hun := u1 a b ha hb (by omega)
            refine ⟨fun s hs hsf => ?_, fr2⟩
            rw [ret2 s hs hsf]
            exact hun _ (hpm s hs)
          · obtain ⟨q1, q2⟩ := p1 a b ha hb (by omega)
            refine ⟨fun s hs hsf => ?_, ?_⟩
            · rw [other a b s ha hb hs hcur]
              exact q1 s hs hsf
            · rw [other a b fresh ha hb hf hcur]
              exact q2
        · intro a b ha hb hnd t ht
          rw [other a b t ha hb ht (by omega)]
          exact u1 a b ha hb (by omega) t ht
        · intro x hx hoff
          rw [off2 x hx (fun t ht => hoff a0 b0 t ha0 hb0 ht)]
          exact o1 x hx hoff)
    obtain ⟨d3, p3, u3, o3⟩ := loop
    exact ⟨d3, fun a b ha hb h => p3 a b ha hb (by omega),
      fun a b ha hb h => u3 a b ha hb (by omega), o3⟩
  have outer := List.foldl_range_induction
    (fun g1 a => (List.range B).foldl (fun g2 b => sl (line a b) g2) g1)
    (fun a0 g0 => distinct_ptrs g0 N
      ∧ (∀ a b, a < A → b < B → a < a0 →
          (∀ s, s < n → s ≠ fresh → cells g0 (line a b s) = cells g (line a b (pm s)))
          ∧ cells g0 (line a b fresh) = ([], []))
      ∧ (∀ a b, a < A → b < B → ¬ a < a0 →
          ∀ t, t < n → cells g0 (line a b t) = cells g (line a b t))
      ∧ (∀ x, x < N → (∀ a b t, a < A → b < B → t < n → x ≠ line a b t) →
          cells g0 x = cells g x))
    A g
    ⟨hd, fun a b _ _ h => absurd h (Nat.not_lt_zero a), fun a b _ _ _ t _ => rfl,
      fun x _ _ => rfl⟩
    (fun a0 ha0 g0 h => inner a0 ha0 g0 h)
  obtain ⟨d4, p4, _, o4⟩ := outer
  exact ⟨d4, fun a b s ha hb hs hsf => (p4 a b ha hb ha).1 s hs hsf,
    fun a b ha hb => (p4 a b ha hb ha).2, o4⟩

theorem Cube_grid.cube_index_lt (W H D i j k : Nat) (hi : i < W) (hj : j < H) (hk : k < D) :
    cube_index W H i j k < W * H * D := by
  unfold cube_index
  have h1 : i + W * j + W * H * k < W * H * (k + 1) := by
    nlinarith [Nat.mul_le_mul_left W (Nat.succ_le_of_lt hj)]
  exact lt_of_lt_of_le h1 (Nat.mul_le_mul_left _ (Nat.succ_le_of_lt hk))

theorem Cube_grid.cube_index_inj (W H i j k i1 j1 k1 : Nat) (hi : i < W) (hj : j < H)
    (hi1 : i1 < W) (hj1 : j1 < H) (h : cube_index W H i j k = cube_index W H i1 j1 k1) :
    i = i1 ∧ j = j1 ∧ k = k1 := by
  unfold cube_index at h
  have e : ∀ a b c : Nat, a + W * b + W * H * c = a + W * (b + H * c) := by
    intro a b c
    ring
  rw [e, e] at h
  have hW : 0 < W := by omega
  have hH : 0 < H := by omega
  have m1 := congrArg (fun x => x % W) h
  have d1 := congrArg (fun x => x / W) h
  simp only [Nat.add_mul_mod_self_left, Nat.mod_eq_of_lt hi, Nat.mod_eq_of_lt hi1] at m1
  simp only [Nat.add_mul_div_left _ _ hW, Nat.div_eq_of_lt hi, Nat.div_eq_of_lt hi1,
    Nat.zero_add] at d1
  have m2 := congrArg (fun x => x % H) d1
  have d2 := congrArg (fun x => x / H) d1
  simp only [Nat.add_mul_mod_self_left, Nat.mod_eq_of_lt hj, Nat.mod_eq_of_lt hj1] at m2
  simp only [Nat.add_mul_div_left _ _ hH, Nat.div_eq_of_lt hj, Nat.div_eq_of_lt hj1,
    Nat.zero_add] at d2
  exact ⟨m1, m2, d2⟩

theorem Cube_grid.count_points_congr (g g1 : Cube_grid K) (line : Nat → Nat → Nat → Nat)
    (A B n : Nat) (pos pos1 : Nat → Nat)
    (h : ∀ a b t, a < A → b < B → t + 1 < n →
      cells g1 (line a b (pos1 t)) = cells g (line a b (pos t))) :
    count_points g1 line A B n pos1 = count_points g line A B n pos := by
  unfold count_points
  congr 1
  apply List.map_congr_left
  intro a ha
  congr 1
  apply List.map_congr_left
  intro b hb
  congr 1
  apply List.map_congr_left
  intro t ht
  have := h a b t (List.mem_range.mp ha) (List.mem_range.mp hb)
    (by have := List.mem_range.mp ht; omega)
  simp only [cells, Prod.mk.injEq] at this
  rw [this.1, this.2]

theorem Cube_grid.shift_up_retained (line : Nat → Nat → Nat → Nat) (A B n N : Nat)
    (g : Cube_grid K) (hn : 1 ≤ n)
    (hrange : ∀ a b t, a < A → b < B → t < n → line a b t < N)
    (hinj : ∀ a b t a1 b1 t1, a < A → b < B → t < n → a1 < A → b1 < B → t1 < n →
      line a b t = line a1 b1 t1 → a = a1 ∧ b = b1 ∧ t = t1)
    (hd : distinct_ptrs g N) :
    (∀ a b t, a < A → b < B → t + 1 < n →
      cells (shift_lines (fun l => shift_line_up l n) line A B g) (line a b (t + 1))
        = cells g (line a b t))
    ∧ count_points (shift_lines (fun l => shift_line_up l n) line A B g) line A B n
        (fun t => t + 1) = count_points g line A B n (fun t => t) := by
  obtain ⟨_, ret, _, _⟩ := shift_lines_spec (fun l => shift_line_up l n) line A B n N 0 _ g
    (shift_line_up_spec n N hn) (fun s hs => by split_ifs <;> omega) (by omega) hrange hinj hd
  have key : ∀ a b t, a < A → b < B → t + 1 < n →
      cells (shift_lines (fun l => shift_line_up l n) line A B g) (line a b (t + 1))
        = cells g (line a b t) := by
    intro a b t ha hb ht
    have := ret a b (t + 1) ha hb ht (Nat.succ_ne_zero t)
    simpa using this
  exact ⟨key, count_points_congr _ _ line A B n _ _ key⟩

theorem Cube_grid.shift_down_retained (line : Nat → Nat → Nat → Nat) (A B n N : Nat)
    (g : Cube_grid K) (hn : 1 ≤ n)
    (hrange : ∀ a b t, a < A → b < B → t < n → line a b t < N)
    (hinj : ∀ a b t a1 b1 t1, a < A → b < B → t < n → a1 < A → b1 < B → t1 < n →
      line a b t = line a1 b1 t1 → a = a1 ∧ b = b1 ∧ t = t1)
    (hd : distinct_ptrs g N) :
    (∀ a b t, a < A → b < B → t + 1 < n →
      cells (shift_lines (fun l => shift_line_down l n) line A B g) (line a b t)
        = cells g (line a b (t + 1)))
    ∧ count_points (shift_lines (fun l => shift_line_down l n) line A B g) line A B n
        (fun t => t) = count_points g line A B n (fun t => t + 1) := by
  obtain ⟨_, ret, _, _⟩ := shift_lines_spec (fun l => shift_line_down l n) line A B n N (n - 1)
    _ g (shift_line_down_spec n N hn) (fun s hs => by split_ifs <;> omega) (by omega) hrange
    hinj hd
  have key : ∀ a b t, a < A → b < B → t + 1 < n →
      cells (shift_lines (fun l => shift_line_down l n) line A B g) (line a b t)
        = cells g (line a b (t + 1)) := by
    intro a b t ha hb ht
    have := ret a b t ha hb (by omega) (by omega)
    rw [if_neg (by omega)] at this
    exact this
  exact ⟨key, count_points_congr _ _ line A B n _ _ key⟩

/-- C1: for every grid whose cell pointers are pairwise distinct and each of the six one-cell
recentring shifts of `Laser_mapping::process`, every cell that stays inside the window keeps
exactly its corner and surface points at the index displaced by one along the shift axis (for
the `centerCubeI < 3` shift, new cell `(i + 1, j, k)` = old cell `(i, j, k)` for `i <= W - 2`),
and the number of points held in the retained cells is unchanged. -/
theorem C1_shift_keeps_retained_cells (W H D : Nat) (g : Cube_grid K) (hW : 1 ≤ W)
    (hH : 1 ≤ H) (hD : 1 ≤ D) (hd : distinct_ptrs g (W * H * D)) :
    ((∀ i j k, i + 1 < W → j < H → k < D →
        cells (shift_I_low W H D g) (cube_index W H (i + 1) j k)
          = cells g (cube_index W H i j k))
      ∧ count_points (shift_I_low W H D g) (fun j k i => cube_index W H i j k) H D W
          (fun t => t + 1)
        = count_points g (fun j k i => cube_index W H i j k) H D W (fun t => t))
    ∧ ((∀ i j k, i + 1 < W → j < H → k < D →
        cells (shift_I_high W H D g) (cube_index W H i j k)
          = cells g (cube_index W H (i + 1) j k))
      ∧ count_points (shift_I_high W H D g) (fun j k i => cube_index W H i j k) H D W
          (fun t => t)
        = count_points g (fun j k i => cube_index W H i j k) H D W (fun t => t + 1))
    ∧ ((∀ i j k, i < W → j + 1 < H → k < D →
        cells (shift_J_low W H D g) (cube_index W H i (j + 1) k)
          = cells g (cube_index W H i j k))
      ∧ count_points (shift_J_low W H D g) (fun i k j => cube_index W H i j k) W D H
          (fun t => t + 1)
        = count_points g (fun i k j => cube_index W H i j k) W D H (fun t => t))
    ∧ ((∀ i j k, i < W → j + 1 < H → k < D →
        cells (shift_J_high W H D g) (cube_index W H i j k)
          = cells g (cube_index W H i (j + 1) k))
      ∧ count_points (shift_J_high W H D g) (fun i k j => cube_index W H i j k) W D H
          (fun t => t)
        = count_points g (fun i k j => cube_index W H i j k) W D H (fun t => t + 1))
    ∧ ((∀ i j k, i < W → j < H → k + 1 < D →
        cells (shift_K_low W H D g) (cube_index W H i j (k + 1))
          = cells g (cube_index W H i j k))
      ∧ count_points (shift_K_low W H D g) (fun i j k => cube_index W H i j k) W H D
          (fun t => t + 1)
        = count_points g (fun i j k => cube_index W H i j k) W H D (fun t => t))
    ∧ ((∀ i j k, i < W → j < H → k + 1 < D →
        cells (shift_K_high W H D g) (cube_index W H i j k)
          = cells g (cube_index W H i j (k + 1)))
      ∧ count_points (shift_K_high W H D g) (fun i j k => cube_index W H i j k) W H D
          (fun t => t)
        = count_points g (fun i j k => cube_index W H i j k) W H D (fun t => t + 1)) := by
  have rI : ∀ a b t, a < H → b < D → t < W → cube_index W H t a b < W * H * D :=
    fun a b t ha hb ht => cube_index_lt W H D t a b ht ha hb
  have iI : ∀ a b t a1 b1 t1, a < H → b < D → t < W → a1 < H → b1 < D → t1 < W →
      cube_index W H t a b = cube_index W H t1 a1 b1 → a = a1 ∧ b = b1 ∧ t = t1 := by
    intro a b t a1 b1 t1 ha _ ht ha1 _ ht1 h
    obtain ⟨e1, e2, e3⟩ := cube_index_inj W H t a b t1 a1 b1 ht ha ht1 ha1 h
    exact ⟨e2, e3, e1⟩
  have rJ : ∀ a b t, a < W → b < D → t < H → cube_index W H a t b < W * H * D :=
    fun a b t ha hb ht => cube_index_lt W H D a t b ha ht hb
  have iJ : ∀ a b t a1 b1 t1, a < W → b < D → t < H → a1 < W → b1 < D → t1 < H →
      cube_index W H a t b = cube_index W H a1 t1 b1 → a = a1 ∧ b = b1 ∧ t = t1 := by
    intro a b t a1 b1 t1 ha _ ht ha1 _ ht1 h
    obtain ⟨e1, e2, e3⟩ := cube_index_inj W H a t b a1 t1 b1 ha ht ha1 ht1 h
    exact ⟨e1, e3, e2⟩
  have rK : ∀ a b t, a < W → b < H → t < D → cube_index W H a b t < W * H * D :=
    fun a b t ha hb ht => cube_index_lt W H D a b t ha hb ht
  have iK : ∀ a b t a1 b1 t1, a < W → b < H → t < D → a1 < W → b1 < H → t1 < D →
      cube_index W H a b t = cube_index W H a1 b1 t1 → a = a1 ∧ b = b1 ∧ t = t1 := by
    intro a b t a1 b1 t1 ha hb _ ha1 hb1 _ h
    exact cube_index_inj W H a b t a1 b1 t1 ha hb ha1 hb1 h
  obtain ⟨u1, n1⟩ := shift_up_retained (fun j k i => cube_index W H i j k) H D W _ g hW rI iI hd
  obtain ⟨u2, n2⟩ := shift_down_retained (fun j k i => cube_index W H i j k) H D W _ g hW rI
    iI hd
  obtain ⟨u3, n3⟩ := shift_up_retained (fun i k j => cube_index W H i j k) W D H _ g hH rJ iJ hd
  obtain ⟨u4, n4⟩ := shift_down_retained (fun i k j => cube_index W H i j k) W D H _ g hH rJ
    iJ hd
  obtain ⟨u5, n5⟩ := shift_up_retained (fun i j k => cube_index W H i j k) W H D _ g hD rK iK hd
  obtain ⟨u6, n6⟩ := shift_down_retained (fun i j k => cube_index W H i j k) W H D _ g hD rK
    iK hd
  exact ⟨⟨fun i j k hi hj hk => u1 j k i hj hk hi, n1⟩,
    ⟨fun i j k hi hj hk => u2 j k i hj hk hi, n2⟩,
    ⟨fun i j k hi hj hk => u3 i k j hi hk hj, n3⟩,
    ⟨fun i j k hi hj hk => u4 i k j hi hk hj, n4⟩,
    ⟨fun i j k hi hj hk => u5 i j k hi hj hk, n5⟩,
    ⟨fun i j k hi hj hk => u6 i j k hi hj hk, n6⟩⟩

theorem example_grid_distinct (N : Nat) : distinct_ptrs example_grid N := by
  refine ⟨?_, ?_, ?_⟩
  · intro x y _ _ h
    simp only [example_grid] at h
    omega
  · intro x y _ _ h
    simp only [example_grid] at h
    omega
  · intro x y _ _ h
    simp only [example_grid] at h
    omega

theorem C1_shift_keeps_retained_cells_witness :
    cells (shift_I_low 101 101 101 example_grid) (cube_index 101 101 (0 + 1) 0 0)
      = cells example_grid (cube_index 101 101 0 0 0) :=
  (C1_shift_keeps_retained_cells 101 101 101 example_grid (by decide) (by decide) (by decide)
    (example_grid_distinct _)).1.1 0 0 0 (by decide) (by decide) (by decide)

end GridTheorems


/-! ## The frame loop of `Laser_mapping::process` -/

section MappingTheorems

variable {K : Type}

open Laser_mapping

theorem List.foldl_rel {S α : Type} (R : S → S → Prop) (f : S → α → S)
    (hrefl : ∀ s, R s s) (htrans : ∀ a b c, R a b → R b c → R a c)
    (hstep : ∀ s x, R s (f s x)) : ∀ (l : List α) (s : S), R s (l.foldl f s) := by
  intro l
  induction l with
  | nil => exact fun s => hrefl s
  | cons a t ih => exact fun s => htrans _ _ _ (hstep s a) (ih (f s a))

theorem Laser_mapping.same_except_map_refl (lm : Laser_mapping K) : lm.SameExceptMap lm :=
  ⟨rfl, rfl, rfl, rfl, rfl, rfl, rfl, rfl, rfl, rfl, rfl, rfl, rfl, rfl⟩

theorem Laser_mapping.same_except_map_trans (a b c : Laser_mapping K) (h1 : a.SameExceptMap b)
    (h2 : b.SameExceptMap c) : a.SameExceptMap c :=
  ⟨h2.q_curr.trans h1.q_curr, h2.t_curr.trans h1.t_curr, h2.q_last.trans h1.q_last,
    h2.t_last.trans h1.t_last, h2.q_incre.trans h1.q_incre, h2.t_incre.trans h1.t_incre,
    h2.last_time_stamp.trans h1.last_time_stamp, h2.center_width.trans h1.center_width,
    h2.center_height.trans h1.center_height, h2.center_depth.trans h1.center_depth,
    h2.width.trans h1.width, h2.height.trans h1.height, h2.depth.trans h1.depth,
    h2.deblur.trans h1.deblur⟩

theorem Laser_mapping.same_except_pose_refl (lm : Laser_mapping K) : lm.SameExceptPose lm :=
  ⟨rfl, rfl, rfl, rfl, rfl, rfl, rfl, rfl, rfl, rfl, rfl, rfl, rfl, rfl, rfl⟩

theorem Laser_mapping.same_except_pose_trans (a b c : Laser_mapping K) (h1 : a.SameExceptPose b)
    (h2 : b.SameExceptPose c) : a.SameExceptPose c :=
  ⟨h2.q_last.trans h1.q_last, h2.t_last.trans h1.t_last, h2.grid.trans h1.grid,
    h2.frameCount.trans h1.frameCount, h2.last_time_stamp.trans h1.last_time_stamp,
    h2.minimum_pt_time_stamp.trans h1.minimum_pt_time_stamp,
    h2.center_width.trans h1.center_width, h2.center_height.trans h1.center_height,
    h2.center_depth.trans h1.center_depth, h2.max_angular_rate.trans h1.max_angular_rate,
    h2.max_final_cost.trans h1.max_final_cost, h2.width.trans h1.width,
    h2.height.trans h1.height, h2.depth.trans h1.depth, h2.deblur.trans h1.deblur⟩

theorem Laser_mapping.downsample_cell_same (env : Mapping_env K) (lm : Laser_mapping K)
    (ind : Nat) : lm.SameExceptMap (downsample_cell env lm ind) :=
  ⟨rfl, rfl, rfl, rfl, rfl, rfl, rfl, rfl, rfl, rfl, rfl, rfl, rfl, rfl⟩

theorem List.foldl_append_length_ge {α β : Type} (f : β → List α) (x : β) :
    ∀ (l : List β) (acc : List α),
      acc.length ≤ (l.foldl (fun a i => a ++ f i) acc).length
      ∧ (x ∈ l → acc.length + (f x).length ≤ (l.foldl (fun a i => a ++ f i) acc).length) := by
  intro l
  induction l with
  | nil => exact fun acc => ⟨le_refl _, fun h => absurd h (List.not_mem_nil x)⟩
  | cons b t ih =>
    intro acc
    have h1 := ih (acc ++ f b)
    rw [List.length_append] at h1
    refine ⟨le_trans (Nat.le_add_right _ _) h1.1, fun hx => ?_⟩
    rcases List.mem_cons.mp hx with hxb | hxt
    · rw [hxb]
      exact h1.1
    · exact le_trans (by omega) (h1.2 hxt)

theorem Cube_grid.corner_from_map_length_ge (g : Cube_grid K) (valid : List Nat) (ind : Nat)
    (h : ind ∈ valid) : (g.corner_cell ind).length ≤ (g.corner_from_map valid).length := by
  have h1 := (List.foldl_append_length_ge g.corner_cell ind valid []).2 h
  rw [List.length_nil, Nat.zero_add] at h1
  exact h1

theorem Cube_grid.surf_from_map_length_ge (g : Cube_grid K) (valid : List Nat) (ind : Nat)
    (h : ind ∈ valid) : (g.surface_cell ind).length ≤ (g.surf_from_map valid).length := by
  have h1 := (List.foldl_append_length_ge g.surface_cell ind valid []).2 h
  rw [List.length_nil, Nat.zero_add] at h1
  exact h1

theorem Cube_grid.valid_indices_centre :
    515150 ∈ Cube_grid.valid_indices 101 101 101 50 50 50 := by
  simp [Cube_grid.valid_indices]

theorem Laser_mapping.recentre_in_range (lm : Laser_mapping K) (cI cJ cK : Int)
    (hI : 3 ≤ cI) (hI2 : cI ≤ (lm.m_para_laser_cloud_width : Int) - 4)
    (hJ : 3 ≤ cJ) (hJ2 : cJ ≤ (lm.m_para_laser_cloud_height : Int) - 4)
    (hK : 3 ≤ cK) (hK2 : cK ≤ (lm.m_para_laser_cloud_depth : Int) - 4) :
    recentre lm cI cJ cK = (lm, cI, cJ, cK) := by
  have e1 : (3 - cI).toNat = 0 := by omega
  have e2 : (cI - ((lm.m_para_laser_cloud_width : Int) - 3) + 1).toNat = 0 := by omega
  have e3 : (3 - cJ).toNat = 0 := by omega
  have e4 : (cJ - ((lm.m_para_laser_cloud_height : Int) - 3) + 1).toNat = 0 := by omega
  have e5 : (3 - cK).toNat = 0 := by omega
  have e6 : (cK - ((lm.m_para_laser_cloud_depth : Int) - 3) + 1).toNat = 0 := by omega
  simp only [recentre, e1, e2, e3, e4, e5, e6, Cube_grid.recentre_low, Cube_grid.recentre_high]

variable [LinearOrderedField K]

theorem Laser_mapping.icp_iteration_spec (env : Mapping_env K)
    (cm sm cs ss : List (PointType K)) (s : Laser_mapping K × K × K) :
    s.1.SameExceptPose (icp_iteration env cm sm cs ss s).1
    ∧ (icp_iteration env cm sm cs ss s).1.m_q_w_incre = (env.icp_solve s.1 cm sm cs ss).1
    ∧ (icp_iteration env cm sm cs ss s).1.m_t_w_incre = (env.icp_solve s.1 cm sm cs ss).2.1
    ∧ (icp_iteration env cm sm cs ss s).1.m_t_w_curr
        = ((icp_iteration env cm sm cs ss s).1.m_q_w_last.transformVector
            (icp_iteration env cm sm cs ss s).1.m_t_w_incre).add
            (icp_iteration env cm sm cs ss s).1.m_t_w_last
    ∧ (icp_iteration env cm sm cs ss s).1.m_q_w_curr
        = (icp_iteration env cm sm cs ss s).1.m_q_w_last.mul
            (icp_iteration env cm sm cs ss s).1.m_q_w_incre
    ∧ (icp_iteration env cm sm cs ss s).2.1
        = env.angularDistance (icp_iteration env cm sm cs ss s).1.m_q_w_curr
            (icp_iteration env cm sm cs ss s).1.m_q_w_last * (573 / 10)
    ∧ (icp_iteration env cm sm cs ss s).2.2 = (env.icp_solve s.1 cm sm cs ss).2.2 :=
  ⟨⟨rfl, rfl, rfl, rfl, rfl, rfl, rfl, rfl, rfl, rfl, rfl, rfl, rfl, rfl, rfl⟩, rfl, rfl, rfl,
    rfl, rfl, rfl⟩

theorem Laser_mapping.icp_loop_same (env : Mapping_env K) (cm sm cs ss : List (PointType K))
    (lm : Laser_mapping K) : lm.SameExceptPose (icp_loop env cm sm cs ss lm).1 := by
  unfold icp_loop
  exact List.foldl_rel (fun a b : Laser_mapping K × K × K => a.1.SameExceptPose b.1)
    (fun s _ => icp_iteration env cm sm cs ss s) (fun s => same_except_pose_refl s.1)
    (fun a b c => same_except_pose_trans a.1 b.1 c.1)
    (fun s _ => (icp_iteration_spec env cm sm cs ss s).1) _ (lm, 0, env.summary_initial_final_cost)

theorem Laser_mapping.icp_loop_last (env : Mapping_env K) (cm sm cs ss : List (PointType K))
    (lm : Laser_mapping K) (hn : 0 < lm.m_para_icp_max_iterations) :
    ∃ s : Laser_mapping K × K × K, icp_loop env cm sm cs ss lm = icp_iteration env cm sm cs ss s := by
  unfold icp_loop
  obtain ⟨m, hm⟩ : ∃ m, lm.m_para_icp_max_iterations.toNat = m + 1 :=
    ⟨lm.m_para_icp_max_iterations.toNat - 1, by omega⟩
  rw [hm, List.range_succ, List.foldl_append]
  exact ⟨_, rfl⟩

/-- C4: one pass of the registration loop stores the solver's incremental pose and leaves the
last pose alone, and after it the current pose is the composition of the last pose with the
incremental pose: `t_curr = q_last * t_incre + t_last` and `q_curr = q_last * q_incre`, for every
last pose and every pose returned by the solver. When the loop makes at least one pass the
state after the whole loop satisfies the same two equations. -/
theorem C4_pose_composition (env : Mapping_env K) (corner_map surf_map corner_stack surf_stack :
    List (PointType K)) (s : Laser_mapping K × K × K) :
    (icp_iteration env corner_map surf_map corner_stack surf_stack s).1.m_q_w_incre
        = (env.icp_solve s.1 corner_map surf_map corner_stack surf_stack).1
    ∧ (icp_iteration env corner_map surf_map corner_stack surf_stack s).1.m_t_w_incre
        = (env.icp_solve s.1 corner_map surf_map corner_stack surf_stack).2.1
    ∧ (icp_iteration env corner_map surf_map corner_stack surf_stack s).1.m_q_w_last
        = s.1.m_q_w_last
    ∧ (icp_iteration env corner_map surf_map corner_stack surf_stack s).1.m_t_w_last
        = s.1.m_t_w_last
    ∧ (icp_iteration env corner_map surf_map corner_stack surf_stack s).1.m_t_w_curr
        = (s.1.m_q_w_last.transformVector
            (env.icp_solve s.1 corner_map surf_map corner_stack surf_stack).2.1).add
            s.1.m_t_w_last
    ∧ (icp_iteration env corner_map surf_map corner_stack surf_stack s).1.m_q_w_curr
        = s.1.m_q_w_last.mul (env.icp_solve s.1 corner_map surf_map corner_stack surf_stack).1
    ∧ (0 < s.1.m_para_icp_max_iterations →
        (icp_loop env corner_map surf_map corner_stack surf_stack s.1).1.m_t_w_curr
          = ((icp_loop env corner_map surf_map corner_stack surf_stack s.1).1.m_q_w_last.transformVector
              (icp_loop env corner_map surf_map corner_stack surf_stack s.1).1.m_t_w_incre).add
              (icp_loop env corner_map surf_map corner_stack surf_stack s.1).1.m_t_w_last
        ∧ (icp_loop env corner_map surf_map corner_stack surf_stack s.1).1.m_q_w_curr
          = (icp_loop env corner_map surf_map corner_stack surf_stack s.1).1.m_q_w_last.mul
              (icp_loop env corner_map surf_map corner_stack surf_stack s.1).1.m_q_w_incre
        ∧ (icp_loop env corner_map surf_map corner_stack surf_stack s.1).1.m_q_w_last
          = s.1.m_q_w_last
        ∧ (icp_loop env corner_map surf_map corner_stack surf_stack s.1).1.m_t_w_last
          = s.1.m_t_w_last) := by
  refine ⟨rfl, rfl, rfl, rfl, rfl, rfl, fun hn => ?_⟩
  obtain ⟨s0, hs0⟩ := icp_loop_last env corner_map surf_map corner_stack surf_stack s.1 hn
  have hsame := icp_loop_same env corner_map surf_map corner_stack surf_stack s.1
  refine ⟨?_, ?_, hsame.q_last, hsame.t_last⟩
  · rw [hs0]
    exact (icp_iteration_spec env corner_map surf_map corner_stack surf_stack s0).2.2.2.1
  · rw [hs0]
    exact (icp_iteration_spec env corner_map surf_map corner_stack surf_stack s0).2.2.2.2.1

variable [FloorRing K]

theorem Laser_mapping.map_insert_corner_same (cm : Cmath K) (lm : Laser_mapping K)
    (p : PointType K) : lm.SameExceptMap (map_insert_corner cm lm p) := by
  show lm.SameExceptMap (match cube_of_point lm (pointAssociateToMap cm lm p p.intensity 0) with
    | some cubeInd => _
    | none => lm)
  cases cube_of_point lm (pointAssociateToMap cm lm p p.intensity 0) with
  | none => exact same_except_map_refl lm
  | some ind => exact ⟨rfl, rfl, rfl, rfl, rfl, rfl, rfl, rfl, rfl, rfl, rfl, rfl, rfl, rfl⟩

theorem Laser_mapping.map_insert_surface_same (cm : Cmath K) (lm : Laser_mapping K)
    (p : PointType K) : lm.SameExceptMap (map_insert_surface cm lm p) := by
  show lm.SameExceptMap (match cube_of_point lm (pointAssociateToMap cm lm p p.intensity 0) with
    | some cubeInd => _
    | none => lm)
  cases cube_of_point lm (pointAssociateToMap cm lm p p.intensity 0) with
  | none => exact same_except_map_refl lm
  | some ind => exact ⟨rfl, rfl, rfl, rfl, rfl, rfl, rfl, rfl, rfl, rfl, rfl, rfl, rfl, rfl⟩

theorem Laser_mapping.finish_frame_same (env : Mapping_env K) (lm : Laser_mapping K)
    (valid : List Nat) (cs ss : List (PointType K)) :
    lm.SameExceptMap (finish_frame env lm valid cs ss)
    ∧ (finish_frame env lm valid cs ss).frameCount = lm.frameCount + 1 := by
  have h1 := List.foldl_rel SameExceptMap (map_insert_corner env.cm) same_except_map_refl
    same_except_map_trans (map_insert_corner_same env.cm) cs lm
  have h2 := List.foldl_rel SameExceptMap (map_insert_surface env.cm) same_except_map_refl
    same_except_map_trans (map_insert_surface_same env.cm) ss
    (cs.foldl (map_insert_corner env.cm) lm)
  have h3 := List.foldl_rel SameExceptMap (downsample_cell env) same_except_map_refl
    same_except_map_trans (downsample_cell_same env) valid
    (ss.foldl (map_insert_surface env.cm) (cs.foldl (map_insert_corner env.cm) lm))
  have h123 := same_except_map_trans _ _ _ (same_except_map_trans _ _ _ h1 h2) h3
  have hfc : ∀ (l : List (PointType K)) (f : Laser_mapping K → PointType K → Laser_mapping K),
      (∀ s x, (f s x).frameCount = s.frameCount) → ∀ s, (l.foldl f s).frameCount = s.frameCount :=
    fun l f hf s => List.foldl_rel (fun a b : Laser_mapping K => b.frameCount = a.frameCount) f (fun _ => rfl)
      (fun _ _ _ h1 h2 => h2.trans h1) hf l s
  have c1 : ∀ s x, (map_insert_corner env.cm s x).frameCount = s.frameCount := by
    intro s x
    show (match cube_of_point s (pointAssociateToMap env.cm s x x.intensity 0) with
      | some cubeInd => _
      | none => s).frameCount = s.frameCount
    cases cube_of_point s (pointAssociateToMap env.cm s x x.intensity 0) <;> rfl
  have c2 : ∀ s x, (map_insert_surface env.cm s x).frameCount = s.frameCount := by
    intro s x
    show (match cube_of_point s (pointAssociateToMap env.cm s x x.intensity 0) with
      | some cubeInd => _
      | none => s).frameCount = s.frameCount
    cases cube_of_point s (pointAssociateToMap env.cm s x x.intensity 0) <;> rfl
  have c3 := List.foldl_rel (fun a b : Laser_mapping K => b.frameCount = a.frameCount)
    (downsample_cell env) (fun _ => rfl) (fun _ _ _ h1 h2 => h2.trans h1) (fun _ _ => rfl) valid
    (ss.foldl (map_insert_surface env.cm) (cs.foldl (map_insert_corner env.cm) lm))
  constructor
  · exact same_except_map_trans _ _ _ h123
      ⟨rfl, rfl, rfl, rfl, rfl, rfl, rfl, rfl, rfl, rfl, rfl, rfl, rfl, rfl⟩
  · show (valid.foldl (downsample_cell env) (ss.foldl (map_insert_surface env.cm)
      (cs.foldl (map_insert_corner env.cm) lm))).frameCount + 1 = lm.frameCount + 1
    rw [c3, hfc ss _ c2, hfc cs _ c1]

theorem Laser_mapping.c_int_zero (x : K) (h0 : 0 ≤ x) (h1 : x < 1) : c_int x = 0 := by
  unfold c_int
  rw [if_pos h0]
  exact Int.floor_eq_zero_iff.mpr ⟨h0, h1⟩

theorem Laser_mapping.cube_coord_centre (x : K) (c : Int) (h0 : 0 ≤ x + 50 / 2)
    (h1 : x + 50 / 2 < 50) : cube_coord x c = c := by
  have h2 : c_int ((x + 50 / 2) / 50) = 0 :=
    c_int_zero _ (div_nonneg h0 (by norm_num)) ((div_lt_one (by norm_num)).mpr h1)
  simp only [cube_coord, if_neg (not_lt.mpr h0), h2, zero_add]

theorem Laser_mapping.frame_registration_last (env : Mapping_env K) (lm : Laser_mapping K)
    (pair : Data_pair K) (hn : 0 < lm.m_para_icp_max_iterations) :
    ∃ s : Laser_mapping K × K × K,
      frame_registration env lm pair
        = icp_iteration env (frame_corner_map env lm pair) (frame_surf_map env lm pair)
            (env.down_sample_filter_corner pair.m_pc_corner)
            (env.down_sample_filter_surface pair.m_pc_plane) s :=
  icp_loop_last env _ _ _ _ (recentred env lm pair).1 hn

theorem Laser_mapping.recentred_fields (env : Mapping_env K) (lm : Laser_mapping K)
    (pair : Data_pair K) :
    (recentred env lm pair).1.m_q_w_curr = lm.m_q_w_curr
    ∧ (recentred env lm pair).1.m_t_w_curr = lm.m_t_w_curr
    ∧ (recentred env lm pair).1.m_q_w_last = lm.m_q_w_curr
    ∧ (recentred env lm pair).1.m_t_w_last = lm.m_t_w_curr
    ∧ (recentred env lm pair).1.frameCount = lm.frameCount
    ∧ (recentred env lm pair).1.m_minimum_pt_time_stamp = lm.m_last_time_stamp
    ∧ (recentred env lm pair).1.m_para_max_angular_rate = lm.m_para_max_angular_rate
    ∧ (recentred env lm pair).1.m_max_final_cost = lm.m_max_final_cost
    ∧ (recentred env lm pair).1.m_mapping_init_accumulate_frames
        = lm.m_mapping_init_accumulate_frames
    ∧ (recentred env lm pair).1.m_para_icp_max_iterations = lm.m_para_icp_max_iterations :=
  ⟨rfl, rfl, rfl, rfl, rfl, rfl, rfl, rfl, rfl, rfl⟩

theorem Laser_mapping.frame_registration_same (env : Mapping_env K) (lm : Laser_mapping K)
    (pair : Data_pair K) :
    (recentred env lm pair).1.SameExceptPose (frame_registration env lm pair).1 :=
  icp_loop_same env _ _ _ _ _

theorem dense_recentred (t : Vector3d ℚ) (cost : ℚ) (n : Int) (pair : Data_pair ℚ) :
    recentred (example_mapping_env t cost) (dense_state n) pair
      = (hand_over (dense_state n) 1, 50, 50, 50) := by
  have hc : cube_coord (0 : ℚ) 50 = 50 := cube_coord_centre 0 50 (by norm_num) (by norm_num)
  show recentre (hand_over (dense_state n) 1) (cube_coord (0 : ℚ) 50) (cube_coord (0 : ℚ) 50)
    (cube_coord (0 : ℚ) 50) = _
  rw [hc]
  exact recentre_in_range _ 50 50 50 (by decide) (show (50 : Int) ≤ ((101 : Nat) : Int) - 4 by decide)
    (by decide) (show (50 : Int) ≤ ((101 : Nat) : Int) - 4 by decide)
    (by decide) (show (50 : Int) ≤ ((101 : Nat) : Int) - 4 by decide)

theorem dense_valid (t : Vector3d ℚ) (cost : ℚ) (n : Int) (pair : Data_pair ℚ) :
    frame_valid (example_mapping_env t cost) (dense_state n) pair
      = Cube_grid.valid_indices 101 101 101 50 50 50 := by
  unfold frame_valid
  rw [dense_recentred]
  rfl

theorem dense_counts (t : Vector3d ℚ) (cost : ℚ) (n : Int) (pair : Data_pair ℚ) :
    1 ≤ (frame_corner_map (example_mapping_env t cost) (dense_state n) pair).length
    ∧ 51 ≤ (frame_surf_map (example_mapping_env t cost) (dense_state n) pair).length := by
  have h1 : (dense_grid.corner_cell 515150).length = 1 := rfl
  have h2 : (dense_grid.surface_cell 515150).length = 51 := rfl
  constructor
  · unfold frame_corner_map
    rw [dense_valid, dense_recentred, ← h1]
    exact Cube_grid.corner_from_map_length_ge dense_grid _ 515150 Cube_grid.valid_indices_centre
  · unfold frame_surf_map
    rw [dense_valid, dense_recentred, ← h2]
    exact Cube_grid.surf_from_map_length_ge dense_grid _ 515150 Cube_grid.valid_indices_centre

theorem dense_gate (t : Vector3d ℚ) (cost : ℚ) (n : Int) (pair : Data_pair ℚ) :
    frame_gate (example_mapping_env t cost) (dense_state n) pair ↔ 100 < n := by
  have hc := dense_counts t cost n pair
  have hg : frame_gate (example_mapping_env t cost) (dense_state n) pair ↔
      ((frame_corner_map (example_mapping_env t cost) (dense_state n) pair).length : Int) > 0
      ∧ ((frame_surf_map (example_mapping_env t cost) (dense_state n) pair).length : Int) > 50
      ∧ n > 100 := Iff.rfl
  rw [hg]
  constructor
  · exact fun h => h.2.2
  · intro h
    refine ⟨?_, ?_, h⟩
    · have := hc.1
      omega
    · have := hc.2
      omega

theorem dense_registration (t : Vector3d ℚ) (cost : ℚ) (n : Int) (pair : Data_pair ℚ) :
    (frame_registration (example_mapping_env t cost) (dense_state n) pair).2.1 = 0
    ∧ (frame_registration (example_mapping_env t cost) (dense_state n) pair).2.2 = cost
    ∧ (frame_registration (example_mapping_env t cost) (dense_state n) pair).1.m_q_w_curr
        = ⟨1, 0, 0, 0⟩
    ∧ (frame_registration (example_mapping_env t cost) (dense_state n) pair).1.m_t_w_curr = t
    ∧ (frame_registration (example_mapping_env t cost) (dense_state n) pair).1.m_q_w_incre
        = ⟨1, 0, 0, 0⟩
    ∧ (frame_registration (example_mapping_env t cost) (dense_state n) pair).1.m_t_w_incre
        = t := by
  obtain ⟨s0, hs0⟩ := frame_registration_last (example_mapping_env t cost) (dense_state n) pair
    (show (0 : Int) < 20 by decide)
  have hsame := frame_registration_same (example_mapping_env t cost) (dense_state n) pair
  have hq : (frame_registration (example_mapping_env t cost) (dense_state n) pair).1.m_q_w_last
      = ⟨1, 0, 0, 0⟩ := hsame.q_last
  have ht : (frame_registration (example_mapping_env t cost) (dense_state n) pair).1.m_t_w_last
      = ⟨0, 0, 0⟩ := hsame.t_last
  have hqi : (frame_registration (example_mapping_env t cost) (dense_state n) pair).1.m_q_w_incre
      = ⟨1, 0, 0, 0⟩ := by
    rw [hs0]
    rfl
  have hti : (frame_registration (example_mapping_env t cost) (dense_state n) pair).1.m_t_w_incre
      = t := by
    rw [hs0]
    rfl
  have hqc : (frame_registration (example_mapping_env t cost) (dense_state n) pair).1.m_q_w_curr
      = (frame_registration (example_mapping_env t cost) (dense_state n) pair).1.m_q_w_last.mul
          (frame_registration (example_mapping_env t cost) (dense_state n) pair).1.m_q_w_incre := by
    rw [hs0]
    rfl
  have htc : (frame_registration (example_mapping_env t cost) (dense_state n) pair).1.m_t_w_curr
      = ((frame_registration (example_mapping_env t cost) (dense_state n)
            pair).1.m_q_w_last.transformVector
          (frame_registration (example_mapping_env t cost) (dense_state n) pair).1.m_t_w_incre).add
          (frame_registration (example_mapping_env t cost) (dense_state n) pair).1.m_t_w_last := by
    rw [hs0]
    rfl
  refine ⟨?_, ?_, ?_, ?_, hqi, hti⟩
  · rw [hs0]
    exact zero_mul _
  · rw [hs0]
    rfl
  · rw [hqc, hq, hqi]
    simp [Quaterniond.mul]
  · rw [htc, hq, hti, ht]
    ext <;> simp [Quaterniond.transformVector, Vector3d.add, Quaterniond.vec, Vector3d.cross,
      Vector3d.scale]

theorem Laser_mapping.process_frame_ran (env : Mapping_env K) (lm : Laser_mapping K)
    (pair : Data_pair K) :
    (process_frame env lm pair).registration_ran = true ↔ frame_gate env lm pair := by
  unfold process_frame
  split_ifs with h1 h2
  · exact ⟨fun _ => h1, fun _ => rfl⟩
  · exact ⟨fun _ => h1, fun _ => rfl⟩
  · exact ⟨fun h => absurd h (by simp), fun h => absurd h h1⟩

theorem Laser_mapping.process_frame_reject (env : Mapping_env K) (lm : Laser_mapping K)
    (pair : Data_pair K) :
    (process_frame env lm pair).rejected = true ↔
      frame_gate env lm pair
      ∧ ((frame_registration env lm pair).2.1
            > (frame_registration env lm pair).1.m_para_max_angular_rate
          ∨ (frame_registration env lm pair).2.2
            > (frame_registration env lm pair).1.m_max_final_cost) := by
  unfold process_frame
  split_ifs with h1 h2
  · exact ⟨fun _ => ⟨h1, h2⟩, fun _ => rfl⟩
  · exact ⟨fun h => absurd h (by simp), fun h => absurd h.2 h2⟩
  · exact ⟨fun h => absurd h (by simp), fun h => absurd h.1 h1⟩

theorem Laser_mapping.process_frame_reject_state (env : Mapping_env K) (lm : Laser_mapping K)
    (pair : Data_pair K) (h : (process_frame env lm pair).rejected = true) :
    (process_frame env lm pair).state = reject_update (frame_registration env lm pair).1 := by
  have h0 := (process_frame_reject env lm pair).1 h
  unfold process_frame
  rw [if_pos h0.1, if_pos h0.2]

theorem Laser_mapping.process_frame_ran_values (env : Mapping_env K) (lm : Laser_mapping K)
    (pair : Data_pair K) (h : frame_gate env lm pair) :
    (process_frame env lm pair).angular_diff = (frame_registration env lm pair).2.1
    ∧ (process_frame env lm pair).minimize_cost = (frame_registration env lm pair).2.2 := by
  unfold process_frame
  rw [if_pos h]
  split_ifs with h2
  · exact ⟨rfl, rfl⟩
  · exact ⟨rfl, rfl⟩

theorem Laser_mapping.process_frame_skip_state (env : Mapping_env K) (lm : Laser_mapping K)
    (pair : Data_pair K) (h : ¬ frame_gate env lm pair) :
    (process_frame env lm pair).state
      = finish_frame env (recentred env lm pair).1 (frame_valid env lm pair)
          (env.down_sample_filter_corner pair.m_pc_corner)
          (env.down_sample_filter_surface pair.m_pc_plane) := by
  unfold process_frame
  rw [if_neg h]

/-- C3: on a frame on which registration ran, the frame is rejected exactly when `angular_diff`
exceeds `m_para_max_angular_rate` or `minimize_cost` exceeds `m_max_final_cost`, where (for at
least one pass of the registration loop) `angular_diff` is `angularDistance(curr, last) * 57.3`
of the poses after the loop; on rejection the current pose is set to the last pose and the
grid is the one the recentring left: no point of the frame is inserted into any cell. -/
theorem C3_reject_iff (env : Mapping_env K) (lm : Laser_mapping K) (pair : Data_pair K)
    (h : (process_frame env lm pair).registration_ran = true) :
    ((process_frame env lm pair).rejected = true ↔
      (process_frame env lm pair).angular_diff > lm.m_para_max_angular_rate
      ∨ (process_frame env lm pair).minimize_cost > lm.m_max_final_cost)
    ∧ (0 < lm.m_para_icp_max_iterations →
        (process_frame env lm pair).angular_diff
          = env.angularDistance (frame_registration env lm pair).1.m_q_w_curr
              (frame_registration env lm pair).1.m_q_w_last * (573 / 10))
    ∧ ((process_frame env lm pair).rejected = true →
        (process_frame env lm pair).state.m_q_w_curr
          = (process_frame env lm pair).state.m_q_w_last
        ∧ (process_frame env lm pair).state.m_t_w_curr
          = (process_frame env lm pair).state.m_t_w_last
        ∧ (process_frame env lm pair).state.grid = (recentred env lm pair).1.grid
        ∧ ∀ ind, (process_frame env lm pair).state.grid.corner_cell ind
              = (recentred env lm pair).1.grid.corner_cell ind
            ∧ (process_frame env lm pair).state.grid.surface_cell ind
              = (recentred env lm pair).1.grid.surface_cell ind) := by
  have hg := (process_frame_ran env lm pair).1 h
  have hv := process_frame_ran_values env lm pair hg
  have hsame := frame_registration_same env lm pair
  have hf := recentred_fields env lm pair
  refine ⟨?_, ?_, ?_⟩
  · rw [process_frame_reject, hv.1, hv.2, hsame.max_angular_rate, hsame.max_final_cost,
      hf.2.2.2.2.2.2.1, hf.2.2.2.2.2.2.2.1]
    exact ⟨fun h1 => h1.2, fun h1 => ⟨hg, h1⟩⟩
  · intro hn
    have hn1 : 0 < (recentred env lm pair).1.m_para_icp_max_iterations := by
      rw [hf.2.2.2.2.2.2.2.2.2]
      exact hn
    obtain ⟨s0, hs0⟩ := icp_loop_last env (frame_corner_map env lm pair)
      (frame_surf_map env lm pair) (env.down_sample_filter_corner pair.m_pc_corner)
      (env.down_sample_filter_surface pair.m_pc_plane) (recentred env lm pair).1 hn1
    rw [hv.1]
    unfold frame_registration
    rw [hs0]
    exact (icp_iteration_spec env _ _ _ _ s0).2.2.2.2.2.1
  · intro hr
    have hst := process_frame_reject_state env lm pair hr
    have hgrid : (process_frame env lm pair).state.grid = (recentred env lm pair).1.grid := by
      rw [hst]
      exact hsame.grid
    refine ⟨by rw [hst]; rfl, by rw [hst]; rfl, hgrid, fun ind => ?_⟩
    rw [hgrid]
    exact ⟨rfl, rfl⟩

/-- C2 (amended): on a rejected frame the current pose keeps its pre-frame value and the last
pose holds the pre-frame current pose as well (the hand-over at the start of the frame is not
undone); `frameCount` and `m_last_time_stamp` keep their pre-frame values; the grid and the
origin offsets are the ones the recentring left, and these are the pre-frame ones when the cell
of the current translation is at least 3 and at most size - 4 on every axis. -/
theorem C2_reject_state (env : Mapping_env K) (lm : Laser_mapping K) (pair : Data_pair K)
    (h : (process_frame env lm pair).rejected = true) :
    (process_frame env lm pair).state.m_q_w_curr = lm.m_q_w_curr
    ∧ (process_frame env lm pair).state.m_t_w_curr = lm.m_t_w_curr
    ∧ (process_frame env lm pair).state.m_q_w_last = lm.m_q_w_curr
    ∧ (process_frame env lm pair).state.m_t_w_last = lm.m_t_w_curr
    ∧ (process_frame env lm pair).state.frameCount = lm.frameCount
    ∧ (process_frame env lm pair).state.m_last_time_stamp = lm.m_last_time_stamp
    ∧ (process_frame env lm pair).state.grid = (recentred env lm pair).1.grid
    ∧ (process_frame env lm pair).state.m_para_laser_cloud_center_width
        = (recentred env lm pair).1.m_para_laser_cloud_center_width
    ∧ (process_frame env lm pair).state.m_para_laser_cloud_center_height
        = (recentred env lm pair).1.m_para_laser_cloud_center_height
    ∧ (process_frame env lm pair).state.m_para_laser_cloud_center_depth
        = (recentred env lm pair).1.m_para_laser_cloud_center_depth
    ∧ (3 ≤ cube_coord lm.m_t_w_curr.x lm.m_para_laser_cloud_center_width
        ∧ cube_coord lm.m_t_w_curr.x lm.m_para_laser_cloud_center_width
            ≤ (lm.m_para_laser_cloud_width : Int) - 4
        ∧ 3 ≤ cube_coord lm.m_t_w_curr.y lm.m_para_laser_cloud_center_height
        ∧ cube_coord lm.m_t_w_curr.y lm.m_para_laser_cloud_center_height
            ≤ (lm.m_para_laser_cloud_height : Int) - 4
        ∧ 3 ≤ cube_coord lm.m_t_w_curr.z lm.m_para_laser_cloud_center_depth
        ∧ cube_coord lm.m_t_w_curr.z lm.m_para_laser_cloud_center_depth
            ≤ (lm.m_para_laser_cloud_depth : Int) - 4 →
        (process_frame env lm pair).state.grid = lm.grid
        ∧ (process_frame env lm pair).state.m_para_laser_cloud_center_width
            = lm.m_para_laser_cloud_center_width
        ∧ (process_frame env lm pair).state.m_para_laser_cloud_center_height
            = lm.m_para_laser_cloud_center_height
        ∧ (process_frame env lm pair).state.m_para_laser_cloud_center_depth
            = lm.m_para_laser_cloud_center_depth) := by
  have hst := process_frame_reject_state env lm pair h
  have hsame := frame_registration_same env lm pair
  have hf := recentred_fields env lm pair
  have e1 : (process_frame env lm pair).state.m_q_w_curr = lm.m_q_w_curr := by
    rw [hst]
    exact hsame.q_last.trans hf.2.2.1
  have e2 : (process_frame env lm pair).state.m_t_w_curr = lm.m_t_w_curr := by
    rw [hst]
    exact hsame.t_last.trans hf.2.2.2.1
  have e3 : (process_frame env lm pair).state.m_q_w_last = lm.m_q_w_curr := by
    rw [hst]
    exact hsame.q_last.trans hf.2.2.1
  have e4 : (process_frame env lm pair).state.m_t_w_last = lm.m_t_w_curr := by
    rw [hst]
    exact hsame.t_last.trans hf.2.2.2.1
  have e5 : (process_frame env lm pair).state.frameCount = lm.frameCount := by
    rw [hst]
    exact hsame.frameCount.trans hf.2.2.2.2.1
  have e6 : (process_frame env lm pair).state.m_last_time_stamp = lm.m_last_time_stamp := by
    rw [hst]
    exact hsame.minimum_pt_time_stamp.trans hf.2.2.2.2.2.1
  have e7 : (process_frame env lm pair).state.grid = (recentred env lm pair).1.grid := by
    rw [hst]
    exact hsame.grid
  have e8 : (process_frame env lm pair).state.m_para_laser_cloud_center_width
      = (recentred env lm pair).1.m_para_laser_cloud_center_width := by
    rw [hst]
    exact hsame.center_width
  have e9 : (process_frame env lm pair).state.m_para_laser_cloud_center_height
      = (recentred env lm pair).1.m_para_laser_cloud_center_height := by
    rw [hst]
    exact hsame.center_height
  have e10 : (process_frame env lm pair).state.m_para_laser_cloud_center_depth
      = (recentred env lm pair).1.m_para_laser_cloud_center_depth := by
    rw [hst]
    exact hsame.center_depth
  refine ⟨e1, e2, e3, e4, e5, e6, e7, e8, e9, e10, fun hr => ?_⟩
  have hrec : recentred env lm pair
      = (hand_over lm (env.find_max_intensity pair.m_pc_full),
          cube_coord lm.m_t_w_curr.x lm.m_para_laser_cloud_center_width,
          cube_coord lm.m_t_w_curr.y lm.m_para_laser_cloud_center_height,
          cube_coord lm.m_t_w_curr.z lm.m_para_laser_cloud_center_depth) :=
    recentre_in_range (hand_over lm (env.find_max_intensity pair.m_pc_full)) _ _ _
      hr.1 hr.2.1 hr.2.2.1 hr.2.2.2.1 hr.2.2.2.2.1 hr.2.2.2.2.2
  rw [e7, e8, e9, e10, hrec]
  exact ⟨rfl, rfl, rfl, rfl⟩

/-- C13 (amended): registration is skipped for a frame exactly when the local-map corner count
is at most `CORNER_MIN_MAP_NUM`, or the local-map surface count is at most
`SURFACE_MIN_MAP_NUM`, or `frameCount` is at most `m_mapping_init_accumulate_frames` (the gate
compares with a strict `>`, so a count equal to its minimum and a `frameCount` equal to the
warm-up count skip the registration); on a skipped frame the current pose keeps its pre-frame
value. -/
theorem C13_skip_iff (env : Mapping_env K) (lm : Laser_mapping K) (pair : Data_pair K) :
    ((process_frame env lm pair).registration_ran = false ↔
      ((frame_corner_map env lm pair).length : Int) ≤ CORNER_MIN_MAP_NUM
      ∨ ((frame_surf_map env lm pair).length : Int) ≤ SURFACE_MIN_MAP_NUM
      ∨ lm.frameCount ≤ lm.m_mapping_init_accumulate_frames)
    ∧ ((process_frame env lm pair).registration_ran = false →
        (process_frame env lm pair).state.m_q_w_curr = lm.m_q_w_curr
        ∧ (process_frame env lm pair).state.m_t_w_curr = lm.m_t_w_curr) := by
  have hran := process_frame_ran env lm pair
  have hgate : frame_gate env lm pair ↔
      ((frame_corner_map env lm pair).length : Int) > CORNER_MIN_MAP_NUM
      ∧ ((frame_surf_map env lm pair).length : Int) > SURFACE_MIN_MAP_NUM
      ∧ lm.frameCount > lm.m_mapping_init_accumulate_frames := Iff.rfl
  constructor
  · rw [← Bool.not_eq_true, hran, hgate]
    constructor
    · intro hn
      by_contra hc
      push_neg at hc
      exact hn ⟨hc.1, hc.2.1, hc.2.2⟩
    · intro hn hc
      rcases hn with h1 | h1 | h1
      · exact absurd hc.1 (not_lt.mpr h1)
      · exact absurd hc.2.1 (not_lt.mpr h1)
      · exact absurd hc.2.2 (not_lt.mpr h1)
  · intro hskip
    have hng : ¬ frame_gate env lm pair := by
      rw [← hran, hskip]
      simp
    have hst := process_frame_skip_state env lm pair hng
    have hfin := (finish_frame_same env (recentred env lm pair).1 (frame_valid env lm pair)
      (env.down_sample_filter_corner pair.m_pc_corner)
      (env.down_sample_filter_surface pair.m_pc_plane)).1
    rw [hst]
    exact ⟨hfin.q_curr, hfin.t_curr⟩

/-- C14 (amended): whether the registration branch is entered does not depend on the frame's
feature sets: for the same full cloud, a frame with any corner and surface sets and the frame
with both sets empty enter the branch together, namely exactly when the registration gate on
the local-map counts and `frameCount` holds. -/
theorem C14_gate_ignores_features (env : Mapping_env K) (lm : Laser_mapping K)
    (corner plane full : List (PointType K)) :
    (process_frame env lm ⟨corner, plane, full⟩).registration_ran
      = (process_frame env lm ⟨[], [], full⟩).registration_ran
    ∧ ((process_frame env lm ⟨[], [], full⟩).registration_ran = true ↔
        ((frame_corner_map env lm ⟨[], [], full⟩).length : Int) > CORNER_MIN_MAP_NUM
        ∧ ((frame_surf_map env lm ⟨[], [], full⟩).length : Int) > SURFACE_MIN_MAP_NUM
        ∧ lm.frameCount > lm.m_mapping_init_accumulate_frames) := by
  have h1 := process_frame_ran env lm ⟨corner, plane, full⟩
  have h2 := process_frame_ran env lm ⟨[], [], full⟩
  have hg : frame_gate env lm ⟨corner, plane, full⟩ ↔ frame_gate env lm ⟨[], [], full⟩ :=
    Iff.rfl
  refine ⟨?_, h2⟩
  rw [Bool.eq_iff_iff, h1, h2, hg]

/-- C20 (amended): a down-sampled corner or surface point is inserted into the map as
`q_curr * p + t_curr`, the current pose applied to the point as it is, with the point's own
intensity: the insertion calls `pointAssociateToMap` with `if_undistore = 0`, so the inserted
position is the same for every temporal fraction `s`, with or without motion deblur. -/
theorem C20_insert_current_pose (cm : Cmath K) (lm : Laser_mapping K) (p : PointType K)
    (s s1 : K) :
    pointAssociateToMap cm lm p s 0
      = ⟨((lm.m_q_w_curr.transformVector ⟨p.x, p.y, p.z⟩).add lm.m_t_w_curr).x,
          ((lm.m_q_w_curr.transformVector ⟨p.x, p.y, p.z⟩).add lm.m_t_w_curr).y,
          ((lm.m_q_w_curr.transformVector ⟨p.x, p.y, p.z⟩).add lm.m_t_w_curr).z, p.intensity⟩
    ∧ pointAssociateToMap cm lm p s 0 = pointAssociateToMap cm lm p s1 0
    ∧ (∀ ind, cube_of_point lm (pointAssociateToMap cm lm p p.intensity 0) = some ind →
        (map_insert_corner cm lm p).grid
          = lm.grid.push_corner ind (pointAssociateToMap cm lm p p.intensity 0))
    ∧ (∀ ind, cube_of_point lm (pointAssociateToMap cm lm p p.intensity 0) = some ind →
        (map_insert_surface cm lm p).grid
          = lm.grid.push_surface ind (pointAssociateToMap cm lm p p.intensity 0)) := by
  have key : ∀ t : K, pointAssociateToMap cm lm p t 0
      = ⟨((lm.m_q_w_curr.transformVector ⟨p.x, p.y, p.z⟩).add lm.m_t_w_curr).x,
          ((lm.m_q_w_curr.transformVector ⟨p.x, p.y, p.z⟩).add lm.m_t_w_curr).y,
          ((lm.m_q_w_curr.transformVector ⟨p.x, p.y, p.z⟩).add lm.m_t_w_curr).z,
          p.intensity⟩ := by
    intro t
    simp only [pointAssociateToMap, true_or, or_true, if_true]
  refine ⟨key s, (key s).trans (key s1).symm, fun ind hind => ?_, fun ind hind => ?_⟩
  · simp only [map_insert_corner, hind]
  · simp only [map_insert_surface, hind]

theorem Laser_mapping.process_frame_accept_state (env : Mapping_env K) (lm : Laser_mapping K)
    (pair : Data_pair K) (h1 : (process_frame env lm pair).registration_ran = true)
    (h2 : (process_frame env lm pair).rejected = false) :
    (process_frame env lm pair).state
      = finish_frame env (frame_registration env lm pair).1 (frame_valid env lm pair)
          (env.down_sample_filter_corner pair.m_pc_corner)
          (env.down_sample_filter_surface pair.m_pc_plane) := by
  have hg := (process_frame_ran env lm pair).1 h1
  have hr : ¬ ((frame_registration env lm pair).2.1
            > (frame_registration env lm pair).1.m_para_max_angular_rate
          ∨ (frame_registration env lm pair).2.2
            > (frame_registration env lm pair).1.m_max_final_cost) := by
    intro hc
    have := (process_frame_reject env lm pair).2 ⟨hg, hc⟩
    rw [h2] at this
    exact absurd this (by simp)
  unfold process_frame
  rw [if_pos hg, if_neg hr]

theorem Laser_mapping.process_frame_reject_last (env : Mapping_env K) (lm : Laser_mapping K)
    (pair : Data_pair K) (h : (process_frame env lm pair).rejected = true) :
    (process_frame env lm pair).state.m_q_w_last = lm.m_q_w_curr
    ∧ (process_frame env lm pair).state.m_t_w_last = lm.m_t_w_curr := by
  have hsame := frame_registration_same env lm pair
  rw [process_frame_reject_state env lm pair h]
  exact ⟨hsame.q_last, hsame.t_last⟩

theorem dense_ran (t : Vector3d ℚ) (cost : ℚ) (n : Int) (pair : Data_pair ℚ) (hn : 100 < n) :
    (process_frame (example_mapping_env t cost) (dense_state n) pair).registration_ran
      = true :=
  (process_frame_ran _ _ _).2 ((dense_gate t cost n pair).2 hn)

theorem dense_skipped (t : Vector3d ℚ) (cost : ℚ) (n : Int) (pair : Data_pair ℚ)
    (hn : n ≤ 100) :
    (process_frame (example_mapping_env t cost) (dense_state n) pair).registration_ran
      = false := by
  rw [← Bool.not_eq_true, process_frame_ran, dense_gate]
  exact not_lt.mpr hn

theorem dense_rejected (t : Vector3d ℚ) (cost : ℚ) (n : Int) (pair : Data_pair ℚ)
    (hn : 100 < n) :
    (process_frame (example_mapping_env t cost) (dense_state n) pair).rejected = true
      ↔ 100 < cost := by
  have hreg := dense_registration t cost n pair
  have hsame := frame_registration_same (example_mapping_env t cost) (dense_state n) pair
  have hrate : (frame_registration (example_mapping_env t cost) (dense_state n)
      pair).1.m_para_max_angular_rate = 200 / 50 := hsame.max_angular_rate
  have hcost : (frame_registration (example_mapping_env t cost) (dense_state n)
      pair).1.m_max_final_cost = 100 := hsame.max_final_cost
  rw [process_frame_reject, hreg.1, hreg.2.1, hrate, hcost]
  constructor
  · rintro ⟨-, h1 | h1⟩
    · norm_num at h1
    · exact h1
  · exact fun h => ⟨(dense_gate t cost n pair).2 hn, Or.inr h⟩

theorem dense_registration_grid (t : Vector3d ℚ) (cost : ℚ) (n : Int) (pair : Data_pair ℚ) :
    (frame_registration (example_mapping_env t cost) (dense_state n) pair).1.grid = dense_grid
    ∧ (frame_registration (example_mapping_env t cost) (dense_state n)
        pair).1.m_para_laser_cloud_center_width = 50
    ∧ (frame_registration (example_mapping_env t cost) (dense_state n)
        pair).1.m_para_laser_cloud_center_height = 50
    ∧ (frame_registration (example_mapping_env t cost) (dense_state n)
        pair).1.m_para_laser_cloud_center_depth = 50
    ∧ (frame_registration (example_mapping_env t cost) (dense_state n)
        pair).1.m_para_laser_cloud_width = 101
    ∧ (frame_registration (example_mapping_env t cost) (dense_state n)
        pair).1.m_para_laser_cloud_height = 101
    ∧ (frame_registration (example_mapping_env t cost) (dense_state n)
        pair).1.m_para_laser_cloud_depth = 101
    ∧ (frame_registration (example_mapping_env t cost) (dense_state n)
        pair).1.MOTION_DEBLUR = 1 := by
  have hsame := frame_registration_same (example_mapping_env t cost) (dense_state n) pair
  have hrec := dense_recentred t cost n pair
  refine ⟨?_, ?_, ?_, ?_, hsame.width, hsame.height, hsame.depth, hsame.deblur⟩
  · rw [hsame.grid, hrec]
    rfl
  · rw [hsame.center_width, hrec]
    rfl
  · rw [hsame.center_height, hrec]
    rfl
  · rw [hsame.center_depth, hrec]
    rfl

/-- C3 (witness): a frame at `frameCount = 150` on which the solver ends with final cost 1000. -/
theorem C3_reject_iff_witness :
    (process_frame (example_mapping_env ⟨0, 0, 0⟩ 1000) (dense_state 150)
        example_pair).registration_ran = true
    ∧ (process_frame (example_mapping_env ⟨0, 0, 0⟩ 1000) (dense_state 150)
        example_pair).minimize_cost = 1000
    ∧ (process_frame (example_mapping_env ⟨0, 0, 0⟩ 1000) (dense_state 150)
        example_pair).rejected = true
    ∧ (process_frame (example_mapping_env ⟨0, 0, 0⟩ 1000) (dense_state 150)
          example_pair).state.m_t_w_curr
        = (process_frame (example_mapping_env ⟨0, 0, 0⟩ 1000) (dense_state 150)
          example_pair).state.m_t_w_last
    ∧ (process_frame (example_mapping_env ⟨0, 0, 0⟩ 1000) (dense_state 150)
          example_pair).state.grid
        = (recentred (example_mapping_env ⟨0, 0, 0⟩ 1000) (dense_state 150) example_pair).1.grid := by
  have hran := dense_ran ⟨0, 0, 0⟩ 1000 150 example_pair (by decide)
  have hcost : (process_frame (example_mapping_env ⟨0, 0, 0⟩ 1000) (dense_state 150)
      example_pair).minimize_cost = 1000 :=
    (process_frame_ran_values _ _ _ ((dense_gate ⟨0, 0, 0⟩ 1000 150 example_pair).2
      (by decide))).2.trans (dense_registration ⟨0, 0, 0⟩ 1000 150 example_pair).2.1
  have c := C3_reject_iff (example_mapping_env ⟨0, 0, 0⟩ 1000) (dense_state 150) example_pair hran
  have hrej : (process_frame (example_mapping_env ⟨0, 0, 0⟩ 1000) (dense_state 150)
      example_pair).rejected = true := by
    refine c.1.2 (Or.inr ?_)
    rw [hcost]
    show (1000 : ℚ) > 100
    norm_num
  exact ⟨hran, hcost, hrej, (c.2.2 hrej).2.1, (c.2.2 hrej).2.2.1⟩

/-- C2 (counterexample): on the state whose last translation is `(1, 0, 0)` and whose current
translation is `(0, 0, 0)`, a frame at `frameCount = 101` that the solver ends with final cost
1000 is rejected, and after it the last translation is `(0, 0, 0)`, not its pre-frame value. -/
theorem C2_counterexample :
    (process_frame (example_mapping_env ⟨0, 0, 0⟩ 1000) (dense_state 101)
        example_pair).rejected = true
    ∧ (process_frame (example_mapping_env ⟨0, 0, 0⟩ 1000) (dense_state 101)
        example_pair).state.m_t_w_last = ⟨0, 0, 0⟩
    ∧ (dense_state 101).m_t_w_last = ⟨1, 0, 0⟩
    ∧ (process_frame (example_mapping_env ⟨0, 0, 0⟩ 1000) (dense_state 101)
        example_pair).state.m_t_w_last ≠ (dense_state 101).m_t_w_last := by
  have hrej := (dense_rejected ⟨0, 0, 0⟩ 1000 101 example_pair (by decide)).2 (by norm_num)
  have hlast : (process_frame (example_mapping_env ⟨0, 0, 0⟩ 1000) (dense_state 101)
      example_pair).state.m_t_w_last = ⟨0, 0, 0⟩ :=
    (process_frame_reject_last _ _ _ hrej).2
  refine ⟨hrej, hlast, rfl, ?_⟩
  rw [hlast]
  intro h
  have hx := congrArg Vector3d.x h
  have hx1 : (0 : ℚ) = 1 := hx
  norm_num at hx1

/-- C2 (witness): the rejected frame at `frameCount = 101` with final cost 1000, where the cell
of the current translation is 50 on every axis. -/
theorem C2_reject_state_witness :
    (process_frame (example_mapping_env ⟨0, 0, 0⟩ 1000) (dense_state 101)
        example_pair).rejected = true
    ∧ (process_frame (example_mapping_env ⟨0, 0, 0⟩ 1000) (dense_state 101)
        example_pair).state.m_q_w_curr = (dense_state 101).m_q_w_curr
    ∧ (process_frame (example_mapping_env ⟨0, 0, 0⟩ 1000) (dense_state 101)
        example_pair).state.m_t_w_curr = (dense_state 101).m_t_w_curr
    ∧ (process_frame (example_mapping_env ⟨0, 0, 0⟩ 1000) (dense_state 101)
        example_pair).state.m_q_w_last = (dense_state 101).m_q_w_curr
    ∧ (process_frame (example_mapping_env ⟨0, 0, 0⟩ 1000) (dense_state 101)
        example_pair).state.m_t_w_last = (dense_state 101).m_t_w_curr
    ∧ (process_frame (example_mapping_env ⟨0, 0, 0⟩ 1000) (dense_state 101)
        example_pair).state.frameCount = 101
    ∧ (process_frame (example_mapping_env ⟨0, 0, 0⟩ 1000) (dense_state 101)
        example_pair).state.grid = dense_grid
    ∧ (process_frame (example_mapping_env ⟨0, 0, 0⟩ 1000) (dense_state 101)
        example_pair).state.m_para_laser_cloud_center_width = 50 := by
  have hrej := (dense_rejected ⟨0, 0, 0⟩ 1000 101 example_pair (by decide)).2 (by norm_num)
  have c := C2_reject_state (example_mapping_env ⟨0, 0, 0⟩ 1000) (dense_state 101) example_pair
    hrej
  have hc : cube_coord (0 : ℚ) 50 = 50 := cube_coord_centre 0 50 (by norm_num) (by norm_num)
  have h3 : (3 : Int) ≤ cube_coord (0 : ℚ) 50 := by
    rw [hc]
    decide
  have h4 : cube_coord (0 : ℚ) 50 ≤ ((101 : Nat) : Int) - 4 := by
    rw [hc]
    decide
  have hin := c.2.2.2.2.2.2.2.2.2.2 ⟨h3, h4, h3, h4, h3, h4⟩
  exact ⟨hrej, c.1, c.2.1, c.2.2.1, c.2.2.2.1, c.2.2.2.2.1, hin.1, hin.2.1⟩

/-- C13 (counterexample): at `frameCount = 100`, the warm-up count, on a local map with one
corner point and 51 surface points, no count is below its minimum and `frameCount` is not below
the warm-up count, yet registration is skipped. -/
theorem C13_counterexample :
    (process_frame (example_mapping_env ⟨0, 0, 0⟩ 0) (dense_state 100)
        example_pair).registration_ran = false
    ∧ (dense_state 100).frameCount = (dense_state 100).m_mapping_init_accumulate_frames
    ∧ ¬ (((frame_corner_map (example_mapping_env ⟨0, 0, 0⟩ 0) (dense_state 100)
            example_pair).length : Int) < CORNER_MIN_MAP_NUM
        ∨ ((frame_surf_map (example_mapping_env ⟨0, 0, 0⟩ 0) (dense_state 100)
            example_pair).length : Int) < SURFACE_MIN_MAP_NUM
        ∨ (dense_state 100).frameCount < (dense_state 100).m_mapping_init_accumulate_frames) := by
  have hc := dense_counts ⟨0, 0, 0⟩ 0 100 example_pair
  refine ⟨dense_skipped ⟨0, 0, 0⟩ 0 100 example_pair (by decide), rfl, ?_⟩
  rintro (h | h | h)
  · have h0 : ((frame_corner_map (example_mapping_env ⟨0, 0, 0⟩ 0) (dense_state 100)
        example_pair).length : Int) < 0 := h
    omega
  · have h0 : ((frame_surf_map (example_mapping_env ⟨0, 0, 0⟩ 0) (dense_state 100)
        example_pair).length : Int) < 50 := h
    have := hc.2
    omega
  · exact absurd h (by decide)

/-- C14 (counterexample): a frame at `frameCount = 101` whose down-sampled corner and surface
sets are both empty enters the registration branch. -/
theorem C14_counterexample :
    (example_mapping_env ⟨0, 0, 0⟩ 0).down_sample_filter_corner
        (⟨[], [], [⟨1, 1, 1, 1 / 2⟩]⟩ : Data_pair ℚ).m_pc_corner = []
    ∧ (example_mapping_env ⟨0, 0, 0⟩ 0).down_sample_filter_surface
        (⟨[], [], [⟨1, 1, 1, 1 / 2⟩]⟩ : Data_pair ℚ).m_pc_plane = []
    ∧ (process_frame (example_mapping_env ⟨0, 0, 0⟩ 0) (dense_state 101)
        ⟨[], [], [⟨1, 1, 1, 1 / 2⟩]⟩).registration_ran = true :=
  ⟨rfl, rfl, dense_ran ⟨0, 0, 0⟩ 0 101 _ (by decide)⟩

/-- C20 (counterexample): with motion deblur on, on an accepted frame whose incremental pose
is the identity rotation with translation `(2, 0, 0)` from the last pose at the origin, the
corner point `(1, 1, 1)` with temporal fraction `1 / 2` is inserted into cell 515150 as
`(3, 1, 1)`, while `q_last * (R(s) * p + s * t_incre) + t_last` with `R(s)` the identity is
`(2, 1, 1)`. -/
theorem C20_counterexample :
    (process_frame (example_mapping_env ⟨2, 0, 0⟩ 0) (dense_state 101)
        example_pair).registration_ran = true
    ∧ (process_frame (example_mapping_env ⟨2, 0, 0⟩ 0) (dense_state 101)
        example_pair).rejected = false
    ∧ (process_frame (example_mapping_env ⟨2, 0, 0⟩ 0) (dense_state 101) example_pair).state
        = finish_frame (example_mapping_env ⟨2, 0, 0⟩ 0)
            (frame_registration (example_mapping_env ⟨2, 0, 0⟩ 0) (dense_state 101)
              example_pair).1
            (frame_valid (example_mapping_env ⟨2, 0, 0⟩ 0) (dense_state 101) example_pair)
            [⟨1, 1, 1, 1 / 2⟩] [⟨1, 2, 1, 1 / 2⟩]
    ∧ (frame_registration (example_mapping_env ⟨2, 0, 0⟩ 0) (dense_state 101)
        example_pair).1.MOTION_DEBLUR = 1
    ∧ (map_insert_corner (example_mapping_env ⟨2, 0, 0⟩ 0).cm
          (frame_registration (example_mapping_env ⟨2, 0, 0⟩ 0) (dense_state 101)
            example_pair).1 ⟨1, 1, 1, 1 / 2⟩).grid.corner_cell 515150
        = [⟨0, 0, 0, 0⟩, ⟨3, 1, 1, 1 / 2⟩]
    ∧ ((frame_registration (example_mapping_env ⟨2, 0, 0⟩ 0) (dense_state 101)
          example_pair).1.m_q_w_last.transformVector
          ((Matrix3d.Identity.mulVec ⟨1, 1, 1⟩).add
            ((frame_registration (example_mapping_env ⟨2, 0, 0⟩ 0) (dense_state 101)
              example_pair).1.m_t_w_incre.scale (1 / 2)))).add
          (frame_registration (example_mapping_env ⟨2, 0, 0⟩ 0) (dense_state 101)
            example_pair).1.m_t_w_last
        = ⟨2, 1, 1⟩ := by
  have hran := dense_ran ⟨2, 0, 0⟩ 0 101 example_pair (by decide)
  have hrej : (process_frame (example_mapping_env ⟨2, 0, 0⟩ 0) (dense_state 101)
      example_pair).rejected = false := by
    rw [← Bool.not_eq_true, dense_rejected ⟨2, 0, 0⟩ 0 101 example_pair (by decide)]
    norm_num
  have hreg := dense_registration ⟨2, 0, 0⟩ 0 101 example_pair
  have hg := dense_registration_grid ⟨2, 0, 0⟩ 0 101 example_pair
  have hsame := frame_registration_same (example_mapping_env ⟨2, 0, 0⟩ 0) (dense_state 101)
    example_pair
  have hq : (frame_registration (example_mapping_env ⟨2, 0, 0⟩ 0) (dense_state 101)
      example_pair).1.m_q_w_last = ⟨1, 0, 0, 0⟩ := hsame.q_last
  have ht : (frame_registration (example_mapping_env ⟨2, 0, 0⟩ 0) (dense_state 101)
      example_pair).1.m_t_w_last = ⟨0, 0, 0⟩ := hsame.t_last
  have hpt : pointAssociateToMap (example_mapping_env ⟨2, 0, 0⟩ 0).cm
      (frame_registration (example_mapping_env ⟨2, 0, 0⟩ 0) (dense_state 101) example_pair).1
      ⟨1, 1, 1, 1 / 2⟩ (1 / 2) 0 = ⟨3, 1, 1, 1 / 2⟩ := by
    simp only [pointAssociateToMap, true_or, or_true, if_true, hreg.2.2.1, hreg.2.2.2.1]
    ext <;> norm_num [Quaterniond.transformVector, Vector3d.add, Quaterniond.vec,
      Vector3d.cross, Vector3d.scale]
  have hcube : cube_of_point
      (frame_registration (example_mapping_env ⟨2, 0, 0⟩ 0) (dense_state 101) example_pair).1
      ⟨3, 1, 1, 1 / 2⟩ = some 515150 := by
    have h3 : cube_coord (3 : ℚ) 50 = 50 := cube_coord_centre 3 50 (by norm_num) (by norm_num)
    have h1 : cube_coord (1 : ℚ) 50 = 50 := cube_coord_centre 1 50 (by norm_num) (by norm_num)
    simp only [cube_of_point, hg.2.1, hg.2.2.1, hg.2.2.2.1, hg.2.2.2.2.1, hg.2.2.2.2.2.1,
      hg.2.2.2.2.2.2.1, h3, h1]
    rfl
  refine ⟨hran, hrej, process_frame_accept_state _ _ _ hran hrej, hg.2.2.2.2.2.2.2, ?_, ?_⟩
  · simp only [map_insert_corner, hpt, hcube, hg.1]
    simp [Cube_grid.push_corner, Cube_grid.corner_cell, dense_grid]
  · rw [hq, ht, hreg.2.2.2.2.2]
    ext <;> norm_num [Quaterniond.transformVector, Vector3d.add, Quaterniond.vec,
      Vector3d.cross, Vector3d.scale, Matrix3d.mulVec, Matrix3d.Identity, Vector3d.dot]

end MappingTheorems


/-! ## The input queue, the map snapshot and short frames -/

section QueueTheorems

open Laser_mapping

theorem Laser_mapping.drop_old_frames_spec {α : Type} (B : Nat) :
    ∀ q : List α, drop_old_frames (B + 1) q = some (q.drop (q.length - B)) := by
  intro q
  induction q with
  | nil => simp [drop_old_frames]
  | cons x t ih =>
    unfold drop_old_frames
    by_cases h : (x :: t).length ≥ B + 1
    · rw [if_pos h, ih]
      have h1 : t.length ≥ B := by
        simp only [List.length_cons] at h
        omega
      have h2 : (x :: t).length - B = (t.length - B) + 1 := by
        simp only [List.length_cons]
        omega
      rw [h2, List.drop_succ_cons]
    · rw [if_neg h]
      have h2 : (x :: t).length - B = 0 := by
        simp only [List.length_cons] at h ⊢
        omega
      rw [h2, List.drop_zero]

/-- C21: with `m_max_buffer_size = 1` the drop loop pops every frame of a non-empty queue, so
the `front()` and `pop()` that follow act on an empty queue; with `m_max_buffer_size = 2` and a
queue of two frames the oldest frame is dropped although the queue size does not exceed the
bound. In general, for a bound `B + 1 >= 1`, the loop leaves the newest `min(n, B)` frames. -/
theorem C21_front_of_emptied_queue {α : Type} (B : Nat) (f g : α) (q : List α) :
    drop_old_frames 1 (f :: q) = some []
    ∧ take_frame 1 (f :: q) = none
    ∧ take_frame 2 [f, g] = some (g, [])
    ∧ drop_old_frames (B + 1) q = some (q.drop (q.length - B)) := by
  have h1 : drop_old_frames 1 (f :: q) = some [] := by
    rw [drop_old_frames_spec 0 (f :: q)]
    simp
  have e1 : ((1 : Int) % 4294967296).toNat = 1 := by decide
  have e2 : ((2 : Int) % 4294967296).toNat = 2 := by decide
  refine ⟨h1, ?_, ?_, drop_old_frames_spec B q⟩
  · simp only [take_frame, e1, h1]
  · have h2 : drop_old_frames 2 [f, g] = some [g] := by
      rw [drop_old_frames_spec 1 [f, g]]
      rfl
    simp only [take_frame, e2, h2]

theorem List.mem_foldl_append_two {α β : Type} (f h : β → List α) (p : α) :
    ∀ (l : List β) (acc : List α),
      p ∈ l.foldl (fun a i => a ++ f i ++ h i) acc
        ↔ p ∈ acc ∨ ∃ i, i ∈ l ∧ (p ∈ f i ∨ p ∈ h i) := by
  intro l
  induction l with
  | nil => simp
  | cons b t ih =>
    intro acc
    rw [List.foldl_cons, ih]
    simp only [List.mem_append, List.mem_cons]
    constructor
    · rintro (((h1 | h1) | h1) | ⟨i, hi, h1⟩)
      · exact Or.inl h1
      · exact Or.inr ⟨b, Or.inl rfl, Or.inl h1⟩
      · exact Or.inr ⟨b, Or.inl rfl, Or.inr h1⟩
      · exact Or.inr ⟨i, Or.inr hi, h1⟩
    · rintro (h1 | ⟨i, hi | hi, h1⟩)
      · exact Or.inl (Or.inl (Or.inl h1))
      · subst hi
        rcases h1 with h1 | h1
        · exact Or.inl (Or.inl (Or.inr h1))
        · exact Or.inl (Or.inr h1)
      · exact Or.inr ⟨i, hi, h1⟩

theorem Laser_mapping.laserCloudMap_mem {K : Type} (g : Cube_grid K) (p : PointType K) :
    p ∈ laserCloudMap g ↔ ∃ i, i < 4851 ∧ (p ∈ g.corner_cell i ∨ p ∈ g.surface_cell i) := by
  unfold laserCloudMap
  rw [List.mem_foldl_append_two]
  simp only [List.not_mem_nil, false_or, List.mem_range]

/-- C22: the cloud published when `frameCount % 20 == 0` holds the points of the cells with
linear index below 4851 only. On the grid of 101 x 101 x 101 = 1030301 cells whose centre cell
515150 holds a corner point and 51 surface points, at `frameCount = 120`, the published cloud
is empty. -/
theorem C22_snapshot_misses_cells :
    (∀ (g : Cube_grid ℚ) (p : PointType ℚ),
      p ∈ laserCloudMap g ↔ ∃ i, i < 4851 ∧ (p ∈ g.corner_cell i ∨ p ∈ g.surface_cell i))
    ∧ m_laser_cloud_num (dense_state 120) = 1030301
    ∧ (dense_state 120).grid.corner_cell 515150 = [⟨0, 0, 0, 0⟩]
    ∧ ((dense_state 120).grid.surface_cell 515150).length = 51
    ∧ publish_laser_cloud_map (dense_state 120) = some [] := by
  refine ⟨fun g p => laserCloudMap_mem g p, rfl, rfl, rfl, ?_⟩
  have h20 : Int.tmod (dense_state 120).frameCount 20 = 0 := by decide
  have hnil : laserCloudMap (dense_state 120).grid = [] := by
    rw [List.eq_nil_iff_forall_not_mem]
    intro p hp
    rw [laserCloudMap_mem] at hp
    obtain ⟨i, hi, hp⟩ := hp
    have hc : (dense_state 120).grid.corner_cell i = [] := by
      show (if 2 * i = 1030300 then _ else if 2 * i = 1030301 then _ else _) = _
      rw [if_neg (by omega), if_neg (by omega)]
    have hs : (dense_state 120).grid.surface_cell i = [] := by
      show (if 2 * i + 1 = 1030300 then _ else if 2 * i + 1 = 1030301 then _ else _) = _
      rw [if_neg (by omega), if_neg (by omega)]
    rw [hc, hs] at hp
    simp at hp
  unfold publish_laser_cloud_map
  rw [if_pos h20, hnil]

end QueueTheorems

section ShortFrameTheorems

open Zvision_laser

theorem Zvision_laser.compute_features_zvision_indices_mem (idx : Nat) :
    idx ∈ compute_features_zvision_indices
      ↔ ∃ laser group, laser < 3 ∧ 2 ≤ group ∧ group < 9998 ∧ idx = 10000 * laser + group := by
  have hsize : curvature_ssd_size = 2 := rfl
  have hcount : 10000 - 2 - 2 = 9996 := by decide
  have aux : ∀ (laser a n : Nat),
      idx ∈ (List.range' a n).map (fun group => 10000 * laser + group)
        ↔ ∃ group, a ≤ group ∧ group < a + n ∧ idx = 10000 * laser + group := by
    intro laser a n
    simp only [List.mem_map, List.mem_range'_1]
    constructor
    · rintro ⟨g, ⟨h1, h2⟩, h3⟩
      exact ⟨g, h1, h2, h3.symm⟩
    · rintro ⟨g, h1, h2, h3⟩
      exact ⟨g, ⟨h1, h2⟩, h3.symm⟩
  unfold compute_features_zvision_indices
  rw [hsize, hcount]
  simp only [List.foldl_cons, List.foldl_nil, List.nil_append, List.mem_append, aux]
  constructor
  · rintro ((⟨g, h1, h2, h3⟩ | ⟨g, h1, h2, h3⟩) | ⟨g, h1, h2, h3⟩)
    · exact ⟨0, g, by omega, h1, by omega, h3⟩
    · exact ⟨1, g, by omega, h1, by omega, h3⟩
    · exact ⟨2, g, by omega, h1, by omega, h3⟩
  · rintro ⟨laser, g, hl, h2, h3, h4⟩
    have hcases : laser = 0 ∨ laser = 1 ∨ laser = 2 := by omega
    rcases hcases with h | h | h
    · subst h
      exact Or.inl (Or.inl ⟨g, h2, by omega, h4⟩)
    · subst h
      exact Or.inl (Or.inr ⟨g, h2, by omega, h4⟩)
    · subst h
      exact Or.inr ⟨g, h2, by omega, h4⟩

/-- C23: the loop of `compute_features` runs over `compute_features_indices`, and on a frame
with fewer than 2 points the loop bound `pts_size - curvature_ssd_size` wraps around, so the
pass `idx = 2` runs and reads `m_pts_info_vec[2]` outside the vector (on a frame of 2, 3 or 4
points no pass runs). The loops of `compute_features_zvision` run over the fixed indices
`10000 * laser + group`, `2 <= group < 9998`, whatever the frame size, so on every frame with
fewer than 29998 points the pass `idx = 29997` reads outside the vector; on the empty frame the
first pass `idx = 2` already does. -/
theorem C23_short_frame_reads_outside {K : Type} [LinearOrderedField K] (env : Feature_env K)
    (zl : Zvision_laser K) :
    compute_features env zl = (compute_features_indices zl).foldl (feature_step env) zl
    ∧ (zl.m_raw_pts_vec.length < 2 → 2 ∈ compute_features_indices zl)
    ∧ (2 ≤ zl.m_raw_pts_vec.length → zl.m_raw_pts_vec.length < 5 →
        compute_features_indices zl = [])
    ∧ (∀ idx, idx ∈ compute_features_zvision_indices
        ↔ ∃ laser group, laser < 3 ∧ 2 ≤ group ∧ group < 9998 ∧ idx = 10000 * laser + group)
    ∧ 29997 ∈ compute_features_zvision_indices
    ∧ (init : Zvision_laser K).m_pts_info_vec.length = 0
    ∧ (init : Zvision_laser K).m_raw_pts_vec.length = 0
    ∧ 2 ∈ compute_features_indices (init : Zvision_laser K)
    ∧ 2 ∈ compute_features_zvision_indices := by
  have hshort : ∀ z : Zvision_laser K, z.m_raw_pts_vec.length < 2 →
      2 ∈ compute_features_indices z := by
    intro z hz
    simp only [compute_features_indices, curvature_ssd_size, List.mem_range'_1]
    omega
  refine ⟨rfl, hshort zl, ?_, compute_features_zvision_indices_mem, ?_, rfl, rfl,
    hshort init (by simp [init]), ?_⟩
  · intro h2 h5
    have h0 : (zl.m_raw_pts_vec.length % 4294967296 + 18446744073709551616
        - curvature_ssd_size) % 18446744073709551616 - curvature_ssd_size = 0 := by
      simp only [curvature_ssd_size]
      omega
    simp only [compute_features_indices, h0]
    rfl
  · exact (compute_features_zvision_indices_mem 29997).2 ⟨2, 9997, by omega, by omega, by omega, rfl⟩
  · exact (compute_features_zvision_indices_mem 2).2 ⟨0, 2, by omega, by omega, by omega, rfl⟩

end ShortFrameTheorems

/-! ## The solver bounds and the pruning order -/

section SolverTheorems

variable {K : Type} [LinearOrderedField K]

open Laser_mapping

theorem Laser_mapping.set_ceres_solver_bound_spec (m_para_max_speed : K)
    (problem : Ceres_problem K) :
    (∀ i, i < 3 →
      (set_ceres_solver_bound m_para_max_speed problem).lower_bound 4 i
          = some (-m_para_max_speed)
      ∧ (set_ceres_solver_bound m_para_max_speed problem).upper_bound 4 i
          = some m_para_max_speed)
    ∧ (∀ v i, ¬ (v = 4 ∧ i < 3) →
      (set_ceres_solver_bound m_para_max_speed problem).lower_bound v i
          = problem.lower_bound v i
      ∧ (set_ceres_solver_bound m_para_max_speed problem).upper_bound v i
          = problem.upper_bound v i)
    ∧ (set_ceres_solver_bound m_para_max_speed problem).residual_blocks
        = problem.residual_blocks := by
  refine ⟨?_, ?_, rfl⟩
  · intro i hi
    have hcases : i = 0 ∨ i = 1 ∨ i = 2 := by omega
    rcases hcases with h | h | h <;> subst h <;>
      simp [set_ceres_solver_bound, Ceres_problem.SetParameterLowerBound,
        Ceres_problem.SetParameterUpperBound]
  · intro v i hvi
    have h0 : ¬ (v = 4 ∧ i = 0) := fun h => hvi ⟨h.1, by omega⟩
    have h1 : ¬ (v = 4 ∧ i = 1) := fun h => hvi ⟨h.1, by omega⟩
    have h2 : ¬ (v = 4 ∧ i = 2) := fun h => hvi ⟨h.1, by omega⟩
    simp only [set_ceres_solver_bound, Ceres_problem.SetParameterLowerBound,
      Ceres_problem.SetParameterUpperBound, List.foldl_cons, List.foldl_nil, h0, h1, h2,
      if_false, and_self]

/-- C24: both solves of a registration pass are handed a problem whose translation block
`m_para_buffer_incremental + 4` has the lower bound `-m_para_max_speed` and the upper bound
`+m_para_max_speed` on each of its three components (the rotation block has the bounds it had);
so for a solver that respects its bounds and `m_para_max_speed >= 0`, every component of the
incremental translation lies in `[-m_para_max_speed, +m_para_max_speed]` after each of the two
solves. -/
theorem C24_translation_bounded (ce : Ceres_env K) (m_para_max_speed : K)
    (problem : Ceres_problem K) (residual_block_ids : List Nat)
    (incre : Quaterniond K × Vector3d K) (hce : ce.RespectsBounds)
    (hspeed : 0 ≤ m_para_max_speed) :
    (∀ i, i < 3 →
      (registration_solves ce m_para_max_speed problem residual_block_ids
          incre).problem_first.lower_bound 4 i = some (-m_para_max_speed)
      ∧ (registration_solves ce m_para_max_speed problem residual_block_ids
          incre).problem_first.upper_bound 4 i = some m_para_max_speed
      ∧ (registration_solves ce m_para_max_speed problem residual_block_ids
          incre).problem_second.lower_bound 4 i = some (-m_para_max_speed)
      ∧ (registration_solves ce m_para_max_speed problem residual_block_ids
          incre).problem_second.upper_bound 4 i = some m_para_max_speed)
    ∧ (registration_solves ce m_para_max_speed problem residual_block_ids incre).first
        = ce.Solve (registration_solves ce m_para_max_speed problem residual_block_ids
            incre).problem_first incre
    ∧ (registration_solves ce m_para_max_speed problem residual_block_ids incre).second
        = ce.Solve (registration_solves ce m_para_max_speed problem residual_block_ids
            incre).problem_second
            (registration_solves ce m_para_max_speed problem residual_block_ids incre).first.1
    ∧ (∀ i, i < 3 →
      -m_para_max_speed ≤ (registration_solves ce m_para_max_speed problem residual_block_ids
          incre).first.1.2.coeff i
      ∧ (registration_solves ce m_para_max_speed problem residual_block_ids
          incre).first.1.2.coeff i ≤ m_para_max_speed
      ∧ -m_para_max_speed ≤ (registration_solves ce m_para_max_speed problem residual_block_ids
          incre).second.1.2.coeff i
      ∧ (registration_solves ce m_para_max_speed problem residual_block_ids
          incre).second.1.2.coeff i ≤ m_para_max_speed) := by
  have hb1 : ∀ i, i < 3 →
      (registration_solves ce m_para_max_speed problem residual_block_ids
          incre).problem_first.lower_bound 4 i = some (-m_para_max_speed)
      ∧ (registration_solves ce m_para_max_speed problem residual_block_ids
          incre).problem_first.upper_bound 4 i = some m_para_max_speed :=
    (set_ceres_solver_bound_spec m_para_max_speed problem).1
  have hb2 : ∀ i, i < 3 →
      (registration_solves ce m_para_max_speed problem residual_block_ids
          incre).problem_second.lower_bound 4 i = some (-m_para_max_speed)
      ∧ (registration_solves ce m_para_max_speed problem residual_block_ids
          incre).problem_second.upper_bound 4 i = some m_para_max_speed :=
    (set_ceres_solver_bound_spec m_para_max_speed _).1
  have hle : -m_para_max_speed ≤ m_para_max_speed := by linarith
  refine ⟨fun i hi => ⟨(hb1 i hi).1, (hb1 i hi).2, (hb2 i hi).1, (hb2 i hi).2⟩, rfl, rfl,
    fun i hi => ?_⟩
  have r1 := hce (registration_solves ce m_para_max_speed problem residual_block_ids
    incre).problem_first incre i _ _ hi (hb1 i hi).1 (hb1 i hi).2 hle
  have r2 := hce (registration_solves ce m_para_max_speed problem residual_block_ids
    incre).problem_second
    (registration_solves ce m_para_max_speed problem residual_block_ids incre).first.1 i _ _ hi
    (hb2 i hi).1 (hb2 i hi).2 hle
  exact ⟨r1.1, r1.2, r2.1, r2.2⟩

theorem clamp_component_bounds (problem : Ceres_problem ℚ) (i : Nat) (v l u : ℚ)
    (hl : problem.lower_bound 4 i = some l) (hu : problem.upper_bound 4 i = some u)
    (hlu : l ≤ u) :
    l ≤ clamp_component problem i v ∧ clamp_component problem i v ≤ u := by
  simp only [clamp_component, hl, hu]
  exact ⟨le_min hlu (le_max_left l v), min_le_left u _⟩

theorem clamp_env_respects : clamp_env.RespectsBounds := by
  intro problem x i l u hi hl hu hlu
  have hcases : i = 0 ∨ i = 1 ∨ i = 2 := by omega
  rcases hcases with h | h | h <;> subst h
  · exact clamp_component_bounds problem 0 x.2.x l u hl hu hlu
  · exact clamp_component_bounds problem 1 x.2.y l u hl hu hlu
  · exact clamp_component_bounds problem 2 x.2.z l u hl hu hlu

/-- C24 (witness): the clamping solver with `m_para_max_speed = 2`, started from the
incremental translation `(5, -7, 1)`. -/
theorem C24_translation_bounded_witness :
    clamp_env.RespectsBounds
    ∧ (0 : ℚ) ≤ 2
    ∧ (∀ i, i < 3 →
      (-2 : ℚ) ≤ (registration_solves clamp_env 2 example_problem [0, 1]
          (⟨1, 0, 0, 0⟩, ⟨5, -7, 1⟩)).first.1.2.coeff i
      ∧ (registration_solves clamp_env 2 example_problem [0, 1]
          (⟨1, 0, 0, 0⟩, ⟨5, -7, 1⟩)).first.1.2.coeff i ≤ 2
      ∧ (-2 : ℚ) ≤ (registration_solves clamp_env 2 example_problem [0, 1]
          (⟨1, 0, 0, 0⟩, ⟨5, -7, 1⟩)).second.1.2.coeff i
      ∧ (registration_solves clamp_env 2 example_problem [0, 1]
          (⟨1, 0, 0, 0⟩, ⟨5, -7, 1⟩)).second.1.2.coeff i ≤ 2) :=
  ⟨clamp_env_respects, by norm_num,
    (C24_translation_bounded clamp_env 2 example_problem [0, 1] (⟨1, 0, 0, 0⟩, ⟨5, -7, 1⟩)
      clamp_env_respects (by norm_num)).2.2.2⟩

end SolverTheorems

section PruningOrderTheorems

variable {K : Type} [LinearOrderedField K]

theorem remove_outliers_fold_filter (total_cost : K) (residuals : List K) (ids : List Nat) :
    ∀ (l : List Nat) (st : List Nat × List Nat),
      l.foldl (remove_outliers_step total_cost residuals ids) st
        = (st.1 ++ (l.filter (fun i => decide (block_sum_abs residuals i
              > outlier_threshold total_cost ids.length))).map (fun i => ids.getD i 0),
            st.2 ++ (l.filter (fun i => decide (¬ block_sum_abs residuals i
              > outlier_threshold total_cost ids.length))).map (fun i => ids.getD i 0)) := by
  intro l
  induction l with
  | nil =>
    intro st
    simp
  | cons a t ih =>
    intro st
    rw [List.foldl_cons, ih]
    by_cases hc : block_sum_abs residuals a > outlier_threshold total_cost ids.length
    · simp [remove_outliers_step, hc, List.filter_cons]
    · have hc1 : block_sum_abs residuals a ≤ outlier_threshold total_cost ids.length :=
        not_lt.mp hc
      simp [remove_outliers_step, hc, hc1, List.filter_cons]

/-- C25 (amended): in the outlier-pruning pass over the factors `0, ..., n - 1`, the factors
dropped are exactly those with `|r_i0| + |r_i1| + |r_i2| > min(0.1, 10 * avr_cost)`, where
`avr_cost = total_cost / n` is the average of the cost that `problem.Evaluate` reports (not of
the residuals); every other factor is kept, and both lists are in the original order. -/
theorem C25_pruning_keeps_order (total_cost : K) (residuals : List K) (ids : List Nat) :
    (remove_outliers total_cost residuals ids).1
      = ((List.range ids.length).filter (fun i => decide (block_sum_abs residuals i
            > min (1 / 10) (10 * (total_cost / (ids.length : K)))))).map
          (fun i => ids.getD i 0)
    ∧ (remove_outliers total_cost residuals ids).2
      = ((List.range ids.length).filter (fun i => decide (¬ block_sum_abs residuals i
            > min (1 / 10) (10 * (total_cost / (ids.length : K)))))).map
          (fun i => ids.getD i 0) := by
  unfold remove_outliers
  rw [remove_outliers_fold_filter]
  exact ⟨rfl, rfl⟩

theorem even_residuals_block (i : Nat) (hi : i < 3) :
    block_sum_abs even_residuals i = 3 / 100 := by
  have h : |(1 / 100 : ℚ)| = 1 / 100 := abs_of_nonneg (by norm_num)
  have hcases : i = 0 ∨ i = 1 ∨ i = 2 := by omega
  rcases hcases with h0 | h0 | h0 <;> subst h0
  · show |(1 / 100 : ℚ)| + |(1 / 100 : ℚ)| + |(1 / 100 : ℚ)| = 3 / 100
    rw [h]
    norm_num
  · show |(1 / 100 : ℚ)| + |(1 / 100 : ℚ)| + |(1 / 100 : ℚ)| = 3 / 100
    rw [h]
    norm_num
  · show |(1 / 100 : ℚ)| + |(1 / 100 : ℚ)| + |(1 / 100 : ℚ)| = 3 / 100
    rw [h]
    norm_num

/-- C25 (counterexample): three factors with residual `(0.01, 0.01, 0.01)` each and the total
cost `0.00045` that Ceres reports for them. The summed absolute residual of each factor is
`0.03`, the mean of these sums is `0.03`, so `0.03 > min(0.1, 10 * 0.03)` is false; yet the
threshold of the code is `min(0.1, 10 * 0.00015) = 0.0015` and all three factors are dropped. -/
theorem C25_counterexample :
    mean_sum_abs even_residuals 3 = 3 / 100
    ∧ ¬ block_sum_abs even_residuals 0 > min (1 / 10) (10 * mean_sum_abs even_residuals 3)
    ∧ remove_outliers (9 / 20000 : ℚ) even_residuals [0, 1, 2] = ([0, 1, 2], []) := by
  have b0 := even_residuals_block 0 (by omega)
  have b1 := even_residuals_block 1 (by omega)
  have b2 := even_residuals_block 2 (by omega)
  have hm : mean_sum_abs even_residuals 3 = 3 / 100 := by
    have hr : List.range 3 = [0, 1, 2] := by decide
    unfold mean_sum_abs
    rw [hr]
    simp only [List.map_cons, List.map_nil, List.sum_cons, List.sum_nil, b0, b1, b2]
    norm_num
  have hthr : outlier_threshold (9 / 20000 : ℚ) ([0, 1, 2] : List Nat).length = 3 / 2000 := by
    norm_num [outlier_threshold]
  refine ⟨hm, ?_, ?_⟩
  · rw [hm, b0]
    norm_num
  · have hr : List.range ([0, 1, 2] : List Nat).length = [0, 1, 2] := by decide
    unfold remove_outliers
    rw [remove_outliers_fold_filter, hr, hthr]
    simp [List.filter_cons, b0, b1, b2]
    norm_num

end PruningOrderTheorems

/-! ## Cell indices, recentring and the gathered neighbourhood -/

section CellTheorems

variable {K : Type} [LinearOrderedField K] [FloorRing K]

open Laser_mapping Cube_grid

theorem Laser_mapping.cube_coord_floor (x : K) (c : Int) :
    cube_coord x c
      = if x + 50 / 2 < 0 ∧ ((Int.floor ((x + 50 / 2) / 50) : Int) : K) = (x + 50 / 2) / 50 then
          Int.floor ((x + 50 / 2) / 50) + c - 1
        else Int.floor ((x + 50 / 2) / 50) + c := by
  by_cases hneg : x + 50 / 2 < 0
  · have hy : (x + 50 / 2) / 50 < 0 := div_neg_of_neg_of_pos hneg (by norm_num)
    have hci : c_int ((x + 50 / 2) / 50) = Int.ceil ((x + 50 / 2) / 50) := by
      unfold c_int
      rw [if_neg (not_le.mpr hy)]
    simp only [cube_coord, hci, hneg, true_and, if_true]
    by_cases hint : ((Int.floor ((x + 50 / 2) / 50) : Int) : K) = (x + 50 / 2) / 50
    · rw [if_pos hint]
      have hc : Int.ceil ((x + 50 / 2) / 50) = Int.floor ((x + 50 / 2) / 50) := by
        rw [← hint, Int.ceil_intCast, Int.floor_intCast]
      rw [hc]
    · rw [if_neg hint]
      have hlt : ((Int.floor ((x + 50 / 2) / 50) : Int) : K) < (x + 50 / 2) / 50 :=
        lt_of_le_of_ne (Int.floor_le _) hint
      have hc : Int.ceil ((x + 50 / 2) / 50) = Int.floor ((x + 50 / 2) / 50) + 1 := by
        rw [Int.ceil_eq_iff]
        constructor
        · push_cast
          linarith
        · push_cast
          exact le_of_lt (Int.lt_floor_add_one _)
      rw [hc]
      ring
  · have hy : 0 ≤ (x + 50 / 2) / 50 := div_nonneg (not_lt.mp hneg) (by norm_num)
    have hci : c_int ((x + 50 / 2) / 50) = Int.floor ((x + 50 / 2) / 50) := by
      unfold c_int
      rw [if_pos hy]
    simp only [cube_coord, if_neg hneg, hci, hneg, false_and, if_false]

/-- C26: the cell index computed from a world coordinate `x` is `floor((x + 25) / 50) + origin`
except when `x + 25` is a negative multiple of 50, where it is one less. For `x = -75` and
origin 50 the code computes 48, while `floor((x + 25) / 50) + origin = 49`, and `x` does not
lie in `[(48 - 50) * 50 - 25, (48 - 50) * 50 + 25) = [-125, -75)`. -/
theorem C26_negative_boundary_cell (x : K) (c : Int) :
    cube_coord x c
      = (if x + 50 / 2 < 0 ∧ ((Int.floor ((x + 50 / 2) / 50) : Int) : K) = (x + 50 / 2) / 50 then
          Int.floor ((x + 50 / 2) / 50) + c - 1
        else Int.floor ((x + 50 / 2) / 50) + c)
    ∧ cube_coord (-75 : ℚ) 50 = 48
    ∧ Int.floor (((-75 : ℚ) + 25) / 50) + 50 = 49
    ∧ ¬ (((48 : ℚ) - 50) * 50 - 25 ≤ -75 ∧ (-75 : ℚ) < (48 - 50) * 50 + 25) := by
  have hfl : Int.floor (((-75 : ℚ) + 50 / 2) / 50) = -1 := by
    rw [Int.floor_eq_iff]
    norm_num
  have hfl1 : Int.floor (((-75 : ℚ) + 25) / 50) = -1 := by
    rw [Int.floor_eq_iff]
    norm_num
  refine ⟨cube_coord_floor x c, ?_, ?_, ?_⟩
  · rw [cube_coord_floor, hfl, if_pos ⟨by norm_num, by norm_num⟩]
    decide
  · rw [hfl1]
    decide
  · norm_num

end CellTheorems

section RecentreTheorems

variable {K : Type}

open Laser_mapping Cube_grid

theorem Cube_grid.shift_up_entering (line : Nat → Nat → Nat → Nat) (A B n N : Nat)
    (g : Cube_grid K) (hn : 1 ≤ n)
    (hrange : ∀ a b t, a < A → b < B → t < n → line a b t < N)
    (hinj : ∀ a b t a1 b1 t1, a < A → b < B → t < n → a1 < A → b1 < B → t1 < n →
      line a b t = line a1 b1 t1 → a = a1 ∧ b = b1 ∧ t = t1)
    (hd : distinct_ptrs g N) :
    ∀ a b, a < A → b < B →
      cells (shift_lines (fun l => shift_line_up l n) line A B g) (line a b 0) = ([], []) :=
  (shift_lines_spec (fun l => shift_line_up l n) line A B n N 0 _ g
    (shift_line_up_spec n N hn) (fun s hs => by split_ifs <;> omega) (by omega) hrange hinj
    hd).2.2.1

theorem Cube_grid.shift_down_entering (line : Nat → Nat → Nat → Nat) (A B n N : Nat)
    (g : Cube_grid K) (hn : 1 ≤ n)
    (hrange : ∀ a b t, a < A → b < B → t < n → line a b t < N)
    (hinj : ∀ a b t a1 b1 t1, a < A → b < B → t < n → a1 < A → b1 < B → t1 < n →
      line a b t = line a1 b1 t1 → a = a1 ∧ b = b1 ∧ t = t1)
    (hd : distinct_ptrs g N) :
    ∀ a b, a < A → b < B →
      cells (shift_lines (fun l => shift_line_down l n) line A B g) (line a b (n - 1))
        = ([], []) :=
  (shift_lines_spec (fun l => shift_line_down l n) line A B n N (n - 1) _ g
    (shift_line_down_spec n N hn) (fun s hs => by split_ifs <;> omega) (by omega) hrange hinj
    hd).2.2.1

theorem Cube_grid.recentre_low_diff (shift : Cube_grid K → Cube_grid K) :
    ∀ (fuel : Nat) (s : Int × Int × Cube_grid K),
      (recentre_low shift fuel s).1 - (recentre_low shift fuel s).2.1 = s.1 - s.2.1 := by
  intro fuel
  induction fuel with
  | zero => exact fun s => rfl
  | succ n ih =>
    intro s
    unfold recentre_low
    by_cases h : s.1 < 3
    · rw [if_pos h, ih]
      show s.1 + 1 - (s.2.1 + 1) = s.1 - s.2.1
      omega
    · rw [if_neg h]

theorem Cube_grid.recentre_high_diff (shift : Cube_grid K → Cube_grid K) (width : Nat) :
    ∀ (fuel : Nat) (s : Int × Int × Cube_grid K),
      (recentre_high shift width fuel s).1 - (recentre_high shift width fuel s).2.1
        = s.1 - s.2.1 := by
  intro fuel
  induction fuel with
  | zero => exact fun s => rfl
  | succ n ih =>
    intro s
    unfold recentre_high
    by_cases h : s.1 ≥ (width : Int) - 3
    · rw [if_pos h, ih]
      show s.1 - 1 - (s.2.1 - 1) = s.1 - s.2.1
      omega
    · rw [if_neg h]

theorem Cube_grid.recentre_low_spec (shift : Cube_grid K → Cube_grid K) :
    ∀ (fuel : Nat) (s : Int × Int × Cube_grid K), (3 - s.1).toNat ≤ fuel →
      recentre_low shift fuel s
        = (max s.1 3, s.2.1 + (max s.1 3 - s.1), shift^[(3 - s.1).toNat] s.2.2) := by
  intro fuel
  induction fuel with
  | zero =>
    intro s hs
    have h3 : 3 ≤ s.1 := by omega
    have h0 : (3 - s.1).toNat = 0 := by omega
    rw [h0, max_eq_left h3]
    simp [recentre_low]
  | succ n ih =>
    intro s hs
    unfold recentre_low
    by_cases h : s.1 < 3
    · rw [if_pos h, ih _ (by show (3 - (s.1 + 1)).toNat ≤ n; omega)]
      have e1 : (3 - s.1).toNat = (3 - (s.1 + 1)).toNat + 1 := by omega
      have m1 : max (s.1 + 1) 3 = 3 := max_eq_right (by omega)
      have m2 : max s.1 3 = 3 := max_eq_right (by omega)
      show (max (s.1 + 1) 3, s.2.1 + 1 + (max (s.1 + 1) 3 - (s.1 + 1)),
        shift^[(3 - (s.1 + 1)).toNat] (shift s.2.2)) = _
      rw [e1, Function.iterate_succ_apply, m1, m2]
      congr 2
      omega
    · rw [if_neg h]
      have h3 : 3 ≤ s.1 := by omega
      have h0 : (3 - s.1).toNat = 0 := by omega
      rw [h0, max_eq_left h3]
      simp

theorem Cube_grid.recentre_high_spec (shift : Cube_grid K → Cube_grid K) (width : Nat) :
    ∀ (fuel : Nat) (s : Int × Int × Cube_grid K), (s.1 - ((width : Int) - 3) + 1).toNat ≤ fuel →
      recentre_high shift width fuel s
        = (min s.1 ((width : Int) - 4), s.2.1 - (s.1 - min s.1 ((width : Int) - 4)),
            shift^[(s.1 - ((width : Int) - 3) + 1).toNat] s.2.2) := by
  intro fuel
  induction fuel with
  | zero =>
    intro s hs
    have h3 : s.1 ≤ (width : Int) - 4 := by omega
    have h0 : (s.1 - ((width : Int) - 3) + 1).toNat = 0 := by omega
    rw [h0, min_eq_left h3]
    simp [recentre_high]
  | succ n ih =>
    intro s hs
    unfold recentre_high
    by_cases h : s.1 ≥ (width : Int) - 3
    · rw [if_pos h, ih _ (by show (s.1 - 1 - ((width : Int) - 3) + 1).toNat ≤ n; omega)]
      have e1 : (s.1 - ((width : Int) - 3) + 1).toNat
          = (s.1 - 1 - ((width : Int) - 3) + 1).toNat + 1 := by omega
      have m1 : min (s.1 - 1) ((width : Int) - 4) = (width : Int) - 4 := min_eq_right (by omega)
      have m2 : min s.1 ((width : Int) - 4) = (width : Int) - 4 := min_eq_right (by omega)
      show (min (s.1 - 1) ((width : Int) - 4),
        s.2.1 - 1 - (s.1 - 1 - min (s.1 - 1) ((width : Int) - 4)),
        shift^[(s.1 - 1 - ((width : Int) - 3) + 1).toNat] (shift s.2.2)) = _
      rw [e1, Function.iterate_succ_apply, m1, m2]
      congr 2
      omega
    · rw [if_neg h]
      have h3 : s.1 ≤ (width : Int) - 4 := by omega
      have h0 : (s.1 - ((width : Int) - 3) + 1).toNat = 0 := by omega
      rw [h0, min_eq_left h3]
      simp

theorem Laser_mapping.recentre_centres (lm : Laser_mapping K) (cI cJ cK : Int) :
    (recentre lm cI cJ cK).2.1 = min (max cI 3) ((lm.m_para_laser_cloud_width : Int) - 4)
    ∧ (recentre lm cI cJ cK).2.2.1
        = min (max cJ 3) ((lm.m_para_laser_cloud_height : Int) - 4)
    ∧ (recentre lm cI cJ cK).2.2.2
        = min (max cK 3) ((lm.m_para_laser_cloud_depth : Int) - 4)
    ∧ (recentre lm cI cJ cK).1.m_para_laser_cloud_width = lm.m_para_laser_cloud_width
    ∧ (recentre lm cI cJ cK).1.m_para_laser_cloud_height = lm.m_para_laser_cloud_height
    ∧ (recentre lm cI cJ cK).1.m_para_laser_cloud_depth = lm.m_para_laser_cloud_depth := by
  have key : ∀ (sl sh : Cube_grid K → Cube_grid K) (W : Nat) (c o : Int) (g : Cube_grid K),
      (recentre_high sh W ((recentre_low sl (3 - c).toNat (c, o, g)).1 - ((W : Int) - 3)
          + 1).toNat (recentre_low sl (3 - c).toNat (c, o, g))).1
        = min (max c 3) ((W : Int) - 4) := by
    intro sl sh W c o g
    rw [recentre_high_spec sh W _ _ (le_refl _), recentre_low_spec sl _ (c, o, g) (le_refl _)]
  exact ⟨key _ _ _ _ _ _, key _ _ _ _ _ _, key _ _ _ _ _ _, rfl, rfl, rfl⟩

end RecentreTheorems

section RecentreClaims

variable {K : Type}

open Laser_mapping Cube_grid

/-- C27: for a grid whose cell pointers are pairwise distinct, after each of the six one-cell
recentring shifts the cells that enter the window (index 0 along the axis for a
`centerCube < 3` shift, the last index for a `centerCube >= size - 3` shift) hold empty corner
and surface clouds; one pass of a `centerCube < 3` loop adds 1 to both `centerCube` and the
origin offset, one pass of a `centerCube >= size - 3` loop subtracts 1 from both, and over any
number of passes `centerCube` minus the origin offset keeps its value. -/
theorem C27_entering_cells_empty (W H D : Nat) (g : Cube_grid K) (c o : Int) (hW : 1 ≤ W)
    (hH : 1 ≤ H) (hD : 1 ≤ D) (hd : distinct_ptrs g (W * H * D)) :
    ((∀ j k, j < H → k < D →
        cells (shift_I_low W H D g) (cube_index W H 0 j k) = ([], []))
      ∧ (∀ j k, j < H → k < D →
        cells (shift_I_high W H D g) (cube_index W H (W - 1) j k) = ([], []))
      ∧ (∀ i k, i < W → k < D →
        cells (shift_J_low W H D g) (cube_index W H i 0 k) = ([], []))
      ∧ (∀ i k, i < W → k < D →
        cells (shift_J_high W H D g) (cube_index W H i (H - 1) k) = ([], []))
      ∧ (∀ i j, i < W → j < H →
        cells (shift_K_low W H D g) (cube_index W H i j 0) = ([], []))
      ∧ (∀ i j, i < W → j < H →
        cells (shift_K_high W H D g) (cube_index W H i j (D - 1)) = ([], [])))
    ∧ (∀ (shift : Cube_grid K → Cube_grid K), c < 3 →
        recentre_low shift 1 (c, o, g) = (c + 1, o + 1, shift g))
    ∧ (∀ (shift : Cube_grid K → Cube_grid K) (width : Nat), c ≥ (width : Int) - 3 →
        recentre_high shift width 1 (c, o, g) = (c - 1, o - 1, shift g))
    ∧ (∀ (shift : Cube_grid K → Cube_grid K) (fuel : Nat),
        (recentre_low shift fuel (c, o, g)).1 - (recentre_low shift fuel (c, o, g)).2.1 = c - o)
    ∧ (∀ (shift : Cube_grid K → Cube_grid K) (width fuel : Nat),
        (recentre_high shift width fuel (c, o, g)).1
          - (recentre_high shift width fuel (c, o, g)).2.1 = c - o) := by
  have rI : ∀ a b t, a < H → b < D → t < W → cube_index W H t a b < W * H * D :=
    fun a b t ha hb ht => cube_index_lt W H D t a b ht ha hb
  have iI : ∀ a b t a1 b1 t1, a < H → b < D → t < W → a1 < H → b1 < D → t1 < W →
      cube_index W H t a b = cube_index W H t1 a1 b1 → a = a1 ∧ b = b1 ∧ t = t1 := by
    intro a b t a1 b1 t1 ha _ ht ha1 _ ht1 h
    obtain ⟨e1, e2, e3⟩ := cube_index_inj W H t a b t1 a1 b1 ht ha ht1 ha1 h
    exact ⟨e2, e3, e1⟩
  have rJ : ∀ a b t, a < W → b < D → t < H → cube_index W H a t b < W * H * D :=
    fun a b t ha hb ht => cube_index_lt W H D a t b ha ht hb
  have iJ : ∀ a b t a1 b1 t1, a < W → b < D → t < H → a1 < W → b1 < D → t1 < H →
      cube_index W H a t b = cube_index W H a1 t1 b1 → a = a1 ∧ b = b1 ∧ t = t1 := by
    intro a b t a1 b1 t1 ha _ ht ha1 _ ht1 h
    obtain ⟨e1, e2, e3⟩ := cube_index_inj W H a t b a1 t1 b1 ha ht ha1 ht1 h
    exact ⟨e1, e3, e2⟩
  have rK : ∀ a b t, a < W → b < H → t < D → cube_index W H a b t < W * H * D :=
    fun a b t ha hb ht => cube_index_lt W H D a b t ha hb ht
  have iK : ∀ a b t a1 b1 t1, a < W → b < H → t < D → a1 < W → b1 < H → t1 < D →
      cube_index W H a b t = cube_index W H a1 b1 t1 → a = a1 ∧ b = b1 ∧ t = t1 := by
    intro a b t a1 b1 t1 ha hb _ ha1 hb1 _ h
    exact cube_index_inj W H a b t a1 b1 t1 ha hb ha1 hb1 h
  refine ⟨⟨?_, ?_, ?_, ?_, ?_, ?_⟩, ?_, ?_, ?_, ?_⟩
  · exact shift_up_entering (fun j k i => cube_index W H i j k) H D W _ g hW rI iI hd
  · exact shift_down_entering (fun j k i => cube_index W H i j k) H D W _ g hW rI iI hd
  · exact shift_up_entering (fun i k j => cube_index W H i j k) W D H _ g hH rJ iJ hd
  · exact shift_down_entering (fun i k j => cube_index W H i j k) W D H _ g hH rJ iJ hd
  · exact shift_up_entering (fun i j k => cube_index W H i j k) W H D _ g hD rK iK hd
  · exact shift_down_entering (fun i j k => cube_index W H i j k) W H D _ g hD rK iK hd
  · intro shift hc
    simp only [recentre_low, if_pos hc]
  · intro shift width hc
    simp only [recentre_high, if_pos hc]
  · exact fun shift fuel => recentre_low_diff shift fuel (c, o, g)
  · exact fun shift width fuel => recentre_high_diff shift width fuel (c, o, g)

/-- C27 (witness): the example grid with 101 x 101 x 101 cells, `centerCube = 2`, origin
offset 50. -/
theorem C27_entering_cells_empty_witness :
    cells (shift_I_low 101 101 101 example_grid) (cube_index 101 101 0 0 0) = ([], [])
    ∧ recentre_low (shift_I_low 101 101 101) 1 (2, 50, example_grid)
        = (2 + 1, 50 + 1, shift_I_low 101 101 101 example_grid) :=
  ⟨(C27_entering_cells_empty 101 101 101 example_grid 2 50 (by decide) (by decide) (by decide)
      (example_grid_distinct _)).1.1 0 0 (by decide) (by decide),
    (C27_entering_cells_empty 101 101 101 example_grid 2 50 (by decide) (by decide) (by decide)
      (example_grid_distinct _)).2.1 (shift_I_low 101 101 101) (by decide)⟩

/-- C28: for a grid of at least 7 cells along every axis (the constructor sets 101) and every
integer start value of `centerCubeI`, `centerCubeJ`, `centerCubeK`, the six recentring loops
end with `3 <= centerCube <= size - 4` on every axis. Each loop has exited after the number of
passes the model gives it: a `centerCube < 3` loop after `3 - centerCube` passes and a
`centerCube >= size - 3` loop after `centerCube - (size - 3) + 1` passes (none when that is
negative), more fuel changing nothing. -/
theorem C28_recentring_terminates (lm : Laser_mapping K) (cI cJ cK : Int)
    (hW : 7 ≤ lm.m_para_laser_cloud_width) (hH : 7 ≤ lm.m_para_laser_cloud_height)
    (hD : 7 ≤ lm.m_para_laser_cloud_depth) :
    (3 ≤ (recentre lm cI cJ cK).2.1
      ∧ (recentre lm cI cJ cK).2.1 ≤ (lm.m_para_laser_cloud_width : Int) - 4)
    ∧ (3 ≤ (recentre lm cI cJ cK).2.2.1
      ∧ (recentre lm cI cJ cK).2.2.1 ≤ (lm.m_para_laser_cloud_height : Int) - 4)
    ∧ (3 ≤ (recentre lm cI cJ cK).2.2.2
      ∧ (recentre lm cI cJ cK).2.2.2 ≤ (lm.m_para_laser_cloud_depth : Int) - 4)
    ∧ (∀ (shift : Cube_grid K → Cube_grid K) (fuel : Nat) (c o : Int) (g : Cube_grid K),
        (3 - c).toNat ≤ fuel →
        recentre_low shift fuel (c, o, g) = recentre_low shift (3 - c).toNat (c, o, g)
        ∧ ¬ (recentre_low shift fuel (c, o, g)).1 < 3)
    ∧ (∀ (shift : Cube_grid K → Cube_grid K) (width fuel : Nat) (c o : Int) (g : Cube_grid K),
        (c - ((width : Int) - 3) + 1).toNat ≤ fuel →
        recentre_high shift width fuel (c, o, g)
          = recentre_high shift width (c - ((width : Int) - 3) + 1).toNat (c, o, g)
        ∧ ¬ (recentre_high shift width fuel (c, o, g)).1 ≥ (width : Int) - 3) := by
  obtain ⟨e1, e2, e3, -, -, -⟩ := recentre_centres lm cI cJ cK
  have hb : ∀ (c : Int) (n : Nat), 7 ≤ n →
      3 ≤ min (max c 3) ((n : Int) - 4) ∧ min (max c 3) ((n : Int) - 4) ≤ (n : Int) - 4 := by
    intro c n hn
    refine ⟨le_min (le_max_right c 3) (by omega), min_le_right _ _⟩
  rw [e1, e2, e3]
  refine ⟨hb cI _ hW, hb cJ _ hH, hb cK _ hD, ?_, ?_⟩
  · intro shift fuel c o g hf
    rw [recentre_low_spec shift fuel (c, o, g) hf,
      recentre_low_spec shift _ (c, o, g) (le_refl _)]
    exact ⟨rfl, not_lt.mpr (le_max_right c 3)⟩
  · intro shift width fuel c o g hf
    rw [recentre_high_spec shift width fuel (c, o, g) hf,
      recentre_high_spec shift width _ (c, o, g) (le_refl _)]
    refine ⟨rfl, ?_⟩
    show ¬ min c ((width : Int) - 4) ≥ (width : Int) - 3
    have := min_le_right c ((width : Int) - 4)
    omega

/-- C28 (witness): the configured grid of 101 x 101 x 101 cells with the start values
`centerCubeI = -4`, `centerCubeJ = 200`, `centerCubeK = 50`. -/
theorem C28_recentring_terminates_witness :
    (3 ≤ (recentre (dense_state 0) (-4) 200 50).2.1
      ∧ (recentre (dense_state 0) (-4) 200 50).2.1 ≤ ((101 : Nat) : Int) - 4)
    ∧ (3 ≤ (recentre (dense_state 0) (-4) 200 50).2.2.1
      ∧ (recentre (dense_state 0) (-4) 200 50).2.2.1 ≤ ((101 : Nat) : Int) - 4)
    ∧ (3 ≤ (recentre (dense_state 0) (-4) 200 50).2.2.2
      ∧ (recentre (dense_state 0) (-4) 200 50).2.2.2 ≤ ((101 : Nat) : Int) - 4) :=
  ⟨(C28_recentring_terminates (dense_state 0) (-4) 200 50 (by decide) (by decide)
      (by decide)).1,
    (C28_recentring_terminates (dense_state 0) (-4) 200 50 (by decide) (by decide)
      (by decide)).2.1,
    (C28_recentring_terminates (dense_state 0) (-4) 200 50 (by decide) (by decide)
      (by decide)).2.2.1⟩

end RecentreClaims

section GatherTheorems

variable {K : Type}

open Laser_mapping Cube_grid

theorem List.foldl_ite_append {α β : Type} (P : β → Prop) [DecidablePred P] (f : β → α) :
    ∀ (ks : List β), (∀ k, k ∈ ks → P k) → ∀ acc : List α,
      ks.foldl (fun acc2 k => if P k then acc2 ++ [f k] else acc2) acc = acc ++ ks.map f := by
  intro ks
  induction ks with
  | nil => intro _ acc; simp
  | cons a t ih =>
    intro h acc
    rw [List.foldl_cons, if_pos (h a (List.mem_cons_self a t)),
      ih (fun k hk => h k (List.mem_cons_of_mem a hk))]
    simp

theorem List.foldl_append_flatMap {α β : Type} (F : β → List α) :
    ∀ (js : List β) (acc : List α),
      js.foldl (fun acc1 j => acc1 ++ F j) acc = acc ++ js.flatMap F := by
  intro js
  induction js with
  | nil => intro acc; simp
  | cons a t ih =>
    intro acc
    rw [List.foldl_cons, ih]
    simp

theorem List.foldl_congr_mem {α β : Type} (f g : α → β → α) :
    ∀ (l : List β), (∀ a x, x ∈ l → f a x = g a x) → ∀ acc, l.foldl f acc = l.foldl g acc := by
  intro l
  induction l with
  | nil => intro _ acc; rfl
  | cons b t ih =>
    intro h acc
    rw [List.foldl_cons, List.foldl_cons, h acc b (List.mem_cons_self b t),
      ih (fun a x hx => h a x (List.mem_cons_of_mem b hx))]

theorem List.nested_fold_window {α : Type} (is js ks : List Int) (P : Int → Int → Int → Prop)
    [∀ i j k, Decidable (P i j k)] (f : Int → Int → Int → α)
    (hP : ∀ i, i ∈ is → ∀ j, j ∈ js → ∀ k, k ∈ ks → P i j k) :
    is.foldl
        (fun acc i => js.foldl
          (fun acc1 j => ks.foldl
            (fun acc2 k => if P i j k then acc2 ++ [f i j k] else acc2) acc1) acc) []
      = is.flatMap (fun i => js.flatMap (fun j => ks.map (fun k => f i j k))) := by
  have inner : ∀ i, i ∈ is → ∀ j, j ∈ js → ∀ acc1 : List α,
      ks.foldl (fun acc2 k => if P i j k then acc2 ++ [f i j k] else acc2) acc1
        = acc1 ++ ks.map (fun k => f i j k) :=
    fun i hi j hj acc1 => List.foldl_ite_append (fun k => P i j k) (fun k => f i j k) ks
      (fun k hk => hP i hi j hj k hk) acc1
  have middle : ∀ i, i ∈ is → ∀ acc : List α,
      js.foldl (fun acc1 j => ks.foldl
          (fun acc2 k => if P i j k then acc2 ++ [f i j k] else acc2) acc1) acc
        = acc ++ js.flatMap (fun j => ks.map (fun k => f i j k)) := by
    intro i hi acc
    rw [List.foldl_congr_mem _ (fun acc1 j => acc1 ++ ks.map (fun k => f i j k)) js
      (fun a x hx => inner i hi x hx a)]
    exact List.foldl_append_flatMap _ js acc
  rw [List.foldl_congr_mem _
    (fun acc i => acc ++ js.flatMap (fun j => ks.map (fun k => f i j k))) is
    (fun a x hx => middle x hx a)]
  rw [List.foldl_append_flatMap]
  simp

theorem Cube_grid.valid_indices_window (W H D : Nat) (cI cJ cK : Int)
    (hI : 2 ≤ cI) (hI2 : cI + 2 < (W : Int)) (hJ : 2 ≤ cJ) (hJ2 : cJ + 2 < (H : Int))
    (hK : 1 ≤ cK) (hK2 : cK + 1 < (D : Int)) :
    valid_indices W H D cI cJ cK
      = [cI - 2, cI - 1, cI, cI + 1, cI + 2].flatMap (fun i =>
          [cJ - 2, cJ - 1, cJ, cJ + 1, cJ + 2].flatMap (fun j =>
            [cK - 1, cK, cK + 1].map (fun k =>
              (i + (W : Int) * j + (W : Int) * (H : Int) * k).toNat))) := by
  unfold valid_indices
  refine List.nested_fold_window _ _ _
    (fun i j k => i ≥ 0 ∧ i < (W : Int) ∧ j ≥ 0 ∧ j < (H : Int) ∧ k ≥ 0 ∧ k < (D : Int))
    (fun i j k => (i + (W : Int) * j + (W : Int) * (H : Int) * k).toNat) ?_
  intro i hi j hj k hk
  simp only [List.mem_cons, List.mem_singleton, List.not_mem_nil, or_false] at hi hj hk
  refine ⟨?_, ?_, ?_, ?_, ?_, ?_⟩ <;> omega

theorem Cube_grid.linear_index_toNat (W H : Nat) (i j k : Int) (hi : 0 ≤ i) (hj : 0 ≤ j)
    (hk : 0 ≤ k) :
    (i + (W : Int) * j + (W : Int) * (H : Int) * k).toNat
      = cube_index W H i.toNat j.toNat k.toNat := by
  have e : i + (W : Int) * j + (W : Int) * (H : Int) * k
      = ((cube_index W H i.toNat j.toNat k.toNat : Nat) : Int) := by
    unfold cube_index
    push_cast
    rw [Int.toNat_of_nonneg hi, Int.toNat_of_nonneg hj, Int.toNat_of_nonneg hk]
  rw [e, Int.toNat_ofNat]

theorem Cube_grid.valid_indices_spec (W H D : Nat) (cI cJ cK : Int)
    (hI : 2 ≤ cI) (hI2 : cI + 2 < (W : Int)) (hJ : 2 ≤ cJ) (hJ2 : cJ + 2 < (H : Int))
    (hK : 1 ≤ cK) (hK2 : cK + 1 < (D : Int)) :
    (valid_indices W H D cI cJ cK).length = 75
    ∧ (∀ ind, ind ∈ valid_indices W H D cI cJ cK ↔
        ∃ i j k : Int, cI - 2 ≤ i ∧ i ≤ cI + 2 ∧ cJ - 2 ≤ j ∧ j ≤ cJ + 2
          ∧ cK - 1 ≤ k ∧ k ≤ cK + 1
          ∧ ind = (i + (W : Int) * j + (W : Int) * (H : Int) * k).toNat)
    ∧ (∀ ind, ind ∈ valid_indices W H D cI cJ cK → ind < W * H * D) := by
  have hv := valid_indices_window W H D cI cJ cK hI hI2 hJ hJ2 hK hK2
  have hmem : ∀ ind, ind ∈ valid_indices W H D cI cJ cK ↔
      ∃ i j k : Int, cI - 2 ≤ i ∧ i ≤ cI + 2 ∧ cJ - 2 ≤ j ∧ j ≤ cJ + 2
        ∧ cK - 1 ≤ k ∧ k ≤ cK + 1
        ∧ ind = (i + (W : Int) * j + (W : Int) * (H : Int) * k).toNat := by
    intro ind
    rw [hv]
    simp only [List.mem_flatMap, List.mem_map, List.mem_cons, List.mem_singleton,
      List.not_mem_nil, or_false]
    constructor
    · rintro ⟨i, hi, j, hj, k, hk, rfl⟩
      exact ⟨i, j, k, by omega, by omega, by omega, by omega, by omega, by omega, rfl⟩
    · rintro ⟨i, j, k, h1, h2, h3, h4, h5, h6, rfl⟩
      exact ⟨i, by omega, j, by omega, k, by omega, rfl⟩
  refine ⟨?_, hmem, ?_⟩
  · rw [hv]
    simp
  · intro ind hind
    obtain ⟨i, j, k, h1, h2, h3, h4, h5, h6, rfl⟩ := (hmem ind).1 hind
    rw [linear_index_toNat W H i j k (by omega) (by omega) (by omega)]
    exact cube_index_lt W H D _ _ _ (by omega) (by omega) (by omega)

/-- C29: for a grid of at least 7 cells along every axis (the constructor sets 101), the
indices gathered after the recentring of a frame are the 5 x 5 x 3 = 75 linear indices
`i + W * j + W * H * k` of the cells with `|i - centerCubeI| <= 2`, `|j - centerCubeJ| <= 2`,
`|k - centerCubeK| <= 1`; all these cells are inside the grid, every stored index is below
`W * H * D`, the count 75 is below the 1024 entries of the index arrays, and the local corner
(surface) map is the concatenation of the corner (surface) clouds of the gathered cells. -/
theorem C29_gathered_neighbourhood [LinearOrderedField K] [FloorRing K] (env : Mapping_env K)
    (lm : Laser_mapping K) (pair : Data_pair K) (hW : 7 ≤ lm.m_para_laser_cloud_width)
    (hH : 7 ≤ lm.m_para_laser_cloud_height) (hD : 7 ≤ lm.m_para_laser_cloud_depth) :
    (frame_valid env lm pair).length = 75
    ∧ (frame_valid env lm pair).length ≤ 1024
    ∧ (∀ ind, ind ∈ frame_valid env lm pair ↔
        ∃ i j k : Int, (recentred env lm pair).2.1 - 2 ≤ i ∧ i ≤ (recentred env lm pair).2.1 + 2
          ∧ (recentred env lm pair).2.2.1 - 2 ≤ j ∧ j ≤ (recentred env lm pair).2.2.1 + 2
          ∧ (recentred env lm pair).2.2.2 - 1 ≤ k ∧ k ≤ (recentred env lm pair).2.2.2 + 1
          ∧ ind = (i + (lm.m_para_laser_cloud_width : Int) * j
              + (lm.m_para_laser_cloud_width : Int) * (lm.m_para_laser_cloud_height : Int)
                * k).toNat)
    ∧ (∀ i j k : Int, (recentred env lm pair).2.1 - 2 ≤ i → i ≤ (recentred env lm pair).2.1 + 2 →
        (recentred env lm pair).2.2.1 - 2 ≤ j → j ≤ (recentred env lm pair).2.2.1 + 2 →
        (recentred env lm pair).2.2.2 - 1 ≤ k → k ≤ (recentred env lm pair).2.2.2 + 1 →
        0 ≤ i ∧ i < (lm.m_para_laser_cloud_width : Int)
        ∧ 0 ≤ j ∧ j < (lm.m_para_laser_cloud_height : Int)
        ∧ 0 ≤ k ∧ k < (lm.m_para_laser_cloud_depth : Int))
    ∧ (∀ ind, ind ∈ frame_valid env lm pair →
        ind < lm.m_para_laser_cloud_width * lm.m_para_laser_cloud_height
          * lm.m_para_laser_cloud_depth)
    ∧ frame_corner_map env lm pair
        = (frame_valid env lm pair).flatMap (recentred env lm pair).1.grid.corner_cell
    ∧ frame_surf_map env lm pair
        = (frame_valid env lm pair).flatMap (recentred env lm pair).1.grid.surface_cell := by
  have hc := recentre_centres (hand_over lm (env.find_max_intensity pair.m_pc_full))
    (cube_coord lm.m_t_w_curr.x lm.m_para_laser_cloud_center_width)
    (cube_coord lm.m_t_w_curr.y lm.m_para_laser_cloud_center_height)
    (cube_coord lm.m_t_w_curr.z lm.m_para_laser_cloud_center_depth)
  have hb : ∀ (c : Int) (n : Nat), 7 ≤ n →
      3 ≤ min (max c 3) ((n : Int) - 4) ∧ min (max c 3) ((n : Int) - 4) ≤ (n : Int) - 4 := by
    intro c n hn
    refine ⟨le_min (le_max_right c 3) (by omega), min_le_right _ _⟩
  have h1 : 3 ≤ (recentred env lm pair).2.1
      ∧ (recentred env lm pair).2.1 ≤ (lm.m_para_laser_cloud_width : Int) - 4 := by
    have e : (recentred env lm pair).2.1
        = min (max (cube_coord lm.m_t_w_curr.x lm.m_para_laser_cloud_center_width) 3)
            ((lm.m_para_laser_cloud_width : Int) - 4) := hc.1
    rw [e]
    exact hb _ _ hW
  have h2 : 3 ≤ (recentred env lm pair).2.2.1
      ∧ (recentred env lm pair).2.2.1 ≤ (lm.m_para_laser_cloud_height : Int) - 4 := by
    have e : (recentred env lm pair).2.2.1
        = min (max (cube_coord lm.m_t_w_curr.y lm.m_para_laser_cloud_center_height) 3)
            ((lm.m_para_laser_cloud_height : Int) - 4) := hc.2.1
    rw [e]
    exact hb _ _ hH
  have h3 : 3 ≤ (recentred env lm pair).2.2.2
      ∧ (recentred env lm pair).2.2.2 ≤ (lm.m_para_laser_cloud_depth : Int) - 4 := by
    have e : (recentred env lm pair).2.2.2
        = min (max (cube_coord lm.m_t_w_curr.z lm.m_para_laser_cloud_center_depth) 3)
            ((lm.m_para_laser_cloud_depth : Int) - 4) := hc.2.2.1
    rw [e]
    exact hb _ _ hD
  have hv : frame_valid env lm pair
      = valid_indices lm.m_para_laser_cloud_width lm.m_para_laser_cloud_height
          lm.m_para_laser_cloud_depth (recentred env lm pair).2.1 (recentred env lm pair).2.2.1
          (recentred env lm pair).2.2.2 := rfl
  obtain ⟨s1, s2, s3⟩ := valid_indices_spec lm.m_para_laser_cloud_width
    lm.m_para_laser_cloud_height lm.m_para_laser_cloud_depth (recentred env lm pair).2.1
    (recentred env lm pair).2.2.1 (recentred env lm pair).2.2.2 (by omega) (by omega) (by omega)
    (by omega) (by omega) (by omega)
  rw [hv]
  refine ⟨s1, by rw [s1]; decide, s2, ?_, s3, ?_, ?_⟩
  · intro i j k a1 a2 a3 a4 a5 a6
    refine ⟨?_, ?_, ?_, ?_, ?_, ?_⟩ <;> omega
  · unfold frame_corner_map corner_from_map
    rw [hv, List.foldl_append_flatMap]
    simp
  · unfold frame_surf_map surf_from_map
    rw [hv, List.foldl_append_flatMap]
    simp

/-- C29 (witness): the configured grid of 101 x 101 x 101 cells at `frameCount = 150`. -/
theorem C29_gathered_neighbourhood_witness :
    (frame_valid (example_mapping_env ⟨0, 0, 0⟩ 0) (dense_state 150) example_pair).length = 75
    ∧ frame_corner_map (example_mapping_env ⟨0, 0, 0⟩ 0) (dense_state 150) example_pair
        = (frame_valid (example_mapping_env ⟨0, 0, 0⟩ 0) (dense_state 150) example_pair).flatMap
            (recentred (example_mapping_env ⟨0, 0, 0⟩ 0) (dense_state 150)
              example_pair).1.grid.corner_cell :=
  ⟨(C29_gathered_neighbourhood (example_mapping_env ⟨0, 0, 0⟩ 0) (dense_state 150) example_pair
      (by decide) (by decide) (by decide)).1,
    (C29_gathered_neighbourhood (example_mapping_env ⟨0, 0, 0⟩ 0) (dense_state 150) example_pair
      (by decide) (by decide) (by decide)).2.2.2.2.2.1⟩

end GatherTheorems

/-! ## The projection pass -/

section ProjectionTheorems

variable {K : Type} [LinearOrderedField K]

open Zvision_laser

theorem Zvision_laser.project_point_type (env : Feature_env K) (zl : Zvision_laser K)
    (idx : Nat) (pt : PointType K) :
    (project_point_zvision env zl idx pt).pt_type
      = if ¬ (env.cm.isfinite pt.x = true ∧ env.cm.isfinite pt.y = true
            ∧ env.cm.isfinite pt.z = true) then e_pt_nan
        else if pt.y = 0 then e_pt_000
        else if depth2_xyz pt.x pt.y pt.z < zl.m_zvision_min_allow_dis * zl.m_zvision_min_allow_dis
            ∨ depth2_xyz pt.x pt.y pt.z
              > zl.m_zvision_max_allow_dis * zl.m_zvision_max_allow_dis then e_pt_too_near
        else e_pt_normal := by
  have o1 : int_or e_pt_normal e_pt_nan = e_pt_nan := by decide
  have o2 : int_or e_pt_normal e_pt_000 = e_pt_000 := by decide
  have o3 : int_or e_pt_normal e_pt_too_near = e_pt_too_near := by decide
  have o4 : int_or e_pt_too_near e_pt_too_near = e_pt_too_near := by decide
  by_cases hfin : env.cm.isfinite pt.x = true ∧ env.cm.isfinite pt.y = true
      ∧ env.cm.isfinite pt.z = true
  · obtain ⟨hx, hy, hz⟩ := hfin
    have hc : (!env.cm.isfinite pt.x || !env.cm.isfinite pt.y || !env.cm.isfinite pt.z)
        = false := by
      rw [hx, hy, hz]
      rfl
    rw [if_neg (not_not.mpr ⟨hx, hy, hz⟩)]
    by_cases hy0 : pt.y = 0
    · rw [if_pos hy0]
      simp only [project_point_zvision, hc, Bool.false_eq_true, if_false, if_pos hy0,
        add_mask_of_point, Pt_infos.init, o2]
    · rw [if_neg hy0]
      simp only [project_point_zvision, hc, Bool.false_eq_true, if_false, if_neg hy0,
        eval_point_zvision, add_mask_of_point, Pt_infos.init]
      by_cases hmin : depth2_xyz pt.x pt.y pt.z
          < zl.m_zvision_min_allow_dis * zl.m_zvision_min_allow_dis
      · by_cases hmax : depth2_xyz pt.x pt.y pt.z
            > zl.m_zvision_max_allow_dis * zl.m_zvision_max_allow_dis
        · simp only [if_pos hmin, if_pos hmax, if_pos (Or.inl hmin), o3, o4]
        · simp only [if_pos hmin, if_neg hmax, if_pos (Or.inl hmin), o3]
      · by_cases hmax : depth2_xyz pt.x pt.y pt.z
            > zl.m_zvision_max_allow_dis * zl.m_zvision_max_allow_dis
        · simp only [if_neg hmin, if_pos hmax, if_pos (Or.inr hmax), o3]
        · have hno : ¬ (depth2_xyz pt.x pt.y pt.z
              < zl.m_zvision_min_allow_dis * zl.m_zvision_min_allow_dis
              ∨ depth2_xyz pt.x pt.y pt.z
                > zl.m_zvision_max_allow_dis * zl.m_zvision_max_allow_dis) := by
            rintro (h | h)
            · exact hmin h
            · exact hmax h
          simp only [if_neg hmin, if_neg hmax, if_neg hno]
  · rw [if_pos hfin]
    have hc : (!env.cm.isfinite pt.x || !env.cm.isfinite pt.y || !env.cm.isfinite pt.z)
        = true := by
      cases hx : env.cm.isfinite pt.x
      · rfl
      · cases hy : env.cm.isfinite pt.y
        · rfl
        · cases hz : env.cm.isfinite pt.z
          · rfl
          · exact absurd ⟨hx, hy, hz⟩ hfin
    simp only [project_point_zvision, hc, if_true, add_mask_of_point, Pt_infos.init, o1]

/-- C30: `projection_scan_3d_2d_zvision` writes exactly one record per input point and keeps
the raw points; the record at position `idx` has `idx` as its index, and its type is
`e_pt_nan` when a coordinate is not finite, otherwise `e_pt_000` when `y == 0`, otherwise
`e_pt_too_near` when the squared range is below `min * min` or above `max * max`, otherwise
`e_pt_normal` (no bit set); so the nan bit is set exactly for a non-finite coordinate, among
the finite points the zero bit exactly for `y == 0`, and among the others the too-near bit
exactly for a squared range outside `[min * min, max * max]`. The member initialisers give
`min = 1` and `max = 15`. -/
theorem C30_projection_classifies (env : Feature_env K) (zl : Zvision_laser K)
    (cloud : List (PointType K)) :
    (projection_scan_3d_2d_zvision env zl cloud).m_pts_info_vec.length = cloud.length
    ∧ (projection_scan_3d_2d_zvision env zl cloud).m_raw_pts_vec = cloud
    ∧ (init : Zvision_laser K).m_zvision_min_allow_dis = 1
    ∧ (init : Zvision_laser K).m_zvision_max_allow_dis = 15
    ∧ (∀ idx, idx < cloud.length →
        ((projection_scan_3d_2d_zvision env zl cloud).m_pts_info_vec.getD idx
            Pt_infos.init).idx = (idx : Int)
        ∧ ((projection_scan_3d_2d_zvision env zl cloud).m_pts_info_vec.getD idx
            Pt_infos.init).pt_type
          = (if ¬ (env.cm.isfinite (cloud.getD idx PointType.init).x = true
                ∧ env.cm.isfinite (cloud.getD idx PointType.init).y = true
                ∧ env.cm.isfinite (cloud.getD idx PointType.init).z = true) then e_pt_nan
            else if (cloud.getD idx PointType.init).y = 0 then e_pt_000
            else if depth2_xyz (cloud.getD idx PointType.init).x (cloud.getD idx PointType.init).y
                  (cloud.getD idx PointType.init).z
                  < zl.m_zvision_min_allow_dis * zl.m_zvision_min_allow_dis
                ∨ depth2_xyz (cloud.getD idx PointType.init).x
                  (cloud.getD idx PointType.init).y (cloud.getD idx PointType.init).z
                  > zl.m_zvision_max_allow_dis * zl.m_zvision_max_allow_dis then e_pt_too_near
            else e_pt_normal)
        ∧ (int_and ((projection_scan_3d_2d_zvision env zl cloud).m_pts_info_vec.getD idx
              Pt_infos.init).pt_type e_pt_nan ≠ 0
            ↔ ¬ (env.cm.isfinite (cloud.getD idx PointType.init).x = true
                ∧ env.cm.isfinite (cloud.getD idx PointType.init).y = true
                ∧ env.cm.isfinite (cloud.getD idx PointType.init).z = true))
        ∧ ((env.cm.isfinite (cloud.getD idx PointType.init).x = true
              ∧ env.cm.isfinite (cloud.getD idx PointType.init).y = true
              ∧ env.cm.isfinite (cloud.getD idx PointType.init).z = true) →
            (int_and ((projection_scan_3d_2d_zvision env zl cloud).m_pts_info_vec.getD idx
                Pt_infos.init).pt_type e_pt_000 ≠ 0
              ↔ (cloud.getD idx PointType.init).y = 0))
        ∧ ((env.cm.isfinite (cloud.getD idx PointType.init).x = true
              ∧ env.cm.isfinite (cloud.getD idx PointType.init).y = true
              ∧ env.cm.isfinite (cloud.getD idx PointType.init).z = true) →
            (cloud.getD idx PointType.init).y ≠ 0 →
            (int_and ((projection_scan_3d_2d_zvision env zl cloud).m_pts_info_vec.getD idx
                Pt_infos.init).pt_type e_pt_too_near ≠ 0
              ↔ (depth2_xyz (cloud.getD idx PointType.init).x
                    (cloud.getD idx PointType.init).y (cloud.getD idx PointType.init).z
                    < zl.m_zvision_min_allow_dis * zl.m_zvision_min_allow_dis
                  ∨ depth2_xyz (cloud.getD idx PointType.init).x
                    (cloud.getD idx PointType.init).y (cloud.getD idx PointType.init).z
                    > zl.m_zvision_max_allow_dis * zl.m_zvision_max_allow_dis)))) := by
  refine ⟨projection_length env zl cloud, projection_raw env zl cloud, rfl, rfl, ?_⟩
  intro idx hidx
  have a1 : int_and e_pt_nan e_pt_nan ≠ 0 := by decide
  have a2 : int_and e_pt_000 e_pt_nan = 0 := by decide
  have a3 : int_and e_pt_too_near e_pt_nan = 0 := by decide
  have a4 : int_and e_pt_normal e_pt_nan = 0 := by decide
  have b1 : int_and e_pt_000 e_pt_000 ≠ 0 := by decide
  have b2 : int_and e_pt_too_near e_pt_000 = 0 := by decide
  have b3 : int_and e_pt_normal e_pt_000 = 0 := by decide
  have c1 : int_and e_pt_too_near e_pt_too_near ≠ 0 := by decide
  have c2 : int_and e_pt_normal e_pt_too_near = 0 := by decide
  rw [projection_entry env zl cloud idx hidx]
  have ht := project_point_type env zl idx (cloud.getD idx PointType.init)
  refine ⟨project_point_idx env zl idx _, ht, ?_, ?_, ?_⟩
  · rw [ht]
    by_cases h1 : env.cm.isfinite (cloud.getD idx PointType.init).x = true
        ∧ env.cm.isfinite (cloud.getD idx PointType.init).y = true
        ∧ env.cm.isfinite (cloud.getD idx PointType.init).z = true
    · rw [if_neg (not_not.mpr h1)]
      split_ifs with h2 h3
      · exact ⟨fun h => absurd a2 h, fun h => absurd h1 h⟩
      · exact ⟨fun h => absurd a3 h, fun h => absurd h1 h⟩
      · exact ⟨fun h => absurd a4 h, fun h => absurd h1 h⟩
    · rw [if_pos h1]
      exact ⟨fun _ => h1, fun _ => a1⟩
  · intro hfin
    rw [ht, if_neg (not_not.mpr hfin)]
    split_ifs with h2 h3
    · exact ⟨fun _ => h2, fun _ => b1⟩
    · exact ⟨fun h => absurd b2 h, fun h => absurd h h2⟩
    · exact ⟨fun h => absurd b3 h, fun h => absurd h h2⟩
  · intro hfin hy
    rw [ht, if_neg (not_not.mpr hfin), if_neg hy]
    split_ifs with h3
    · exact ⟨fun _ => h3, fun _ => c1⟩
    · exact ⟨fun h => absurd c2 h, fun h => absurd h h3⟩

end ProjectionTheorems

/-! ## Indices, handlers, round trip, corner factors and labels -/

section IndexTheorems

open Zvision_laser Cube_grid Laser_mapping

/-- C36: for every grid size `W x H x D` and all `0 <= i < W`, `0 <= j < H`, `0 <= k < D` the
linear cell index `i + W * j + W * H * k` (computed in `int`, where it is non-negative and equal
to `cube_index`) is below `m_laser_cloud_num = W * H * D`, and an in-range triple with the same
linear index is the same triple. -/
theorem C36_cell_index_in_range {K : Type} (lm : Laser_mapping K) (i j k i1 j1 k1 : Nat)
    (hi : i < lm.m_para_laser_cloud_width) (hj : j < lm.m_para_laser_cloud_height)
    (hk : k < lm.m_para_laser_cloud_depth) (hi1 : i1 < lm.m_para_laser_cloud_width)
    (hj1 : j1 < lm.m_para_laser_cloud_height) (_hk1 : k1 < lm.m_para_laser_cloud_depth) :
    (0 : Int) ≤ (i : Int) + (lm.m_para_laser_cloud_width : Int) * j
        + (lm.m_para_laser_cloud_width : Int) * (lm.m_para_laser_cloud_height : Int) * k
    ∧ ((i : Int) + (lm.m_para_laser_cloud_width : Int) * j
        + (lm.m_para_laser_cloud_width : Int) * (lm.m_para_laser_cloud_height : Int) * k).toNat
        = cube_index lm.m_para_laser_cloud_width lm.m_para_laser_cloud_height i j k
    ∧ cube_index lm.m_para_laser_cloud_width lm.m_para_laser_cloud_height i j k
        < m_laser_cloud_num lm
    ∧ (cube_index lm.m_para_laser_cloud_width lm.m_para_laser_cloud_height i j k
          = cube_index lm.m_para_laser_cloud_width lm.m_para_laser_cloud_height i1 j1 k1
        → i = i1 ∧ j = j1 ∧ k = k1) := by
  have hcast : (i : Int) + (lm.m_para_laser_cloud_width : Int) * j
      + (lm.m_para_laser_cloud_width : Int) * (lm.m_para_laser_cloud_height : Int) * k
      = ((cube_index lm.m_para_laser_cloud_width lm.m_para_laser_cloud_height i j k : Nat) : Int) := by
    unfold cube_index
    push_cast
    ring
  refine ⟨?_, ?_, ?_, ?_⟩
  · rw [hcast]
    exact Int.ofNat_nonneg _
  · rw [hcast]
    exact Int.toNat_natCast _
  · exact cube_index_lt _ _ _ i j k hi hj hk
  · intro h
    exact cube_index_inj _ _ i j k i1 j1 k1 hi hj hi1 hj1 h

theorem C36_cell_index_in_range_witness :
    (0 : Int) ≤ ((100 : Nat) : Int)
        + ((dense_state 0).m_para_laser_cloud_width : Int) * ((100 : Nat) : Int)
        + ((dense_state 0).m_para_laser_cloud_width : Int)
          * ((dense_state 0).m_para_laser_cloud_height : Int) * ((100 : Nat) : Int)
    ∧ (((100 : Nat) : Int)
        + ((dense_state 0).m_para_laser_cloud_width : Int) * ((100 : Nat) : Int)
        + ((dense_state 0).m_para_laser_cloud_width : Int)
          * ((dense_state 0).m_para_laser_cloud_height : Int) * ((100 : Nat) : Int)).toNat
        = cube_index (dense_state 0).m_para_laser_cloud_width
            (dense_state 0).m_para_laser_cloud_height 100 100 100
    ∧ cube_index (dense_state 0).m_para_laser_cloud_width
          (dense_state 0).m_para_laser_cloud_height 100 100 100
        < m_laser_cloud_num (dense_state 0)
    ∧ (cube_index (dense_state 0).m_para_laser_cloud_width
            (dense_state 0).m_para_laser_cloud_height 100 100 100
          = cube_index (dense_state 0).m_para_laser_cloud_width
            (dense_state 0).m_para_laser_cloud_height 0 0 0
        → 100 = 0 ∧ 100 = 0 ∧ 100 = 0) :=
  C36_cell_index_in_range (dense_state 0) 100 100 100 0 0 0 (by decide) (by decide) (by decide)
    (by decide) (by decide) (by decide)


theorem Zvision_laser.temporal_order_beam (l g : Int) (hg0 : 0 ≤ g) (hg1 : g < 10000)
    (hl : 0 ≤ l) : temporal_order (10000 * l + g) = 3 * g + l := by
  have h0 : (0 : Int) ≤ 10000 * l + g := by omega
  unfold temporal_order
  rw [Int.tmod_eq_emod h0 (by decide), Int.tdiv_eq_ediv h0 (by decide)]
  omega

theorem Zvision_laser.temporal_order_eq (id : Int) (h0 : 0 ≤ id) :
    temporal_order id = (id % 10000) * 3 + id / 10000 := by
  unfold temporal_order
  rw [Int.tmod_eq_emod h0 (by decide), Int.tdiv_eq_ediv h0 (by decide)]

theorem Zvision_laser.feature_intensity_temporal_order {K : Type} [LinearOrderedField K]
    (id : Int) : (feature_intensity id : K) = ((temporal_order id : Int) : K) / 29999 := rfl

theorem Zvision_laser.temporal_order_inj (id id1 : Int) (h0 : 0 ≤ id) (h1 : id ≤ 29999)
    (h2 : 0 ≤ id1) (h3 : id1 ≤ 29999) (h : temporal_order id = temporal_order id1) :
    id = id1 := by
  rw [temporal_order_eq id h0, temporal_order_eq id1 h2] at h
  have e := Int.emod_add_ediv id 10000
  have e1 := Int.emod_add_ediv id1 10000
  have r0 := Int.emod_nonneg id (show (10000 : Int) ≠ 0 by decide)
  have r1 := Int.emod_lt_of_pos id (show (0 : Int) < 10000 by decide)
  have s0 := Int.emod_nonneg id1 (show (10000 : Int) ≠ 0 by decide)
  have s1 := Int.emod_lt_of_pos id1 (show (0 : Int) < 10000 by decide)
  generalize id % 10000 = r at *
  generalize id / 10000 = q at *
  generalize id1 % 10000 = r2 at *
  generalize id1 / 10000 = q2 at *
  have hq : q = 0 ∨ q = 1 ∨ q = 2 := by omega
  have hq2 : q2 = 0 ∨ q2 = 1 ∨ q2 = 2 := by omega
  rcases hq with hq | hq | hq <;> rcases hq2 with hq2 | hq2 | hq2 <;> subst hq <;> subst hq2
    <;> omega

theorem Zvision_laser.temporal_order_first : temporal_order 0 = 0 := by decide

theorem Zvision_laser.temporal_order_last : temporal_order 29999 = 29999 := by decide

theorem Zvision_laser.temporal_order_range (id : Int) (h0 : 0 ≤ id) (h1 : id ≤ 29999) :
    0 ≤ temporal_order id ∧ temporal_order id ≤ 29999 := by
  rw [temporal_order_eq id h0]
  omega

theorem Zvision_laser.temporal_order_inverse (v : Int) (h0 : 0 ≤ v) (h1 : v ≤ 29999) :
    0 ≤ (v % 3) * 10000 + v / 3 ∧ (v % 3) * 10000 + v / 3 ≤ 29999
    ∧ temporal_order ((v % 3) * 10000 + v / 3) = v := by
  have hb : (0 : Int) ≤ (v % 3) * 10000 + v / 3 := by omega
  refine ⟨hb, by omega, ?_⟩
  rw [temporal_order_eq _ hb]
  omega

theorem Zvision_laser.feature_intensity_eq_iff (K : Type) [LinearOrderedField K]
    (id c : Int) : (feature_intensity id : K) = (c : K) / 29999 ↔ temporal_order id = c := by
  have hne : (29999 : K) ≠ 0 := by norm_num
  rw [feature_intensity_temporal_order, div_left_inj' hne]
  exact Int.cast_inj

/-- C40: the temporal-order index `(id % 10000) * 3 + id / 10000` of `get_features_zvision` maps
`{0, ..., 29999}` into itself, injectively and onto (the point of value `v` is
`id = (v % 3) * 10000 + v / 3`); sample `g` of beam `l` gets the value `3 * g + l`, which is
strictly increasing in `g`; so the intensities `feature_intensity` written to two distinct
points of a frame differ, the intensity is 0 exactly for `id = 0` and 1 exactly for
`id = 29999`. -/
theorem C40_temporal_order_bijection {K : Type} [LinearOrderedField K] :
    (∀ id : Int, 0 ≤ id → id ≤ 29999 →
        0 ≤ temporal_order id ∧ temporal_order id ≤ 29999)
    ∧ (∀ id id1 : Int, 0 ≤ id → id ≤ 29999 → 0 ≤ id1 → id1 ≤ 29999 →
        temporal_order id = temporal_order id1 → id = id1)
    ∧ (∀ v : Int, 0 ≤ v → v ≤ 29999 →
        0 ≤ (v % 3) * 10000 + v / 3 ∧ (v % 3) * 10000 + v / 3 ≤ 29999
        ∧ temporal_order ((v % 3) * 10000 + v / 3) = v)
    ∧ (∀ l g : Int, 0 ≤ l → l < 3 → 0 ≤ g → g < 10000 →
        temporal_order (10000 * l + g) = 3 * g + l)
    ∧ (∀ l g g1 : Int, 0 ≤ l → l < 3 → 0 ≤ g → g < g1 → g1 < 10000 →
        temporal_order (10000 * l + g) < temporal_order (10000 * l + g1))
    ∧ (∀ id id1 : Int, 0 ≤ id → id ≤ 29999 → 0 ≤ id1 → id1 ≤ 29999 → id ≠ id1 →
        (feature_intensity id : K) ≠ feature_intensity id1)
    ∧ (∀ id : Int, 0 ≤ id → id ≤ 29999 → ((feature_intensity id : K) = 0 ↔ id = 0))
    ∧ (∀ id : Int, 0 ≤ id → id ≤ 29999 → ((feature_intensity id : K) = 1 ↔ id = 29999)) := by
  refine ⟨temporal_order_range, temporal_order_inj, temporal_order_inverse, ?_, ?_, ?_, ?_, ?_⟩
  · intro l g hl _ hg0 hg1
    exact temporal_order_beam l g hg0 hg1 hl
  · intro l g g1 hl _ hg0 hgg hg1
    rw [temporal_order_beam l g hg0 (by omega) hl, temporal_order_beam l g1 (by omega) hg1 hl]
    omega
  · intro id id1 h0 h1 h2 h3 hd he
    apply hd
    apply temporal_order_inj id id1 h0 h1 h2 h3
    rw [feature_intensity_temporal_order, feature_intensity_temporal_order,
      div_left_inj' (by norm_num : (29999 : K) ≠ 0)] at he
    exact Int.cast_inj.mp he
  · intro id h0 h1
    have := feature_intensity_eq_iff K id 0
    rw [Int.cast_zero, zero_div] at this
    rw [this]
    constructor
    · intro h
      exact temporal_order_inj id 0 h0 h1 (le_refl 0) (by decide)
        (h.trans temporal_order_first.symm)
    · intro h
      rw [h]
      exact temporal_order_first
  · intro id h0 h1
    have := feature_intensity_eq_iff K id 29999
    have e : (((29999 : Int) : K)) / 29999 = 1 := by
      rw [div_eq_one_iff_eq (by norm_num : (29999 : K) ≠ 0)]
      norm_num
    rw [e] at this
    rw [this]
    constructor
    · intro h
      exact temporal_order_inj id 29999 h0 h1 (by decide) (le_refl _)
        (h.trans temporal_order_last.symm)
    · intro h
      rw [h]
      exact temporal_order_last

end IndexTheorems

section HandlerTheorems

open Handler_state

variable {T M : Type}

theorem Handler_state.pair_completed_eq (st : Handler_state T M) (t : T) :
    pair_completed st t = (object st t).is_completed := by
  unfold pair_completed object
  cases st.m_map_data_pair t <;> rfl

variable [DecidableEq T]

theorem Handler_state.handle_all_append (msgs : List (Cloud_msg T M)) (m : Cloud_msg T M) :
    handle_all (msgs ++ [m]) = handle (handle_all msgs) m := by
  simp only [handle_all, List.foldl_append, List.foldl_cons, List.foldl_nil]

theorem Handler_state.handler_map (add_pc : Data_pair_ros M → M → Data_pair_ros M)
    (st : Handler_state T M) (stamp : T) (msg : M) (t : T) :
    (handler add_pc st stamp msg).m_map_data_pair t
      = if t = stamp then
          some (add_pc ((st.m_map_data_pair stamp).getD Data_pair_ros.init) msg)
        else st.m_map_data_pair t := by
  unfold handler get_data_pair
  by_cases ht : t = stamp
  · subst ht
    rw [if_pos rfl]
    cases hm : st.m_map_data_pair t
    · by_cases hc : (add_pc Data_pair_ros.init msg).is_completed = true <;>
        simp [hc, Function.update_same]
    · rename_i val
      by_cases hc : (add_pc val msg).is_completed = true <;> simp [hc, Function.update_same]
  · rw [if_neg ht]
    cases hm : st.m_map_data_pair stamp
    · by_cases hc : (add_pc Data_pair_ros.init msg).is_completed = true <;>
        simp [hc, Function.update_noteq ht]
    · rename_i val
      by_cases hc : (add_pc val msg).is_completed = true <;>
        simp [hc, Function.update_noteq ht]

theorem Handler_state.handler_queue (add_pc : Data_pair_ros M → M → Data_pair_ros M)
    (st : Handler_state T M) (stamp : T) (msg : M) :
    (handler add_pc st stamp msg).m_queue_avail_data
      = st.m_queue_avail_data
        ++ (if (add_pc ((st.m_map_data_pair stamp).getD Data_pair_ros.init) msg).is_completed
            then [stamp] else []) := by
  unfold handler get_data_pair
  cases hm : st.m_map_data_pair stamp
  · by_cases hc : (add_pc Data_pair_ros.init msg).is_completed = true <;> simp [hc]
  · rename_i val
    by_cases hc : (add_pc val msg).is_completed = true <;> simp [hc]


theorem Handler_state.handle_eq (st : Handler_state T M) (m : Cloud_msg T M) :
    handle st m = handler (add_pc m.kind) st m.stamp m.cloud := by
  unfold handle add_pc laserCloudCornerLastHandler laserCloudSurfLastHandler
    laserCloudFullResHandler
  cases m.kind <;> rfl

theorem Handler_state.object_handle (st : Handler_state T M) (m : Cloud_msg T M) (t : T) :
    object (handle st m) t
      = if t = m.stamp then add_pc m.kind (object st t) m.cloud else object st t := by
  unfold object
  rw [handle_eq, handler_map]
  by_cases ht : t = m.stamp
  · subst ht
    simp only [if_true, Option.getD_some]
  · simp only [if_neg ht]

theorem Handler_state.queue_handle (st : Handler_state T M) (m : Cloud_msg T M) :
    (handle st m).m_queue_avail_data
      = st.m_queue_avail_data
        ++ (if pair_completed (handle st m) m.stamp then [m.stamp] else []) := by
  rw [pair_completed_eq, object_handle, if_pos rfl, handle_eq, handler_queue]
  rfl

theorem Handler_state.flags_handle (st : Handler_state T M) (m : Cloud_msg T M) (t : T) :
    ((object (handle st m) t).m_has_pc_corner
        = ((object st t).m_has_pc_corner
            || (decide (m.stamp = t) && decide (m.kind = Cloud_kind.corner))))
    ∧ ((object (handle st m) t).m_has_pc_plane
        = ((object st t).m_has_pc_plane
            || (decide (m.stamp = t) && decide (m.kind = Cloud_kind.plane))))
    ∧ ((object (handle st m) t).m_has_pc_full
        = ((object st t).m_has_pc_full
            || (decide (m.stamp = t) && decide (m.kind = Cloud_kind.full)))) := by
  rw [object_handle]
  by_cases ht : t = m.stamp
  · subst ht
    simp only [if_true, decide_True, Bool.true_and]
    cases m.kind <;>
      simp [add_pc, Data_pair_ros.add_pc_corner, Data_pair_ros.add_pc_plane,
        Data_pair_ros.add_pc_full]
  · have ht1 : ¬ m.stamp = t := fun h => ht h.symm
    simp only [if_neg ht, ht1, decide_False, Bool.false_and, Bool.or_false, and_self]

theorem Handler_state.flags_spec (msgs : List (Cloud_msg T M)) (t : T) :
    ((object (handle_all msgs) t).m_has_pc_corner = true
        ↔ ∃ m ∈ msgs, m.kind = Cloud_kind.corner ∧ m.stamp = t)
    ∧ ((object (handle_all msgs) t).m_has_pc_plane = true
        ↔ ∃ m ∈ msgs, m.kind = Cloud_kind.plane ∧ m.stamp = t)
    ∧ ((object (handle_all msgs) t).m_has_pc_full = true
        ↔ ∃ m ∈ msgs, m.kind = Cloud_kind.full ∧ m.stamp = t) := by
  induction msgs using List.reverseRecOn with
  | nil =>
    simp [handle_all, initial, object, Data_pair_ros.init]
  | append_singleton l m ih =>
    obtain ⟨i1, i2, i3⟩ := ih
    obtain ⟨f1, f2, f3⟩ := flags_handle (handle_all l) m t
    rw [handle_all_append, f1, f2, f3]
    simp only [Bool.or_eq_true, Bool.and_eq_true, decide_eq_true_eq, i1, i2, i3,
      List.mem_append, List.mem_singleton]
    refine ⟨?_, ?_, ?_⟩ <;>
    · constructor
      · rintro (⟨x, hx, h⟩ | ⟨h1, h2⟩)
        · exact ⟨x, Or.inl hx, h⟩
        · exact ⟨m, Or.inr rfl, h2, h1⟩
      · rintro ⟨x, hx | hx, h⟩
        · exact Or.inl ⟨x, hx, h⟩
        · subst hx
          exact Or.inr ⟨h.2, h.1⟩

theorem Handler_state.completed_spec (msgs : List (Cloud_msg T M)) (t : T) :
    pair_completed (handle_all msgs) t = true
      ↔ ((∃ m ∈ msgs, m.kind = Cloud_kind.corner ∧ m.stamp = t)
        ∧ (∃ m ∈ msgs, m.kind = Cloud_kind.plane ∧ m.stamp = t)
        ∧ (∃ m ∈ msgs, m.kind = Cloud_kind.full ∧ m.stamp = t)) := by
  obtain ⟨i1, i2, i3⟩ := flags_spec msgs t
  rw [pair_completed_eq, ← i1, ← i2, ← i3]
  generalize object (handle_all msgs) t = p
  unfold Data_pair_ros.is_completed
  rw [Bool.and_eq_true, Bool.and_eq_true]
  exact ⟨fun h => ⟨h.1.1, h.2, h.1.2⟩, fun h => ⟨⟨h.1, h.2.2⟩, h.2.1⟩⟩

theorem Handler_state.mem_kinds_at (msgs : List (Cloud_msg T M)) (t : T) (k : Cloud_kind) :
    k ∈ kinds_at msgs t ↔ ∃ m ∈ msgs, m.kind = k ∧ m.stamp = t := by
  simp only [kinds_at, List.mem_map, List.mem_filter, decide_eq_true_eq]
  constructor
  · rintro ⟨m, ⟨hm, hs⟩, hk⟩
    exact ⟨m, hm, hk, hs⟩
  · rintro ⟨m, hm, hk, hs⟩
    exact ⟨m, ⟨hm, hs⟩, hk⟩

theorem Handler_state.completed_kinds (msgs : List (Cloud_msg T M)) (t : T) :
    pair_completed (handle_all msgs) t = true
      ↔ (Cloud_kind.corner ∈ kinds_at msgs t ∧ Cloud_kind.plane ∈ kinds_at msgs t
        ∧ Cloud_kind.full ∈ kinds_at msgs t) := by
  rw [completed_spec, mem_kinds_at, mem_kinds_at, mem_kinds_at]

theorem Handler_state.kinds_at_append (l : List (Cloud_msg T M)) (m : Cloud_msg T M) (t : T) :
    kinds_at (l ++ [m]) t = kinds_at l t ++ (if m.stamp = t then [m.kind] else []) := by
  unfold kinds_at
  by_cases h : m.stamp = t
  · simp [List.filter_append, h]
  · simp [List.filter_append, h]

theorem Handler_state.mem_queue_handle (st : Handler_state T M) (m : Cloud_msg T M) (t : T) :
    t ∈ (handle st m).m_queue_avail_data
      ↔ (t ∈ st.m_queue_avail_data ∨ (m.stamp = t ∧ pair_completed (handle st m) t = true)) := by
  rw [queue_handle, List.mem_append]
  by_cases hc : pair_completed (handle st m) m.stamp = true
  · rw [if_pos hc, List.mem_singleton]
    constructor
    · rintro (h | h)
      · exact Or.inl h
      · subst h
        exact Or.inr ⟨rfl, hc⟩
    · rintro (h | h)
      · exact Or.inl h
      · exact Or.inr h.1.symm
  · rw [if_neg hc]
    constructor
    · rintro (h | h)
      · exact Or.inl h
      · exact absurd h (List.not_mem_nil t)
    · rintro (h | ⟨h1, h2⟩)
      · exact Or.inl h
      · subst h1
        exact absurd h2 hc

theorem Handler_state.count_queue_handle (st : Handler_state T M) (m : Cloud_msg T M) (t : T) :
    (handle st m).m_queue_avail_data.count t
      = st.m_queue_avail_data.count t
        + (if m.stamp = t ∧ pair_completed (handle st m) t = true then 1 else 0) := by
  rw [queue_handle, List.count_append]
  by_cases hs : m.stamp = t
  · subst hs
    by_cases hc : pair_completed (handle st m) m.stamp = true
    · simp [hc]
    · simp [hc]
  · by_cases hc : pair_completed (handle st m) m.stamp = true
    · simp [hc, hs, List.count_singleton]
    · simp [hc, hs]

theorem Handler_state.completed_mono (l : List (Cloud_msg T M)) (m : Cloud_msg T M) (t : T)
    (h : pair_completed (handle_all l) t = true) :
    pair_completed (handle_all (l ++ [m])) t = true := by
  rw [completed_kinds] at h
  rw [completed_kinds, kinds_at_append]
  exact ⟨List.mem_append_left _ h.1, List.mem_append_left _ h.2.1, List.mem_append_left _ h.2.2⟩

theorem Handler_state.completed_other (l : List (Cloud_msg T M)) (m : Cloud_msg T M) (t : T)
    (hs : ¬ m.stamp = t) :
    pair_completed (handle_all (l ++ [m])) t = pair_completed (handle_all l) t := by
  rw [handle_all_append, pair_completed_eq, pair_completed_eq, object_handle,
    if_neg (fun h => hs h.symm)]

theorem Handler_state.pushed_iff (msgs : List (Cloud_msg T M)) (t : T) :
    t ∈ (handle_all msgs).m_queue_avail_data ↔ pair_completed (handle_all msgs) t = true := by
  induction msgs using List.reverseRecOn with
  | nil =>
    simp [handle_all, initial, pair_completed]
  | append_singleton l m ih =>
    have hq := mem_queue_handle (handle_all l) m t
    rw [← handle_all_append] at hq
    rw [hq, ih]
    constructor
    · rintro (h | h)
      · exact completed_mono l m t h
      · exact h.2
    · intro h
      by_cases hs : m.stamp = t
      · exact Or.inr ⟨hs, h⟩
      · rw [completed_other l m t hs] at h
        exact Or.inl h

theorem Handler_state.count_spec (msgs : List (Cloud_msg T M)) (t : T)
    (hnd : (kinds_at msgs t).Nodup) :
    (handle_all msgs).m_queue_avail_data.count t
      = if pair_completed (handle_all msgs) t = true then 1 else 0 := by
  induction msgs using List.reverseRecOn with
  | nil =>
    simp [handle_all, initial, pair_completed]
  | append_singleton l m ih =>
    have hc := count_queue_handle (handle_all l) m t
    rw [← handle_all_append] at hc
    rw [kinds_at_append] at hnd
    by_cases hs : m.stamp = t
    · rw [if_pos hs] at hnd
      have hnd1 : (kinds_at l t).Nodup := (List.nodup_append.mp hnd).1
      have hnot : m.kind ∉ kinds_at l t := fun hmem =>
        (List.nodup_append.mp hnd).2.2 hmem (List.mem_singleton_self _)
      have hl : ¬ pair_completed (handle_all l) t = true := by
        rw [completed_kinds]
        intro h
        cases hk : m.kind
        · rw [hk] at hnot
          exact hnot h.1
        · rw [hk] at hnot
          exact hnot h.2.1
        · rw [hk] at hnot
          exact hnot h.2.2
      rw [hc, ih hnd1, if_neg hl, Nat.zero_add]
      by_cases hcc : pair_completed (handle_all (l ++ [m])) t = true
      · simp [hs, hcc]
      · simp [hcc]
    · rw [if_neg hs, List.append_nil] at hnd
      rw [hc, ih hnd, completed_other l m t hs]
      simp [hs]


theorem Handler_state.perm_kinds_nodup (l : List Cloud_kind)
    (h : l.Perm [Cloud_kind.corner, Cloud_kind.plane, Cloud_kind.full]) :
    l.Nodup ∧ Cloud_kind.corner ∈ l ∧ Cloud_kind.plane ∈ l ∧ Cloud_kind.full ∈ l := by
  refine ⟨h.nodup_iff.mpr (by decide), h.mem_iff.mpr (by decide), h.mem_iff.mpr (by decide),
    h.mem_iff.mpr (by decide)⟩

theorem Handler_state.kinds_at_split (pre post : List (Cloud_msg T M)) (t : T) :
    kinds_at (pre ++ post) t = kinds_at pre t ++ kinds_at post t := by
  simp only [kinds_at, List.filter_append, List.map_append]

theorem Handler_state.kinds_at_nil_iff (post : List (Cloud_msg T M)) (t : T) :
    kinds_at post t = [] ↔ ∀ m ∈ post, m.stamp ≠ t := by
  simp only [kinds_at, List.map_eq_nil_iff, List.filter_eq_nil_iff, decide_eq_true_eq, ne_eq]

theorem Handler_state.six_orders (t : T) (k1 k2 k3 : Cloud_kind) (c1 c2 c3 : M)
    (h : [k1, k2, k3].Perm [Cloud_kind.corner, Cloud_kind.plane, Cloud_kind.full]) :
    (handle_all [⟨k1, t, c1⟩]).m_queue_avail_data = []
    ∧ (handle_all [⟨k1, t, c1⟩, ⟨k2, t, c2⟩]).m_queue_avail_data = []
    ∧ (handle_all [⟨k1, t, c1⟩, ⟨k2, t, c2⟩, ⟨k3, t, c3⟩]).m_queue_avail_data = [t] := by
  cases k1 <;> cases k2 <;> cases k3 <;>
    first
    | exact absurd h (by decide)
    | simp [handle_all, handle, laserCloudCornerLastHandler, laserCloudSurfLastHandler,
        laserCloudFullResHandler, handler, get_data_pair, initial, Function.update_same,
        Data_pair_ros.init, Data_pair_ros.add_pc_corner, Data_pair_ros.add_pc_plane,
        Data_pair_ros.add_pc_full, Data_pair_ros.is_completed]

/-- C35: for every sequence of cloud messages delivered to the three handlers, starting with
an empty map and an empty queue: the `Data_pair` of a time stamp `is_completed()` if and only
if a corner, a surface and a full-cloud message with that time stamp have been handled; each
message appends its time stamp's pair to `m_queue_avail_data` exactly when the pair is completed
after the message, and appends nothing else, so a pair is in the queue if and only if it is
completed; when the messages of a time stamp are exactly one of each kind, in any order and
interleaved with any messages of other time stamps, the pair is in the queue exactly once, and
it is there after a prefix of the sequence if and only if no message of that time stamp is
still to come (it is pushed on the third message); for the three messages alone the queue is
empty after the first and the second message and holds the pair after the third. -/
theorem C35_pair_pushed_when_completed {T M : Type} [DecidableEq T] :
    (∀ (msgs : List (Cloud_msg T M)) (t : T),
        pair_completed (handle_all msgs) t = true
          ↔ ((∃ m ∈ msgs, m.kind = Cloud_kind.corner ∧ m.stamp = t)
            ∧ (∃ m ∈ msgs, m.kind = Cloud_kind.plane ∧ m.stamp = t)
            ∧ (∃ m ∈ msgs, m.kind = Cloud_kind.full ∧ m.stamp = t)))
    ∧ (∀ (msgs : List (Cloud_msg T M)) (m : Cloud_msg T M),
        (handle_all (msgs ++ [m])).m_queue_avail_data
          = (handle_all msgs).m_queue_avail_data
            ++ (if pair_completed (handle_all (msgs ++ [m])) m.stamp then [m.stamp] else []))
    ∧ (∀ (msgs : List (Cloud_msg T M)) (t : T),
        t ∈ (handle_all msgs).m_queue_avail_data ↔ pair_completed (handle_all msgs) t = true)
    ∧ (∀ (msgs : List (Cloud_msg T M)) (t : T),
        (kinds_at msgs t).Perm [Cloud_kind.corner, Cloud_kind.plane, Cloud_kind.full] →
          (handle_all msgs).m_queue_avail_data.count t = 1
          ∧ ∀ pre post : List (Cloud_msg T M), msgs = pre ++ post →
              (t ∈ (handle_all pre).m_queue_avail_data ↔ ∀ m ∈ post, m.stamp ≠ t))
    ∧ (∀ (t : T) (k1 k2 k3 : Cloud_kind) (c1 c2 c3 : M),
        [k1, k2, k3].Perm [Cloud_kind.corner, Cloud_kind.plane, Cloud_kind.full] →
          (handle_all [(⟨k1, t, c1⟩ : Cloud_msg T M)]).m_queue_avail_data = []
          ∧ (handle_all [(⟨k1, t, c1⟩ : Cloud_msg T M), ⟨k2, t, c2⟩]).m_queue_avail_data = []
          ∧ (handle_all [(⟨k1, t, c1⟩ : Cloud_msg T M), ⟨k2, t, c2⟩,
              ⟨k3, t, c3⟩]).m_queue_avail_data = [t]) := by
  refine ⟨completed_spec, ?_, pushed_iff, ?_, six_orders⟩
  · intro msgs m
    rw [handle_all_append]
    exact queue_handle _ m
  · intro msgs t hperm
    obtain ⟨hnd, hc, hp, hf⟩ := perm_kinds_nodup _ hperm
    refine ⟨?_, ?_⟩
    · rw [count_spec msgs t hnd, if_pos ((completed_kinds msgs t).mpr ⟨hc, hp, hf⟩)]
    · intro pre post hsplit
      subst hsplit
      rw [pushed_iff, completed_kinds, ← kinds_at_nil_iff]
      rw [kinds_at_split] at hnd hc hp hf
      constructor
      · intro h
        have hdis := (List.nodup_append.mp hnd).2.2
        cases hpost : kinds_at post t with
        | nil => rfl
        | cons k rest =>
          exfalso
          have hk : k ∈ kinds_at post t := by
            rw [hpost]
            exact List.mem_cons_self _ _
          cases k
          · exact hdis h.1 hk
          · exact hdis h.2.1 hk
          · exact hdis h.2.2 hk
      · intro h
        rw [h, List.append_nil] at hc hp hf
        exact ⟨hc, hp, hf⟩

end HandlerTheorems

section RoundTripTheorems

open Laser_mapping

variable {K : Type} [LinearOrderedField K]

theorem Quaterniond.inverse_unit (q : Quaterniond K) (h : q.squaredNorm = 1) :
    q.inverse = q.conjugate := by
  unfold Quaterniond.inverse
  simp only [h, gt_iff_lt, zero_lt_one, if_true, div_one]

theorem Quaterniond.conjugate_transformVector (q : Quaterniond K) (h : q.squaredNorm = 1)
    (v : Vector3d K) : q.conjugate.transformVector (q.transformVector v) = v := by
  unfold Quaterniond.squaredNorm at h
  obtain ⟨w, x, y, z⟩ := q
  obtain ⟨a, b, c⟩ := v
  simp only at h
  simp only [Quaterniond.transformVector, Quaterniond.conjugate, Quaterniond.vec,
    Vector3d.cross, Vector3d.add, Vector3d.scale, Vector3d.mk.injEq]
  refine ⟨?_, ?_, ?_⟩
  · linear_combination (-4 * (y * (x * b - y * a) - z * (z * a - x * c))) * h
  · linear_combination (-4 * (z * (y * c - z * b) - x * (x * b - y * a))) * h
  · linear_combination (-4 * (x * (z * a - x * c) - y * (y * c - z * b))) * h

/-- C37: for every state whose current rotation `m_q_w_curr` has unit norm and every point `p`,
when `pointAssociateToMap` applies no deskew (`MOTION_DEBLUR == 0`, `if_undistore == 0` or
`interpolate_s == 1`), `pointAssociateTobeMapped` maps its result back to `p`, coordinates and
intensity; and both routines copy the intensity of their input whatever the state. -/
theorem C37_map_and_back (cm : Cmath K) (lm : Laser_mapping K) (p : PointType K)
    (interpolate_s : K) (if_undistore : Int) (hunit : lm.m_q_w_curr.squaredNorm = 1)
    (hno : lm.MOTION_DEBLUR = 0 ∨ if_undistore = 0 ∨ interpolate_s = 1) :
    pointAssociateTobeMapped lm (pointAssociateToMap cm lm p interpolate_s if_undistore) = p
    ∧ (∀ (lm1 : Laser_mapping K) (q : PointType K) (s : K) (u : Int),
        (pointAssociateToMap cm lm1 q s u).intensity = q.intensity
        ∧ (pointAssociateTobeMapped lm1 q).intensity = q.intensity) := by
  refine ⟨?_, fun lm1 q s u => ⟨rfl, rfl⟩⟩
  have hv := Quaterniond.conjugate_transformVector lm.m_q_w_curr hunit ⟨p.x, p.y, p.z⟩
  obtain ⟨px, py, pz, pint⟩ := p
  unfold pointAssociateTobeMapped pointAssociateToMap
  simp only [if_pos hno, Quaterniond.inverse_unit _ hunit]
  have hsub : ∀ a t : Vector3d K, (⟨(a.add t).x, (a.add t).y, (a.add t).z⟩ : Vector3d K).sub t
      = a := by
    intro a t
    simp only [Vector3d.add, Vector3d.sub, add_sub_cancel_right]
  rw [hsub, hv]

theorem C37_map_and_back_witness :
    ({ dense_state 0 with
        m_q_w_curr := ⟨3 / 5, 4 / 5, 0, 0⟩, m_t_w_curr := ⟨1, 2, 3⟩ }).m_q_w_curr.squaredNorm = 1
    ∧ pointAssociateTobeMapped
        { dense_state 0 with m_q_w_curr := ⟨3 / 5, 4 / 5, 0, 0⟩, m_t_w_curr := ⟨1, 2, 3⟩ }
        (pointAssociateToMap example_env.cm
          { dense_state 0 with m_q_w_curr := ⟨3 / 5, 4 / 5, 0, 0⟩, m_t_w_curr := ⟨1, 2, 3⟩ }
          ⟨1, 2, 3, 1 / 2⟩ (1 / 2) 0)
        = ⟨1, 2, 3, 1 / 2⟩ :=
  ⟨by norm_num [Quaterniond.squaredNorm],
    (C37_map_and_back example_env.cm
      { dense_state 0 with m_q_w_curr := ⟨3 / 5, 4 / 5, 0, 0⟩, m_t_w_curr := ⟨1, 2, 3⟩ }
      ⟨1, 2, 3, 1 / 2⟩ (1 / 2) 0
      (by norm_num [Quaterniond.squaredNorm]) (Or.inr (Or.inl rfl))).1⟩

end RoundTripTheorems

section CornerFactorTheorems

open Laser_mapping

variable {K : Type} [LinearOrderedField K]

/-- C34 (amended): for every corner point of a frame whose search in the local corner map
returns `line_search_num = 5` indices into the map and 5 squared distances: a point-to-line
factor is added if and only if the last (fifth) squared distance is below `2.0` and the largest
eigenvalue of the neighbours' covariance exceeds three times the second; the factor added has
the point itself as current point and, as anchors, the neighbours of rank 0 and rank 1 (the two
nearest when the search returns them in order of increasing distance), with weight fraction
`1.0` and the last pose. -/
theorem C34_line_factor_anchors (env : Search_env K) (lm : Laser_mapping K)
    (corner_map : List (PointType K)) (pointOri : PointType K)
    (_hidx : (env.nearestKSearch corner_map
      (pointAssociateToMap env.cm lm pointOri pointOri.intensity 0) line_search_num).1.length
        = line_search_num)
    (_hdis : (env.nearestKSearch corner_map
      (pointAssociateToMap env.cm lm pointOri pointOri.intensity 0) line_search_num).2.length
        = line_search_num)
    (_hin : ∀ i ∈ (env.nearestKSearch corner_map
      (pointAssociateToMap env.cm lm pointOri pointOri.intensity 0) line_search_num).1,
        i < corner_map.length) :
    ((corner_factor env lm corner_map pointOri).isSome
      ↔ ((env.nearestKSearch corner_map
            (pointAssociateToMap env.cm lm pointOri pointOri.intensity 0)
            line_search_num).2.getD 4 0 < 2
          ∧ line_is_avail env corner_map (env.nearestKSearch corner_map
            (pointAssociateToMap env.cm lm pointOri pointOri.intensity 0) line_search_num).1))
    ∧ (∀ f, corner_factor env lm corner_map pointOri = some f →
        f = ceres_icp_point2line.Create env.cm ⟨pointOri.x, pointOri.y, pointOri.z⟩
            (pcl_pt_to_eigend (corner_map.getD ((env.nearestKSearch corner_map
              (pointAssociateToMap env.cm lm pointOri pointOri.intensity 0)
              line_search_num).1.getD 0 0) PointType.init))
            (pcl_pt_to_eigend (corner_map.getD ((env.nearestKSearch corner_map
              (pointAssociateToMap env.cm lm pointOri pointOri.intensity 0)
              line_search_num).1.getD 1 0) PointType.init))
            1 ⟨lm.m_q_w_last.w, lm.m_q_w_last.x, lm.m_q_w_last.y, lm.m_q_w_last.z⟩
            lm.m_t_w_last
        ∧ f.m_current_pt = ⟨pointOri.x, pointOri.y, pointOri.z⟩
        ∧ f.m_target_line_a = pcl_pt_to_eigend (corner_map.getD ((env.nearestKSearch corner_map
              (pointAssociateToMap env.cm lm pointOri pointOri.intensity 0)
              line_search_num).1.getD 0 0) PointType.init)
        ∧ f.m_target_line_b = pcl_pt_to_eigend (corner_map.getD ((env.nearestKSearch corner_map
              (pointAssociateToMap env.cm lm pointOri pointOri.intensity 0)
              line_search_num).1.getD 1 0) PointType.init)) := by
  have h4 : line_search_num - 1 = 4 := rfl
  generalize hs : env.nearestKSearch corner_map
    (pointAssociateToMap env.cm lm pointOri pointOri.intensity 0) line_search_num = found
  have hcf : corner_factor env lm corner_map pointOri
      = if found.2.getD 4 0 < 2 then
          if line_is_avail env corner_map found.1 then
            some (ceres_icp_point2line.Create env.cm ⟨pointOri.x, pointOri.y, pointOri.z⟩
              (pcl_pt_to_eigend (corner_map.getD (found.1.getD 0 0) PointType.init))
              (pcl_pt_to_eigend (corner_map.getD (found.1.getD 1 0) PointType.init))
              1 ⟨lm.m_q_w_last.w, lm.m_q_w_last.x, lm.m_q_w_last.y, lm.m_q_w_last.z⟩
              lm.m_t_w_last)
          else none
        else none := by
    unfold corner_factor
    simp only [hs, h4]
  rw [hcf]
  by_cases hd : found.2.getD 4 0 < 2
  · by_cases hl : line_is_avail env corner_map found.1
    · rw [if_pos hd, if_pos hl]
      refine ⟨iff_of_true rfl ⟨hd, hl⟩, ?_⟩
      intro f hf
      rw [← Option.some.inj hf]
      exact ⟨rfl, rfl, rfl, rfl⟩
    · rw [if_pos hd, if_neg hl]
      refine ⟨iff_of_false (by simp) (fun h => hl h.2), ?_⟩
      intro f hf
      exact absurd hf (by simp)
  · rw [if_neg hd]
    refine ⟨iff_of_false (by simp) (fun h => hd h.1), ?_⟩
    intro f hf
    exact absurd hf (by simp)

theorem axis_corner_factor :
    corner_factor axis_search_env (dense_state 0) axis_corner_map ⟨0, 1 / 2, 0, 1 / 2⟩
      = some (ceres_icp_point2line.Create axis_search_env.cm ⟨0, 1 / 2, 0⟩ ⟨0, 0, 0⟩
          ⟨1 / 10, 0, 0⟩ 1 ⟨1, 0, 0, 0⟩ ⟨1, 0, 0⟩) := by
  have hcov : corner_covMat axis_corner_map [0, 1, 2, 3, 4]
      = (⟨⟨1 / 10, 0, 0⟩, ⟨0, 0, 0⟩, ⟨0, 0, 0⟩⟩ : Matrix3d ℚ) := by
    simp [corner_covMat, nearCorners, line_search_num, axis_corner_map, pcl_pt_to_eigend,
      List.range, List.range.loop, Vector3d.add, Vector3d.sub, Vector3d.divScalar,
      Vector3d.outer, Vector3d.scale, Matrix3d.add, Matrix3d.Zero, PointType.init]
    norm_num
  have hline : line_is_avail axis_search_env axis_corner_map [0, 1, 2, 3, 4] := by
    unfold line_is_avail
    rw [hcov]
    norm_num [axis_search_env]
  unfold corner_factor
  simp only [axis_search_env] at hline ⊢
  rw [if_pos (by norm_num [line_search_num]), if_pos hline]
  simp [axis_corner_map, pcl_pt_to_eigend, dense_state]

theorem C34_line_factor_anchors_witness :
    (axis_search_env.nearestKSearch axis_corner_map
        (pointAssociateToMap axis_search_env.cm (dense_state 0) ⟨0, 1 / 2, 0, 1 / 2⟩ (1 / 2) 0)
        line_search_num).1.length = line_search_num
    ∧ ((corner_factor axis_search_env (dense_state 0) axis_corner_map
          ⟨0, 1 / 2, 0, 1 / 2⟩).isSome
        ↔ ((axis_search_env.nearestKSearch axis_corner_map
              (pointAssociateToMap axis_search_env.cm (dense_state 0) ⟨0, 1 / 2, 0, 1 / 2⟩
                (1 / 2) 0) line_search_num).2.getD 4 0 < 2
            ∧ line_is_avail axis_search_env axis_corner_map
                (axis_search_env.nearestKSearch axis_corner_map
                  (pointAssociateToMap axis_search_env.cm (dense_state 0)
                    ⟨0, 1 / 2, 0, 1 / 2⟩ (1 / 2) 0) line_search_num).1)) :=
  ⟨rfl,
    (C34_line_factor_anchors axis_search_env (dense_state 0) axis_corner_map
      ⟨0, 1 / 2, 0, 1 / 2⟩ rfl rfl
      (by
        intro i hi
        simp only [axis_search_env, List.mem_cons, List.mem_singleton, List.not_mem_nil,
          or_false] at hi
        have hl : axis_corner_map.length = 5 := rfl
        rw [hl]
        omega)).1⟩

/-- C34 (counterexample to the anchors of the claim): five map points on the `x` axis, `0.1`
apart, and the corner point `(0, 1/2, 0)` under the identity pose. The search returns the five
points in order of increasing distance (squared distances `0.25, 0.26, 0.29, 0.34, 0.41`, the
last below `2.0`); the factor is added, and its second anchor is the neighbour of rank 1,
`(0.1, 0, 0)`, not the farthest neighbour of rank 4, `(0.4, 0, 0)`. -/
theorem C34_counterexample :
    (axis_search_env.nearestKSearch axis_corner_map
        (pointAssociateToMap axis_search_env.cm (dense_state 0) ⟨0, 1 / 2, 0, 1 / 2⟩ (1 / 2) 0)
        line_search_num)
      = ([0, 1, 2, 3, 4],
          [0, 1, 2, 3, 4].map (fun i =>
            ((pcl_pt_to_eigend (axis_corner_map.getD i PointType.init)).sub
              (pcl_pt_to_eigend (pointAssociateToMap axis_search_env.cm (dense_state 0)
                ⟨0, 1 / 2, 0, 1 / 2⟩ (1 / 2) 0))).squaredNorm))
    ∧ List.Pairwise (fun a b : ℚ => a < b)
        (axis_search_env.nearestKSearch axis_corner_map
          (pointAssociateToMap axis_search_env.cm (dense_state 0) ⟨0, 1 / 2, 0, 1 / 2⟩ (1 / 2) 0)
          line_search_num).2
    ∧ corner_covMat axis_corner_map [0, 1, 2, 3, 4]
        = (⟨⟨1 / 10, 0, 0⟩, ⟨0, 0, 0⟩, ⟨0, 0, 0⟩⟩ : Matrix3d ℚ)
    ∧ (∃ f, corner_factor axis_search_env (dense_state 0) axis_corner_map
          ⟨0, 1 / 2, 0, 1 / 2⟩ = some f
        ∧ f.m_target_line_a = pcl_pt_to_eigend (axis_corner_map.getD 0 PointType.init)
        ∧ f.m_target_line_b = pcl_pt_to_eigend (axis_corner_map.getD 1 PointType.init)
        ∧ f.m_target_line_b ≠ pcl_pt_to_eigend (axis_corner_map.getD 4 PointType.init)) := by
  refine ⟨?_, ?_, ?_, _, axis_corner_factor, ?_, ?_, ?_⟩
  · simp [axis_search_env, axis_corner_map, pcl_pt_to_eigend, pointAssociateToMap, dense_state,
      Quaterniond.transformVector, Quaterniond.vec, Vector3d.cross, Vector3d.add,
      Vector3d.scale, Vector3d.sub, Vector3d.squaredNorm]
    norm_num
  · norm_num [axis_search_env]
  · simp [corner_covMat, nearCorners, line_search_num, axis_corner_map, pcl_pt_to_eigend,
      List.range, List.range.loop, Vector3d.add, Vector3d.sub, Vector3d.divScalar,
      Vector3d.outer, Vector3d.scale, Matrix3d.add, Matrix3d.Zero, PointType.init]
    norm_num
  · simp [ceres_icp_point2line.Create, ceres_icp_point2line.construct, axis_corner_map,
      pcl_pt_to_eigend]
  · simp [ceres_icp_point2line.Create, ceres_icp_point2line.construct, axis_corner_map,
      pcl_pt_to_eigend]
  · simp [ceres_icp_point2line.Create, ceres_icp_point2line.construct, axis_corner_map,
      pcl_pt_to_eigend]
    norm_num

end CornerFactorTheorems

section LabelTheorems

open Zvision_laser

variable {K : Type} [LinearOrderedField K]

theorem Zvision_laser.feature_label_eq (zl : Zvision_laser K) (L : Int)
    (c v d0 dm dp : K) :
    feature_label zl L c v d0 dm dp
      = if v > zl.minimum_view_angle ∧ c > zl.thr_corner_curvature ∧ (d0 ≤ dm ∧ d0 ≤ dp)
            ∧ (|d0 - dm| < 1 / 10 * d0 ∨ |d0 - dp| < 1 / 10 * d0) then
          int_or (if v > zl.minimum_view_angle ∧ c < zl.thr_surface_curvature then
            int_or L e_label_surface else L) e_label_corner
        else
          (if v > zl.minimum_view_angle ∧ c < zl.thr_surface_curvature then
            int_or L e_label_surface else L) := by
  unfold feature_label
  by_cases hv : v > zl.minimum_view_angle
  · by_cases hc : c > zl.thr_corner_curvature
    · by_cases hd : d0 ≤ dm ∧ d0 ≤ dp
      · by_cases he : |d0 - dm| < 1 / 10 * d0 ∨ |d0 - dp| < 1 / 10 * d0
        · simp only [if_pos hv, if_pos hc, if_pos hd, if_pos he, hv, hc, hd, he, true_and,
            and_self, if_true]
        · simp only [if_pos hv, if_pos hc, if_pos hd, if_neg he, hv, hc, hd, he, true_and,
            and_false, if_false, if_true]
      · simp only [if_pos hv, if_pos hc, if_neg hd, hv, hc, hd, true_and, false_and,
          and_false, if_false, if_true]
    · simp only [if_pos hv, if_neg hc, hv, hc, true_and, false_and, and_false, if_false,
        if_true]
  · simp only [if_neg hv, hv, false_and, if_false]

theorem Zvision_laser.feature_label_bits (zl : Zvision_laser K) (L : Int)
    (hL : L = e_label_unlabeled ∨ L = e_label_near_nan ∨ L = e_label_near_zero)
    (c v d0 dm dp : K) :
    feature_label zl L c v d0 dm dp ≠ e_label_invalid
    ∧ (int_and (feature_label zl L c v d0 dm dp) e_label_surface ≠ 0
        ↔ (v > zl.minimum_view_angle ∧ c < zl.thr_surface_curvature))
    ∧ (int_and (feature_label zl L c v d0 dm dp) e_label_corner ≠ 0
        ↔ (v > zl.minimum_view_angle ∧ c > zl.thr_corner_curvature ∧ (d0 ≤ dm ∧ d0 ≤ dp)
            ∧ (|d0 - dm| < 1 / 10 * d0 ∨ |d0 - dp| < 1 / 10 * d0))) := by
  rw [feature_label_eq]
  by_cases hs : v > zl.minimum_view_angle ∧ c < zl.thr_surface_curvature
  · by_cases hk : v > zl.minimum_view_angle ∧ c > zl.thr_corner_curvature ∧ (d0 ≤ dm ∧ d0 ≤ dp)
        ∧ (|d0 - dm| < 1 / 10 * d0 ∨ |d0 - dp| < 1 / 10 * d0)
    · rw [if_pos hs, if_pos hk]
      rcases hL with h | h | h <;> subst h <;>
        exact ⟨by decide, iff_of_true (by decide) hs, iff_of_true (by decide) hk⟩
    · rw [if_pos hs, if_neg hk]
      rcases hL with h | h | h <;> subst h <;>
        exact ⟨by decide, iff_of_true (by decide) hs, iff_of_false (by decide) hk⟩
  · by_cases hk : v > zl.minimum_view_angle ∧ c > zl.thr_corner_curvature ∧ (d0 ≤ dm ∧ d0 ≤ dp)
        ∧ (|d0 - dm| < 1 / 10 * d0 ∨ |d0 - dp| < 1 / 10 * d0)
    · rw [if_neg hs, if_pos hk]
      rcases hL with h | h | h <;> subst h <;>
        exact ⟨by decide, iff_of_false (by decide) hs, iff_of_true (by decide) hk⟩
    · rw [if_neg hs, if_neg hk]
      rcases hL with h | h | h <;> subst h <;>
        exact ⟨by decide, iff_of_false (by decide) hs, iff_of_false (by decide) hk⟩

theorem Zvision_laser.accumulate_neighbors_cases (infos : List (Pt_infos K))
    (raw : List (PointType K)) (idx : Nat) :
    (accumulate_neighbors infos raw idx [1, 2] (⟨0, 0, 0⟩, e_label_unlabeled)).2
        = e_label_invalid
    ∨ (accumulate_neighbors infos raw idx [1, 2] (⟨0, 0, 0⟩, e_label_unlabeled)
          = (neighbor_sum raw idx, e_label_unlabeled)
        ∧ clean_neighbors infos idx)
    ∨ ((accumulate_neighbors infos raw idx [1, 2] (⟨0, 0, 0⟩, e_label_unlabeled)
            = (⟨0, 0, 0⟩, e_label_near_zero)
          ∨ accumulate_neighbors infos raw idx [1, 2] (⟨0, 0, 0⟩, e_label_unlabeled)
            = (⟨0, 0, 0⟩, e_label_near_nan))
        ∧ ¬ (int_and (infos.getD (idx + 1) Pt_infos.init).pt_type e_pt_000 = 0
            ∧ int_and (infos.getD (idx - 1) Pt_infos.init).pt_type e_pt_000 = 0
            ∧ int_and (infos.getD (idx + 1) Pt_infos.init).pt_type e_pt_nan = 0
            ∧ int_and (infos.getD (idx - 1) Pt_infos.init).pt_type e_pt_nan = 0)) := by
  have o8 : int_or e_label_unlabeled e_label_near_zero = e_label_near_zero := by decide
  have o4 : int_or e_label_unlabeled e_label_near_nan = e_label_near_nan := by decide
  have h21 : ((2 : Nat) = 1) = False := by decide
  by_cases z1 : int_and (infos.getD (idx + 1) Pt_infos.init).pt_type e_pt_000 ≠ 0
      ∨ int_and (infos.getD (idx - 1) Pt_infos.init).pt_type e_pt_000 ≠ 0
  · right
    right
    refine ⟨Or.inl ?_, ?_⟩
    · simp only [accumulate_neighbors, if_pos z1, if_true, o8]
    · rintro ⟨a, b, _, _⟩
      rcases z1 with z | z
      · exact z a
      · exact z b
  · by_cases n1 : int_and (infos.getD (idx + 1) Pt_infos.init).pt_type e_pt_nan ≠ 0
        ∨ int_and (infos.getD (idx - 1) Pt_infos.init).pt_type e_pt_nan ≠ 0
    · right
      right
      refine ⟨Or.inr ?_, ?_⟩
      · simp only [accumulate_neighbors, if_neg z1, if_pos n1, if_true, o4]
      · rintro ⟨_, _, a, b⟩
        rcases n1 with z | z
        · exact z a
        · exact z b
    · by_cases z2 : int_and (infos.getD (idx + 2) Pt_infos.init).pt_type e_pt_000 ≠ 0
          ∨ int_and (infos.getD (idx - 2) Pt_infos.init).pt_type e_pt_000 ≠ 0
      · left
        simp only [accumulate_neighbors, if_neg z1, if_neg n1, if_pos z2, h21, if_false]
      · by_cases n2 : int_and (infos.getD (idx + 2) Pt_infos.init).pt_type e_pt_nan ≠ 0
            ∨ int_and (infos.getD (idx - 2) Pt_infos.init).pt_type e_pt_nan ≠ 0
        · left
          simp only [accumulate_neighbors, if_neg z1, if_neg n1, if_neg z2, if_pos n2, h21,
            if_false]
        · right
          left
          have hc : clean_neighbors infos idx := by
            push_neg at z1 n1 z2 n2
            intro i hi
            rcases hi with hi | hi <;> subst hi
            · exact ⟨z1.1, z1.2, n1.1, n1.2⟩
            · exact ⟨z2.1, z2.2, n2.1, n2.2⟩
          exact ⟨accumulate_neighbors_clean infos raw idx _ hc, hc⟩

theorem Zvision_laser.window_curvature_zero (p : PointType K) :
    window_curvature ⟨0, 0, 0⟩ p = 16 * depth2_xyz p.x p.y p.z := by
  simp only [window_curvature, depth2_xyz, curvature_ssd_size]
  push_cast
  ring

theorem Zvision_laser.label_point_unlabeled (env : Feature_env K) (zl : Zvision_laser K)
    (idx : Nat)
    (hlab : (zl.m_pts_info_vec.getD idx Pt_infos.init).pt_label = e_label_unlabeled) :
    label_point env zl idx
        = { zl.m_pts_info_vec.getD idx Pt_infos.init with pt_label := e_label_invalid }
    ∨ (∃ L c, (L = e_label_unlabeled ∨ L = e_label_near_nan ∨ L = e_label_near_zero)
        ∧ label_point env zl idx
          = { zl.m_pts_info_vec.getD idx Pt_infos.init with
              pt_label := feature_label zl L c (view_angle_at env zl.m_raw_pts_vec idx)
                (zl.m_pts_info_vec.getD idx Pt_infos.init).depth_sq2
                (zl.m_pts_info_vec.getD (idx - 2) Pt_infos.init).depth_sq2
                (zl.m_pts_info_vec.getD (idx + 2) Pt_infos.init).depth_sq2
              curvature := c
              view_angle := view_angle_at env zl.m_raw_pts_vec idx }
        ∧ ((int_and (zl.m_pts_info_vec.getD (idx + 1) Pt_infos.init).pt_type e_pt_000 = 0
              ∧ int_and (zl.m_pts_info_vec.getD (idx - 1) Pt_infos.init).pt_type e_pt_000 = 0
              ∧ int_and (zl.m_pts_info_vec.getD (idx + 1) Pt_infos.init).pt_type e_pt_nan = 0
              ∧ int_and (zl.m_pts_info_vec.getD (idx - 1) Pt_infos.init).pt_type e_pt_nan = 0)
            → c = discrete_laplacian_sq zl.m_raw_pts_vec idx)
        ∧ (¬ (int_and (zl.m_pts_info_vec.getD (idx + 1) Pt_infos.init).pt_type e_pt_000 = 0
              ∧ int_and (zl.m_pts_info_vec.getD (idx - 1) Pt_infos.init).pt_type e_pt_000 = 0
              ∧ int_and (zl.m_pts_info_vec.getD (idx + 1) Pt_infos.init).pt_type e_pt_nan = 0
              ∧ int_and (zl.m_pts_info_vec.getD (idx - 1) Pt_infos.init).pt_type e_pt_nan = 0)
            → c = 16 * depth2_xyz (zl.m_raw_pts_vec.getD idx PointType.init).x
                (zl.m_raw_pts_vec.getD idx PointType.init).y
                (zl.m_raw_pts_vec.getD idx PointType.init).z
              ∧ L ≠ e_label_unlabeled)) := by
  have hne0 : ¬ (e_label_unlabeled = e_label_invalid) := by decide
  have hne4 : ¬ (e_label_near_nan = e_label_invalid) := by decide
  have hne8 : ¬ (e_label_near_zero = e_label_invalid) := by decide
  rcases accumulate_neighbors_cases zl.m_pts_info_vec zl.m_raw_pts_vec idx with h | h | h
  · left
    simp only [label_point, hlab, h, if_true]
  · right
    refine ⟨e_label_unlabeled, discrete_laplacian_sq zl.m_raw_pts_vec idx, Or.inl rfl, ?_,
      fun _ => rfl, ?_⟩
    · simp only [label_point, hlab, h.1, hne0, if_false, window_curvature_neighbor_sum,
        curvature_ssd_size]
    · intro hn
      exact absurd (h.2 1 (Or.inl rfl)) hn
  · right
    obtain ⟨hacc, hn⟩ := h
    rcases hacc with hacc | hacc
    · refine ⟨e_label_near_zero, _, Or.inr (Or.inr rfl), ?_, fun hc => absurd hc hn,
        fun _ => ⟨window_curvature_zero _, by decide⟩⟩
      simp only [label_point, hlab, hacc, hne8, if_false, curvature_ssd_size]
    · refine ⟨e_label_near_nan, _, Or.inr (Or.inl rfl), ?_, fun hc => absurd hc hn,
        fun _ => ⟨window_curvature_zero _, by decide⟩⟩
      simp only [label_point, hlab, hacc, hne4, if_false, curvature_ssd_size]

theorem Zvision_laser.label_point_valid (env : Feature_env K) (zl : Zvision_laser K)
    (idx : Nat)
    (hlab : (zl.m_pts_info_vec.getD idx Pt_infos.init).pt_label = e_label_unlabeled)
    (hvalid : (label_point env zl idx).pt_label ≠ e_label_invalid) :
    (int_and (label_point env zl idx).pt_label e_label_surface ≠ 0
        ↔ ((label_point env zl idx).view_angle > zl.minimum_view_angle
          ∧ (label_point env zl idx).curvature < zl.thr_surface_curvature))
    ∧ (int_and (label_point env zl idx).pt_label e_label_corner ≠ 0
        ↔ ((label_point env zl idx).view_angle > zl.minimum_view_angle
          ∧ (label_point env zl idx).curvature > zl.thr_corner_curvature
          ∧ ((zl.m_pts_info_vec.getD idx Pt_infos.init).depth_sq2
                ≤ (zl.m_pts_info_vec.getD (idx - 2) Pt_infos.init).depth_sq2
            ∧ (zl.m_pts_info_vec.getD idx Pt_infos.init).depth_sq2
                ≤ (zl.m_pts_info_vec.getD (idx + 2) Pt_infos.init).depth_sq2)
          ∧ (|(zl.m_pts_info_vec.getD idx Pt_infos.init).depth_sq2
                - (zl.m_pts_info_vec.getD (idx - 2) Pt_infos.init).depth_sq2|
              < 1 / 10 * (zl.m_pts_info_vec.getD idx Pt_infos.init).depth_sq2
            ∨ |(zl.m_pts_info_vec.getD idx Pt_infos.init).depth_sq2
                - (zl.m_pts_info_vec.getD (idx + 2) Pt_infos.init).depth_sq2|
              < 1 / 10 * (zl.m_pts_info_vec.getD idx Pt_infos.init).depth_sq2)))
    ∧ (label_point env zl idx).view_angle = view_angle_at env zl.m_raw_pts_vec idx
    ∧ ((int_and (zl.m_pts_info_vec.getD (idx + 1) Pt_infos.init).pt_type e_pt_000 = 0
          ∧ int_and (zl.m_pts_info_vec.getD (idx - 1) Pt_infos.init).pt_type e_pt_000 = 0
          ∧ int_and (zl.m_pts_info_vec.getD (idx + 1) Pt_infos.init).pt_type e_pt_nan = 0
          ∧ int_and (zl.m_pts_info_vec.getD (idx - 1) Pt_infos.init).pt_type e_pt_nan = 0)
        → (label_point env zl idx).curvature = discrete_laplacian_sq zl.m_raw_pts_vec idx)
    ∧ (¬ (int_and (zl.m_pts_info_vec.getD (idx + 1) Pt_infos.init).pt_type e_pt_000 = 0
          ∧ int_and (zl.m_pts_info_vec.getD (idx - 1) Pt_infos.init).pt_type e_pt_000 = 0
          ∧ int_and (zl.m_pts_info_vec.getD (idx + 1) Pt_infos.init).pt_type e_pt_nan = 0
          ∧ int_and (zl.m_pts_info_vec.getD (idx - 1) Pt_infos.init).pt_type e_pt_nan = 0)
        → (label_point env zl idx).curvature
            = 16 * depth2_xyz (zl.m_raw_pts_vec.getD idx PointType.init).x
                (zl.m_raw_pts_vec.getD idx PointType.init).y
                (zl.m_raw_pts_vec.getD idx PointType.init).z) := by
  rcases label_point_unlabeled env zl idx hlab with h | ⟨L, c, hL, h, hc1, hc2⟩
  · rw [h] at hvalid
    exact absurd rfl hvalid
  · rw [h]
    obtain ⟨_, b2, b3⟩ := feature_label_bits zl L hL c (view_angle_at env zl.m_raw_pts_vec idx)
      (zl.m_pts_info_vec.getD idx Pt_infos.init).depth_sq2
      (zl.m_pts_info_vec.getD (idx - 2) Pt_infos.init).depth_sq2
      (zl.m_pts_info_vec.getD (idx + 2) Pt_infos.init).depth_sq2
    exact ⟨b2, b3, rfl, hc1, fun hn => (hc2 hn).1⟩

theorem wrap_int32_small (m : Nat) (h : m ≤ 33) : wrap_int32 (Int.ofNat m) = (m : Int) := by
  unfold wrap_int32
  rw [Int.ofNat_eq_coe]
  omega

theorem Zvision_laser.int_and_critical (t : Int) (h : int_and t critical_rm_point = 0) :
    int_and t e_pt_nan = 0 ∧ int_and t e_pt_000 = 0 := by
  have hc : critical_rm_point = 33 := by decide
  rw [hc] at h
  unfold int_and at h ⊢
  have e33 : ((33 : Int) % 4294967296).toNat = 33 := by decide
  have e32 : (e_pt_nan % 4294967296).toNat = 32 := by decide
  have e1 : (e_pt_000 % 4294967296).toNat = 1 := by decide
  rw [e33] at h
  rw [e32, e1]
  generalize (t % 4294967296).toNat = n at h ⊢
  have hle : Nat.land n 33 ≤ 33 := Nat.and_le_right
  rw [wrap_int32_small _ hle] at h
  have h0 : n &&& 33 = 0 := by exact_mod_cast h
  have a1 : Nat.land n 1 = 0 := by
    show n &&& 1 = 0
    have e : (1 : Nat) = 33 &&& 1 := by decide
    rw [e, ← Nat.and_assoc, h0, Nat.zero_and]
  have a32 : Nat.land n 32 = 0 := by
    show n &&& 32 = 0
    have e : (32 : Nat) = 33 &&& 32 := by decide
    rw [e, ← Nat.and_assoc, h0, Nat.zero_and]
  rw [a1, a32]
  exact ⟨by decide, by decide⟩

theorem Zvision_laser.after_zvision_eq (env : Feature_env K) (zl : Zvision_laser K)
    (laser g : Nat) (hlen : 30000 ≤ zl.m_pts_info_vec.length) (hlaser : laser < 3)
    (hg1 : 2 ≤ g) (hg2 : g ≤ 9997)
    (hcrit : int_and (zl.m_pts_info_vec.getD (10000 * laser + g) Pt_infos.init).pt_type
      critical_rm_point = 0)
    (hnb : not_boundary_point env laser g) :
    after_zvision env zl (10000 * laser + g) = label_point env zl (10000 * laser + g) := by
  unfold after_zvision
  rw [(compute_features_zvision_spec env zl hlen).2.1 laser g hlaser hg1 hg2,
    compute_point_zvision_pass env laser g zl hg1 hcrit, if_pos hnb]

theorem Zvision_laser.after_features_eq (env : Feature_env K) (zl : Zvision_laser K)
    (idx : Nat) (hl : zl.m_pts_info_vec.length = zl.m_raw_pts_vec.length)
    (h32 : zl.m_raw_pts_vec.length < 4294967296) (hi1 : 2 ≤ idx)
    (hi2 : idx + 2 < zl.m_raw_pts_vec.length)
    (hcrit : int_and (zl.m_pts_info_vec.getD idx Pt_infos.init).pt_type critical_rm_point = 0) :
    after_features env zl idx = label_point env zl idx := by
  unfold after_features
  rw [(compute_features_spec env zl (by omega) h32 hl).2.1 idx hi1 hi2]
  simp only [compute_point, hcrit, ne_eq, not_true_eq_false, if_false]

theorem Zvision_laser.after_zvision_cases (env : Feature_env K) (zl : Zvision_laser K)
    (hlen : 30000 ≤ zl.m_pts_info_vec.length) (j : Nat) :
    after_zvision env zl j = zl.m_pts_info_vec.getD j Pt_infos.init
    ∨ (int_and (zl.m_pts_info_vec.getD j Pt_infos.init).pt_type critical_rm_point = 0
        ∧ after_zvision env zl j = label_point env zl j) := by
  obtain ⟨_, hin, hout⟩ := compute_features_zvision_spec env zl hlen
  by_cases hj : ∀ laser g, laser < 3 → 2 ≤ g → g ≤ 9997 → j ≠ 10000 * laser + g
  · left
    exact hout j hj
  · push_neg at hj
    obtain ⟨laser, g, h1, h2, h3, h4⟩ := hj
    subst h4
    by_cases hcrit : int_and (zl.m_pts_info_vec.getD (10000 * laser + g) Pt_infos.init).pt_type
        critical_rm_point = 0
    · by_cases hnb : not_boundary_point env laser g
      · right
        exact ⟨hcrit, after_zvision_eq env zl laser g hlen h1 h2 h3 hcrit hnb⟩
      · left
        unfold after_zvision
        rw [hin laser g h1 h2 h3, compute_point_zvision_pass env laser g zl h2 hcrit,
          if_neg hnb]
    · left
      unfold after_zvision
      rw [hin laser g h1 h2 h3]
      simp only [compute_point_zvision, ne_eq, hcrit, not_false_eq_true, if_true]

theorem Zvision_laser.after_features_cases (env : Feature_env K) (zl : Zvision_laser K)
    (hl : zl.m_pts_info_vec.length = zl.m_raw_pts_vec.length)
    (h2 : 2 ≤ zl.m_raw_pts_vec.length) (h32 : zl.m_raw_pts_vec.length < 4294967296)
    (j : Nat) :
    after_features env zl j = zl.m_pts_info_vec.getD j Pt_infos.init
    ∨ (int_and (zl.m_pts_info_vec.getD j Pt_infos.init).pt_type critical_rm_point = 0
        ∧ after_features env zl j = label_point env zl j) := by
  obtain ⟨_, hin, hout⟩ := compute_features_spec env zl h2 h32 hl
  by_cases hj : 2 ≤ j ∧ j + 2 < zl.m_raw_pts_vec.length
  · by_cases hcrit : int_and (zl.m_pts_info_vec.getD j Pt_infos.init).pt_type
        critical_rm_point = 0
    · right
      exact ⟨hcrit, after_features_eq env zl j hl h32 hj.1 hj.2 hcrit⟩
    · left
      unfold after_features
      rw [hin j hj.1 hj.2]
      simp only [compute_point, ne_eq, hcrit, not_false_eq_true, if_true]
  · left
    exact hout j (fun idx h1 h2 he => hj (he ▸ ⟨h1, h2⟩))

theorem Zvision_laser.label_point_exclusive (env : Feature_env K) (zl : Zvision_laser K)
    (idx : Nat) (hthr : zl.thr_surface_curvature ≤ zl.thr_corner_curvature)
    (hlab : (zl.m_pts_info_vec.getD idx Pt_infos.init).pt_label = e_label_unlabeled)
    (hvalid : (label_point env zl idx).pt_label ≠ e_label_invalid) :
    ¬ (int_and (label_point env zl idx).pt_label e_label_corner ≠ 0
      ∧ int_and (label_point env zl idx).pt_label e_label_surface ≠ 0) := by
  obtain ⟨hs, hc, _⟩ := label_point_valid env zl idx hlab hvalid
  rintro ⟨h1, h2⟩
  have a := (hc.mp h1).2.1
  have b := (hs.mp h2).2
  exact absurd (lt_of_lt_of_le b hthr) (not_lt.mpr (le_of_lt a))

theorem Zvision_laser.record_invariant (env : Feature_env K) (zl : Zvision_laser K)
    (hthr : zl.thr_surface_curvature ≤ zl.thr_corner_curvature) (j : Nat)
    (hlab : (zl.m_pts_info_vec.getD j Pt_infos.init).pt_label = e_label_unlabeled)
    (r : Pt_infos K)
    (hr : r = zl.m_pts_info_vec.getD j Pt_infos.init
      ∨ (int_and (zl.m_pts_info_vec.getD j Pt_infos.init).pt_type critical_rm_point = 0
          ∧ r = label_point env zl j)) :
    (r.pt_label ≠ e_label_invalid →
        ¬ (int_and r.pt_label e_label_corner ≠ 0 ∧ int_and r.pt_label e_label_surface ≠ 0))
    ∧ ((int_and r.pt_label e_label_corner ≠ 0 ∨ int_and r.pt_label e_label_surface ≠ 0) →
        int_and r.pt_type e_pt_nan = 0 ∧ int_and r.pt_type e_pt_000 = 0) := by
  have c0 : int_and e_label_unlabeled e_label_corner = 0 := by decide
  have s0 : int_and e_label_unlabeled e_label_surface = 0 := by decide
  rcases hr with hr | ⟨hcrit, hr⟩
  · rw [hr, hlab]
    refine ⟨fun _ h => h.1 c0, ?_⟩
    rintro (h | h)
    · exact absurd c0 h
    · exact absurd s0 h
  · rw [hr]
    refine ⟨fun hv => label_point_exclusive env zl j hthr hlab hv, fun _ => ?_⟩
    rw [(label_point_pt_type env zl j).1]
    exact int_and_critical _ hcrit

end LabelTheorems

section LabelClaims

open Zvision_laser

variable {K : Type} [LinearOrderedField K]

theorem Zvision_laser.projection_unlabeled (env : Feature_env K) (zl0 : Zvision_laser K)
    (cloud : List (PointType K)) (j : Nat) :
    ((projection_scan_3d_2d_zvision env zl0 cloud).m_pts_info_vec.getD j
      Pt_infos.init).pt_label = e_label_unlabeled := by
  by_cases hj : j < cloud.length
  · rw [projection_entry env zl0 cloud j hj]
    exact (project_point_label env zl0 _ _).1
  · rw [List.getD_eq_default _ _ (by rw [projection_length]; omega)]
    rfl

/-- C32 (amended): for every interior sample for which curvature and view angle are computed
(its type has neither the zero nor the nan bit, in `compute_features_zvision` it passes the
azimuth test, and it does not get the invalid label), on a state whose label was unlabelled:
the surface bit is set on its label if and only if the stored curvature is below
`thr_surface_curvature` and the stored view angle is strictly above `minimum_view_angle`; this
holds for `compute_features_zvision` (frames of 3 beams of 10000 samples) and for
`compute_features`. -/
theorem C32_surface_label_iff (env : Feature_env K) (zl : Zvision_laser K)
    (hl : zl.m_pts_info_vec.length = zl.m_raw_pts_vec.length)
    (h32 : zl.m_raw_pts_vec.length < 4294967296) :
    (∀ laser g, 30000 ≤ zl.m_raw_pts_vec.length → laser < 3 → 2 ≤ g → g ≤ 9997 →
      (zl.m_pts_info_vec.getD (10000 * laser + g) Pt_infos.init).pt_label = e_label_unlabeled →
      int_and (zl.m_pts_info_vec.getD (10000 * laser + g) Pt_infos.init).pt_type
        critical_rm_point = 0 →
      not_boundary_point env laser g →
      (after_zvision env zl (10000 * laser + g)).pt_label ≠ e_label_invalid →
      (int_and (after_zvision env zl (10000 * laser + g)).pt_label e_label_surface ≠ 0
        ↔ ((after_zvision env zl (10000 * laser + g)).curvature < zl.thr_surface_curvature
          ∧ (after_zvision env zl (10000 * laser + g)).view_angle > zl.minimum_view_angle)))
    ∧ (∀ idx, 2 ≤ idx → idx + 2 < zl.m_raw_pts_vec.length →
      (zl.m_pts_info_vec.getD idx Pt_infos.init).pt_label = e_label_unlabeled →
      int_and (zl.m_pts_info_vec.getD idx Pt_infos.init).pt_type critical_rm_point = 0 →
      (after_features env zl idx).pt_label ≠ e_label_invalid →
      (int_and (after_features env zl idx).pt_label e_label_surface ≠ 0
        ↔ ((after_features env zl idx).curvature < zl.thr_surface_curvature
          ∧ (after_features env zl idx).view_angle > zl.minimum_view_angle))) := by
  constructor
  · intro laser g hlen hlaser hg1 hg2 hlab hcrit hnb hvalid
    rw [after_zvision_eq env zl laser g (by omega) hlaser hg1 hg2 hcrit hnb] at hvalid ⊢
    rw [(label_point_valid env zl _ hlab hvalid).1]
    exact and_comm
  · intro idx hi1 hi2 hlab hcrit hvalid
    rw [after_features_eq env zl idx hl h32 hi1 hi2 hcrit] at hvalid ⊢
    rw [(label_point_valid env zl _ hlab hvalid).1]
    exact and_comm

/-- C33: for every interior sample that reaches and passes the view-angle test (its type has
neither the zero nor the nan bit, in `compute_features_zvision` it passes the azimuth test, it
does not get the invalid label, and its stored view angle exceeds `minimum_view_angle`), on a
state whose label was unlabelled: the corner bit is set on its label if and only if the stored
curvature exceeds `thr_corner_curvature`, its squared range is at most that of the `-2` and of
the `+2` neighbour, and its squared range differs from that of one of the two by less than
`0.1` times its own squared range; this holds for `compute_features_zvision` and for
`compute_features`. -/
theorem C33_corner_label_iff (env : Feature_env K) (zl : Zvision_laser K)
    (hl : zl.m_pts_info_vec.length = zl.m_raw_pts_vec.length)
    (h32 : zl.m_raw_pts_vec.length < 4294967296) :
    (∀ laser g, 30000 ≤ zl.m_raw_pts_vec.length → laser < 3 → 2 ≤ g → g ≤ 9997 →
      (zl.m_pts_info_vec.getD (10000 * laser + g) Pt_infos.init).pt_label = e_label_unlabeled →
      int_and (zl.m_pts_info_vec.getD (10000 * laser + g) Pt_infos.init).pt_type
        critical_rm_point = 0 →
      not_boundary_point env laser g →
      (after_zvision env zl (10000 * laser + g)).pt_label ≠ e_label_invalid →
      (after_zvision env zl (10000 * laser + g)).view_angle > zl.minimum_view_angle →
      (int_and (after_zvision env zl (10000 * laser + g)).pt_label e_label_corner ≠ 0
        ↔ ((after_zvision env zl (10000 * laser + g)).curvature > zl.thr_corner_curvature
          ∧ ((zl.m_pts_info_vec.getD (10000 * laser + g) Pt_infos.init).depth_sq2
                ≤ (zl.m_pts_info_vec.getD (10000 * laser + g - 2) Pt_infos.init).depth_sq2
            ∧ (zl.m_pts_info_vec.getD (10000 * laser + g) Pt_infos.init).depth_sq2
                ≤ (zl.m_pts_info_vec.getD (10000 * laser + g + 2) Pt_infos.init).depth_sq2)
          ∧ (|(zl.m_pts_info_vec.getD (10000 * laser + g) Pt_infos.init).depth_sq2
                - (zl.m_pts_info_vec.getD (10000 * laser + g - 2) Pt_infos.init).depth_sq2|
              < 1 / 10 * (zl.m_pts_info_vec.getD (10000 * laser + g) Pt_infos.init).depth_sq2
            ∨ |(zl.m_pts_info_vec.getD (10000 * laser + g) Pt_infos.init).depth_sq2
                - (zl.m_pts_info_vec.getD (10000 * laser + g + 2) Pt_infos.init).depth_sq2|
              < 1 / 10
                * (zl.m_pts_info_vec.getD (10000 * laser + g) Pt_infos.init).depth_sq2))))
    ∧ (∀ idx, 2 ≤ idx → idx + 2 < zl.m_raw_pts_vec.length →
      (zl.m_pts_info_vec.getD idx Pt_infos.init).pt_label = e_label_unlabeled →
      int_and (zl.m_pts_info_vec.getD idx Pt_infos.init).pt_type critical_rm_point = 0 →
      (after_features env zl idx).pt_label ≠ e_label_invalid →
      (after_features env zl idx).view_angle > zl.minimum_view_angle →
      (int_and (after_features env zl idx).pt_label e_label_corner ≠ 0
        ↔ ((after_features env zl idx).curvature > zl.thr_corner_curvature
          ∧ ((zl.m_pts_info_vec.getD idx Pt_infos.init).depth_sq2
                ≤ (zl.m_pts_info_vec.getD (idx - 2) Pt_infos.init).depth_sq2
            ∧ (zl.m_pts_info_vec.getD idx Pt_infos.init).depth_sq2
                ≤ (zl.m_pts_info_vec.getD (idx + 2) Pt_infos.init).depth_sq2)
          ∧ (|(zl.m_pts_info_vec.getD idx Pt_infos.init).depth_sq2
                - (zl.m_pts_info_vec.getD (idx - 2) Pt_infos.init).depth_sq2|
              < 1 / 10 * (zl.m_pts_info_vec.getD idx Pt_infos.init).depth_sq2
            ∨ |(zl.m_pts_info_vec.getD idx Pt_infos.init).depth_sq2
                - (zl.m_pts_info_vec.getD (idx + 2) Pt_infos.init).depth_sq2|
              < 1 / 10 * (zl.m_pts_info_vec.getD idx Pt_infos.init).depth_sq2)))) := by
  constructor
  · intro laser g hlen hlaser hg1 hg2 hlab hcrit hnb hvalid hview
    rw [after_zvision_eq env zl laser g (by omega) hlaser hg1 hg2 hcrit hnb] at hvalid hview ⊢
    rw [(label_point_valid env zl _ hlab hvalid).2.1]
    exact ⟨fun h => h.2, fun h => ⟨hview, h⟩⟩
  · intro idx hi1 hi2 hlab hcrit hvalid hview
    rw [after_features_eq env zl idx hl h32 hi1 hi2 hcrit] at hvalid hview ⊢
    rw [(label_point_valid env zl _ hlab hvalid).2.1]
    exact ⟨fun h => h.2, fun h => ⟨hview, h⟩⟩

/-- C38: on a state whose labels are all unlabelled (as the projection leaves them), whenever
`thr_surface_curvature <= thr_corner_curvature`: after `compute_features_zvision` (frames of
at least 30000 points) and after `compute_features` (frames of at least 2 points) no record
whose label is not `e_label_invalid` has both the corner bit and the surface bit, and a record
with the corner or the surface bit in its label has neither the nan nor the zero bit in its
type. -/
theorem C38_labels_exclusive (env : Feature_env K) (zl : Zvision_laser K)
    (hthr : zl.thr_surface_curvature ≤ zl.thr_corner_curvature)
    (hlab : ∀ j, (zl.m_pts_info_vec.getD j Pt_infos.init).pt_label = e_label_unlabeled)
    (hl : zl.m_pts_info_vec.length = zl.m_raw_pts_vec.length)
    (h32 : zl.m_raw_pts_vec.length < 4294967296) :
    (30000 ≤ zl.m_raw_pts_vec.length → ∀ j,
      ((after_zvision env zl j).pt_label ≠ e_label_invalid →
        ¬ (int_and (after_zvision env zl j).pt_label e_label_corner ≠ 0
          ∧ int_and (after_zvision env zl j).pt_label e_label_surface ≠ 0))
      ∧ ((int_and (after_zvision env zl j).pt_label e_label_corner ≠ 0
            ∨ int_and (after_zvision env zl j).pt_label e_label_surface ≠ 0) →
          int_and (after_zvision env zl j).pt_type e_pt_nan = 0
          ∧ int_and (after_zvision env zl j).pt_type e_pt_000 = 0))
    ∧ (2 ≤ zl.m_raw_pts_vec.length → ∀ j,
      ((after_features env zl j).pt_label ≠ e_label_invalid →
        ¬ (int_and (after_features env zl j).pt_label e_label_corner ≠ 0
          ∧ int_and (after_features env zl j).pt_label e_label_surface ≠ 0))
      ∧ ((int_and (after_features env zl j).pt_label e_label_corner ≠ 0
            ∨ int_and (after_features env zl j).pt_label e_label_surface ≠ 0) →
          int_and (after_features env zl j).pt_type e_pt_nan = 0
          ∧ int_and (after_features env zl j).pt_type e_pt_000 = 0)) := by
  constructor
  · intro hlen j
    exact record_invariant env zl hthr j (hlab j) _
      (after_zvision_cases env zl (by omega) j)
  · intro hlen j
    exact record_invariant env zl hthr j (hlab j) _ (after_features_cases env zl hl hlen h32 j)

theorem line_frame_sample (env : Feature_env ℚ) (hfin : ∀ x, env.cm.isfinite x = true)
    (hang : env.angle_data = example_env.angle_data) :
    (projection_scan_3d_2d_zvision env Zvision_laser.init line_frame).m_pts_info_vec.length
        = (projection_scan_3d_2d_zvision env Zvision_laser.init line_frame).m_raw_pts_vec.length
    ∧ (projection_scan_3d_2d_zvision env Zvision_laser.init line_frame).m_raw_pts_vec.length
        = 30000
    ∧ int_and ((projection_scan_3d_2d_zvision env Zvision_laser.init
        line_frame).m_pts_info_vec.getD (10000 * 0 + 5000) Pt_infos.init).pt_type
          critical_rm_point = 0
    ∧ not_boundary_point env 0 5000
    ∧ after_zvision env (projection_scan_3d_2d_zvision env Zvision_laser.init line_frame)
          (10000 * 0 + 5000)
        = { project_point_zvision env Zvision_laser.init (10000 * 0 + 5000)
              (line_frame.getD (10000 * 0 + 5000) PointType.init) with
            pt_label := feature_label Zvision_laser.init e_label_unlabeled 0
              (view_angle_at env line_frame (10000 * 0 + 5000))
              (depth2_xyz (line_frame.getD (10000 * 0 + 5000) PointType.init).x
                (line_frame.getD (10000 * 0 + 5000) PointType.init).y
                (line_frame.getD (10000 * 0 + 5000) PointType.init).z)
              (depth2_xyz (line_frame.getD (10000 * 0 + 5000 - 2) PointType.init).x
                (line_frame.getD (10000 * 0 + 5000 - 2) PointType.init).y
                (line_frame.getD (10000 * 0 + 5000 - 2) PointType.init).z)
              (depth2_xyz (line_frame.getD (10000 * 0 + 5000 + 2) PointType.init).x
                (line_frame.getD (10000 * 0 + 5000 + 2) PointType.init).y
                (line_frame.getD (10000 * 0 + 5000 + 2) PointType.init).z)
            curvature := 0
            view_angle := view_angle_at env line_frame (10000 * 0 + 5000) } := by
  have hlen : line_frame.length = 30000 := by simp [line_frame]
  have hnd : ∀ j, 10000 * 0 + 5000 - 2 ≤ j → j ≤ 10000 * 0 + 5000 + 2 →
      non_degenerate env (line_frame.getD j PointType.init) := by
    intro j _ hj
    rw [line_frame_getD j (by omega)]
    refine ⟨hfin _, hfin _, hfin _, ?_⟩
    show (5 : ℚ) ≠ 0
    norm_num
  have hline : equally_spaced line_frame (10000 * 0 + 5000) ⟨1 / 1000, 0, 0⟩ := by
    refine ⟨?_, ?_, ?_, ?_⟩ <;>
      rw [line_frame_getD _ (by decide), line_frame_getD _ (by decide)] <;>
      ext <;> norm_num [PointType.pos, Vector3d.add, Vector3d.sub, Vector3d.scale]
  have hnb : not_boundary_point env 0 5000 := by
    have := example_env_not_boundary 0 5000 (by decide)
    unfold not_boundary_point at this ⊢
    rw [hang]
    exact this
  obtain ⟨_, _, hcrit⟩ := projection_clean env Zvision_laser.init line_frame (10000 * 0 + 5000)
    (by decide) (by rw [hlen]; decide) hnd
  refine ⟨?_, ?_, hcrit, hnb, ?_⟩
  · rw [projection_length, projection_raw]
  · rw [projection_raw, hlen]
  · rw [after_zvision_eq env _ 0 5000 (by rw [projection_length, hlen]) (by decide) (by decide)
        (by decide) hcrit hnb,
      label_point_projection env Zvision_laser.init line_frame _ (by decide)
        (by rw [hlen]; decide) hnd,
      equally_spaced_laplacian _ _ _ hline]

theorem C32_surface_label_iff_witness :
    (projection_scan_3d_2d_zvision example_env Zvision_laser.init
        line_frame).m_pts_info_vec.length
      = (projection_scan_3d_2d_zvision example_env Zvision_laser.init
        line_frame).m_raw_pts_vec.length
    ∧ (projection_scan_3d_2d_zvision example_env Zvision_laser.init
        line_frame).m_raw_pts_vec.length < 4294967296
    ∧ (int_and (after_zvision example_env (projection_scan_3d_2d_zvision example_env
          Zvision_laser.init line_frame) (10000 * 0 + 5000)).pt_label e_label_surface ≠ 0
        ↔ ((after_zvision example_env (projection_scan_3d_2d_zvision example_env
              Zvision_laser.init line_frame) (10000 * 0 + 5000)).curvature
            < (projection_scan_3d_2d_zvision example_env Zvision_laser.init
              line_frame).thr_surface_curvature
          ∧ (after_zvision example_env (projection_scan_3d_2d_zvision example_env
              Zvision_laser.init line_frame) (10000 * 0 + 5000)).view_angle
            > (projection_scan_3d_2d_zvision example_env Zvision_laser.init
              line_frame).minimum_view_angle)) := by
  obtain ⟨hl, hlen, hcrit, hnb, hrec⟩ := line_frame_sample example_env (fun _ => rfl) rfl
  have h32 : (projection_scan_3d_2d_zvision example_env Zvision_laser.init
      line_frame).m_raw_pts_vec.length < 4294967296 := by
    rw [hlen]
    decide
  refine ⟨hl, h32, (C32_surface_label_iff example_env _ hl h32).1 0 5000 (by rw [hlen])
    (by decide) (by decide) (by decide) (projection_unlabeled _ _ _ _) hcrit hnb ?_⟩
  rw [hrec]
  exact (feature_label_bits _ _ (Or.inl rfl) _ _ _ _ _).1

/-- C32 (counterexample to the boundary case of the claim): the frame `line_frame` (three
straight beams) with every view angle exactly `10` degrees, the default `minimum_view_angle`.
Sample 5000 of beam 0 is evaluated (it is neither nan nor zero, passes the azimuth test and is
not labelled invalid); its stored curvature is `0`, below `thr_surface_curvature = 0.01`, and
its stored view angle is `10`, equal to the minimum; its label stays unlabelled, without the
surface bit. -/
theorem C32_counterexample :
    (after_zvision grazing_env (projection_scan_3d_2d_zvision grazing_env Zvision_laser.init
        line_frame) (10000 * 0 + 5000)).curvature = 0
    ∧ (after_zvision grazing_env (projection_scan_3d_2d_zvision grazing_env Zvision_laser.init
        line_frame) (10000 * 0 + 5000)).view_angle = 10
    ∧ (projection_scan_3d_2d_zvision grazing_env Zvision_laser.init
        line_frame).thr_surface_curvature = 1 / 100
    ∧ (projection_scan_3d_2d_zvision grazing_env Zvision_laser.init
        line_frame).minimum_view_angle = 10
    ∧ int_and ((projection_scan_3d_2d_zvision grazing_env Zvision_laser.init
        line_frame).m_pts_info_vec.getD (10000 * 0 + 5000) Pt_infos.init).pt_type
          critical_rm_point = 0
    ∧ not_boundary_point grazing_env 0 5000
    ∧ (after_zvision grazing_env (projection_scan_3d_2d_zvision grazing_env Zvision_laser.init
        line_frame) (10000 * 0 + 5000)).pt_label = e_label_unlabeled
    ∧ ¬ (int_and (after_zvision grazing_env (projection_scan_3d_2d_zvision grazing_env
          Zvision_laser.init line_frame) (10000 * 0 + 5000)).pt_label e_label_surface ≠ 0
        ↔ ((after_zvision grazing_env (projection_scan_3d_2d_zvision grazing_env
              Zvision_laser.init line_frame) (10000 * 0 + 5000)).curvature
            < (projection_scan_3d_2d_zvision grazing_env Zvision_laser.init
              line_frame).thr_surface_curvature
          ∧ (after_zvision grazing_env (projection_scan_3d_2d_zvision grazing_env
              Zvision_laser.init line_frame) (10000 * 0 + 5000)).view_angle
            ≥ (projection_scan_3d_2d_zvision grazing_env Zvision_laser.init
              line_frame).minimum_view_angle)) := by
  obtain ⟨_, _, hcrit, hnb, hrec⟩ := line_frame_sample grazing_env (fun _ => rfl) rfl
  have hview : view_angle_at grazing_env line_frame (10000 * 0 + 5000) = 10 := by
    simp only [view_angle_at, grazing_env]
    norm_num
  have hthr : (projection_scan_3d_2d_zvision grazing_env Zvision_laser.init
      line_frame).thr_surface_curvature = 1 / 100 := by
    simp only [projection_scan_3d_2d_zvision, Zvision_laser.init]
  have hmin : (projection_scan_3d_2d_zvision grazing_env Zvision_laser.init
      line_frame).minimum_view_angle = 10 := by
    simp only [projection_scan_3d_2d_zvision, Zvision_laser.init]
  have hlabel : ∀ c d0 dm dp : ℚ,
      feature_label (Zvision_laser.init : Zvision_laser ℚ) e_label_unlabeled c 10 d0 dm dp
        = e_label_unlabeled := by
    intro c d0 dm dp
    have hno : ¬ ((10 : ℚ) > (Zvision_laser.init : Zvision_laser ℚ).minimum_view_angle) := by
      norm_num [Zvision_laser.init]
    simp only [feature_label, if_neg hno]
  have hcurv : (after_zvision grazing_env (projection_scan_3d_2d_zvision grazing_env
      Zvision_laser.init line_frame) (10000 * 0 + 5000)).curvature = 0 := by
    rw [hrec]
  have hva : (after_zvision grazing_env (projection_scan_3d_2d_zvision grazing_env
      Zvision_laser.init line_frame) (10000 * 0 + 5000)).view_angle = 10 := by
    rw [hrec]
    exact hview
  have hlab : (after_zvision grazing_env (projection_scan_3d_2d_zvision grazing_env
      Zvision_laser.init line_frame) (10000 * 0 + 5000)).pt_label = e_label_unlabeled := by
    rw [hrec]
    show feature_label _ _ _ (view_angle_at grazing_env line_frame (10000 * 0 + 5000)) _ _ _ = _
    rw [hview]
    exact hlabel _ _ _ _
  rw [hcurv, hva, hlab, hthr, hmin]
  refine ⟨rfl, rfl, rfl, rfl, hcrit, hnb, rfl, ?_⟩
  intro h
  have h0 : int_and e_label_unlabeled e_label_surface = 0 := by decide
  exact (h.mpr ⟨by norm_num, le_refl _⟩) h0

theorem C33_corner_label_iff_witness :
    (projection_scan_3d_2d_zvision example_env Zvision_laser.init
        line_frame).m_pts_info_vec.length
      = (projection_scan_3d_2d_zvision example_env Zvision_laser.init
        line_frame).m_raw_pts_vec.length
    ∧ (projection_scan_3d_2d_zvision example_env Zvision_laser.init
        line_frame).m_raw_pts_vec.length < 4294967296
    ∧ (after_zvision example_env (projection_scan_3d_2d_zvision example_env Zvision_laser.init
        line_frame) (10000 * 0 + 5000)).view_angle
      > (projection_scan_3d_2d_zvision example_env Zvision_laser.init
        line_frame).minimum_view_angle
    ∧ ¬ (int_and (after_zvision example_env (projection_scan_3d_2d_zvision example_env
          Zvision_laser.init line_frame) (10000 * 0 + 5000)).pt_label e_label_corner ≠ 0) := by
  obtain ⟨hl, hlen, hcrit, hnb, hrec⟩ := line_frame_sample example_env (fun _ => rfl) rfl
  have h32 : (projection_scan_3d_2d_zvision example_env Zvision_laser.init
      line_frame).m_raw_pts_vec.length < 4294967296 := by
    rw [hlen]
    decide
  have hvalid : (after_zvision example_env (projection_scan_3d_2d_zvision example_env
      Zvision_laser.init line_frame) (10000 * 0 + 5000)).pt_label ≠ e_label_invalid := by
    rw [hrec]
    exact (feature_label_bits _ _ (Or.inl rfl) _ _ _ _ _).1
  have hview : (after_zvision example_env (projection_scan_3d_2d_zvision example_env
      Zvision_laser.init line_frame) (10000 * 0 + 5000)).view_angle
      > (projection_scan_3d_2d_zvision example_env Zvision_laser.init
        line_frame).minimum_view_angle := by
    rw [hrec]
    simp only [view_angle_at, example_env, projection_scan_3d_2d_zvision, Zvision_laser.init]
    norm_num
  have hcurv : (after_zvision example_env (projection_scan_3d_2d_zvision example_env
      Zvision_laser.init line_frame) (10000 * 0 + 5000)).curvature = 0 := by
    rw [hrec]
  refine ⟨hl, h32, hview, ?_⟩
  rw [(C33_corner_label_iff example_env _ hl h32).1 0 5000 (by rw [hlen])
    (by decide) (by decide) (by decide) (projection_unlabeled _ _ _ _) hcrit hnb hvalid hview,
    hcurv]
  intro h
  have : (0 : ℚ) > 5 / 100 := by
    have h1 := h.1
    simp only [projection_scan_3d_2d_zvision, Zvision_laser.init] at h1
    exact h1
  norm_num at this

theorem C38_labels_exclusive_witness :
    (projection_scan_3d_2d_zvision example_env Zvision_laser.init
        line_frame).thr_surface_curvature
      ≤ (projection_scan_3d_2d_zvision example_env Zvision_laser.init
        line_frame).thr_corner_curvature
    ∧ (int_and (after_zvision example_env (projection_scan_3d_2d_zvision example_env
          Zvision_laser.init line_frame) 5000).pt_label e_label_corner ≠ 0
        ∨ int_and (after_zvision example_env (projection_scan_3d_2d_zvision example_env
          Zvision_laser.init line_frame) 5000).pt_label e_label_surface ≠ 0 →
      int_and (after_zvision example_env (projection_scan_3d_2d_zvision example_env
          Zvision_laser.init line_frame) 5000).pt_type e_pt_nan = 0
      ∧ int_and (after_zvision example_env (projection_scan_3d_2d_zvision example_env
          Zvision_laser.init line_frame) 5000).pt_type e_pt_000 = 0)
    ∧ (int_and (after_features example_env (projection_scan_3d_2d_zvision example_env
          Zvision_laser.init line_frame) 5000).pt_label e_label_corner ≠ 0
        ∨ int_and (after_features example_env (projection_scan_3d_2d_zvision example_env
          Zvision_laser.init line_frame) 5000).pt_label e_label_surface ≠ 0 →
      int_and (after_features example_env (projection_scan_3d_2d_zvision example_env
          Zvision_laser.init line_frame) 5000).pt_type e_pt_nan = 0
      ∧ int_and (after_features example_env (projection_scan_3d_2d_zvision example_env
          Zvision_laser.init line_frame) 5000).pt_type e_pt_000 = 0) := by
  obtain ⟨hl, hlen, _, _, _⟩ := line_frame_sample example_env (fun _ => rfl) rfl
  have h32 : (projection_scan_3d_2d_zvision example_env Zvision_laser.init
      line_frame).m_raw_pts_vec.length < 4294967296 := by
    rw [hlen]
    decide
  have hthr : (projection_scan_3d_2d_zvision example_env Zvision_laser.init
      line_frame).thr_surface_curvature
      ≤ (projection_scan_3d_2d_zvision example_env Zvision_laser.init
        line_frame).thr_corner_curvature := by
    simp only [projection_scan_3d_2d_zvision, Zvision_laser.init]
    norm_num
  have h := C38_labels_exclusive example_env _ hthr (projection_unlabeled _ _ _) hl h32
  exact ⟨hthr, ((h.1 (by rw [hlen])) 5000).2, ((h.2 (by rw [hlen]; decide)) 5000).2⟩

end LabelClaims

section HoleTheorems

open Zvision_laser

theorem Zvision_laser.Pt_infos.with_feature_fields {F : Type} (r s : Pt_infos F) (l : Int)
    (c v : F) (h : s = { r with pt_label := l, curvature := c, view_angle := v }) :
    s.pt_label = l ∧ s.curvature = c ∧ s.view_angle = v ∧ s.pt_type = r.pt_type
    ∧ s.depth_sq2 = r.depth_sq2 ∧ s.idx = r.idx := by
  subst h
  exact ⟨rfl, rfl, rfl, rfl, rfl, rfl⟩

theorem hole_near_record :
    (hole_state.m_pts_info_vec.getD 5001 Pt_infos.init).pt_type = e_pt_normal
    ∧ (hole_state.m_pts_info_vec.getD 5001 Pt_infos.init).pt_label
        = int_or e_label_near_zero e_label_corner
    ∧ (hole_state.m_pts_info_vec.getD 5001 Pt_infos.init).curvature = 800
    ∧ (hole_state.m_pts_info_vec.getD 5001 Pt_infos.init).depth_sq2 = 50
    ∧ (hole_state.m_pts_info_vec.getD 5001 Pt_infos.init).idx = 5001 := by
  have hlen : hole_frame.length = 30000 := by simp [hole_frame]
  have e0 : (5001 : Nat) = 10000 * 0 + 5001 := rfl
  obtain ⟨n0, d0⟩ := hole_frame_entry_normal 5001 (by decide) (by decide)
  obtain ⟨_, dm⟩ := hole_frame_entry_normal 4999 (by decide) (by decide)
  obtain ⟨_, dp⟩ := hole_frame_entry_normal 5003 (by decide) (by decide)
  have z := hole_frame_entry_zero
  have hlab := projection_unlabeled example_env Zvision_laser.init hole_frame 5001
  have hz1 : int_and ((projection_scan_3d_2d_zvision example_env Zvision_laser.init
      hole_frame).m_pts_info_vec.getD (5001 + 1) Pt_infos.init).pt_type e_pt_000 ≠ 0
      ∨ int_and ((projection_scan_3d_2d_zvision example_env Zvision_laser.init
        hole_frame).m_pts_info_vec.getD (5001 - 1) Pt_infos.init).pt_type e_pt_000 ≠ 0 := by
    left
    show int_and ((projection_scan_3d_2d_zvision example_env Zvision_laser.init
      hole_frame).m_pts_info_vec.getD 5002 Pt_infos.init).pt_type e_pt_000 ≠ 0
    rw [z]
    decide
  have o8 : int_or e_label_unlabeled e_label_near_zero = e_label_near_zero := by decide
  have hne8 : ¬ (e_label_near_zero = e_label_invalid) := by decide
  have hacc : accumulate_neighbors
      (projection_scan_3d_2d_zvision example_env Zvision_laser.init hole_frame).m_pts_info_vec
      (projection_scan_3d_2d_zvision example_env Zvision_laser.init hole_frame).m_raw_pts_vec
      5001 [1, 2] (⟨0, 0, 0⟩, e_label_unlabeled) = (⟨0, 0, 0⟩, e_label_near_zero) := by
    simp only [accumulate_neighbors, if_pos hz1, if_true, o8]
  have hp : (projection_scan_3d_2d_zvision example_env Zvision_laser.init
      hole_frame).m_raw_pts_vec.getD 5001 PointType.init = ⟨5, 5, 0, 0⟩ := by
    rw [projection_raw, hole_frame_getD 5001 (by decide), if_neg (by decide)]
  have hcurv : window_curvature (⟨0, 0, 0⟩ : Vector3d ℚ) ⟨5, 5, 0, 0⟩ = 800 := by
    rw [window_curvature_zero]
    norm_num [depth2_xyz]
  have hview : view_angle_at example_env (projection_scan_3d_2d_zvision example_env
      Zvision_laser.init hole_frame).m_raw_pts_vec 5001 = 573 / 10 := by
    simp only [view_angle_at, example_env]
    norm_num
  have hdm : ((projection_scan_3d_2d_zvision example_env Zvision_laser.init
      hole_frame).m_pts_info_vec.getD (5001 - curvature_ssd_size) Pt_infos.init).depth_sq2
      = 50 := dm
  have hdp : ((projection_scan_3d_2d_zvision example_env Zvision_laser.init
      hole_frame).m_pts_info_vec.getD (5001 + curvature_ssd_size) Pt_infos.init).depth_sq2
      = 50 := dp
  have hfl : feature_label (projection_scan_3d_2d_zvision example_env Zvision_laser.init
      hole_frame) e_label_near_zero 800 (573 / 10) 50 50 50
      = int_or e_label_near_zero e_label_corner := by
    rw [feature_label_projection]
    have h1 : (573 / 10 : ℚ) > (Zvision_laser.init : Zvision_laser ℚ).minimum_view_angle := by
      norm_num [Zvision_laser.init]
    have h2 : ¬ ((800 : ℚ) < (Zvision_laser.init : Zvision_laser ℚ).thr_surface_curvature) := by
      norm_num [Zvision_laser.init]
    have h3 : (800 : ℚ) > (Zvision_laser.init : Zvision_laser ℚ).thr_corner_curvature := by
      norm_num [Zvision_laser.init]
    have h4 : (50 : ℚ) ≤ 50 ∧ (50 : ℚ) ≤ 50 := ⟨le_refl _, le_refl _⟩
    have h5 : |(50 : ℚ) - 50| < 1 / 10 * 50 ∨ |(50 : ℚ) - 50| < 1 / 10 * 50 := by
      left
      norm_num
    simp only [feature_label, if_pos h1, if_neg h2, if_pos h3, if_pos h4, if_pos h5]
  have hrec : hole_state.m_pts_info_vec.getD 5001 Pt_infos.init
      = label_point example_env (projection_scan_3d_2d_zvision example_env Zvision_laser.init
          hole_frame) 5001 := by
    unfold hole_state
    rw [e0, (compute_features_zvision_spec example_env _
        (by rw [projection_length, hlen])).2.1 0 5001 (by decide) (by decide) (by decide),
      compute_point_zvision_pass example_env 0 5001 _ (by decide)
        (by rw [← e0, n0]; decide),
      if_pos (example_env_not_boundary 0 5001 (by decide))]
  have hlp : label_point example_env (projection_scan_3d_2d_zvision example_env
      Zvision_laser.init hole_frame) 5001
      = { (projection_scan_3d_2d_zvision example_env Zvision_laser.init
            hole_frame).m_pts_info_vec.getD 5001 Pt_infos.init with
          pt_label := int_or e_label_near_zero e_label_corner
          curvature := 800
          view_angle := 573 / 10 } := by
    simp only [label_point, hlab, hacc, hne8, if_false, hp, hcurv, hview, hdm, hdp, d0, hfl]
  obtain ⟨f1, f2, _, f4, f5, f6⟩ := Pt_infos.with_feature_fields _ _ _ _ _ (hrec.trans hlp)
  refine ⟨f4.trans n0, f1, f2, f5.trans d0, f6.trans ?_⟩
  rw [projection_entry _ _ _ 5001 (by rw [hlen]; decide)]
  exact project_point_idx _ _ _ _


/-- C31 (code evaluated on the failing input): in the loop body shared by
`compute_features_zvision` and `compute_features`, a sample that is evaluated and not labelled
invalid stores the squared norm of `p[-2] + p[-1] + p[+1] + p[+2] - 4 p[0]` when neither
neighbour at offset `±1` is zero or nan, and stores `16 |p[0]|^2` (the neighbour sum is left
at zero by the `break`) when one of them is. In `hole_frame` only point 5002 has a zero
secondary coordinate; its neighbour 5001 is neither nan nor zero, gets the label
`near_zero | corner` (not invalid) and the stored curvature `800`, whereas the discrete
Laplacian of its window is `25`; `get_features_zvision` emits it as a corner. -/
theorem C31_curvature_beside_hole {K : Type} [LinearOrderedField K] :
    (∀ (env : Feature_env K) (zl : Zvision_laser K) (idx : Nat),
      (zl.m_pts_info_vec.getD idx Pt_infos.init).pt_label = e_label_unlabeled →
      (label_point env zl idx).pt_label ≠ e_label_invalid →
      (clean_adjacent zl.m_pts_info_vec idx →
        (label_point env zl idx).curvature = discrete_laplacian_sq zl.m_raw_pts_vec idx)
      ∧ (¬ clean_adjacent zl.m_pts_info_vec idx →
        (label_point env zl idx).curvature
          = 16 * depth2_xyz (zl.m_raw_pts_vec.getD idx PointType.init).x
              (zl.m_raw_pts_vec.getD idx PointType.init).y
              (zl.m_raw_pts_vec.getD idx PointType.init).z))
    ∧ (hole_frame.getD 5002 PointType.init).y = 0
    ∧ (hole_state.m_pts_info_vec.getD 5001 Pt_infos.init).pt_type = e_pt_normal
    ∧ (hole_state.m_pts_info_vec.getD 5001 Pt_infos.init).pt_label
        = int_or e_label_near_zero e_label_corner
    ∧ (hole_state.m_pts_info_vec.getD 5001 Pt_infos.init).pt_label ≠ e_label_invalid
    ∧ (hole_state.m_pts_info_vec.getD 5001 Pt_infos.init).curvature = 800
    ∧ discrete_laplacian_sq hole_frame 5001 = 25
    ∧ (5001, feature_point hole_state 5001) ∈ (get_features_zvision hole_state 0).pc_corners := by
  obtain ⟨htyp, hlab, hcurv, hdep, hidx⟩ := hole_near_record
  have hlen : hole_state.m_pts_info_vec.length = 30000 := hole_state_fields.2.2.2.2
  refine ⟨?_, ?_, htyp, hlab, ?_, hcurv, ?_, ?_⟩
  · intro env zl idx hl hv
    obtain ⟨_, _, _, h1, h2⟩ := label_point_valid env zl idx hl hv
    exact ⟨h1, h2⟩
  · rw [hole_frame_getD 5002 (by decide), if_pos rfl]
  · rw [hlab]
    decide
  · unfold discrete_laplacian_sq
    have e1 : 5001 + 1 = 5002 := rfl
    have e2 : 5001 - 1 = 5000 := rfl
    have e3 : 5001 + 2 = 5003 := rfl
    have e4 : 5001 - 2 = 4999 := rfl
    rw [e1, e2, e3, e4, hole_frame_getD 5002 (by decide), hole_frame_getD 5000 (by decide),
      hole_frame_getD 5003 (by decide), hole_frame_getD 4999 (by decide),
      hole_frame_getD 5001 (by decide), if_pos rfl, if_neg (by decide), if_neg (by decide),
      if_neg (by decide), if_neg (by decide)]
    norm_num [PointType.pos, Vector3d.add, Vector3d.sub, Vector3d.scale, Vector3d.squaredNorm]
  · have hrange : 5001 ∈ List.range hole_state.m_pts_info_vec.length := by
      rw [List.mem_range, hlen]
      decide
    have hb : (if (0 : Int) = 255 then 0 else 0 * 10000)
        ≤ (hole_state.m_pts_info_vec.getD 5001 Pt_infos.init).idx := by
      rw [hidx]
      decide
    have he : (hole_state.m_pts_info_vec.getD 5001 Pt_infos.init).idx
        ≤ (if (0 : Int) = 255 then 29999 else 0 * 10000 + 10000 - 1) := by
      rw [hidx]
      decide
    have hcrit : int_and (hole_state.m_pts_info_vec.getD 5001 Pt_infos.init).pt_type
        critical_rm_point = 0 := by
      rw [htyp]
      decide
    have hcorner : int_and (hole_state.m_pts_info_vec.getD 5001 Pt_infos.init).pt_label
        e_label_corner ≠ 0 := by
      rw [hlab]
      decide
    rw [get_features_zvision_corners]
    refine ⟨5001, hrange, rfl, hb, he, hcrit, hcorner, htyp, ?_⟩
    rw [hdep]
    norm_num

end HoleTheorems


/-! ## The Rodrigues deskew and slerp -/

section DeskewTheorems

open Laser_mapping

variable {K : Type} [LinearOrderedField K]

theorem Matrix3d.rodrigues_mulVec (om p : Vector3d K) (a b : K) :
    (((Matrix3d.Identity.add
        (Matrix3d.smul a ⟨⟨0, -om.z, om.y⟩, ⟨om.z, 0, -om.x⟩, ⟨-om.y, om.x, 0⟩⟩)).add
        (Matrix3d.smul b
          ((⟨⟨0, -om.z, om.y⟩, ⟨om.z, 0, -om.x⟩, ⟨-om.y, om.x, 0⟩⟩ : Matrix3d K).mul
            ⟨⟨0, -om.z, om.y⟩, ⟨om.z, 0, -om.x⟩, ⟨-om.y, om.x, 0⟩⟩))).mulVec p)
      = (p.add ((om.cross p).scale a)).add ((om.cross (om.cross p)).scale b) := by
  ext <;>
    simp only [Matrix3d.Identity, Matrix3d.add, Matrix3d.smul, Matrix3d.mul, Matrix3d.mulVec,
      Vector3d.add, Vector3d.scale, Vector3d.dot, Vector3d.cross] <;> ring

theorem Quaterniond.transformVector_axis_angle (om p : Vector3d K) (c s : K) :
    (⟨c, s * om.x, s * om.y, s * om.z⟩ : Quaterniond K).transformVector p
      = (p.add ((om.cross p).scale (2 * s * c))).add
          ((om.cross (om.cross p)).scale (2 * (s * s))) := by
  ext <;>
    simp only [Quaterniond.transformVector, Quaterniond.vec, Vector3d.add, Vector3d.scale,
      Vector3d.cross] <;> ring

theorem Matrix3d.hat_mulVec (om v : Vector3d K) :
    (⟨⟨0, -om.z, om.y⟩, ⟨om.z, 0, -om.x⟩, ⟨-om.y, om.x, 0⟩⟩ : Matrix3d K).mulVec v
      = om.cross v := by
  ext <;> simp only [Matrix3d.mulVec, Vector3d.dot, Vector3d.cross] <;> ring


theorem Quaterniond.unit_facts (cm : Cmath K) (hT : cm.TrigLaws) (hS : cm.SqrtLaws)
    (hR : cm.RotationLaws) (q : Quaterniond K) (hunit : q.squaredNorm = 1)
    (hband : |q.w| < 1 - cm.epsilon) :
    q.vec.norm cm = cm.sin (cm.acos |q.w|)
    ∧ cm.sin (cm.acos |q.w|) ≠ 0
    ∧ cm.cos (cm.acos |q.w|) = |q.w|
    ∧ q.vec.norm cm * q.vec.norm cm = q.x * q.x + q.y * q.y + q.z * q.z := by
  unfold Quaterniond.squaredNorm at hunit
  have hnn : (0 : K) ≤ q.x * q.x + q.y * q.y + q.z * q.z :=
    add_nonneg (add_nonneg (mul_self_nonneg _) (mul_self_nonneg _)) (mul_self_nonneg _)
  have hww : q.w * q.w ≤ 1 := by linarith
  have habs1 : |q.w| ≤ 1 := abs_le_one_iff_mul_self_le_one.mpr hww
  have hsq : Vector3d.squaredNorm q.vec = 1 - |q.w| * |q.w| := by
    rw [abs_mul_abs_self]
    simp only [Vector3d.squaredNorm, Quaterniond.vec]
    linarith
  refine ⟨?_, hT.sin_acos_ne_zero _ (abs_nonneg _) hband, hR.cos_acos _ (abs_nonneg _) habs1, ?_⟩
  · rw [hR.sin_acos _ (abs_nonneg _) habs1, ← hsq]
    rfl
  · have := hS.mul_self_sqrt _ hnn
    simpa only [Vector3d.norm, Vector3d.squaredNorm, Quaterniond.vec] using this

theorem Quaterniond.slerp_Identity_trig (cm : Cmath K) (hT : cm.TrigLaws) (hS : cm.SqrtLaws)
    (hR : cm.RotationLaws) (q : Quaterniond K) (hunit : q.squaredNorm = 1)
    (hband : |q.w| < 1 - cm.epsilon) (s : K) :
    Quaterniond.slerp cm (⟨1, 0, 0, 0⟩ : Quaterniond K) s q
      = ⟨cm.cos (s * cm.acos |q.w|),
          cm.sin (s * cm.acos |q.w|)
            * (q.x / (if q.w < 0 then -(q.vec.norm cm) else q.vec.norm cm)),
          cm.sin (s * cm.acos |q.w|)
            * (q.y / (if q.w < 0 then -(q.vec.norm cm) else q.vec.norm cm)),
          cm.sin (s * cm.acos |q.w|)
            * (q.z / (if q.w < 0 then -(q.vec.norm cm) else q.vec.norm cm))⟩ := by
  obtain ⟨hn, hne, hcos, _⟩ := Quaterniond.unit_facts cm hT hS hR q hunit hband
  have hd : Quaterniond.dot (⟨1, 0, 0, 0⟩ : Quaterniond K) q = q.w := by
    simp only [Quaterniond.dot]
    ring
  have hnot : ¬ (|q.w| ≥ 1 - cm.epsilon) := not_le.mpr hband
  have hsub : cm.sin ((1 - s) * cm.acos |q.w|)
      = cm.sin (cm.acos |q.w|) * cm.cos (s * cm.acos |q.w|)
        - |q.w| * cm.sin (s * cm.acos |q.w|) := by
    have e : (1 - s) * cm.acos |q.w| = cm.acos |q.w| - s * cm.acos |q.w| := by ring
    rw [e, hR.sin_sub, hcos]
  unfold Quaterniond.slerp
  simp only [hd, if_neg hnot, hsub, hn]
  generalize cm.sin (cm.acos |q.w|) = n at hne
  generalize cm.sin (s * cm.acos |q.w|) = S
  generalize cm.cos (s * cm.acos |q.w|) = C
  by_cases hw : q.w < 0
  · have ha : |q.w| = -q.w := abs_of_neg hw
    have hnn : -n ≠ 0 := neg_ne_zero.mpr hne
    simp only [if_pos hw, ha]
    ext
    · simp only
      field_simp
      ring
    · simp only
      field_simp
    · simp only
      field_simp
    · simp only
      field_simp
  · have ha : |q.w| = q.w := abs_of_nonneg (not_lt.mp hw)
    simp only [if_neg hw, ha]
    ext
    · simp only
      field_simp
      ring
    · simp only
      field_simp
    · simp only
      field_simp
    · simp only
      field_simp


theorem Laser_mapping.interpolatation_omega_eq (env : Mapping_env K) (lm : Laser_mapping K)
    (hT : env.cm.TrigLaws) (hS : env.cm.SqrtLaws) (hR : env.cm.RotationLaws)
    (hunit : lm.m_q_w_incre.squaredNorm = 1)
    (hband : |lm.m_q_w_incre.w| < 1 - env.cm.epsilon)
    (hax : (env.AngleAxis lm.m_q_w_incre).1
      = lm.m_q_w_incre.vec.divScalar
          (if lm.m_q_w_incre.w < 0 then -(lm.m_q_w_incre.vec.norm env.cm)
            else lm.m_q_w_incre.vec.norm env.cm)) :
    interpolatation_omega env lm
      = lm.m_q_w_incre.vec.divScalar
          (if lm.m_q_w_incre.w < 0 then -(lm.m_q_w_incre.vec.norm env.cm)
            else lm.m_q_w_incre.vec.norm env.cm) := by
  obtain ⟨hn, hne, _, hnn⟩ := Quaterniond.unit_facts env.cm hT hS hR lm.m_q_w_incre hunit hband
  rw [← hn] at hne
  have hone : ((lm.m_q_w_incre.vec.divScalar
      (if lm.m_q_w_incre.w < 0 then -(lm.m_q_w_incre.vec.norm env.cm)
        else lm.m_q_w_incre.vec.norm env.cm)).norm env.cm) = 1 := by
    have hsq : (lm.m_q_w_incre.vec.divScalar
        (if lm.m_q_w_incre.w < 0 then -(lm.m_q_w_incre.vec.norm env.cm)
          else lm.m_q_w_incre.vec.norm env.cm)).squaredNorm = 1 := by
      generalize lm.m_q_w_incre.vec.norm env.cm = n at hne hnn
      simp only [Vector3d.squaredNorm, Vector3d.divScalar, Quaterniond.vec]
      by_cases hw : lm.m_q_w_incre.w < 0
      · simp only [if_pos hw]
        have hnn1 : -n ≠ 0 := neg_ne_zero.mpr hne
        field_simp
        linarith
      · simp only [if_neg hw]
        field_simp
        linarith
    exact (congrArg env.cm.sqrt hsq).trans hR.sqrt_one
  unfold interpolatation_omega
  rw [hax, hone]
  simp only [Vector3d.divScalar, div_one]

theorem real_RotationLaws :
    Cmath.RotationLaws
      (⟨Real.sqrt, Real.sin, Real.cos, Real.arccos, fun _ => true, 0⟩ : Cmath ℝ) := by
  refine ⟨Real.sin_sub, Real.sin_two_mul, ?_, ?_, ?_, Real.sqrt_one⟩
  · intro a
    show Real.cos (2 * a) = 1 - 2 * (Real.sin a * Real.sin a)
    have h1 := Real.cos_two_mul a
    have h2 := Real.sin_sq_add_cos_sq a
    nlinarith
  · intro x h0 h1
    exact Real.cos_arccos (by linarith) h1
  · intro x _ _
    show Real.sin (Real.arccos x) = Real.sqrt (1 - x * x)
    rw [Real.sin_arccos, sq]


theorem Laser_mapping.rodrigues_point_eq (env : Mapping_env K) (lm : Laser_mapping K)
    (s : K) (p : Vector3d K) :
    rodrigues_point env.cm (compute_interpolatation_rodrigue env lm) p s
      = (lm.m_q_w_last.transformVector
          (((p.add (((interpolatation_omega env lm).cross p).scale
              (env.cm.sin ((env.AngleAxis lm.m_q_w_incre).2 * s)))).add
            (((interpolatation_omega env lm).cross
              ((interpolatation_omega env lm).cross p)).scale
              (1 - env.cm.cos ((env.AngleAxis lm.m_q_w_incre).2 * s)))).add
            (lm.m_t_w_incre.scale (s * 1)))).add lm.m_t_w_last := by
  rw [← Matrix3d.rodrigues_mulVec]
  rfl

theorem Laser_mapping.slerp_point_eq (env : Mapping_env K) (lm : Laser_mapping K)
    (s : K) (p : Vector3d K) :
    slerp_point env.cm (compute_interpolatation_rodrigue env lm) p s
      = (lm.m_q_w_last.transformVector
          (((Quaterniond.slerp env.cm (⟨1, 0, 0, 0⟩ : Quaterniond K) s
              lm.m_q_w_incre).transformVector p).add
            (lm.m_t_w_incre.scale (s * 1)))).add lm.m_t_w_last := by
  unfold slerp_point
  simp only [mul_one, compute_interpolatation_rodrigue]

/-- The two branches agree when slerp takes its sine weights: the unit incremental rotation
is not (numerically) parallel to the identity. -/
theorem Laser_mapping.rodrigues_eq_slerp_trig (env : Mapping_env K) (lm : Laser_mapping K)
    (hT : env.cm.TrigLaws) (hS : env.cm.SqrtLaws) (hR : env.cm.RotationLaws)
    (hunit : lm.m_q_w_incre.squaredNorm = 1)
    (hband : |lm.m_q_w_incre.w| < 1 - env.cm.epsilon)
    (hax : (env.AngleAxis lm.m_q_w_incre).1
      = lm.m_q_w_incre.vec.divScalar
          (if lm.m_q_w_incre.w < 0 then -(lm.m_q_w_incre.vec.norm env.cm)
            else lm.m_q_w_incre.vec.norm env.cm))
    (hangle : (env.AngleAxis lm.m_q_w_incre).2 = 2 * env.cm.acos |lm.m_q_w_incre.w|)
    (s : K) (p : Vector3d K) :
    rodrigues_point env.cm (compute_interpolatation_rodrigue env lm) p s
      = slerp_point env.cm (compute_interpolatation_rodrigue env lm) p s := by
  have hom := interpolatation_omega_eq env lm hT hS hR hunit hband hax
  have e : 2 * env.cm.acos |lm.m_q_w_incre.w| * s = 2 * (s * env.cm.acos |lm.m_q_w_incre.w|) := by
    ring
  have hq : Quaterniond.slerp env.cm (⟨1, 0, 0, 0⟩ : Quaterniond K) s lm.m_q_w_incre
      = ⟨env.cm.cos (s * env.cm.acos |lm.m_q_w_incre.w|),
          env.cm.sin (s * env.cm.acos |lm.m_q_w_incre.w|)
            * (lm.m_q_w_incre.vec.divScalar
                (if lm.m_q_w_incre.w < 0 then -(lm.m_q_w_incre.vec.norm env.cm)
                  else lm.m_q_w_incre.vec.norm env.cm)).x,
          env.cm.sin (s * env.cm.acos |lm.m_q_w_incre.w|)
            * (lm.m_q_w_incre.vec.divScalar
                (if lm.m_q_w_incre.w < 0 then -(lm.m_q_w_incre.vec.norm env.cm)
                  else lm.m_q_w_incre.vec.norm env.cm)).y,
          env.cm.sin (s * env.cm.acos |lm.m_q_w_incre.w|)
            * (lm.m_q_w_incre.vec.divScalar
                (if lm.m_q_w_incre.w < 0 then -(lm.m_q_w_incre.vec.norm env.cm)
                  else lm.m_q_w_incre.vec.norm env.cm)).z⟩ :=
    Quaterniond.slerp_Identity_trig env.cm hT hS hR _ hunit hband s
  have e2 : 1 - (1 - 2 * (env.cm.sin (s * env.cm.acos |lm.m_q_w_incre.w|)
      * env.cm.sin (s * env.cm.acos |lm.m_q_w_incre.w|)))
      = 2 * (env.cm.sin (s * env.cm.acos |lm.m_q_w_incre.w|)
        * env.cm.sin (s * env.cm.acos |lm.m_q_w_incre.w|)) := by
    ring
  rw [rodrigues_point_eq, slerp_point_eq, hq, Quaterniond.transformVector_axis_angle, hangle, e,
    hR.sin_two_mul, hR.cos_two_mul, hom, e2]

/-- A unit quaternion whose real part has modulus one has no imaginary part. -/
theorem Quaterniond.unit_parallel_facts (cm : Cmath K) (hS : cm.SqrtLaws) (q : Quaterniond K)
    (hunit : q.squaredNorm = 1) (hpar : ¬ |q.w| < 1) :
    |q.w| = 1 ∧ q.x = 0 ∧ q.y = 0 ∧ q.z = 0 ∧ q.vec.norm cm = 0 := by
  unfold Quaterniond.squaredNorm at hunit
  have hx := mul_self_nonneg q.x
  have hy := mul_self_nonneg q.y
  have hz := mul_self_nonneg q.z
  have hww : q.w * q.w ≤ 1 := by linarith
  have habs1 : |q.w| ≤ 1 := abs_le_one_iff_mul_self_le_one.mpr hww
  have habs : |q.w| = 1 := le_antisymm habs1 (not_lt.mp hpar)
  have hw1 : q.w * q.w = 1 := by rw [← abs_mul_abs_self, habs, mul_one]
  have hx0 : q.x = 0 := mul_self_eq_zero.mp (by linarith)
  have hy0 : q.y = 0 := mul_self_eq_zero.mp (by linarith)
  have hz0 : q.z = 0 := mul_self_eq_zero.mp (by linarith)
  refine ⟨habs, hx0, hy0, hz0, ?_⟩
  have hsq : Vector3d.squaredNorm q.vec = 0 := by
    simp only [Vector3d.squaredNorm, Quaterniond.vec, hx0, hy0, hz0, mul_zero, add_zero]
  have h0 := hS.mul_self_sqrt 0 le_rfl
  have hs0 : cm.sqrt 0 = 0 := mul_self_eq_zero.mp h0
  exact (congrArg cm.sqrt hsq).trans hs0

/-- With the parallel test of slerp at `|d| = 1` (no rounding), slerp from the identity to a
unit quaternion of real part `±1` is the identity for every fraction. -/
theorem Quaterniond.slerp_Identity_parallel (cm : Cmath K) (hS : cm.SqrtLaws)
    (heps : cm.epsilon = 0) (q : Quaterniond K) (hunit : q.squaredNorm = 1)
    (hpar : ¬ |q.w| < 1) (s : K) :
    Quaterniond.slerp cm (⟨1, 0, 0, 0⟩ : Quaterniond K) s q = ⟨1, 0, 0, 0⟩ := by
  obtain ⟨habs, hx0, hy0, hz0, _⟩ := Quaterniond.unit_parallel_facts cm hS q hunit hpar
  have hd : Quaterniond.dot (⟨1, 0, 0, 0⟩ : Quaterniond K) q = q.w := by
    simp only [Quaterniond.dot]
    ring
  have hge : |q.w| ≥ 1 - cm.epsilon := by
    rw [heps, sub_zero, habs]
  unfold Quaterniond.slerp
  simp only [hd, if_pos hge, hx0, hy0, hz0, mul_zero, add_zero, mul_one]
  by_cases hw : q.w < 0
  · have ha : q.w = -1 := by
      have := abs_of_neg hw
      linarith
    simp only [if_pos hw]
    rw [ha]
    ext <;> simp
  · have ha : q.w = 1 := by
      have := abs_of_nonneg (not_lt.mp hw)
      linarith
    simp only [if_neg hw]
    rw [ha]
    ext <;> simp

/-- The two branches agree at the identity rotation (real part `±1`): `AngleAxisd` returns the
angle `0`, the Rodrigues matrix is the identity, and so is the slerp quaternion. -/
theorem Laser_mapping.rodrigues_eq_slerp_parallel (env : Mapping_env K) (lm : Laser_mapping K)
    (hT : env.cm.TrigLaws) (hS : env.cm.SqrtLaws) (hR : env.cm.RotationLaws)
    (heps : env.cm.epsilon = 0)
    (hunit : lm.m_q_w_incre.squaredNorm = 1)
    (hpar : ¬ |lm.m_q_w_incre.w| < 1)
    (hangle : (env.AngleAxis lm.m_q_w_incre).2 = 0)
    (s : K) (p : Vector3d K) :
    rodrigues_point env.cm (compute_interpolatation_rodrigue env lm) p s
      = slerp_point env.cm (compute_interpolatation_rodrigue env lm) p s := by
  have hcos : env.cm.cos 0 = 1 := by
    have h := hR.cos_two_mul 0
    rw [mul_zero, hT.sin_zero, mul_zero, mul_zero, sub_zero] at h
    exact h
  have hq := Quaterniond.slerp_Identity_parallel env.cm hS heps lm.m_q_w_incre hunit hpar s
  have hid : (⟨1, 0, 0, 0⟩ : Quaterniond K).transformVector p = p :=
    Quaterniond.transformVector_Identity p
  rw [rodrigues_point_eq, slerp_point_eq, hq, hid, hangle, zero_mul, hT.sin_zero, hcos, sub_self]
  congr 3
  ext <;> simp [Vector3d.add, Vector3d.scale]

/-- C39: in exact arithmetic (the `cmath` routines obey the laws of sine, cosine, arc cosine
and square root, and slerp's test for parallel quaternions `|d| >= 1 - epsilon` is the exact
test `|d| >= 1`), with `AngleAxisd` as Eigen converts a quaternion (axis `vec / (±|vec|)` and
angle `2 acos |w|`, or axis `(1, 0, 0)` and angle `0` when `vec` vanishes), for every unit
incremental rotation `m_q_w_incre`, every fraction `s` and every point `p`: after
`compute_interpolatation_rodrigue` the hat matrix satisfies `hat * v = omega x v` and
`omega_hat_sq2 = hat * hat`, the Rodrigues branch of `pointAssociateToMap` gives the same world
point as its slerp branch, the slerp branch is the deskew `pt_transfromed` of the residual
functors (last pose `m_q_w_last`, `m_t_w_last`, parameters `m_q_w_incre`, `m_t_w_incre`), and
`pointAssociateToMap` returns the Rodrigues point with the intensity of its input whenever it
deskews (`MOTION_DEBLUR != 0`, `if_undistore != 0`, `s != 1`). -/
theorem C39_rodrigues_matches_slerp (env : Mapping_env K) (lm : Laser_mapping K)
    (hT : env.cm.TrigLaws) (hS : env.cm.SqrtLaws) (hR : env.cm.RotationLaws)
    (heps : env.cm.epsilon = 0)
    (haa : env.AngleAxis lm.m_q_w_incre
      = if lm.m_q_w_incre.vec.norm env.cm ≠ 0 then
          (lm.m_q_w_incre.vec.divScalar
              (if lm.m_q_w_incre.w < 0 then -(lm.m_q_w_incre.vec.norm env.cm)
                else lm.m_q_w_incre.vec.norm env.cm),
            2 * env.cm.acos |lm.m_q_w_incre.w|)
        else (⟨1, 0, 0⟩, 0))
    (hunit : lm.m_q_w_incre.squaredNorm = 1) :
    (∀ v : Vector3d K,
      (compute_interpolatation_rodrigue env lm).m_interpolatation_omega_hat.mulVec v
        = (interpolatation_omega env lm).cross v)
    ∧ (compute_interpolatation_rodrigue env lm).m_interpolatation_omega_hat_sq2
        = (compute_interpolatation_rodrigue env lm).m_interpolatation_omega_hat.mul
            (compute_interpolatation_rodrigue env lm).m_interpolatation_omega_hat
    ∧ (∀ (s : K) (p : Vector3d K),
        rodrigues_point env.cm (compute_interpolatation_rodrigue env lm) p s
          = slerp_point env.cm (compute_interpolatation_rodrigue env lm) p s)
    ∧ (∀ (s : K) (p : Vector3d K),
        slerp_point env.cm (compute_interpolatation_rodrigue env lm) p s
          = pt_transfromed env.cm
              ⟨lm.m_q_w_last.w, lm.m_q_w_last.x, lm.m_q_w_last.y, lm.m_q_w_last.z⟩
              lm.m_t_w_last s p
              ⟨lm.m_q_w_incre.x, lm.m_q_w_incre.y, lm.m_q_w_incre.z, lm.m_q_w_incre.w⟩
              lm.m_t_w_incre)
    ∧ (∀ (pi : PointType K) (s : K) (if_undistore : Int),
        lm.MOTION_DEBLUR ≠ 0 → if_undistore ≠ 0 → s ≠ 1 →
        pointAssociateToMap env.cm (compute_interpolatation_rodrigue env lm) pi s if_undistore
          = ⟨(rodrigues_point env.cm (compute_interpolatation_rodrigue env lm)
                ⟨pi.x, pi.y, pi.z⟩ s).x,
              (rodrigues_point env.cm (compute_interpolatation_rodrigue env lm)
                ⟨pi.x, pi.y, pi.z⟩ s).y,
              (rodrigues_point env.cm (compute_interpolatation_rodrigue env lm)
                ⟨pi.x, pi.y, pi.z⟩ s).z, pi.intensity⟩) := by
  refine ⟨?_, rfl, ?_, ?_, ?_⟩
  · intro v
    exact Matrix3d.hat_mulVec (interpolatation_omega env lm) v
  · intro s p
    by_cases hpar : |lm.m_q_w_incre.w| < 1
    · have hband : |lm.m_q_w_incre.w| < 1 - env.cm.epsilon := by
        rw [heps, sub_zero]
        exact hpar
      obtain ⟨hn, hne, _, _⟩ :=
        Quaterniond.unit_facts env.cm hT hS hR lm.m_q_w_incre hunit hband
      rw [← hn] at hne
      rw [if_pos hne] at haa
      exact rodrigues_eq_slerp_trig env lm hT hS hR hunit hband
        (congrArg Prod.fst haa) (congrArg Prod.snd haa) s p
    · obtain ⟨_, _, _, _, hn0⟩ :=
        Quaterniond.unit_parallel_facts env.cm hS lm.m_q_w_incre hunit hpar
      rw [if_neg (not_not.mpr hn0)] at haa
      exact rodrigues_eq_slerp_parallel env lm hT hS hR heps hunit hpar
        (congrArg Prod.snd haa) s p
  · intro s p
    unfold slerp_point pt_transfromed
    simp only [mul_one, Quaterniond.Identity, compute_interpolatation_rodrigue]
  · intro pi s u h1 h2 h3
    have hno : ¬ ((compute_interpolatation_rodrigue env lm).MOTION_DEBLUR = 0 ∨ u = 0 ∨ s = 1) := by
      rintro (h | h | h)
      · exact h1 h
      · exact h2 h
      · exact h3 h
    unfold pointAssociateToMap
    simp only [if_neg hno]
    rfl

theorem C39_rodrigues_matches_slerp_witness :
    (rest_state (⟨3 / 5, 4 / 5, 0, 0⟩ : Quaterniond ℝ) ⟨1, 2, 3⟩).m_q_w_incre.squaredNorm = 1
    ∧ (rest_state (⟨-1, 0, 0, 0⟩ : Quaterniond ℝ) ⟨1, 2, 3⟩).m_q_w_incre.squaredNorm = 1
    ∧ (∀ (s : ℝ) (p : Vector3d ℝ),
        rodrigues_point (⟨Real.sqrt, Real.sin, Real.cos, Real.arccos, fun _ => true, 0⟩ : Cmath ℝ)
            (compute_interpolatation_rodrigue
              (axis_angle_env ⟨Real.sqrt, Real.sin, Real.cos, Real.arccos, fun _ => true, 0⟩)
              (rest_state ⟨3 / 5, 4 / 5, 0, 0⟩ ⟨1, 2, 3⟩)) p s
          = slerp_point (⟨Real.sqrt, Real.sin, Real.cos, Real.arccos, fun _ => true, 0⟩ : Cmath ℝ)
            (compute_interpolatation_rodrigue
              (axis_angle_env ⟨Real.sqrt, Real.sin, Real.cos, Real.arccos, fun _ => true, 0⟩)
              (rest_state ⟨3 / 5, 4 / 5, 0, 0⟩ ⟨1, 2, 3⟩)) p s)
    ∧ (∀ (s : ℝ) (p : Vector3d ℝ),
        rodrigues_point (⟨Real.sqrt, Real.sin, Real.cos, Real.arccos, fun _ => true, 0⟩ : Cmath ℝ)
            (compute_interpolatation_rodrigue
              (axis_angle_env ⟨Real.sqrt, Real.sin, Real.cos, Real.arccos, fun _ => true, 0⟩)
              (rest_state ⟨-1, 0, 0, 0⟩ ⟨1, 2, 3⟩)) p s
          = slerp_point (⟨Real.sqrt, Real.sin, Real.cos, Real.arccos, fun _ => true, 0⟩ : Cmath ℝ)
            (compute_interpolatation_rodrigue
              (axis_angle_env ⟨Real.sqrt, Real.sin, Real.cos, Real.arccos, fun _ => true, 0⟩)
              (rest_state ⟨-1, 0, 0, 0⟩ ⟨1, 2, 3⟩)) p s) := by
  have hunit : (rest_state (⟨3 / 5, 4 / 5, 0, 0⟩ : Quaterniond ℝ) ⟨1, 2, 3⟩).m_q_w_incre.squaredNorm
      = 1 := by
    norm_num [rest_state, Quaterniond.squaredNorm]
  have hunit1 : (rest_state (⟨-1, 0, 0, 0⟩ : Quaterniond ℝ) ⟨1, 2, 3⟩).m_q_w_incre.squaredNorm
      = 1 := by
    norm_num [rest_state, Quaterniond.squaredNorm]
  exact ⟨hunit, hunit1,
    (C39_rodrigues_matches_slerp
      (axis_angle_env ⟨Real.sqrt, Real.sin, Real.cos, Real.arccos, fun _ => true, 0⟩)
      (rest_state ⟨3 / 5, 4 / 5, 0, 0⟩ ⟨1, 2, 3⟩) real_TrigLaws real_SqrtLaws real_RotationLaws
      rfl rfl hunit).2.2.1,
    (C39_rodrigues_matches_slerp
      (axis_angle_env ⟨Real.sqrt, Real.sin, Real.cos, Real.arccos, fun _ => true, 0⟩)
      (rest_state ⟨-1, 0, 0, 0⟩ ⟨1, 2, 3⟩) real_TrigLaws real_SqrtLaws real_RotationLaws
      rfl rfl hunit1).2.2.1⟩
end DeskewTheorems

end LoamLivox
